import Mathlib

/-!
# RefPerSys persistent store: loader and dumper of `store_rps.cc`

A shallow embedding of the JSON store of RefPerSys (`src/store_rps.cc`):
the loader (`Rps_Loader`), the decoders `Rps_Value(Json, Rps_Loader*)` and
`Rps_ObjectRef(Json, Rps_Loader*)`, and the value encoders of the dumper
(`Rps_Dumper`).

Conventions of the embedding.

* A C++ call has three possible ends: normal return, a C++ exception
  (`throw std::runtime_error`, or an exception of the JSON library), or
  `RPS_FATAL`/`RPS_FATALOUT`/a failed `RPS_ASSERT`, which stop the process
  (`rps_fatal_stop_at`).  `Outcome` keeps the three apart and keeps the state
  reached at that point.
* `RPS_WARN`, `RPS_WARNOUT`, `RPS_INFORM` and `RPS_INFORMOUT` only print; they
  are left out.  Mutexes are left out (the passes are single threaded).
* jsoncpp (`Json::Value`) is an external library; `Json` models the part of it
  that the store uses.  The text reader `rps_string_to_json` and the operating
  system (files, `dlsym`, `dlopen`) are fields of `Rps_Env`.
* Counters that are `int`/`unsigned` in C++ are unbounded numbers here.
* A `std::string` is a Lean string, one character for one `char`; a file is
  the list of its lines.
* A zone is named by the identifier of its object, so an object reference is
  an identifier or null; the classes `Rps_Id`, `Rps_Value`, `Rps_ObjectZone`
  and the payloads, which `store_rps.cc` uses and no source file at hand
  declares, are modelled from the spec and marked so.
-/

set_option maxRecDepth 100000

namespace RefPerSys

/-! ## Strings and characters -/

/-- Character at index `i` of a `std::string`, with the terminating zero at
index `size` (and, in the model, at every later index). -/
def cstrAt (cs : List Char) (i : Nat) : Char :=
  cs.getD i (Char.ofNat 0)

/-- The C function `isspace` in the "C" locale. -/
def isspace (c : Char) : Bool :=
  c.toNat == 32 || (9 ≤ c.toNat && c.toNat ≤ 13)

/-- The C function `isalpha` in the "C" locale. -/
def isalpha (c : Char) : Bool :=
  (65 ≤ c.toNat && c.toNat ≤ 90) || (97 ≤ c.toNat && c.toNat ≤ 122)

/-- Lexicographic "less than" on character lists (by code point). -/
def charsLt : List Char → List Char → Bool
  | [], [] => false
  | [], _ :: _ => true
  | _ :: _, [] => false
  | a :: as, b :: bs =>
    if a.toNat < b.toNat then true
    else if b.toNat < a.toNat then false
    else charsLt as bs

/-! ## Doubles -/

/-- A finite `double` as it is written in JSON text: the decimal number
`mant / 10 ^ scale`.  NaN and the infinities have no JSON text. -/
structure Rps_Double where
  mant : Int
  scale : Nat
deriving DecidableEq, Repr

/-- The double `0.0`. -/
def Rps_Double.zero : Rps_Double := ⟨0, 0⟩

/-- Conversion of an integer to `double`. -/
def Rps_Double.ofInt (i : Int) : Rps_Double := ⟨i, 0⟩

/-- Whether the double has no fractional part. -/
def Rps_Double.isIntegral (d : Rps_Double) : Bool :=
  d.mant % (10 ^ d.scale : Nat) == 0

/-- Truncation of a double to an integer (for integral doubles: its value). -/
def Rps_Double.trunc (d : Rps_Double) : Int :=
  Int.tdiv d.mant (10 ^ d.scale : Nat)

/-! ## The JSON library (jsoncpp) -/

/-- Model of `Json::Value`.  `int` stands for both `intValue` and
`uintValue`. -/
inductive Json where
  | null
  | int (i : Int)
  | real (d : Rps_Double)
  | str (s : String)
  | bool (b : Bool)
  | arr (elems : List Json)
  | obj (members : List (String × Json))

/-- Model of `Json::ValueType`. -/
inductive JsonType where
  | nullValue
  | intValue
  | realValue
  | stringValue
  | booleanValue
  | arrayValue
  | objectValue
deriving DecidableEq, Repr

namespace Json

/-- Model of `Json::Value::type`. -/
def type : Json → JsonType
  | .null => .nullValue
  | .int _ => .intValue
  | .real _ => .realValue
  | .str _ => .stringValue
  | .bool _ => .booleanValue
  | .arr _ => .arrayValue
  | .obj _ => .objectValue

/-- Model of `Json::Value::isNull`. -/
def isNull : Json → Bool
  | .null => true
  | _ => false

/-- Model of `Json::Value::isString`. -/
def isString : Json → Bool
  | .str _ => true
  | _ => false

/-- Model of `Json::Value::isArray`. -/
def isArray : Json → Bool
  | .arr _ => true
  | _ => false

/-- Model of `Json::Value::isObject`. -/
def isObject : Json → Bool
  | .obj _ => true
  | _ => false

/-- Least value of `Json::Int64`. -/
def minInt64 : Int := -(2 ^ 63)

/-- Greatest value of `Json::Int64`. -/
def maxInt64 : Int := 2 ^ 63 - 1

/-- Model of `Json::Value::isInt64`: an integer in the 64 bit range, or a
real that is integral and in that range. -/
def isInt64 : Json → Bool
  | .int i => decide (minInt64 ≤ i) && decide (i ≤ maxInt64)
  | .real d => d.isIntegral && decide (minInt64 ≤ d.trunc) && decide (d.trunc ≤ maxInt64)
  | _ => false

/-- Model of `Json::Value::asInt64` where `isInt64` holds. -/
def asInt64 : Json → Int
  | .int i => i
  | .real d => d.trunc
  | _ => 0

/-- Model of `Json::Value::isDouble`: every number. -/
def isDouble : Json → Bool
  | .int _ => true
  | .real _ => true
  | _ => false

/-- Model of `Json::Value::asDouble`; `none` where jsoncpp raises
`Json::LogicError` (strings, arrays, objects). -/
def asDouble : Json → Option Rps_Double
  | .null => some Rps_Double.zero
  | .int i => some (Rps_Double.ofInt i)
  | .real d => some d
  | .bool b => some (Rps_Double.ofInt (if b then 1 else 0))
  | _ => none

/-- Model of `Json::Value::asInt` (32 bit `int`); `none` where jsoncpp raises
`Json::LogicError` (strings, arrays, objects, numbers out of range). -/
def asInt : Json → Option Int
  | .null => some 0
  | .int i => if -(2 ^ 31) ≤ i ∧ i ≤ 2 ^ 31 - 1 then some i else none
  | .real d => if -(2 ^ 31) ≤ d.trunc ∧ d.trunc ≤ 2 ^ 31 - 1 then some d.trunc else none
  | .bool b => some (if b then 1 else 0)
  | _ => none

/-- Model of `Json::Value::asBool`. -/
def asBool : Json → Bool
  | .bool b => b
  | .int i => i != 0
  | .real d => d.mant != 0
  | _ => false

/-- Model of `Json::Value::asString`; `none` where jsoncpp raises
`Json::LogicError` (arrays and objects).  A real number is rendered from its
decimal model. -/
def asString : Json → Option String
  | .null => some ""
  | .str s => some s
  | .bool b => some (if b then "true" else "false")
  | .int i => some (toString i)
  | .real d => some (toString d.mant ++ "e-" ++ toString d.scale)
  | _ => none

/-- Model of `Json::Value::size`: number of elements of an array, of members
of an object, zero otherwise. -/
def size : Json → Nat
  | .arr es => es.length
  | .obj ms => ms.length
  | _ => 0

/-- Model of `Json::Value::isMember`. -/
def isMember (j : Json) (key : String) : Bool :=
  match j with
  | .obj ms => (ms.lookup key).isSome
  | _ => false

/-- Model of `Json::Value::operator[]` with a string key, read only: the
member, or null when there is none. -/
def get (j : Json) (key : String) : Json :=
  match j with
  | .obj ms => (ms.lookup key).getD .null
  | _ => .null

/-- Elements of an array (`jv[0]`, ..., `jv[size-1]`); empty for a value that
is not an array. -/
def elems : Json → List Json
  | .arr es => es
  | _ => []

/-- Model of the assignment `jv[key] = val` on an object value: replaces the
member or adds it. -/
def set (j : Json) (key : String) (val : Json) : Json :=
  match j with
  | .obj ms =>
    if (ms.lookup key).isSome then
      .obj (ms.map (fun kv => if kv.1 == key then (kv.1, val) else kv))
    else .obj (ms ++ [(key, val)])
  | _ => .obj [(key, val)]

/-- Model of the assignment `jv[ix] = val` on an array value: replaces the
element, or grows the array with null values up to that index. -/
def setAt (j : Json) (ix : Nat) (val : Json) : Json :=
  match j with
  | .arr es =>
    if ix < es.length then .arr (es.set ix val)
    else .arr (es ++ List.replicate (ix - es.length) .null ++ [val])
  | _ => .arr (List.replicate ix .null ++ [val])

/-- Model of `Json::Value::append` on an array value. -/
def append (j : Json) (val : Json) : Json :=
  match j with
  | .arr es => .arr (es ++ [val])
  | _ => .arr [val]

/-- Model of `Json::Value::resize` on an array value: truncates, or pads with
null values. -/
def resize (j : Json) (n : Nat) : Json :=
  match j with
  | .arr es => .arr (es.take n ++ List.replicate (n - es.length) .null)
  | _ => .arr (List.replicate n .null)

end Json

/-! ## Identifiers -/

/-- Modelled from the spec: the class `Rps_Id` is declared in no source file at
hand.  The spec makes an identifier "printable as a fixed-length base-62
string" whose "validity is structural (charset + length)".  The model keeps an
identifier as its printed form; the default identifier (`Rps_Id()`, which
tests false) has the empty printed form. -/
structure Rps_Id where
  str : String
deriving DecidableEq, Repr

namespace Rps_Id

/-- Modelled from the spec: `Rps_Id::nbchars`, the fixed length of a printed
identifier: an underscore and 18 base-62 digits (the width `scan_code_addr`
reads for an identifier is 19). -/
def nbchars : Nat := 19

/-- Modelled from the spec: `Rps_Id::b62digits`, membership of a character in
"0123456789ABCDEFGHIJKLMNOPQRSTUVWXYZabcdefghijklmnopqrstuvwxyz". -/
def isB62digit (c : Char) : Bool :=
  (48 ≤ c.toNat && c.toNat ≤ 57) || (65 ≤ c.toNat && c.toNat ≤ 90)
    || (97 ≤ c.toNat && c.toNat ≤ 122)

/-- Structural validity of a printed identifier: `nbchars` characters, an
underscore first, base-62 digits after it (the test that
`Rps_Value(Json, Rps_Loader*)` spells out for a string). -/
def validChars (cs : List Char) : Bool :=
  cs.length == nbchars && cstrAt cs 0 == '_' && (cs.drop 1).all isB62digit

/-- The default identifier `Rps_Id()`. -/
def null : Rps_Id := ⟨""⟩

/-- Modelled from the spec: `Rps_Id::valid`. -/
def valid (id : Rps_Id) : Bool := validChars id.str.data

/-- Modelled from the spec: `Rps_Id::operator bool`, false for the default
identifier only. -/
def toBool (id : Rps_Id) : Bool := id.str != ""

/-- Modelled from the spec: `Rps_Id::to_string`. -/
def to_string (id : Rps_Id) : String := id.str

/-- Modelled from the spec: the constructor `Rps_Id(const std::string&)`: the
identifier printed as the string when the string is structurally valid, the
default identifier otherwise. -/
def ofString (s : String) : Rps_Id :=
  if validChars s.data then ⟨s⟩ else null

/-- Modelled from the spec: the constructor
`Rps_Id(const char*, const char** pend, bool* pok)` applied to the text `cs`:
reads `nbchars` characters; gives the identifier, the offset of `*pend` from
the start of the text, and `*pok`.  On failure the identifier is the default
one, `*pend` is the start of the text and `*pok` is false. -/
def ofCString (cs : List Char) : Rps_Id × Nat × Bool :=
  if validChars (cs.take nbchars) then (⟨String.mk (cs.take nbchars)⟩, nbchars, true)
  else (null, 0, false)

/-- Modelled from the spec: the order of identifiers (`operator <`), the
order of their printed forms. -/
def lt (a b : Rps_Id) : Bool := charsLt a.str.data b.str.data

/-- Insertion into a `std::set<Rps_Id>`, kept as a sorted list without
repetition. -/
def setInsert (x : Rps_Id) : List Rps_Id → List Rps_Id
  | [] => [x]
  | y :: ys =>
    if x = y then y :: ys
    else if lt x y then x :: y :: ys
    else y :: setInsert x ys

/-- Insertion or replacement in a `std::map` keyed by identifiers, kept as a
list sorted by key (`operator[]=` / `insert_or_assign`). -/
def mapPut {β : Type} (k : Rps_Id) (v : β) : List (Rps_Id × β) → List (Rps_Id × β)
  | [] => [(k, v)]
  | (k1, v1) :: rest =>
    if k = k1 then (k, v) :: rest
    else if lt k k1 then (k, v) :: (k1, v1) :: rest
    else (k1, v1) :: mapPut k v rest

/-- The member function `std::map::insert`: adds the pair when the key is
absent, leaves the map alone otherwise. -/
def mapInsert {β : Type} (k : Rps_Id) (v : β) : List (Rps_Id × β) → List (Rps_Id × β)
  | [] => [(k, v)]
  | (k1, v1) :: rest =>
    if k = k1 then (k1, v1) :: rest
    else if lt k k1 then (k, v) :: (k1, v1) :: rest
    else (k1, v1) :: mapInsert k v rest

end Rps_Id

/-- An object reference `Rps_ObjectRef`: a pointer to an object zone, or
`nullptr`.  Objects are named by their identifier (`Rps_ObjectZone::find`), so
a non-null reference is kept as the identifier of its object. -/
abbrev Rps_ObjectRef := Option Rps_Id

/-! ## Values and objects -/

/-- Modelled from the spec: the tagged union `Rps_Value` with its zones
(section 3 of the spec): the null value, the empty-slot sentinel, an immediate
integer, a string, a double, an object, a set of objects (sorted by
identifier), a tuple of objects, a closure (connective, environment,
metadata unless meta-transient, transient flag) and an instance (class,
sons, metadata unless meta-transient, transient flag).  The sons of an
instance are the values of the attributes of the class's attribute set, in
the order of the set, and after them the "ordered tail of positional
components" (the layout that `Rps_InstanceZone::dump_json` reads). -/
inductive Rps_Value where
  | null
  | empty
  | int (i : Int)
  | string (s : String)
  | double (d : Rps_Double)
  | object (ob : Rps_Id)
  | set (elements : List Rps_Id)
  | tuple (comps : List Rps_ObjectRef)
  | closure (conn : Rps_ObjectRef) (env : List Rps_Value)
      (metadata : Option (Rps_ObjectRef × Int)) (transient : Bool)
  | inst (conn : Rps_ObjectRef) (sons : List Rps_Value)
      (metadata : Option (Rps_ObjectRef × Int)) (transient : Bool)

namespace Rps_Value

/-- The test `!val`: the null value. -/
def isNullPtr : Rps_Value → Bool
  | .null => true
  | _ => false

/-- Modelled from the spec: `Rps_Value::is_empty`. -/
def is_empty : Rps_Value → Bool
  | .empty => true
  | _ => false

/-- Modelled from the spec: `Rps_Value::is_int`. -/
def is_int : Rps_Value → Bool
  | .int _ => true
  | _ => false

/-- Modelled from the spec: `Rps_Value::is_ptr`, a pointer to a zone. -/
def is_ptr : Rps_Value → Bool
  | .null => false
  | .empty => false
  | .int _ => false
  | _ => true

/-- Modelled from the spec: `Rps_Value::is_string`. -/
def is_string : Rps_Value → Bool
  | .string _ => true
  | _ => false

/-- Modelled from the spec: `Rps_Value::is_set`. -/
def is_set : Rps_Value → Bool
  | .set _ => true
  | _ => false

/-- Modelled from the spec: `Rps_Value::is_tuple`. -/
def is_tuple : Rps_Value → Bool
  | .tuple _ => true
  | _ => false

/-- Modelled from the spec: `Rps_Value::is_object`. -/
def is_object : Rps_Value → Bool
  | .object _ => true
  | _ => false

/-- Modelled from the spec: `Rps_Value::is_closure`. -/
def is_closure : Rps_Value → Bool
  | .closure _ _ _ _ => true
  | _ => false

/-- Modelled from the spec: `Rps_Value::is_instance`. -/
def is_instance : Rps_Value → Bool
  | .inst _ _ _ _ => true
  | _ => false

/-- Modelled from the spec: `Rps_Value::to_object`. -/
def to_object : Rps_Value → Rps_ObjectRef
  | .object ob => some ob
  | _ => none

end Rps_Value

/-- Modelled from the spec: `Rps_ObjectValue(obr)`, the value of an object
reference (the null value for a null reference). -/
def Rps_ObjectValue : Rps_ObjectRef → Rps_Value
  | some ob => .object ob
  | none => .null

/-- Modelled from the spec: `Rps_SetValue(std::set<Rps_ObjectRef>)`; the
argument is the sorted list of the set. -/
def Rps_SetValue (setobr : List Rps_Id) : Rps_Value := .set setobr

/-- Modelled from the spec: `Rps_TupleValue(std::vector<Rps_ObjectRef>)`. -/
def Rps_TupleValue (vecobr : List Rps_ObjectRef) : Rps_Value := .tuple vecobr

/-- Modelled from the spec: the class-information payload
`Rps_PayloadClassInfo`: superclass, naming symbol, own methods (selector and
closure) and the declared attribute set (`attributes_set`, absent until it is
put). -/
structure Rps_PayloadClassInfo where
  pclass_super : Rps_ObjectRef
  pclass_symbname : Rps_ObjectRef
  pclass_methdict : List (Rps_Id × Rps_Value)
  pclass_attrset : Option (List Rps_Id)

/-- Modelled from the spec: the payloads of an object, "a closed tagged union
with one variant per payload kind": class information, symbol (name, weak
flag, value), space, vector of objects, set of objects. -/
inductive Rps_Payload where
  | classinfo (info : Rps_PayloadClassInfo)
  | symbol (name : String) (weak : Bool) (value : Rps_Value)
  | space
  | vectob (obs : List Rps_ObjectRef)
  | setob (obs : List Rps_Id)

/-- Modelled from the spec: the object zone `Rps_ObjectZone` (section 3 of the
spec): identifier, class, optional space, modification time, attribute map,
component sequence, optional payload, and the native functions found by name
(magic attribute getter, applying function). -/
structure Rps_ObjectZone where
  oid : Rps_Id
  ob_class : Rps_ObjectRef
  ob_space : Rps_ObjectRef
  ob_mtime : Rps_Double
  ob_attrs : List (Rps_Id × Rps_Value)
  ob_comps : List Rps_Value
  ob_payload : Option Rps_Payload
  ob_magicgetterfun : Option String
  ob_applyingfun : Option String

/-- Modelled from the spec: the skeleton that `Rps_ObjectZone::make_loaded`
allocates in the first pass: "a bare Object skeleton keyed by its identifier
(content not yet populated)". -/
def Rps_ObjectZone.skeleton (oid : Rps_Id) : Rps_ObjectZone :=
  { oid := oid, ob_class := none, ob_space := none, ob_mtime := Rps_Double.zero,
    ob_attrs := [], ob_comps := [], ob_payload := none,
    ob_magicgetterfun := none, ob_applyingfun := none }

/-- The global table of object zones, by identifier (what
`Rps_ObjectZone::find` searches). -/
abbrev Rps_Heap := List Rps_ObjectZone

namespace Rps_Heap

/-- Modelled from the spec: `Rps_ObjectZone::find`. -/
def find (h : Rps_Heap) (oid : Rps_Id) : Option Rps_ObjectZone :=
  List.find? (fun ob => ob.oid == oid) h

/-- Update of the zone of identifier `oid` in place. -/
def modify (h : Rps_Heap) (oid : Rps_Id) (f : Rps_ObjectZone → Rps_ObjectZone) : Rps_Heap :=
  h.map (fun ob => if ob.oid == oid then f ob else ob)

/-- Registration of a new zone: a zone whose identifier is already in the
table is not registered again. -/
def register (h : Rps_Heap) (ob : Rps_ObjectZone) : Rps_Heap :=
  if (find h ob.oid).isSome then h else h ++ [ob]

end Rps_Heap

/-! ## Ends of a call -/

/-- How a call ends, with the state reached: normal return with a result, a
C++ exception in flight (`what` is its message), or the process stopped by
`RPS_FATAL`, `RPS_FATALOUT` or a failed `RPS_ASSERT`. -/
inductive Outcome (σ α : Type) where
  | ok (a : α) (s : σ)
  | throw (what : String) (s : σ)
  | fatal (what : String) (s : σ)

namespace Outcome

/-- The call returned normally. -/
def isOk {σ α : Type} : Outcome σ α → Bool
  | .ok _ _ => true
  | _ => false

/-- The call stopped the process (`rps_fatal_stop_at`). -/
def isFatal {σ α : Type} : Outcome σ α → Bool
  | .fatal _ _ => true
  | _ => false

/-- The call left by an exception. -/
def isThrow {σ α : Type} : Outcome σ α → Bool
  | .throw _ _ => true
  | _ => false

/-- The state at the end of the call. -/
def state {σ α : Type} : Outcome σ α → σ
  | .ok _ s => s
  | .throw _ s => s
  | .fatal _ s => s

/-- The result of a call that returned normally. -/
def result? {σ α : Type} : Outcome σ α → Option α
  | .ok a _ => some a
  | _ => none

end Outcome

/-- A computation over the state `σ` that returns, throws or stops the
process. -/
def Rps_M (σ α : Type) : Type := σ → Outcome σ α

namespace Rps_M

/-- Normal return. -/
def ret {σ α : Type} (a : α) : Rps_M σ α := fun s => .ok a s

/-- Sequencing: an exception or a fatal stop ends the sequence. -/
def seq {σ α β : Type} (m : Rps_M σ α) (f : α → Rps_M σ β) : Rps_M σ β :=
  fun s =>
    match m s with
    | .ok a s1 => f a s1
    | .throw w s1 => .throw w s1
    | .fatal w s1 => .fatal w s1

instance (σ : Type) : Monad (Rps_M σ) where
  pure := ret
  bind := seq

/-- The statement `throw std::runtime_error(what)`, or an exception raised by
a library. -/
def raise {σ α : Type} (what : String) : Rps_M σ α := fun s => .throw what s

/-- The macros `RPS_FATAL` and `RPS_FATALOUT`. -/
def RPS_FATAL {σ α : Type} (what : String) : Rps_M σ α := fun s => .fatal what s

/-- The macro `RPS_ASSERT` (assertions enabled). -/
def RPS_ASSERT {σ : Type} (cond : Bool) (what : String) : Rps_M σ Unit :=
  fun s => if cond then .ok () s else .fatal what s

/-- The statement `if (cond) throw std::runtime_error(what);`. -/
def raiseIf {σ : Type} (cond : Bool) (what : String) : Rps_M σ Unit :=
  fun s => if cond then .throw what s else .ok () s

/-- The statement `if (cond) RPS_FATAL(what);`. -/
def fatalIf {σ : Type} (cond : Bool) (what : String) : Rps_M σ Unit :=
  fun s => if cond then .fatal what s else .ok () s

/-- The statement `if (cond) block;`. -/
def whenB {σ : Type} (cond : Bool) (block : Rps_M σ Unit) : Rps_M σ Unit :=
  fun s => if cond then block s else .ok () s

/-- A block `try body catch (const std::exception& exc) handler`. -/
def tryCatch {σ α : Type} (body : Rps_M σ α) (handler : String → Rps_M σ α) : Rps_M σ α :=
  fun s =>
    match body s with
    | .throw w s1 => handler w s1
    | r => r

/-- Reading the state. -/
def get {σ : Type} : Rps_M σ σ := fun s => .ok s s

/-- Changing the state. -/
def modify {σ : Type} (f : σ → σ) : Rps_M σ Unit := fun s => .ok () (f s)

/-- A library call that raises `Json::LogicError` where the model has
`none`. -/
def ofOption {σ α : Type} (what : String) : Option α → Rps_M σ α
  | some a => ret a
  | none => raise what

end Rps_M

/-! ## Loader and dumper state -/

/-- The entry `todo_st` of the todo queue.  The deferred function is kept as
a code, which `Rps_Env.todo_run` interprets. -/
structure todo_st where
  todo_addtime : Nat
  todo_fun : Nat

/-- The data members of `class Rps_Loader`.  A payload loading function is
kept as the name of its symbol. -/
structure Rps_Loader where
  ld_topdir : String
  ld_spaceset : List Rps_Id
  ld_globrootsidset : List Rps_Id
  ld_pluginsmap : List (Rps_Id × String)
  ld_mapobjects : List (Rps_Id × Rps_ObjectRef)
  ld_todoque : List todo_st
  ld_todocount : Nat
  ld_payloadercache : List (String × String)

/-- The constructor `Rps_Loader(topdir)`. -/
def Rps_Loader.new (topdir : String) : Rps_Loader :=
  { ld_topdir := topdir, ld_spaceset := [], ld_globrootsidset := [], ld_pluginsmap := [],
    ld_mapobjects := [], ld_todoque := [], ld_todocount := 0, ld_payloadercache := [] }

/-- The hard maximum `ld_maxtodo = 1<<20`. -/
def Rps_Loader.ld_maxtodo : Nat := 2 ^ 20

/-- The structure `du_space_st` of the dumper. -/
structure du_space_st where
  sp_id : Rps_Id
  sp_setob : List Rps_Id

/-- The data members of `class Rps_Dumper`. -/
structure Rps_Dumper where
  du_topdir : String
  du_mapobjects : List (Rps_Id × Rps_ObjectRef)
  du_scanque : List Rps_ObjectRef
  du_tempsuffix : String
  du_spacemap : List (Rps_Id × du_space_st)
  du_pluginobset : List Rps_Id
  du_constantobset : List Rps_Id
  du_openedpathset : List String

/-- The constructor `Rps_Dumper(topdir)`; the random temporary suffix is an
argument. -/
def Rps_Dumper.new (topdir tempsuffix : String) : Rps_Dumper :=
  { du_topdir := topdir, du_mapobjects := [], du_scanque := [], du_tempsuffix := tempsuffix,
    du_spacemap := [], du_pluginobset := [], du_constantobset := [], du_openedpathset := [] }

/-- The state of the process that the store reads and writes: the table of
object zones, the loader and the dumper. -/
structure Rps_World where
  heap : Rps_Heap
  ld : Rps_Loader
  du : Rps_Dumper
  /-- The number of reads of the clock (`rps_elapsed_real_time`) so far. -/
  clock_reads : Nat := 0
  /-- Modelled from the spec: the set of root objects, which
  `rps_add_root_object` fills and `rps_each_root_object` runs over (sorted by
  identifier). -/
  roots : List Rps_Id := []
  /-- The global variables that hold an object: `RPS_ROOT_OB(Oid)`,
  `RPS_SYMB_OB(Name)` and `rpskobOid`, by the text of the variable. -/
  globals : List (String × Rps_ObjectRef) := []
  /-- The files written so far: path and lines. -/
  files : List (String × List String) := []

/-- What the store takes from outside `store_rps.cc`: the JSON text reader,
the file system, the dynamic linker, and constants of `refpersys.hh` that are
not in the sources at hand. -/
structure Rps_Env where
  /-- The function `rps_string_to_json`: the value read, or the message of the
  `std::runtime_error` it throws. -/
  rps_string_to_json : String → Except String Json
  /-- The function `u8_check` of libunistring: true when the line is not well
  formed UTF-8. -/
  u8_check : String → Bool
  /-- The call `access(path, R_OK)`: true when the file can be read. -/
  access_ok : String → Bool
  /-- The call `realpath(path, nullptr)`. -/
  realpath : String → Option String
  /-- The lines that `std::getline` reads from the file of that path. -/
  file_lines : String → List String
  /-- The call `dlsym(rps_proghdl, name)`: true when the symbol is found. -/
  dlsym : String → Bool
  /-- The call `dlopen(path, RTLD_NOW | RTLD_GLOBAL)`: the handle. -/
  dlopen : String → Option String
  /-- The call of a payload loading function `rpsldpy_...` found by `dlsym`,
  with the arguments `obz`, `objjson`, `spacid`, `lineno`. -/
  call_payloader : String → Rps_Id → Json → Rps_Id → Nat → Rps_M Rps_World Unit
  /-- The run of a deferred function of the todo queue. -/
  todo_run : Nat → Rps_M Rps_World Unit
  /-- The constant `RPS_MANIFEST_JSON`. -/
  manifest_json : String
  /-- The constant `RPS_GETTERFUN_PREFIX`. -/
  getterfun_pfx : String
  /-- The constant `RPS_APPLYINGFUN_PREFIX`. -/
  applyingfun_pfx : String
  /-- The constant `RPS_PAYLOADING_PREFIX`. -/
  payloading_pfx : String
  /-- The member function `Rps_String::dump_json`, which is not in the sources
  at hand. -/
  string_dump_json : String → Json
  /-- The member function `Rps_Double::dump_json`, which is not in the sources
  at hand. -/
  double_dump_json : Rps_Double → Json
  /-- The function `rps_elapsed_real_time`: the time that its call number `k`
  (counted from zero) returns, in nanoseconds. -/
  elapsed_real_time : Nat → Nat := fun _ => 0
  /-- The identifiers of `generated/rps-roots.hh`, one for each
  `RPS_INSTALL_ROOT_OB(Oid)`. -/
  roots_table : List String := []
  /-- The pairs of `generated/rps-names.hh`, one for each
  `RPS_INSTALL_NAMED_ROOT_OB(Oid,Name)`. -/
  names_table : List (String × String) := []
  /-- The identifiers of `generated/rps-constants.hh`, one for each
  `RPS_INSTALL_CONSTANT_OB(Oid)`. -/
  constants_table : List String := []
  /-- The constant `RPS_CONSTANTOBJ_PREFIX`. -/
  constantobj_pfx : String := "rpskob"
  /-- The constant `rps_topdirectory`. -/
  rps_topdirectory : String := ""
  /-- The table `rps_files` of the source files. -/
  rps_files : List String := []
  /-- The constant `rps_gitid`. -/
  rps_gitid : String := ""
  /-- The lines that `Json::StreamWriter::write` writes for a value; the last
  one is ended by the `std::endl` that follows the call. -/
  json_write : Json → List String := fun _ => []
  /-- The function `dladdr` on a code address: the name `dli_fname` of the
  file of the shared object, nothing when it fails or gives no name. -/
  dladdr : Nat → Option String := fun _ => none
  /-- Whether `std::ofstream` can open the file of that path for writing. -/
  can_open : String → Bool := fun _ => true
  /-- The texts of the lines of the notice that
  `rps_emit_gplv3_copyright_notice` writes for a path, without the prefix and
  the suffix of the call. -/
  gplv3_notice : String → List String := fun _ => []
  /-- The member function `Rps_ObjectZone::dump_json_content` of the object of
  that identifier, which fills the JSON object of its record; it is not in
  the sources at hand. -/
  dump_json_content : Rps_Id → Json → Rps_M Rps_World Json := fun _ j => fun w => .ok j w

/-- The format tag `RPS_MANIFEST_FORMAT`. -/
def RPS_MANIFEST_FORMAT : String := "RefPerSysFormat2019A"

open Rps_M

/-! ## Object zones: the loader's setters -/

namespace Rps_ObjectZone

/-- Modelled from the spec: `Rps_ObjectZone::make_loaded(oid, ld)`: allocates
the skeleton of that identifier and registers it in the table of zones; gives
the reference to it. -/
def make_loaded (oid : Rps_Id) : Rps_M Rps_World Rps_ObjectRef := do
  modify (fun w => { w with heap := w.heap.register (skeleton oid) })
  pure (some oid)

/-- Modelled from the spec: `Rps_ObjectZone::find(oid)` on the table of
zones. -/
def find (oid : Rps_Id) : Rps_M Rps_World (Option Rps_ObjectZone) := do
  let w ← get
  pure (w.heap.find oid)

/-- Modelled from the spec: `loader_set_class`. -/
def loader_set_class (obz : Rps_Id) (obclass : Rps_ObjectRef) : Rps_M Rps_World Unit :=
  modify (fun w => { w with heap := w.heap.modify obz (fun ob => { ob with ob_class := obclass }) })

/-- Modelled from the spec: `loader_set_space`. -/
def loader_set_space (obz : Rps_Id) (obspace : Rps_ObjectRef) : Rps_M Rps_World Unit :=
  modify (fun w => { w with heap := w.heap.modify obz (fun ob => { ob with ob_space := obspace }) })

/-- Modelled from the spec: `loader_set_mtime`. -/
def loader_set_mtime (obz : Rps_Id) (mtim : Rps_Double) : Rps_M Rps_World Unit :=
  modify (fun w => { w with heap := w.heap.modify obz (fun ob => { ob with ob_mtime := mtim }) })

/-- Modelled from the spec: `loader_reserve_comps`, which only reserves
memory. -/
def loader_reserve_comps (_obz : Rps_Id) (_siz : Nat) : Rps_M Rps_World Unit :=
  pure ()

/-- Modelled from the spec: `loader_add_comp`, which appends a component. -/
def loader_add_comp (obz : Rps_Id) (compv : Rps_Value) : Rps_M Rps_World Unit :=
  modify (fun w =>
    { w with heap := w.heap.modify obz (fun ob => { ob with ob_comps := ob.ob_comps ++ [compv] }) })

/-- Modelled from the spec: `loader_put_attr`, which puts the value of an
attribute in the attribute map; nothing is put for a null attribute. -/
def loader_put_attr (obz : Rps_Id) (atobr : Rps_ObjectRef) (atval : Rps_Value) :
    Rps_M Rps_World Unit :=
  match atobr with
  | some at_ =>
    modify (fun w =>
      let put := fun (ob : Rps_ObjectZone) =>
        { ob with ob_attrs := Rps_Id.mapPut at_ atval ob.ob_attrs }
      { w with heap := w.heap.modify obz put })
  | none => pure ()

/-- Modelled from the spec: `loader_put_magicattrgetter`; the function is
kept as the name of its symbol. -/
def loader_put_magicattrgetter (obz : Rps_Id) (funame : String) : Rps_M Rps_World Unit :=
  modify (fun w =>
    { w with heap := w.heap.modify obz (fun ob => { ob with ob_magicgetterfun := some funame }) })

/-- Modelled from the spec: `loader_put_applyingfunction`; the function is
kept as the name of its symbol. -/
def loader_put_applyingfunction (obz : Rps_Id) (funame : String) : Rps_M Rps_World Unit :=
  modify (fun w =>
    { w with heap := w.heap.modify obz (fun ob => { ob with ob_applyingfun := some funame }) })

/-- Modelled from the spec: `get_classinfo_payload`, the class information
payload of an object when it has one. -/
def get_classinfo_payload (ob : Rps_ObjectZone) : Option Rps_PayloadClassInfo :=
  match ob.ob_payload with
  | some (Rps_Payload.classinfo info) => some info
  | _ => none

end Rps_ObjectZone

/-! ## The loader, first pass -/

namespace Rps_Loader

/-- The member function `Rps_Loader::find_object_by_oid`. -/
def find_object_by_oid (ld : Rps_Loader) (oid : Rps_Id) : Rps_ObjectRef :=
  match ld.ld_mapobjects.lookup oid with
  | some obr => obr
  | none => none

/-- The member function `Rps_Loader::load_real_path`. -/
def load_real_path (env : Rps_Env) (path : String) : Rps_M Rps_World String := do
  let w ← get
  if path.length > 2 && cstrAt path.data 0 == '/' then
    raiseIf (!env.access_ok path) (path ++ ":" ++ "strerror")
    match env.realpath path with
    | none => raise ("realpath failed:" ++ path)
    | some restr => pure restr
  else
    let candipath := w.ld.ld_topdir ++ "/" ++ path
    if env.access_ok candipath then
      match env.realpath candipath with
      | none => raise ("realpath failed:" ++ candipath)
      | some restr => pure restr
    else
      raise ("cannot file load real path for " ++ path)

/-- The member function `Rps_Loader::space_file_path`. -/
def space_file_path (spacid : Rps_Id) : Rps_M Rps_World String := do
  raiseIf (!spacid.valid) "Rps_Loader::space_file_path invalid spacid"
  pure ("persistore/sp" ++ spacid.to_string ++ "-rps.json")

/-- The member function `Rps_Loader::is_object_starting_line`: `some oid` when
it returns true with `*pobid = oid`, `none` when it returns false.  The
arguments `spacid` and `lineno` serve the warning only. -/
def is_object_starting_line (_spacid : Rps_Id) (_lineno : Nat) (linbuf : String) :
    Option Rps_Id :=
  let cs := linbuf.data
  if cstrAt cs 0 != '/' || cstrAt cs 1 != '/' || cstrAt cs 2 != '+'
      || cstrAt cs 3 != 'o' || cstrAt cs 4 != 'b' then
    none
  else if cs.length < "//+ob".length + Rps_Id.nbchars then
    none
  else
    let (tempoid, endoff, ok) := Rps_Id.ofCString (cs.drop "//+ob".length)
    let endc := cstrAt (cs.drop "//+ob".length) endoff
    if endc != Char.ofNat 0 && !isspace endc then
      none
    else if !ok then
      none
    else if !tempoid.valid then
      none
    else
      some tempoid

/-- The local variables of the loop of `first_pass_space`. -/
structure first_pass_locals where
  prologstr : String
  obcnt : Nat
  expectedcnt : Int
  lincnt : Nat

/-- The block of `first_pass_space` run at the first object starting line
(`obcnt == 0`): reads and checks the prologue; gives `expectedcnt`. -/
def first_pass_prologue (env : Rps_Env) (spacid : Rps_Id) (prologstr : String) :
    Rps_M Rps_World Int := do
  let prologjson ← tryCatch
    (do
      let jv ← (match env.rps_string_to_json prologstr with
        | .ok jv => pure jv
        | .error errstr => raise ("JSON parsing error:" ++ errstr))
      fatalIf (jv.type ≠ JsonType.objectValue) "Rps_Loader::first_pass_space bad Json type"
      pure jv)
    (fun _ => RPS_FATAL "Rps_Loader::first_pass_space failed to parse")
  let formatjson := prologjson.get "format"
  fatalIf (formatjson.type ≠ JsonType.stringValue) "space file with bad format type"
  let formatstr ← ofOption "Json::LogicError" formatjson.asString
  fatalIf (formatstr != RPS_MANIFEST_FORMAT) "space file should have format"
  let spaceidstr ← ofOption "Json::LogicError" (prologjson.get "spaceid").asString
  fatalIf (spaceidstr != spacid.to_string) "spacefile should have spaceid"
  let nbobjectsjson := prologjson.get "nbobjects"
  ofOption "Json::LogicError" nbobjectsjson.asInt

/-- One turn of the loop of `first_pass_space` on the line `linbuf`. -/
def first_pass_line (env : Rps_Env) (spacid : Rps_Id) (spacepath : String)
    (loc : first_pass_locals) (linbuf : String) : Rps_M Rps_World first_pass_locals := do
  let lincnt := loc.lincnt + 1
  raiseIf (env.u8_check linbuf) ("non UTF8 line in " ++ spacepath)
  let prologstr :=
    if loc.obcnt == 0 then loc.prologstr ++ linbuf ++ "\n" else loc.prologstr
  match is_object_starting_line spacid lincnt linbuf with
  | some curobjid =>
    let expectedcnt ←
      (if loc.obcnt == 0 then first_pass_prologue env spacid prologstr
       else pure loc.expectedcnt)
    let obref ← Rps_ObjectZone.make_loaded curobjid
    let w ← get
    raiseIf (w.ld.ld_mapobjects.lookup curobjid).isSome
      ("duplicate objid " ++ curobjid.to_string ++ " in " ++ spacepath)
    modify (fun w =>
      { w with ld := { w.ld with
          ld_mapobjects := Rps_Id.mapInsert curobjid obref w.ld.ld_mapobjects } })
    pure { prologstr := prologstr, obcnt := loc.obcnt + 1, expectedcnt := expectedcnt,
           lincnt := lincnt }
  | none =>
    pure { prologstr := prologstr, obcnt := loc.obcnt, expectedcnt := loc.expectedcnt,
           lincnt := lincnt }

/-- The loop `for (std::string linbuf; std::getline(ins, linbuf); )` of
`first_pass_space`. -/
def first_pass_lines (env : Rps_Env) (spacid : Rps_Id) (spacepath : String) :
    List String → first_pass_locals → Rps_M Rps_World first_pass_locals
  | [], loc => pure loc
  | linbuf :: more, loc => do
    let loc1 ← first_pass_line env spacid spacepath loc linbuf
    first_pass_lines env spacid spacepath more loc1

/-- The member function `Rps_Loader::first_pass_space`. -/
def first_pass_space (env : Rps_Env) (spacid : Rps_Id) : Rps_M Rps_World Unit := do
  let relpath ← space_file_path spacid
  let spacepath ← load_real_path env relpath
  let loc ← first_pass_lines env spacid spacepath (env.file_lines spacepath)
    { prologstr := "", obcnt := 0, expectedcnt := 0, lincnt := 0 }
  raiseIf ((loc.obcnt : Int) ≠ loc.expectedcnt) ("unexpected object count in " ++ spacepath)
  pure ()

/-- The member function `Rps_Loader::add_todo`; `now` is the value of
`rps_elapsed_real_time()`. -/
def add_todo (now : Nat) (todofun : Nat) : Rps_M Rps_World Unit :=
  modify (fun w =>
    { w with ld := { w.ld with
        ld_todoque := w.ld.ld_todoque ++ [{ todo_addtime := now, todo_fun := todofun }] } })

end Rps_Loader

/-! ## The decoders -/

/-- The constructor `Rps_ObjectRef::Rps_ObjectRef(const Json::Value&,
Rps_Loader*)`. -/
def Rps_ObjectRef.ofJson (jv : Json) : Rps_M Rps_World Rps_ObjectRef := do
  let w ← get
  let str := if jv.isString then jv.asString.getD "" else ""
  let oid := Rps_Id.ofString str
  if jv.isString && str != "" && oid.valid then
    let obr := w.ld.find_object_by_oid oid
    raiseIf obr.isNone ("unknown oid " ++ oid.to_string)
    pure obr
  else
    raise "partly unimplemented Rps_ObjectRef::Rps_ObjectRef(const Json::Value &jv, Rps_Loader*ld)"

/-- Modelled from the spec: `Rps_InstanceZone::make_from_attributes_components`:
the instance of that class whose sons are the values of the attributes of
the class's attribute set `setat` (null for an attribute without a value)
followed by the components; "a class's attribute map may only use keys
present in that class's declared attribute set", so a key outside the set is
an error. -/
def Rps_InstanceZone.make_from_attributes_components (obclass : Rps_ObjectRef)
    (compvec : List Rps_Value) (attrmap : List (Rps_Id × Rps_Value))
    (setat : Option (List Rps_Id)) : Rps_M Rps_World Rps_Value :=
  if attrmap.all (fun kv => (setat.getD []).contains kv.1) then
    pure (Rps_Value.inst obclass
      ((setat.getD []).map (fun a => (attrmap.lookup a).getD Rps_Value.null) ++ compvec)
      none false)
  else
    raise "make_from_attributes_components: attribute not in the class"

/-- The class information payload of the object that a reference points to
(`obclass->get_classinfo_payload()`). -/
def Rps_Heap.classinfo_of (h : Rps_Heap) (obr : Rps_ObjectRef) : Option Rps_PayloadClassInfo :=
  match obr with
  | some oid =>
    match h.find oid with
    | some ob => ob.get_classinfo_payload
    | none => none
  | none => none

/-- The body of `Rps_InstanceZone::load_from_json`; the two loops that decode
`jv["iattrs"]` and `jv["icomps"]` are the arguments `attrloop` and
`comploop`. -/
def Rps_InstanceZone.load_from_json_body (jv : Json)
    (attrloop : Rps_M Rps_World (List (Rps_Id × Rps_Value)))
    (comploop : Rps_M Rps_World (List Rps_Value)) : Rps_M Rps_World Rps_Value := do
  RPS_ASSERT jv.isObject "RPS_ASSERT(jv.isObject())"
  let jclass := jv.get "iclass"
  let obclass ← Rps_ObjectRef.ofJson jclass
  let attrmap ← attrloop
  let compvec ← comploop
  RPS_ASSERT obclass.isSome "RPS_ASSERT(obclass)"
  let w ← get
  let clpayl := w.heap.classinfo_of obclass
  match clpayl with
  | some info =>
    if attrmap.isEmpty || info.pclass_attrset.isSome then
      Rps_InstanceZone.make_from_attributes_components obclass compvec attrmap
        info.pclass_attrset
    else
      RPS_FATAL "Rps_InstanceZone::load_from_json incomplete"
  | none =>
    RPS_FATAL "Rps_InstanceZone::load_from_json incomplete"

/-- The loop of the "set" branch of `Rps_Value(Json, Rps_Loader*)` over the
elements of `jv["elem"]`, filling `setobr`. -/
def Rps_Value.ofJson_setloop : List Json → List Rps_Id → Rps_M Rps_World (List Rps_Id)
  | [], setobr => pure setobr
  | jelem :: more, setobr => do
    let obrelem ← Rps_ObjectRef.ofJson jelem
    match obrelem with
    | some ob => Rps_Value.ofJson_setloop more (Rps_Id.setInsert ob setobr)
    | none => Rps_Value.ofJson_setloop more setobr

/-- The loop of the "tuple" branch of `Rps_Value(Json, Rps_Loader*)` over the
elements of `jv["comp"]`, filling `vecobr`. -/
def Rps_Value.ofJson_tupleloop : List Json → List Rps_ObjectRef →
    Rps_M Rps_World (List Rps_ObjectRef)
  | [], vecobr => pure vecobr
  | jcomp :: more, vecobr => do
    let obrcomp ← Rps_ObjectRef.ofJson jcomp
    Rps_Value.ofJson_tupleloop more (vecobr ++ [obrcomp])

/-- The branches of `Rps_Value(Json, Rps_Loader*)` for a JSON value that is
not an object: integer, double, null, string (an identifier-like string is an
object reference).  A boolean or an array reaches the final warning and the
value stays null. -/
def Rps_Value.ofJson_plain (jv : Json) : Rps_M Rps_World Rps_Value := do
  if jv.isInt64 then
    pure (Rps_Value.int jv.asInt64)
  else if jv.isDouble then
    let d := jv.asDouble.getD Rps_Double.zero
    pure (Rps_Value.double d)
  else if jv.isNull then
    pure Rps_Value.null
  else if jv.isString then
    let str := jv.asString.getD ""
    if str.length == Rps_Id.nbchars && cstrAt str.data 0 == '_'
        && (str.data.drop 1).all Rps_Id.isB62digit then
      let obr ← Rps_ObjectRef.ofJson jv
      pure (Rps_ObjectValue obr)
    else
      pure (Rps_Value.string str)
  else
    pure Rps_Value.null

mutual

/-- The constructor `Rps_Value::Rps_Value(const Json::Value&, Rps_Loader*)`.
The local variable `siz` is zero until a branch assigns it. -/
def Rps_Value.ofJson : Json → Rps_M Rps_World Rps_Value
  | .obj ms =>
    let jv := Json.obj ms
    let siz : Nat := 0
    if jv.size == 1 && jv.isMember "string" && (jv.get "string").isString then
      pure (Rps_Value.string ((jv.get "string").asString.getD ""))
    else if jv.isMember "vtype" && (jv.get "vtype").isString
        && ((jv.get "vtype").asString.getD "") != "" then
      let str := (jv.get "vtype").asString.getD ""
      if str == "set" && siz == 2 && jv.isMember "elem" && (jv.get "elem").isArray
          && (jv.get "elem").size != 0 then do
        let setobr ← Rps_Value.ofJson_setloop (jv.get "elem").elems []
        pure (Rps_SetValue setobr)
      else if str == "tuple" && siz == 2 && jv.isMember "elem" && (jv.get "comp").isArray
          && (jv.get "comp").size != 0 then do
        let vecobr ← Rps_Value.ofJson_tupleloop (jv.get "comp").elems []
        pure (Rps_TupleValue vecobr)
      else if str == "instance" && siz ≥ 2 && jv.isMember "class"
          && (jv.get "class").isString then
        Rps_InstanceZone.load_from_json_body jv (Rps_InstanceZone.load_iattrs ms)
          (Rps_InstanceZone.load_icomps ms)
      else if str == "closure" && siz ≥ 3 && jv.isMember "fn" && jv.isMember "env" then do
        let funobr ← Rps_ObjectRef.ofJson (jv.get "fn")
        if (jv.get "env").isArray then
          let vecenv ← Rps_Value.ofJson_member_elems "env" ms
          if jv.isMember "metaobj" then
            let metark ← ofOption "Json::LogicError" (jv.get "metarank").asInt
            let metaobr ← Rps_ObjectRef.ofJson (jv.get "metaobj")
            pure (Rps_Value.closure funobr vecenv (some (metaobr, metark)) false)
          else
            pure (Rps_Value.closure funobr vecenv none false)
        else
          pure Rps_Value.null
      else
        pure Rps_Value.null
    else
      pure Rps_Value.null
  | .null => Rps_Value.ofJson_plain .null
  | .int i => Rps_Value.ofJson_plain (.int i)
  | .real d => Rps_Value.ofJson_plain (.real d)
  | .str s => Rps_Value.ofJson_plain (.str s)
  | .bool b => Rps_Value.ofJson_plain (.bool b)
  | .arr es => Rps_Value.ofJson_plain (.arr es)

/-- Decoding of the elements of an array in order (`Rps_Value(jenv[ix], ld)`
for `ix = 0, 1, ...`). -/
def Rps_Value.ofJson_elems : List Json → Rps_M Rps_World (List Rps_Value)
  | [] => pure []
  | j :: js => do
    let curval ← Rps_Value.ofJson j
    let more ← Rps_Value.ofJson_elems js
    pure (curval :: more)

/-- Decoding in order of the elements of the array member `key` of the
object with members `ms` (nothing when the member is not an array). -/
def Rps_Value.ofJson_member_elems (key : String) :
    List (String × Json) → Rps_M Rps_World (List Rps_Value)
  | [] => pure []
  | (k, v) :: rest =>
    if k == key then
      match v with
      | .arr es => Rps_Value.ofJson_elems es
      | _ => pure []
    else Rps_Value.ofJson_member_elems key rest

/-- Decoding of the member `key` of the object with members `ms`
(`Rps_Value(jv[key], ld)`); an absent member reads as JSON null. -/
def Rps_Value.ofJson_member (key : String) :
    List (String × Json) → Rps_M Rps_World Rps_Value
  | [] => pure Rps_Value.null
  | (k, v) :: rest =>
    if k == key then Rps_Value.ofJson v
    else Rps_Value.ofJson_member key rest

/-- The loop `for (int aix = 0; aix<nbattrs; aix++)` of
`Rps_InstanceZone::load_from_json` over the entries of `jattrs`, filling
`attrmap` (with `std::map::insert`). -/
def Rps_InstanceZone.load_attr_entries :
    List Json → List (Rps_Id × Rps_Value) → Rps_M Rps_World (List (Rps_Id × Rps_Value))
  | [], attrmap => pure attrmap
  | jcurent :: more, attrmap =>
    match jcurent with
    | .obj ems => do
      let atob ← Rps_ObjectRef.ofJson (Json.get (.obj ems) "iat")
      let atvalv ← Rps_Value.ofJson_member "iva" ems
      match atob with
      | some at_ =>
        Rps_InstanceZone.load_attr_entries more (Rps_Id.mapInsert at_ atvalv attrmap)
      | none => Rps_InstanceZone.load_attr_entries more attrmap
    | _ => Rps_InstanceZone.load_attr_entries more attrmap

/-- The attribute loop of `Rps_InstanceZone::load_from_json` on
`jattrs = jv["iattrs"]`, for the object with members `ms`; indexing an object
value by a number raises `Json::LogicError`. -/
def Rps_InstanceZone.load_iattrs :
    List (String × Json) → Rps_M Rps_World (List (Rps_Id × Rps_Value))
  | [] => pure []
  | (k, v) :: rest =>
    if k == "iattrs" then
      match v with
      | .arr es => Rps_InstanceZone.load_attr_entries es []
      | .obj (_ :: _) => raise "Json::LogicError"
      | _ => pure []
    else Rps_InstanceZone.load_iattrs rest

/-- The component loop of `Rps_InstanceZone::load_from_json` on
`jcomps = jv["icomps"]`, for the object with members `ms`; indexing an object
value by a number raises `Json::LogicError`. -/
def Rps_InstanceZone.load_icomps :
    List (String × Json) → Rps_M Rps_World (List Rps_Value)
  | [] => pure []
  | (k, v) :: rest =>
    if k == "icomps" then
      match v with
      | .arr es => Rps_Value.ofJson_elems es
      | .obj (_ :: _) => raise "Json::LogicError"
      | _ => pure []
    else Rps_InstanceZone.load_icomps rest

end

/-- The static member function `Rps_InstanceZone::load_from_json`. -/
def Rps_InstanceZone.load_from_json (jv : Json) : Rps_M Rps_World Rps_Value :=
  match jv with
  | .obj ms =>
    Rps_InstanceZone.load_from_json_body jv (Rps_InstanceZone.load_iattrs ms)
      (Rps_InstanceZone.load_icomps ms)
  | _ => RPS_FATAL "RPS_ASSERT(jv.isObject())"

/-! ## The loader, second pass -/

namespace Rps_Loader

/-- The loop over `compjson` of `parse_json_buffer_second_pass`: decodes a
component and adds it, one after the other. -/
def second_pass_comps (obz : Rps_Id) : List Json → Rps_M Rps_World Unit
  | [] => pure ()
  | jcomp :: more => do
    let valcomp ← Rps_Value.ofJson jcomp
    Rps_ObjectZone.loader_add_comp obz valcomp
    second_pass_comps obz more

/-- The loop over `attrjson` of `parse_json_buffer_second_pass`: an entry
that is an object with at least two members, among them `at` and `va`, puts
one attribute; any other entry is skipped. -/
def second_pass_attrs (obz : Rps_Id) : List Json → Rps_M Rps_World Unit
  | [] => pure ()
  | entjson :: more => do
    whenB (entjson.isObject && entjson.size ≥ 2 && entjson.isMember "at"
        && entjson.isMember "va")
      (do
        let atobr ← Rps_ObjectRef.ofJson (entjson.get "at")
        let atval ← Rps_Value.ofJson (entjson.get "va")
        Rps_ObjectZone.loader_put_attr obz atobr atval)
    second_pass_attrs obz more

/-- The block of `parse_json_buffer_second_pass` for the member `payload`. -/
def second_pass_payload (env : Rps_Env) (spacid : Rps_Id) (lineno : Nat) (objid : Rps_Id)
    (objjson : Json) : Rps_M Rps_World Unit := do
  let paylstr ← ofOption "Json::LogicError" (objjson.get "payload").asString
  let w ← get
  let pldfun : Option String ←
    (match w.ld.ld_payloadercache.lookup paylstr with
     | none =>
       match paylstr.data with
       | [] => raise "std::out_of_range"
       | firstc :: _ =>
         if isalpha firstc then do
           let symstr := env.payloading_pfx ++ paylstr
           fatalIf (!env.dlsym symstr) "cannot dlsym for payload"
           modify (fun w => { w with ld := { w.ld with
             ld_payloadercache := w.ld.ld_payloadercache ++ [(paylstr, symstr)] } })
           pure (some symstr)
         else if firstc == '_' then do
           let pyid := Rps_Id.ofString paylstr
           fatalIf (!pyid.valid) "parse_json_buffer_second_pass invalid id payload"
           pure none
         else
           RPS_FATAL "parse_json_buffer_second_pass invalid payload"
     | some cached => pure (some cached))
  match pldfun with
  | some symb => env.call_payloader symb objid objjson spacid lineno
  | none => RPS_FATAL "parse_json_buffer_second_pass payload without loading function"

/-- The member function `Rps_Loader::parse_json_buffer_second_pass`. -/
def parse_json_buffer_second_pass (env : Rps_Env) (spacid : Rps_Id) (lineno : Nat)
    (objid : Rps_Id) (objbuf : String) (_count : Nat) : Rps_M Rps_World Unit := do
  let objjson ← tryCatch
    (do
      let jv ← (match env.rps_string_to_json objbuf with
        | .ok jv => pure jv
        | .error errstr => raise ("JSON parsing error:" ++ errstr))
      fatalIf (jv.type ≠ JsonType.objectValue) "parse_json_buffer_second_pass bad objbuf"
      pure jv)
    (fun _ => RPS_FATAL "parse_json_buffer_second_pass parse failure")
  let oidjson := objjson.get "oid"
  let oidstr ← ofOption "Json::LogicError" oidjson.asString
  fatalIf (oidstr != objid.to_string) "parse_json_buffer_second_pass unexpected"
  let obz ← Rps_ObjectZone.find objid
  RPS_ASSERT obz.isSome "RPS_ASSERT (obz)"
  let obzspace ← Rps_ObjectZone.find spacid
  let obclass ← Rps_ObjectRef.ofJson (objjson.get "class")
  Rps_ObjectZone.loader_set_class objid obclass
  RPS_ASSERT obzspace.isSome "RPS_ASSERT (obzspace)"
  Rps_ObjectZone.loader_set_space objid (some spacid)
  let mtim ← ofOption "Json::LogicError" (objjson.get "mtime").asDouble
  Rps_ObjectZone.loader_set_mtime objid mtim
  whenB (objjson.isMember "comps")
    (whenB (objjson.get "comps").isArray
      (do
        Rps_ObjectZone.loader_reserve_comps objid (objjson.get "comps").size
        second_pass_comps objid (objjson.get "comps").elems))
  whenB (objjson.isMember "attrs")
    (whenB (objjson.get "attrs").isArray
      (second_pass_attrs objid (objjson.get "attrs").elems))
  whenB (objjson.isMember "magicattr")
    (do
      fatalIf (!env.dlsym (env.getterfun_pfx ++ objid.to_string))
        "cannot dlsym for magic attribute getter"
      Rps_ObjectZone.loader_put_magicattrgetter objid (env.getterfun_pfx ++ objid.to_string))
  whenB (objjson.isMember "applying")
    (do
      fatalIf (!env.dlsym (env.applyingfun_pfx ++ objid.to_string))
        "cannot dlsym for applying function"
      Rps_ObjectZone.loader_put_applyingfunction objid
        (env.applyingfun_pfx ++ objid.to_string))
  whenB (objjson.isMember "payload")
    (second_pass_payload env spacid lineno objid objjson)

/-- The local variables of the loop of `second_pass_space`. -/
structure second_pass_locals where
  lincnt : Nat
  obcnt : Nat
  prevoid : Rps_Id
  prevlin : Nat
  objbuf : String

/-- The guarded call of `parse_json_buffer_second_pass` in
`second_pass_space`: an exception of the call is a fatal error. -/
def second_pass_guarded (env : Rps_Env) (spacid : Rps_Id) (prevlin : Nat) (prevoid : Rps_Id)
    (objbuf : String) (obcnt : Nat) : Rps_M Rps_World Unit :=
  tryCatch (parse_json_buffer_second_pass env spacid prevlin prevoid objbuf obcnt)
    (fun _ => RPS_FATAL "failed second pass")

/-- One turn of the loop of `second_pass_space` on the line `linbuf`. -/
def second_pass_line (env : Rps_Env) (spacid : Rps_Id) (loc : second_pass_locals)
    (linbuf : String) : Rps_M Rps_World second_pass_locals := do
  let lincnt := loc.lincnt + 1
  if linbuf.length > 0 && cstrAt linbuf.data 0 == '#' then
    pure { loc with lincnt := lincnt }
  else
    match is_object_starting_line spacid lincnt linbuf with
    | some curobjid =>
      whenB (loc.objbuf.length > 0 && loc.prevoid.toBool && loc.prevlin > 0)
        (second_pass_guarded env spacid loc.prevlin loc.prevoid loc.objbuf loc.obcnt)
      pure { lincnt := lincnt, obcnt := loc.obcnt + 1, prevoid := curobjid,
             prevlin := lincnt, objbuf := linbuf ++ "\n" }
    | none =>
      if loc.objbuf.length > 0 then
        pure { loc with lincnt := lincnt, objbuf := loc.objbuf ++ linbuf ++ "\n" }
      else
        pure { loc with lincnt := lincnt }

/-- The loop `for (std::string linbuf; std::getline(ins, linbuf); )` of
`second_pass_space`. -/
def second_pass_lines (env : Rps_Env) (spacid : Rps_Id) :
    List String → second_pass_locals → Rps_M Rps_World second_pass_locals
  | [], loc => pure loc
  | linbuf :: more, loc => do
    let loc1 ← second_pass_line env spacid loc linbuf
    second_pass_lines env spacid more loc1

/-- The member function `Rps_Loader::second_pass_space`. -/
def second_pass_space (env : Rps_Env) (spacid : Rps_Id) : Rps_M Rps_World Unit := do
  let relpath ← space_file_path spacid
  let spacepath ← load_real_path env relpath
  let loc ← second_pass_lines env spacid (env.file_lines spacepath)
    { lincnt := 0, obcnt := 0, prevoid := Rps_Id.null, prevlin := 0, objbuf := "" }
  whenB (loc.objbuf.length > 0 && loc.prevoid.toBool && loc.prevlin > 0)
    (second_pass_guarded env spacid loc.prevlin loc.prevoid loc.objbuf loc.obcnt)

/-! ## The loader, manifest -/

/-- The loop of `string_of_loaded_file` over the lines of the file, with the
result so far. -/
def string_of_loaded_lines (env : Rps_Env) (fullpath : String) :
    List String → String → Rps_M Rps_World String
  | [], res => pure res
  | linbuf :: more, res => do
    raiseIf (env.u8_check linbuf) ("non UTF8 line in " ++ fullpath)
    let res1 := res ++ linbuf ++ "\n"
    fatalIf (res1.length > 1024 * 1024) "too big file"
    string_of_loaded_lines env fullpath more res1

/-- The member function `Rps_Loader::string_of_loaded_file`. -/
def string_of_loaded_file (env : Rps_Env) (relpath : String) : Rps_M Rps_World String := do
  let fullpath ← load_real_path env relpath
  string_of_loaded_lines env fullpath (env.file_lines fullpath) ""

/-- The loop over `spsetjson` of `parse_manifest_file`. -/
def manifest_spaceset : List Json → Rps_M Rps_World Unit
  | [] => pure ()
  | jcur :: more => do
    let curspidstr ← ofOption "Json::LogicError" jcur.asString
    let curspid := Rps_Id.ofString curspidstr
    RPS_ASSERT curspid.toBool "RPS_ASSERT(curspid)"
    modify (fun w => { w with ld := { w.ld with
      ld_spaceset := Rps_Id.setInsert curspid w.ld.ld_spaceset } })
    manifest_spaceset more

/-- The loop over `globrootsjson` of `parse_manifest_file`. -/
def manifest_globalroots : List Json → Rps_M Rps_World Unit
  | [] => pure ()
  | jcur :: more => do
    let curgrootidstr ← ofOption "Json::LogicError" jcur.asString
    let curgrootid := Rps_Id.ofString curgrootidstr
    RPS_ASSERT curgrootid.toBool "RPS_ASSERT(curgrootid)"
    modify (fun w => { w with ld := { w.ld with
      ld_globrootsidset := Rps_Id.setInsert curgrootid w.ld.ld_globrootsidset } })
    manifest_globalroots more

/-- The loop over `pluginsjson` of `parse_manifest_file`. -/
def manifest_plugins (env : Rps_Env) : List Json → Rps_M Rps_World Unit
  | [] => pure ()
  | jcur :: more => do
    let curpluginidstr ← ofOption "Json::LogicError" jcur.asString
    let curpluginid := Rps_Id.ofString curpluginidstr
    RPS_ASSERT (curpluginid.toBool && curpluginid.valid)
      "RPS_ASSERT(curpluginid && curpluginid.valid())"
    let pluginpath ← load_real_path env ("plugins/rps" ++ curpluginid.to_string ++ "-mod.so")
    match env.dlopen pluginpath with
    | none => RPS_FATAL "failed to load plugin"
    | some dlh =>
      modify (fun w => { w with ld := { w.ld with
        ld_pluginsmap := Rps_Id.mapInsert curpluginid dlh w.ld.ld_pluginsmap } })
      manifest_plugins env more

/-- The member function `Rps_Loader::parse_manifest_file`. -/
def parse_manifest_file (env : Rps_Env) : Rps_M Rps_World Unit := do
  let w ← get
  let manifpath := w.ld.ld_topdir ++ "/" ++ env.manifest_json
  fatalIf (!env.access_ok manifpath) "Rps_Loader::parse_manifest_file cannot access"
  let manifstr ← string_of_loaded_file env env.manifest_json
  fatalIf (manifstr.length < 20) "Rps_Loader::parse_manifest_file nearly empty file"
  let manifjson ← tryCatch
    (do
      let jv ← (match env.rps_string_to_json manifstr with
        | .ok jv => pure jv
        | .error errstr => raise ("JSON parsing error:" ++ errstr))
      fatalIf (jv.type ≠ JsonType.objectValue)
        "Rps_Loader::parse_manifest_file wants a Json object"
      pure jv)
    (fun _ => RPS_FATAL "Rps_Loader::parse_manifest_file failed to parse")
  let formatstr ← ofOption "Json::LogicError" (manifjson.get "format").asString
  fatalIf (formatstr != RPS_MANIFEST_FORMAT) "manifest map should have format"
  let spsetjson := manifjson.get "spaceset"
  fatalIf (spsetjson.type ≠ JsonType.arrayValue) "manifest map should have spaceset: [...]"
  manifest_spaceset spsetjson.elems
  let globrootsjson := manifjson.get "globalroots"
  fatalIf (globrootsjson.type ≠ JsonType.arrayValue) "manifest map should have globalroots: [...]"
  manifest_globalroots globrootsjson.elems
  let pluginsjson := manifjson.get "plugins"
  fatalIf (pluginsjson.type ≠ JsonType.arrayValue) "manifest map should have plugins: [...]"
  manifest_plugins env pluginsjson.elems

end Rps_Loader

/-! ## The dumper: encoding of values -/

/-- Modelled from the spec: `Rps_ObjectZone::get_space` of the object that a
reference points to: its "optional owning Space". -/
def Rps_Heap.space_of (h : Rps_Heap) (oid : Rps_Id) : Rps_ObjectRef :=
  match h.find oid with
  | some ob => ob.ob_space
  | none => none

/-- Modelled from the spec: `Rps_InstanceZone::set_attributes`, the declared
attribute set of the class of the instance. -/
def Rps_Heap.set_attributes (h : Rps_Heap) (conn : Rps_ObjectRef) : Option (List Rps_Id) :=
  match h.classinfo_of conn with
  | some info => info.pclass_attrset
  | none => none

namespace Rps_Dumper

/-- The member function `Rps_Dumper::is_dumpable_objref`. -/
def is_dumpable_objref (obr : Rps_ObjectRef) : Rps_M Rps_World Bool := do
  let w ← get
  match obr with
  | none => pure false
  | some oid =>
    if (w.du.du_mapobjects.lookup oid).isSome then
      pure true
    else
      let obrspace := w.heap.space_of oid
      if obrspace.isNone then
        pure false
      else
        pure true

/-- The member function `Rps_Dumper::is_dumpable_value`. -/
def is_dumpable_value (val : Rps_Value) : Rps_M Rps_World Bool := do
  if val.isNullPtr then
    pure true
  else if val.is_int || val.is_string || val.is_set || val.is_tuple then
    pure true
  else if val.is_object then
    is_dumpable_objref val.to_object
  else
    RPS_FATAL "Rps_Dumper::is_dumpable_value partly unimplemented"

end Rps_Dumper

/-- The function `rps_is_dumpable_objref`. -/
def rps_is_dumpable_objref (obr : Rps_ObjectRef) : Rps_M Rps_World Bool :=
  Rps_Dumper.is_dumpable_objref obr

/-- The function `rps_is_dumpable_value`. -/
def rps_is_dumpable_value (val : Rps_Value) : Rps_M Rps_World Bool :=
  Rps_Dumper.is_dumpable_value val

/-- The function `rps_dump_json_objectref`. -/
def rps_dump_json_objectref (obr : Rps_ObjectRef) : Rps_M Rps_World Json := do
  let dumpable ← rps_is_dumpable_objref obr
  match obr with
  | some oid => if !dumpable then pure Json.null else pure (Json.str oid.to_string)
  | none => pure Json.null

/-- The body of `Rps_Dumper::json_value`; `dumped` is the call
`val.to_ptr()->dump_json(this)`. -/
def Rps_Dumper.json_value_body (val : Rps_Value) (dumped : Rps_M Rps_World Json) :
    Rps_M Rps_World Json := do
  if val.isNullPtr || val.is_empty then
    pure Json.null
  else if val.is_int then
    match val with
    | .int i => pure (Json.int i)
    | _ => pure Json.null
  else if val.is_ptr then
    let dumpable ← Rps_Dumper.is_dumpable_value val
    if dumpable then dumped else pure Json.null
  else
    pure Json.null

/-- The body of `rps_dump_json_value`; `dumped` is the call
`val.to_ptr()->dump_json(this)` that `json_value` makes. -/
def rps_dump_json_value_body (val : Rps_Value) (dumped : Rps_M Rps_World Json) :
    Rps_M Rps_World Json := do
  if val.isNullPtr then
    pure Json.null
  else
    let dumpable ← rps_is_dumpable_value val
    if !dumpable then pure Json.null
    else Rps_Dumper.json_value_body val dumped

/-- The loop of `Rps_TupleOb::dump_json`: `jvec[ix++] = ...` for each
dumpable component; gives `jvec` and `ix`. -/
def Rps_TupleOb.dump_json_loop : List Rps_ObjectRef → Json → Nat → Rps_M Rps_World (Json × Nat)
  | [], jvec, ix => pure (jvec, ix)
  | obr :: more, jvec, ix => do
    let dumpable ← rps_is_dumpable_objref obr
    if dumpable then
      let jobr ← rps_dump_json_objectref obr
      Rps_TupleOb.dump_json_loop more (jvec.setAt ix jobr) (ix + 1)
    else
      Rps_TupleOb.dump_json_loop more jvec ix

/-- The member function `Rps_TupleOb::dump_json` of the tuple with those
components. -/
def Rps_TupleOb.dump_json (comps : List Rps_ObjectRef) : Rps_M Rps_World Json := do
  let jtup := (Json.obj []).set "vtype" (Json.str "tuple")
  let jvec := (Json.arr []).resize comps.length
  let (jvec1, ix) ← Rps_TupleOb.dump_json_loop comps jvec 0
  let jvec2 := jvec1.resize ix
  pure (jtup.set "comp" jvec2)

/-- The loop of `Rps_SetOb::dump_json`: appends each dumpable element. -/
def Rps_SetOb.dump_json_loop : List Rps_Id → Json → Rps_M Rps_World Json
  | [], jvec => pure jvec
  | ob :: more, jvec => do
    let dumpable ← rps_is_dumpable_objref (some ob)
    if dumpable then
      let jobr ← rps_dump_json_objectref (some ob)
      Rps_SetOb.dump_json_loop more (jvec.append jobr)
    else
      Rps_SetOb.dump_json_loop more jvec

/-- The member function `Rps_SetOb::dump_json` of the set with those
elements. -/
def Rps_SetOb.dump_json (elements : List Rps_Id) : Rps_M Rps_World Json := do
  let jset := (Json.obj []).set "vtype" (Json.str "set")
  let jvec ← Rps_SetOb.dump_json_loop elements (Json.arr [])
  pure (jset.set "elem" jvec)

/-- The block `if (!is_metatransient())` of the closure and instance
encoders: adds `metaobj` and `metarank`. -/
def dump_json_metadata (hj : Json) (metadata : Option (Rps_ObjectRef × Int)) :
    Rps_M Rps_World Json :=
  match metadata with
  | some (metaobr, metarank) => do
    let jmeta ← rps_dump_json_objectref metaobr
    pure ((hj.set "metaobj" jmeta).set "metarank" (Json.int metarank))
  | none => pure hj

/-- The result of the two loops of `Rps_InstanceZone::dump_json`: the array
`jvattrs`, the count `nbattrs`, and the encoded components in the order the
second loop appends them. -/
structure inst_sons_result where
  jvattrs : Json
  nbattrs : Nat
  jcomps : List Json

mutual

/-- The virtual member function `dump_json` of the zone of a value
(`val.to_ptr()->dump_json(du)`): `Rps_ObjectZone::dump_json`,
`Rps_TupleOb::dump_json`, `Rps_SetOb::dump_json`, `Rps_ClosureZone::dump_json`
and `Rps_InstanceZone::dump_json`; the encoders of strings and doubles come
from the environment. -/
def Rps_Value.dump_json (env : Rps_Env) : Rps_Value → Rps_M Rps_World Json
  | .null => pure Json.null
  | .empty => pure Json.null
  | .int i => pure (Json.int i)
  | .string s => pure (env.string_dump_json s)
  | .double d => pure (env.double_dump_json d)
  | .object ob => rps_dump_json_objectref (some ob)
  | .set elements => Rps_SetOb.dump_json elements
  | .tuple comps => Rps_TupleOb.dump_json comps
  | .closure conn cloenv metadata transient => do
    let dumpable ← rps_is_dumpable_objref conn
    if !dumpable || transient then
      pure Json.null
    else
      let hjclo := (Json.obj []).set "vtype" (Json.str "closure")
      let jfn ← rps_dump_json_objectref conn
      let hjclo := hjclo.set "fn" jfn
      let jvec ← Rps_ClosureZone.dump_json_env env cloenv (Json.arr [])
      let hjclo := hjclo.set "env" jvec
      dump_json_metadata hjclo metadata
  | .inst conn sons metadata transient => do
    let dumpable ← rps_is_dumpable_objref conn
    if !dumpable || transient then
      pure Json.null
    else
      let hjins := (Json.obj []).set "vtype" (Json.str "instance")
      let jclass ← rps_dump_json_objectref conn
      let hjins := hjins.set "iclass" jclass
      let w ← get
      let atset := w.heap.set_attributes conn
      let nbsons := sons.length
      match atset with
      | some atl =>
        let jvattrs := (Json.arr []).resize atl.length
        let r ← Rps_InstanceZone.dump_json_sons env atl sons jvattrs 0
        let jvattrs := r.jvattrs.resize r.nbattrs
        let hjins := hjins.set "iattrs" jvattrs
        let jvcomps := (Json.arr []).resize (nbsons - r.nbattrs)
        let jvcomps := r.jcomps.foldl Json.append jvcomps
        let hjins := hjins.set "icomps" jvcomps
        dump_json_metadata hjins metadata
      | none =>
        dump_json_metadata hjins metadata

/-- The loop `for (Rps_Value sonval: *this)` of `Rps_ClosureZone::dump_json`:
appends `rps_dump_json_value(du,sonval)` for each value of the environment. -/
def Rps_ClosureZone.dump_json_env (env : Rps_Env) :
    List Rps_Value → Json → Rps_M Rps_World Json
  | [], jvec => pure jvec
  | sonval :: more, jvec => do
    let json ← rps_dump_json_value_body sonval (Rps_Value.dump_json env sonval)
    Rps_ClosureZone.dump_json_env env more (jvec.append json)

/-- The two loops of `Rps_InstanceZone::dump_json` over the sons.  While
attributes are left (`for (Rps_ObjectRef obattr: *atset)`), the son of index
`attrix-1` goes with the attribute; the loop breaks when `attrix` passes
`nbsons`, and then the second loop does not run.  When no attribute is left,
the sons from index `attrix` on are the components
(`for (int compix = attrix; compix<nbsons; compix++)`). -/
def Rps_InstanceZone.dump_json_sons (env : Rps_Env) :
    List Rps_Id → List Rps_Value → Json → Nat → Rps_M Rps_World inst_sons_result
  | [], [], jvattrs, nbattrs =>
    pure { jvattrs := jvattrs, nbattrs := nbattrs, jcomps := [] }
  | [], son :: sons, jvattrs, nbattrs => do
    let json ← rps_dump_json_value_body son (Rps_Value.dump_json env son)
    let r ← Rps_InstanceZone.dump_json_sons env [] sons jvattrs nbattrs
    pure { r with jcomps := json :: r.jcomps }
  | _ :: _, [], jvattrs, nbattrs =>
    pure { jvattrs := jvattrs, nbattrs := nbattrs, jcomps := [] }
  | obattr :: more, son :: sons, jvattrs, nbattrs => do
    let dumpable ← rps_is_dumpable_objref (some obattr)
    if !dumpable then
      Rps_InstanceZone.dump_json_sons env more sons (jvattrs.append Json.null) nbattrs
    else
      let jent := Json.obj []
      let jiat ← rps_dump_json_objectref (some obattr)
      let jent := jent.set "iat" jiat
      let jiva ← rps_dump_json_value_body son (Rps_Value.dump_json env son)
      let jent := jent.set "iva" jiva
      Rps_InstanceZone.dump_json_sons env more sons (jvattrs.append jent) (nbattrs + 1)

end

/-- The member function `Rps_Dumper::json_value`. -/
def Rps_Dumper.json_value (env : Rps_Env) (val : Rps_Value) : Rps_M Rps_World Json :=
  Rps_Dumper.json_value_body val (Rps_Value.dump_json env val)

/-- The function `rps_dump_json_value`. -/
def rps_dump_json_value (env : Rps_Env) (val : Rps_Value) : Rps_M Rps_World Json :=
  rps_dump_json_value_body val (Rps_Value.dump_json env val)

/-! ## The load as a whole -/

namespace Rps_Loader

/-- The first loop of `Rps_Loader::load_all_state_files`:
`for (Rps_Id spacid: ld_spaceset) first_pass_space(spacid)`, on the spaces of
a list in order. -/
def first_pass_spaces (env : Rps_Env) : List Rps_Id → Rps_M Rps_World Unit
  | [] => pure ()
  | spacid :: more => do
    first_pass_space env spacid
    first_pass_spaces env more

end Rps_Loader

/-- The `try` block of `rps_load_from` around a step of the load: an
exception of the step is a fatal error (`RPS_FATALOUT("failed to load ...")`). -/
def rps_load_guarded (step : Rps_M Rps_World Unit) : Rps_M Rps_World Unit :=
  tryCatch step (fun _ => RPS_FATAL "failed to load")

/-! ## Observations used in the statements -/

/-- The keys of `ld_mapobjects`. -/
def Rps_World.loaded_ids (w : Rps_World) : List Rps_Id :=
  w.ld.ld_mapobjects.map Prod.fst

/-- The identifiers of the object starting lines among the lines of a file,
in order. -/
def object_start_ids (lines : List String) : List Rps_Id :=
  lines.filterMap (Rps_Loader.is_object_starting_line Rps_Id.null 0)

/-- The lines of the file that `first_pass_space` and `second_pass_space` read
for a space: the file at `load_real_path(space_file_path(spacid))`, no line
when the path cannot be had. -/
def space_file_lines (env : Rps_Env) (w : Rps_World) (spacid : Rps_Id) : List String :=
  match (Rps_Loader.space_file_path spacid >>= Rps_Loader.load_real_path env) w with
  | .ok spacepath _ => env.file_lines spacepath
  | _ => []

/-- The JSON value that `parse_manifest_file` gets from the manifest file:
the text that `string_of_loaded_file` reads, through `rps_string_to_json`;
nothing when the file cannot be read or its text is not JSON. -/
def manifest_of (env : Rps_Env) (w : Rps_World) : Option Json :=
  match Rps_Loader.string_of_loaded_file env env.manifest_json w with
  | .ok manifstr _ =>
    match env.rps_string_to_json manifstr with
    | .ok jv => some jv
    | .error _ => none
  | _ => none

/-- The strings listed in the array member `key` of a JSON object, as
`asString` reads them. -/
def listed_strings (jv : Json) (key : String) : List String :=
  (jv.get key).elems.filterMap Json.asString

/-! ## Predicates on computations -/

/-- A computation that never changes the state, however it ends. -/
def Rps_M.ReadOnly {σ α : Type} (m : Rps_M σ α) : Prop :=
  ∀ s, (m s).state = s

/-! ## Records, worlds and texts used in the statements -/

/-- The JSON record of an object as the space file holds it: `oid`, `class`,
`mtime`, the array `comps` and the array `attrs` of entries with the members
`at` and `va`. -/
def object_record (objid cls : Rps_Id) (jmtime : Json) (comps : List Json)
    (attrs : List (Rps_Id × Json)) : Json :=
  .obj [("oid", .str objid.to_string), ("class", .str cls.to_string), ("mtime", jmtime),
    ("comps", .arr comps),
    ("attrs", .arr (attrs.map (fun av => .obj [("at", .str av.1.to_string), ("va", av.2)])))]

/-- The world in which the zone of identifier `oid` is changed by `f` and
nothing else is. -/
def Rps_World.with_object (w : Rps_World) (oid : Rps_Id)
    (f : Rps_ObjectZone → Rps_ObjectZone) : Rps_World :=
  { w with heap := w.heap.modify oid f }

/-- The checks of `parse_manifest_file` on the JSON value of the manifest: a
JSON object whose `format` is the format tag and whose `spaceset`,
`globalroots` and `plugins` are arrays. -/
def manifest_wellformed (jv : Json) : Bool :=
  decide (jv.type = JsonType.objectValue)
    && decide ((jv.get "format").asString = some RPS_MANIFEST_FORMAT)
    && decide ((jv.get "spaceset").type = JsonType.arrayValue)
    && decide ((jv.get "globalroots").type = JsonType.arrayValue)
    && decide ((jv.get "plugins").type = JsonType.arrayValue)

/-- The text of lines as the loader gathers them: each line followed by a
newline. -/
def text_of_lines (lines : List String) : String :=
  lines.foldl (fun res linbuf => res ++ linbuf ++ "\n") ""

/-! ## A small store, for the examples -/

/-- Identifier of the space of the examples. -/
def ex_space : Rps_Id := ⟨"_1aaaaaaaaaaaaaaaaa"⟩

/-- Identifier of the class of the examples. -/
def ex_class : Rps_Id := ⟨"_2ccccccccccccccccc"⟩

/-- Identifier of the object of the examples. -/
def ex_obj : Rps_Id := ⟨"_3ooooooooooooooooo"⟩

/-- A loader that has made the skeletons of the three objects of the
examples in its first pass. -/
def ex_loader : Rps_Loader :=
  { Rps_Loader.new "/store" with
    ld_mapobjects := [(ex_space, some ex_space), (ex_class, some ex_class),
      (ex_obj, some ex_obj)] }

/-- The heap after the first pass of the examples: three skeletons. -/
def ex_heap : Rps_Heap :=
  [Rps_ObjectZone.skeleton ex_space, Rps_ObjectZone.skeleton ex_class,
   Rps_ObjectZone.skeleton ex_obj]

/-- The world after the first pass of the examples. -/
def ex_world : Rps_World :=
  { heap := ex_heap, ld := ex_loader, du := Rps_Dumper.new "/store" "tmp" }

/-! ## A store on disk, for the examples -/

/-- The prologue that the example space file declares: two objects in the
space `ex_space`. -/
def ex_prologue : Json :=
  .obj [("format", .str "RefPerSysFormat2019A"), ("nbobjects", .int 2),
    ("spaceid", .str "_1aaaaaaaaaaaaaaaaa")]

/-- The lines of the prologue of the example space file. -/
def ex_prologue_lines : List String :=
  ["///!!! prologue of RefPerSys space file:",
   "\x7b \"format\" : \"RefPerSysFormat2019A\", \"nbobjects\" : 2, \"spaceid\" : \"_1aaaaaaaaaaaaaaaaa\" \x7d"]

/-- The lines of the record of the class in the example space file. -/
def ex_class_lines : List String :=
  ["//+ob_2ccccccccccccccccc",
   "\x7b \"oid\" : \"_2ccccccccccccccccc\", \"class\" : \"_2ccccccccccccccccc\", \"mtime\" : 123.0, \"comps\" : [], \"attrs\" : [] \x7d"]

/-- The lines of the record of the object in the example space file. -/
def ex_obj_lines : List String :=
  ["//+ob_3ooooooooooooooooo",
   "\x7b \"oid\" : \"_3ooooooooooooooooo\", \"class\" : \"_2ccccccccccccccccc\", \"mtime\" : 123.0,",
   "  \"comps\" : [ 7, \"hello\", \"_2ccccccccccccccccc\" ],",
   "  \"attrs\" : [ \x7b \"at\" : \"_2ccccccccccccccccc\", \"va\" : 5 \x7d ] \x7d"]

/-- The lines of the example space file: a prologue and two objects. -/
def ex_space_lines : List String :=
  ex_prologue_lines ++ ex_class_lines ++ ex_obj_lines

/-- The double 123.0. -/
def ex_mtime : Rps_Double := ⟨1230, 1⟩

/-- The JSON record of the class in the example space file. -/
def ex_class_record : Json :=
  object_record ex_class ex_class (.real ex_mtime) [] []

/-- The JSON record of the object in the example space file. -/
def ex_obj_record : Json :=
  object_record ex_obj ex_class (.real ex_mtime)
    [.int 7, .str "hello", .str "_2ccccccccccccccccc"] [(ex_class, .int 5)]

/-- The lines of the example manifest file. -/
def ex_manifest_lines : List String :=
  ["\x7b \"format\" : \"RefPerSysFormat2019A\",",
   "  \"globalroots\" : [ \"_2ccccccccccccccccc\" ],",
   "  \"spaceset\" : [ \"_1aaaaaaaaaaaaaaaaa\" ],",
   "  \"plugins\" : [] \x7d"]

/-- The JSON value of the example manifest file. -/
def ex_manifest : Json :=
  .obj [("format", .str "RefPerSysFormat2019A"),
    ("globalroots", .arr [.str "_2ccccccccccccccccc"]),
    ("spaceset", .arr [.str "_1aaaaaaaaaaaaaaaaa"]),
    ("plugins", .arr [])]

/-- The JSON reader of the examples: it knows the texts of the example store
(the prologue up to the first object starting line, the two records, the
manifest). -/
def ex_string_to_json (str : String) : Except String Json :=
  if str = text_of_lines (ex_prologue_lines ++ ex_class_lines.take 1) then .ok ex_prologue
  else if str = text_of_lines ex_class_lines then .ok ex_class_record
  else if str = text_of_lines ex_obj_lines then .ok ex_obj_record
  else if str = text_of_lines ex_manifest_lines then .ok ex_manifest
  else .error "syntax error"

/-- The files of the example store, by real path. -/
def ex_file_lines (path : String) : List String :=
  if path = "/store/persistore/sp_1aaaaaaaaaaaaaaaaa-rps.json" then ex_space_lines
  else if path = "/store/rps_manifest.json" then ex_manifest_lines
  else []

/-- An environment of the examples: the store is the directory `/store` with
a manifest and the file of the space `ex_space`; no symbol is found by
`dlsym`. -/
def ex_env : Rps_Env :=
  { rps_string_to_json := ex_string_to_json,
    u8_check := fun _ => false,
    access_ok := fun path =>
      path = "/store/persistore/sp_1aaaaaaaaaaaaaaaaa-rps.json"
        || path = "/store/rps_manifest.json",
    realpath := fun path => some path,
    file_lines := ex_file_lines,
    dlsym := fun _ => false,
    dlopen := fun _ => none,
    call_payloader := fun _ _ _ _ _ => pure (),
    todo_run := fun _ => pure (),
    manifest_json := "rps_manifest.json",
    getterfun_pfx := "rpsget",
    applyingfun_pfx := "rpsapply",
    payloading_pfx := "rpsldpy_",
    string_dump_json := fun s => Json.str s,
    double_dump_json := fun d => Json.real d }

/-- A world with a new loader on the directory `/store` and no object. -/
def ex_world0 : Rps_World :=
  { heap := [], ld := Rps_Loader.new "/store", du := Rps_Dumper.new "/store" "tmp" }

/-- An environment in which the file of the space `ex_space` has the prologue
of the example (which declares two objects) and no object at all. -/
def ex_env_noobject : Rps_Env :=
  { ex_env with
    rps_string_to_json := fun str =>
      if str = text_of_lines ex_prologue_lines then .ok ex_prologue else .error "syntax error",
    file_lines := fun path =>
      if path = "/store/persistore/sp_1aaaaaaaaaaaaaaaaa-rps.json" then ex_prologue_lines
      else [] }

/-- A prologue with another format tag and the identifier of another space,
which declares no object. -/
def ex_alien_prologue : Json :=
  .obj [("format", .str "SomeOtherFormat"), ("nbobjects", .int 0),
    ("spaceid", .str "_9zzzzzzzzzzzzzzzzz")]

/-- The lines of a space file with the prologue `ex_alien_prologue` and no
object. -/
def ex_alien_lines : List String :=
  ["\x7b \"format\" : \"SomeOtherFormat\", \"nbobjects\" : 0, \"spaceid\" : \"_9zzzzzzzzzzzzzzzzz\" \x7d"]

/-- An environment in which the file of the space `ex_space` has the lines
`ex_alien_lines`. -/
def ex_env_alien : Rps_Env :=
  { ex_env with
    rps_string_to_json := fun str =>
      if str = text_of_lines ex_alien_lines then .ok ex_alien_prologue
      else .error "syntax error",
    file_lines := fun path =>
      if path = "/store/persistore/sp_1aaaaaaaaaaaaaaaaa-rps.json" then ex_alien_lines
      else [] }

/-- The JSON of an instance of the class `ex_class` without attribute and
without component, as `Rps_InstanceZone::dump_json` names its members. -/
def ex_instance_json : Json :=
  .obj [("vtype", .str "instance"), ("iclass", .str "_2ccccccccccccccccc"),
    ("iattrs", .arr []), ("icomps", .arr [])]

/-- A live heap: the space, the class and the object of the examples, all in
the space `ex_space`; the object has one component, the tuple of the class. -/
def ex_live_heap : Rps_Heap :=
  [{ Rps_ObjectZone.skeleton ex_space with
      ob_class := some ex_class, ob_space := some ex_space, ob_payload := some Rps_Payload.space },
   { Rps_ObjectZone.skeleton ex_class with
      ob_class := some ex_class, ob_space := some ex_space, ob_mtime := ex_mtime },
   { Rps_ObjectZone.skeleton ex_obj with
      ob_class := some ex_class, ob_space := some ex_space, ob_mtime := ex_mtime,
      ob_comps := [Rps_Value.tuple [some ex_class]] }]

/-- The world of a dump of the live heap. -/
def ex_live_world : Rps_World :=
  { heap := ex_live_heap, ld := Rps_Loader.new "/store", du := Rps_Dumper.new "/store" "tmp" }

/-- The JSON that the dumper writes for the tuple of the class. -/
def ex_tuple_json : Json :=
  .obj [("vtype", .str "tuple"), ("comp", .arr [.str "_2ccccccccccccccccc"])]

/-- The record of the object of the live heap, with its component as the
dumper encodes it. -/
def ex_live_record : Json :=
  object_record ex_obj ex_class (.real ex_mtime) [ex_tuple_json] []

/-- The lines of the record of the object of the live heap. -/
def ex_live_lines : List String :=
  ["//+ob_3ooooooooooooooooo",
   "\x7b \"oid\" : \"_3ooooooooooooooooo\", \"class\" : \"_2ccccccccccccccccc\", \"mtime\" : 123.0,",
   "  \"comps\" : [ \x7b \"vtype\" : \"tuple\", \"comp\" : [ \"_2ccccccccccccccccc\" ] \x7d ],",
   "  \"attrs\" : [] \x7d"]

/-- An environment whose JSON reader knows the text of the record of the
object of the live heap. -/
def ex_env_live : Rps_Env :=
  { ex_env with
    rps_string_to_json := fun str =>
      if str = text_of_lines ex_live_lines then .ok ex_live_record else .error "syntax error" }

/-! ## The loader: the todo queue -/

/-- The function `rps_elapsed_real_time`: one read of the clock. -/
def rps_elapsed_real_time (env : Rps_Env) : Rps_M Rps_World Nat :=
  fun w => .ok (env.elapsed_real_time w.clock_reads) { w with clock_reads := w.clock_reads + 1 }

/-- The function `rps_load_add_todo`. -/
def rps_load_add_todo (env : Rps_Env) (todofun : Nat) : Rps_M Rps_World Unit := do
  let now ← rps_elapsed_real_time env
  Rps_Loader.add_todo now todofun

namespace Rps_Loader

/-- The constant `dosteps` of `run_some_todo_functions`. -/
def dosteps : Nat := 24

/-- The constant `doelaps` of `run_some_todo_functions`, 0.05 second, in
nanoseconds. -/
def doelaps : Nat := 50000000

/-- The statements `ld_todoque.pop_front(); if (ld_todocount++ > ld_maxtodo)
RPS_FATALOUT("too many ... loader todo functions");` of
`run_some_todo_functions`: the test reads the counter before its increment. -/
def pop_front_todo : Rps_M Rps_World Unit := do
  let w ← get
  modify (fun w => { w with ld := { w.ld with
    ld_todoque := w.ld.ld_todoque.tail, ld_todocount := w.ld.ld_todocount + 1 } })
  fatalIf (decide (w.ld.ld_todocount > ld_maxtodo)) "too many loader todo functions"

/-- The loop `while (count < dosteps && rps_elapsed_real_time() - startim <
doelaps)` of `run_some_todo_functions` and the final `return
ld_todoque.size()`; the first argument is `dosteps - count`. -/
def run_more_todo_functions (env : Rps_Env) (startim : Nat) : Nat → Rps_M Rps_World Nat
  | 0 => fun w => .ok w.ld.ld_todoque.length w
  | steps + 1 =>
    rps_elapsed_real_time env >>= fun now =>
      if now < startim + doelaps then
        fun w =>
          match w.ld.ld_todoque with
          | [] => .ok 0 w
          | td :: _ =>
            if td.todo_addtime > startim then .ok w.ld.ld_todoque.length w
            else
              (pop_front_todo >>= fun _ =>
                env.todo_run td.todo_fun >>= fun _ =>
                  run_more_todo_functions env startim steps) w
      else
        fun w => .ok w.ld.ld_todoque.length w

/-- The member function `Rps_Loader::run_some_todo_functions`; the result is
the number of entries left in the queue. -/
def run_some_todo_functions (env : Rps_Env) : Rps_M Rps_World Nat :=
  rps_elapsed_real_time env >>= fun startim =>
    fun w =>
      match w.ld.ld_todoque with
      | [] => .ok 0 w
      | td :: _ =>
        (pop_front_todo >>= fun _ =>
          env.todo_run td.todo_fun >>= fun _ =>
            run_more_todo_functions env startim (dosteps - 1)) w

/-- The function `fetch_one_constant_at`. -/
def fetch_one_constant_at (oidstr : String) : Rps_M Rps_World Rps_ObjectRef := do
  let r := Rps_Id.ofCString oidstr.data
  RPS_ASSERT (cstrAt oidstr.data r.2.1 == Char.ofNat 0 && r.2.2)
    "RPS_ASSERT(end && *end==(char)0 && ok)"
  let w ← get
  match w.ld.ld_mapobjects.lookup r.1 with
  | none => pure none
  | some obr => pure obr

/-- The assignment of a global variable that holds an object. -/
def set_global (name : String) (obr : Rps_ObjectRef) : Rps_M Rps_World Unit :=
  modify (fun w => { w with globals := (name, obr) :: w.globals })

/-- The member function `Rps_Loader::initialize_constant_objects`, on the
identifiers of `generated/rps-constants.hh`:
`rpskobOid = fetch_one_constant_at("Oid", __LINE__)` for each. -/
def initialize_constant_objects : List String → Rps_M Rps_World Unit
  | [] => pure ()
  | oidstr :: more => do
    let obr ← fetch_one_constant_at oidstr
    set_global ("rpskob" ++ oidstr) obr
    initialize_constant_objects more

/-- The second loop of `load_all_state_files`:
`for (Rps_Id spacid: ld_spaceset) { run_some_todo_functions();
second_pass_space(spacid); }`, on the spaces of a list in order. -/
def second_pass_spaces (env : Rps_Env) : List Rps_Id → Rps_M Rps_World Unit
  | [] => pure ()
  | spacid :: more => do
    let _ ← run_some_todo_functions env
    second_pass_space env spacid
    second_pass_spaces env more

/-- The last loop of `load_all_state_files`:
`while (run_some_todo_functions()>0) usleep(20);`.  The first argument bounds
the number of turns; the result is false when the bound is reached with the
loop still running. -/
def drain_todo_loop (env : Rps_Env) : Nat → Rps_M Rps_World Bool
  | 0 => pure false
  | fuel + 1 =>
    run_some_todo_functions env >>= fun remaining =>
      if remaining > 0 then drain_todo_loop env fuel else pure true

/-- The member function `Rps_Loader::load_all_state_files`; the first
argument bounds the number of turns of its last loop. -/
def load_all_state_files (env : Rps_Env) (fuel : Nat) : Rps_M Rps_World Bool := do
  let w ← get
  first_pass_spaces env w.ld.ld_spaceset
  initialize_constant_objects env.constants_table
  second_pass_spaces env w.ld.ld_spaceset
  drain_todo_loop env fuel

/-! ## The loader: installation of the roots -/

/-- Modelled from the spec: `rps_add_root_object`, which adds an object to
the set of "GC roots". -/
def rps_add_root_object (obr : Rps_ObjectRef) : Rps_M Rps_World Unit :=
  match obr with
  | some oid => modify (fun w => { w with roots := Rps_Id.setInsert oid w.roots })
  | none => pure ()

/-- The first loop of `load_install_roots`, over the identifiers of
`ld_globrootsidset`. -/
def install_global_roots : List Rps_Id → Rps_M Rps_World Unit
  | [] => pure ()
  | curootid :: more => do
    let w ← get
    let curootobr := w.ld.find_object_by_oid curootid
    RPS_ASSERT curootobr.isSome "RPS_ASSERT(curootobr)"
    rps_add_root_object curootobr
    install_global_roots more

/-- The macro `RPS_INSTALL_ROOT_OB(Oid)` as `load_install_roots` defines it;
a root that is not found is null and gives a warning. -/
def RPS_INSTALL_ROOT_OB (oidstr : String) : Rps_M Rps_World Unit := do
  let r := Rps_Id.ofCString oidstr.data
  RPS_ASSERT (cstrAt oidstr.data r.2.1 == Char.ofNat 0) "RPS_ASSERT(end && *end == (char)0)"
  RPS_ASSERT (r.1.toBool && r.1.valid) "RPS_ASSERT(id && id.valid())"
  let w ← get
  set_global ("RPS_ROOT_OB(" ++ oidstr ++ ")") (w.ld.find_object_by_oid r.1)

/-- The macro `RPS_INSTALL_NAMED_ROOT_OB(Oid,Name)` as `load_install_roots`
defines it; a symbol that is not found is null and gives a warning. -/
def RPS_INSTALL_NAMED_ROOT_OB (oidstr name : String) : Rps_M Rps_World Unit := do
  let r := Rps_Id.ofCString oidstr.data
  RPS_ASSERT (cstrAt oidstr.data r.2.1 == Char.ofNat 0) "RPS_ASSERT(end && *end == (char)0)"
  RPS_ASSERT (r.1.toBool && r.1.valid) "RPS_ASSERT(id && id.valid())"
  let w ← get
  set_global ("RPS_SYMB_OB(" ++ name ++ ")") (w.ld.find_object_by_oid r.1)

/-- The block of `load_install_roots` that includes `generated/rps-roots.hh`. -/
def install_roots_table : List String → Rps_M Rps_World Unit
  | [] => pure ()
  | oidstr :: more => do
    RPS_INSTALL_ROOT_OB oidstr
    install_roots_table more

/-- The block of `load_install_roots` that includes `generated/rps-names.hh`. -/
def install_names_table : List (String × String) → Rps_M Rps_World Unit
  | [] => pure ()
  | entry :: more => do
    RPS_INSTALL_NAMED_ROOT_OB entry.1 entry.2
    install_names_table more

/-- The member function `Rps_Loader::load_install_roots`. -/
def load_install_roots (env : Rps_Env) : Rps_M Rps_World Unit := do
  let w ← get
  install_global_roots w.ld.ld_globrootsidset
  install_roots_table env.roots_table
  install_names_table env.names_table

end Rps_Loader
/-! ## More predicates on computations -/

/-- A computation that keeps the observation `f` of the state, however it
ends. -/
def Rps_M.Keeps {σ α β : Type} (f : σ → β) (m : Rps_M σ α) : Prop :=
  ∀ s, f (m s).state = f s

/-! ## Observations on the loader used in the statements -/

/-- What the two asserts of `RPS_INSTALL_ROOT_OB` and
`RPS_INSTALL_NAMED_ROOT_OB` ask of the text of an identifier: the text is read
to its end and gives a valid identifier. -/
def table_oid_ok (oidstr : String) : Bool :=
  cstrAt oidstr.data (Rps_Id.ofCString oidstr.data).2.1 == Char.ofNat 0
    && ((Rps_Id.ofCString oidstr.data).1.toBool && (Rps_Id.ofCString oidstr.data).1.valid)

/-- The identifier that the text of an entry of a generated table is read
as. -/
def table_oid (oidstr : String) : Rps_Id := (Rps_Id.ofCString oidstr.data).1

/-- The root set after the first loop of `load_install_roots` has added the
objects that the loader finds for the identifiers of a list. -/
def roots_with (ld : Rps_Loader) (ids : List Rps_Id) (roots : List Rps_Id) : List Rps_Id :=
  ids.foldl (fun r id =>
    match ld.find_object_by_oid id with
    | some o => Rps_Id.setInsert o r
    | none => r) roots

/-- The assignments that `load_install_roots` makes for the two generated
tables, the last one first: each variable gets what `find_object_by_oid`
gives, null for an identifier that the loader does not know. -/
def table_globals (env : Rps_Env) (ld : Rps_Loader) : List (String × Rps_ObjectRef) :=
  (env.names_table.map (fun e =>
      ("RPS_SYMB_OB(" ++ e.2 ++ ")", ld.find_object_by_oid (table_oid e.1)))).reverse
    ++ (env.roots_table.map (fun s =>
      ("RPS_ROOT_OB(" ++ s ++ ")", ld.find_object_by_oid (table_oid s)))).reverse

/-! ## Observations on the dumper used in the statements -/

/-- The identifiers of the objects recorded in `du_mapobjects`. -/
def Rps_World.dump_ids (w : Rps_World) : List Rps_Id :=
  w.du.du_mapobjects.map Prod.fst

/-- Whether a reference points to an object that has a space (a null
reference does not). -/
def Rps_Heap.has_space (h : Rps_Heap) (obr : Rps_ObjectRef) : Bool :=
  match obr with
  | some oid => (h.space_of oid).isSome
  | none => false

/-- The references that the block for the metadata of a closure or of an
instance scans. -/
def metadata_refs (metadata : Option (Rps_ObjectRef × Int)) : List Rps_ObjectRef :=
  match metadata with
  | some (metaobr, _) => [metaobr]
  | none => []

mutual

/-- The object references that the traversal rule of the zone of a value
(`dump_scan`) hands to `scan_object`, in order: the object of an object value,
the elements of a set, the components of a tuple; for a closure or an
instance the connective, then the references of its values when the
connective has a space (the test `is_dumpable_objref`), then the object of
the metadata. -/
def Rps_Value.scan_refs (h : Rps_Heap) : Rps_Value → List Rps_ObjectRef
  | .null => []
  | .empty => []
  | .int _ => []
  | .string _ => []
  | .double _ => []
  | .object ob => [some ob]
  | .set elements => elements.map some
  | .tuple comps => comps
  | .closure conn cloenv metadata _ =>
    conn :: ((if h.has_space conn then Rps_Value.scan_refs_list h cloenv else [])
      ++ metadata_refs metadata)
  | .inst conn sons metadata _ =>
    conn :: ((if h.has_space conn then Rps_Value.scan_refs_list h sons else [])
      ++ metadata_refs metadata)

/-- The object references that the traversal rule hands to `scan_object` for
the values of a list, in order. -/
def Rps_Value.scan_refs_list (h : Rps_Heap) : List Rps_Value → List Rps_ObjectRef
  | [] => []
  | val :: more => Rps_Value.scan_refs h val ++ Rps_Value.scan_refs_list h more

end

/-- The references of an attribute map, or of the own methods of a class: for
each entry the key, then the references of the value. -/
def entries_refs (h : Rps_Heap) : List (Rps_Id × Rps_Value) → List Rps_ObjectRef
  | [] => []
  | (key, val) :: more => some key :: (Rps_Value.scan_refs h val ++ entries_refs h more)

/-- The "payload-specific children" of a payload. -/
def Rps_Payload.scan_refs (h : Rps_Heap) : Rps_Payload → List Rps_ObjectRef
  | .classinfo info =>
    info.pclass_super :: info.pclass_symbname ::
      (entries_refs h info.pclass_methdict ++ (info.pclass_attrset.getD []).map some)
  | .symbol _ _ value => Rps_Value.scan_refs h value
  | .space => []
  | .vectob obs => obs
  | .setob obs => obs.map some

/-- Every object recorded in `du_mapobjects` has a space. -/
def Rps_World.dump_ids_have_space (w : Rps_World) : Prop :=
  ∀ x ∈ w.dump_ids, (w.heap.space_of x).isSome = true

/-- What a scan of the references `refs` does between the states `w` and
`w1`: the table of zones is kept; the objects `new` are added to
`du_mapobjects` and, in order, at the end of the scan queue; each of them is
one of `refs`, has a space and was not recorded; and every one of `refs` that
has a space is recorded at the end. -/
def ScanStep (refs : List Rps_ObjectRef) (w w1 : Rps_World) : Prop :=
  w1.heap = w.heap ∧
    ∃ new : List Rps_Id,
      w1.du.du_scanque = w.du.du_scanque ++ new.map some
        ∧ new.Nodup
        ∧ (∀ x, x ∈ w1.dump_ids ↔ x ∈ w.dump_ids ∨ x ∈ new)
        ∧ (∀ x ∈ new, x ∉ w.dump_ids ∧ some x ∈ refs ∧ (w.heap.space_of x).isSome = true)
        ∧ (∀ x, some x ∈ refs → (w.heap.space_of x).isSome = true → x ∈ w1.dump_ids)

/-- What the scan of source text for constants does between the states `w`
and `w1`: the table of zones is kept, `du_mapobjects` only grows, and an
object that has come into `du_constantobset` is a live object which is
recorded in `du_mapobjects` when it has a space. -/
def ConstScan (w w1 : Rps_World) : Prop :=
  w1.heap = w.heap
    ∧ (∀ x ∈ w.dump_ids, x ∈ w1.dump_ids)
    ∧ (∀ c ∈ w1.du.du_constantobset, c ∈ w.du.du_constantobset
        ∨ ((w.heap.find c).isSome = true
            ∧ ((w.heap.space_of c).isSome = true → c ∈ w1.dump_ids)))

/-- The state of `du_spacemap` that `scan_space_component` keeps: the entry of
a space has the identifier of the space, and its set of members is not empty
and is sorted by identifier (so without repetition). -/
def Rps_World.spaces_ok (w : Rps_World) : Prop :=
  ∀ k st, w.du.du_spacemap.lookup k = some st →
    st.sp_id = k ∧ st.sp_setob ≠ []
      ∧ st.sp_setob.Pairwise (fun a b => Rps_Id.lt a b = true)
/-! ## More examples -/

/-- A record of the object of the examples whose `payload` is the string of
the identifier of the class. -/
def ex_payload_record : Json :=
  .obj [("oid", .str "_3ooooooooooooooooo"), ("class", .str "_2ccccccccccccccccc"),
    ("mtime", .real ex_mtime), ("payload", .str "_2ccccccccccccccccc")]

/-- The lines of the record `ex_payload_record`. -/
def ex_payload_lines : List String :=
  ["//+ob_3ooooooooooooooooo",
   "\x7b \"oid\" : \"_3ooooooooooooooooo\", \"class\" : \"_2ccccccccccccccccc\", \"mtime\" : 123.0,",
   "  \"payload\" : \"_2ccccccccccccccccc\" \x7d"]

/-- An environment whose JSON reader knows the text of the record
`ex_payload_record`. -/
def ex_env_payload : Rps_Env :=
  { ex_env with
    rps_string_to_json := fun str =>
      if str = text_of_lines ex_payload_lines then .ok ex_payload_record
      else .error "syntax error" }

/-- An identifier that no object of the examples has. -/
def ex_absent : Rps_Id := ⟨"_4xxxxxxxxxxxxxxxxx"⟩

/-- An environment whose generated tables name the class (a root), an absent
object (a root) and an absent object (a symbol). -/
def ex_env_tables : Rps_Env :=
  { ex_env with
    roots_table := ["_2ccccccccccccccccc", "_4xxxxxxxxxxxxxxxxx"],
    names_table := [("_4xxxxxxxxxxxxxxxxx", "thing")] }

/-- The world after the two passes of the examples, with the manifest's
global roots: the class. -/
def ex_world_roots : Rps_World :=
  { ex_world with ld := { ex_world.ld with ld_globrootsidset := [ex_class] } }

/-- The same world when the manifest lists an absent object among its global
roots, before the class. -/
def ex_world_missing_root : Rps_World :=
  { ex_world with ld := { ex_world.ld with ld_globrootsidset := [ex_absent, ex_class] } }

/-- An environment whose deferred functions only leave a mark, one for each
run, in the list of global variables. -/
def ex_env_counting : Rps_Env :=
  { ex_env with
    todo_run := fun _ => fun w => .ok () { w with globals := ("invoked", none) :: w.globals } }

/-- A new loader whose todo queue holds `n` entries. -/
def ex_world_todo (n : Nat) : Rps_World :=
  { ex_world0 with
    ld := { ex_world0.ld with
      ld_todoque := List.replicate n { todo_addtime := 0, todo_fun := 0 } } }

/-- An environment whose deferred function of code `k + 1` appends the
deferred function of code `k` to the todo queue; the one of code 0 does
nothing. -/
def ex_env_chain : Rps_Env :=
  { ex_env with
    todo_run := fun k => fun w =>
      .ok () (if k = 0 then w
        else { w with ld := { w.ld with
          ld_todoque := w.ld.ld_todoque ++ [{ todo_addtime := 0, todo_fun := k - 1 }] } }) }

/-- A new loader whose todo queue holds the deferred function of code 2. -/
def ex_world_chain : Rps_World :=
  { ex_world0 with
    ld := { ex_world0.ld with ld_todoque := [{ todo_addtime := 0, todo_fun := 2 }] } }

/-- Identifier of a second object of the examples. -/
def ex_second : Rps_Id := ⟨"_5bbbbbbbbbbbbbbbbb"⟩

/-- Identifier of a transient object of the examples. -/
def ex_transient : Rps_Id := ⟨"_6ttttttttttttttttt"⟩

/-- Identifier of an object that only the transient object refers to. -/
def ex_hidden : Rps_Id := ⟨"_7hhhhhhhhhhhhhhhhh"⟩

/-- A heap with a cycle: the object `ex_obj` has the components `ex_second`
and `ex_transient`, and `ex_second` has an attribute whose value is `ex_obj`;
the class is its own class.  `ex_transient` has no space and refers to
`ex_hidden`, which has one. -/
def ex_graph_heap : Rps_Heap :=
  [{ Rps_ObjectZone.skeleton ex_space with
      ob_class := some ex_class, ob_space := some ex_space, ob_payload := some Rps_Payload.space },
   { Rps_ObjectZone.skeleton ex_class with
      ob_class := some ex_class, ob_space := some ex_space },
   { Rps_ObjectZone.skeleton ex_obj with
      ob_class := some ex_class, ob_space := some ex_space,
      ob_comps := [Rps_Value.object ex_second, Rps_Value.object ex_transient] },
   { Rps_ObjectZone.skeleton ex_second with
      ob_class := some ex_class, ob_space := some ex_space,
      ob_attrs := [(ex_class, Rps_Value.object ex_obj)] },
   { Rps_ObjectZone.skeleton ex_transient with
      ob_class := some ex_class, ob_comps := [Rps_Value.object ex_hidden] },
   { Rps_ObjectZone.skeleton ex_hidden with
      ob_class := some ex_class, ob_space := some ex_space }]

/-- The world of a dump of the heap `ex_graph_heap`, with a new dumper. -/
def ex_graph_world : Rps_World :=
  { heap := ex_graph_heap, ld := Rps_Loader.new "/store", du := Rps_Dumper.new "/store" "tmp" }

namespace Rps_Dumper

/-- The member function `Rps_Dumper::scan_object`. -/
def scan_object (obr : Rps_ObjectRef) : Rps_M Rps_World Unit :=
  fun w =>
    match obr with
    | none => .ok () w
    | some oid =>
      if (w.du.du_mapobjects.lookup oid).isSome then .ok () w
      else if (w.heap.space_of oid).isNone then .ok () w
      else .ok () { w with du := { w.du with
        du_mapobjects := Rps_Id.mapInsert oid (some oid) w.du.du_mapobjects,
        du_scanque := w.du.du_scanque ++ [some oid] } }

/-- The loop `for (auto obr: *this) du->scan_object(obr);` of
`Rps_TupleOb::dump_scan` and of `Rps_SetOb::dump_scan`. -/
def scan_objects : List Rps_ObjectRef → Rps_M Rps_World Unit
  | [] => pure ()
  | obr :: more => scan_object obr >>= fun _ => scan_objects more

/-- The member function `Rps_Dumper::scan_space_component`: the entry of the
space is made when there is none, and the component is put in its set. -/
def scan_space_component (obrspace obrcomp : Rps_ObjectRef) : Rps_M Rps_World Unit :=
  RPS_ASSERT obrspace.isSome "RPS_ASSERT(obrspace)" >>= fun _ =>
    RPS_ASSERT obrcomp.isSome "RPS_ASSERT(obrcomp)" >>= fun _ =>
      match obrspace, obrcomp with
      | some spacid, some comp =>
        modify (fun w =>
          let curspa := (w.du.du_spacemap.lookup spacid).getD { sp_id := spacid, sp_setob := [] }
          { w with du := { w.du with
            du_spacemap := Rps_Id.mapPut spacid
              { curspa with sp_setob := Rps_Id.setInsert comp curspa.sp_setob }
              w.du.du_spacemap } })
      | _, _ => pure ()

end Rps_Dumper

/-- The function `rps_dump_scan_object`. -/
def rps_dump_scan_object (obr : Rps_ObjectRef) : Rps_M Rps_World Unit :=
  Rps_Dumper.scan_object obr

/-- The block `if (!is_metatransient()) du->scan_object(metaobject());` of the
scan of a closure or of an instance. -/
def dump_scan_metadata (metadata : Option (Rps_ObjectRef × Int)) : Rps_M Rps_World Unit :=
  match metadata with
  | some (metaobr, _) => Rps_Dumper.scan_object metaobr
  | none => pure ()

mutual

/-- The virtual member function `dump_scan` of the zone of a value
(`val.to_ptr()->dump_scan(du,depth)`): `Rps_ObjectZone::dump_scan`,
`Rps_SetOb::dump_scan`, `Rps_TupleOb::dump_scan`, `Rps_ClosureZone::dump_scan`
and `Rps_InstanceZone::dump_scan`.  The scans of a string and of a double are
not in the sources at hand; such a zone holds no object, and they are taken to
do nothing. -/
def Rps_Value.dump_scan : Rps_Value → Nat → Rps_M Rps_World Unit
  | .null, _ => pure ()
  | .empty, _ => pure ()
  | .int _, _ => pure ()
  | .string _, _ => pure ()
  | .double _, _ => pure ()
  | .object ob, _ => rps_dump_scan_object (some ob)
  | .set elements, _ => Rps_Dumper.scan_objects (elements.map some)
  | .tuple comps, _ => Rps_Dumper.scan_objects comps
  | .closure conn cloenv metadata _, depth =>
    Rps_Dumper.scan_object conn >>= fun _ =>
      Rps_Dumper.is_dumpable_objref conn >>= fun dumpable =>
        whenB dumpable (Rps_Dumper.scan_values cloenv (depth + 1)) >>= fun _ =>
          dump_scan_metadata metadata
  | .inst conn sons metadata _, depth =>
    Rps_Dumper.scan_object conn >>= fun _ =>
      Rps_Dumper.is_dumpable_objref conn >>= fun dumpable =>
        whenB dumpable (Rps_Dumper.scan_values sons (depth + 1)) >>= fun _ =>
          dump_scan_metadata metadata

/-- The loop `for (auto v: *this) du->scan_value(v, depth);` over the values
of a closure or of an instance; the body is `Rps_Dumper::scan_value`. -/
def Rps_Dumper.scan_values : List Rps_Value → Nat → Rps_M Rps_World Unit
  | [], _ => pure ()
  | val :: more, depth =>
    (if val.isNullPtr || val.is_empty || !val.is_ptr then pure ()
     else Rps_Value.dump_scan val depth) >>= fun _ =>
      Rps_Dumper.scan_values more depth

end

/-- The member function `Rps_Dumper::scan_value`. -/
def Rps_Dumper.scan_value (val : Rps_Value) (depth : Nat) : Rps_M Rps_World Unit :=
  if val.isNullPtr || val.is_empty || !val.is_ptr then pure ()
  else Rps_Value.dump_scan val depth

/-- The function `rps_dump_scan_value`. -/
def rps_dump_scan_value (val : Rps_Value) (depth : Nat) : Rps_M Rps_World Unit :=
  Rps_Dumper.scan_value val depth

/-- Modelled from the spec: the scan of the own methods of a class: for each
the selector, then the closure. -/
def Rps_PayloadClassInfo.dump_scan_methods : List (Rps_Id × Rps_Value) → Rps_M Rps_World Unit
  | [] => pure ()
  | (obsel, valclo) :: more =>
    rps_dump_scan_object (some obsel) >>= fun _ =>
      rps_dump_scan_value valclo 1 >>= fun _ =>
        Rps_PayloadClassInfo.dump_scan_methods more

/-- The member function `dump_scan` of a payload, its "payload-specific
children".  `Rps_PayloadSpace::dump_scan` is in `store_rps.cc` and scans
nothing; the others are modelled from the spec: the class information scans
the superclass, the naming symbol, the own methods and the attribute set; the
symbol scans its value; the vector and the set of objects scan their
objects. -/
def Rps_Payload.dump_scan : Rps_Payload → Rps_M Rps_World Unit
  | .classinfo info =>
    rps_dump_scan_object info.pclass_super >>= fun _ =>
      rps_dump_scan_object info.pclass_symbname >>= fun _ =>
        Rps_PayloadClassInfo.dump_scan_methods info.pclass_methdict >>= fun _ =>
          Rps_Dumper.scan_objects ((info.pclass_attrset.getD []).map some)
  | .symbol _ _ value => rps_dump_scan_value value 1
  | .space => pure ()
  | .vectob obs => Rps_Dumper.scan_objects obs
  | .setob obs => Rps_Dumper.scan_objects (obs.map some)

namespace Rps_Dumper

/-- The member function `Rps_Dumper::scan_roots`:
`rps_each_root_object` runs over the root set. -/
def scan_roots : Rps_M Rps_World Unit :=
  fun w => scan_objects (w.roots.map some) w

/-- The function `strstr`: the offset of the first occurrence of `needle` in
the text, if any. -/
def strstr : List Char → List Char → Option Nat
  | [], needle => if needle.isEmpty then some 0 else none
  | c :: cs, needle =>
    if needle.isPrefixOf (c :: cs) then some 0
    else (strstr cs needle).map (fun off => off + 1)

/-- The loop `while ((foundpos = strstr(curpos, RPS_CONSTANTOBJ_PREFIX)) !=
nullptr)` of `scan_cplusplus_source_file_for_constants` on the text from
`curpos` on.  The first argument bounds the number of turns; each turn that
goes on moves `curpos` past an identifier, so the length of the line is
enough. -/
def scan_constants_from (env : Rps_Env) : Nat → List Char → Rps_M Rps_World Unit
  | 0, _ => pure ()
  | fuel + 1, cur =>
    match strstr cur env.constantobj_pfx.data with
    | none => pure ()
    | some off =>
      let after := cur.drop (off + env.constantobj_pfx.length)
      let r := Rps_Id.ofCString after
      if r.2.2 then
        (fun w =>
          match w.heap.find r.1 with
          | some _ =>
            (scan_object (some r.1) >>= fun _ =>
              modify (fun w => { w with du := { w.du with
                du_constantobset := Rps_Id.setInsert r.1 w.du.du_constantobset } })) w
          | none => .ok () w) >>= fun _ =>
          scan_constants_from env fuel (after.drop r.2.1)
      else pure ()

/-- The loop over the lines of `scan_cplusplus_source_file_for_constants`; a
line that is not UTF-8 is skipped. -/
def scan_constants_lines (env : Rps_Env) : List String → Rps_M Rps_World Unit
  | [] => pure ()
  | linbuf :: more =>
    (if env.u8_check linbuf then pure ()
     else scan_constants_from env (linbuf.length + 1) linbuf.data) >>= fun _ =>
      scan_constants_lines env more

end Rps_Dumper
/-! ## The dumper: the files -/

namespace Rps_Dumper

/-- The member function `Rps_Dumper::temporary_opened_path`. -/
def temporary_opened_path (relpath : String) : Rps_M Rps_World String :=
  RPS_ASSERT (decide (relpath.length > 0) && cstrAt relpath.data 0 != '/')
      "RPS_ASSERT(relpath.size()>0 && relpath[0] != '/')" >>= fun _ =>
    fun w => .ok (w.du.du_topdir ++ "/" ++ relpath ++ w.du.du_tempsuffix) w

/-- The member function `Rps_Dumper::open_output_file`.  The stream that it
returns is kept as the path of the temporary file; the text sent to the
stream is gathered by the caller and becomes the file when the stream is
closed. -/
def open_output_file (env : Rps_Env) (relpath : String) : Rps_M Rps_World String :=
  RPS_ASSERT (decide (relpath.length > 1) && cstrAt relpath.data 0 != '/')
      "RPS_ASSERT(relpath.size()>1 && relpath[0] != '/')" >>= fun _ =>
    get >>= fun w =>
      raiseIf (w.du.du_openedpathset.contains relpath)
          ("duplicate opened dump file " ++ relpath) >>= fun _ =>
        temporary_opened_path relpath >>= fun tempathstr =>
          raiseIf (!env.can_open tempathstr) ("duplicate failed to open " ++ tempathstr)
            >>= fun _ =>
            modify (fun w => { w with du := { w.du with
              du_openedpathset := relpath :: w.du.du_openedpathset } }) >>= fun _ =>
              pure tempathstr

/-- The closing of a stream: the lines sent to it are the file. -/
def close_output_file (pouts : String) (out : List String) : Rps_M Rps_World Unit :=
  modify (fun w => { w with files := (pouts, out) :: w.files })

/-- The lines of `rps_emit_gplv3_copyright_notice(out, path, prefix, suffix)`:
each line of the notice between the prefix and the suffix. -/
def notice_lines (env : Rps_Env) (path linprefix linsuffix : String) : List String :=
  (env.gplv3_notice path).map (fun text => linprefix ++ text ++ linsuffix)

/-- The block of `write_space_file` that writes "a comment giving the class
name for readability": the name of the symbol of the class of the object,
when the class has a class information with a symbol that has a symbol
payload. -/
def class_comment_lines (h : Rps_Heap) (curobr : Rps_Id) : List String :=
  match h.find curobr with
  | none => []
  | some ob =>
    match h.classinfo_of ob.ob_class with
    | none => []
    | some classinfo =>
      match classinfo.pclass_symbname with
      | none => []
      | some obsymb =>
        match h.find obsymb with
        | none => []
        | some symbzone =>
          match symbzone.ob_payload with
          | some (Rps_Payload.symbol name _ _) => ["//∈" ++ name]
          | _ => []

/-- The loop `for (auto curobr: curspaset)` of `write_space_file`; the second
argument is the text sent to the stream so far, in lines. -/
def write_space_objects (env : Rps_Env) : List Rps_Id → List String →
    Rps_M Rps_World (List String)
  | [], out => pure out
  | curobr :: more, out =>
    get >>= fun w =>
      env.dump_json_content curobr ((Json.obj []).set "oid" (Json.str curobr.to_string))
        >>= fun jobject =>
        write_space_objects env more
          (out ++ (["", "", "//+ob" ++ curobr.to_string] ++ class_comment_lines w.heap curobr
            ++ env.json_write jobject))

/-- The prologue that `write_space_file` writes for a space with that many
members. -/
def space_prologue (spacid : Rps_Id) (nbobjects : Nat) : Json :=
  (((Json.obj []).set "format" (Json.str RPS_MANIFEST_FORMAT)).set "spaceid"
    (Json.str spacid.to_string)).set "nbobjects" (Json.int nbobjects)

/-- The member function `Rps_Dumper::write_space_file`. -/
def write_space_file (env : Rps_Env) (spacobr : Rps_ObjectRef) : Rps_M Rps_World Unit :=
  get >>= fun w =>
    match spacobr.bind (fun spacid => w.du.du_spacemap.lookup spacid) with
    | none => RPS_FATAL "RPS_ASSERT(curspa)"
    | some curspa =>
      open_output_file env ("persistore/sp" ++ curspa.sp_id.to_string ++ "-rps.json")
        >>= fun pouts =>
        write_space_objects env curspa.sp_setob
            (notice_lines env ("persistore/sp" ++ curspa.sp_id.to_string ++ "-rps.json")
                "//// " ""
              ++ ["", "", "///!!! prologue of RefPerSys space file:"]
              ++ env.json_write (space_prologue curspa.sp_id curspa.sp_setob.length))
          >>= fun out =>
          close_output_file pouts
            (out ++ ["", "", "//// end of RefPerSys generated space file "
              ++ ("persistore/sp" ++ curspa.sp_id.to_string ++ "-rps.json")])

/-- The loop of `write_all_space_files` over the spaces. -/
def write_space_files (env : Rps_Env) : List Rps_Id → Rps_M Rps_World Unit
  | [] => pure ()
  | spacid :: more => write_space_file env (some spacid) >>= fun _ => write_space_files env more

/-- The member function `Rps_Dumper::write_all_space_files`. -/
def write_all_space_files (env : Rps_Env) : Rps_M Rps_World Unit :=
  get >>= fun w => write_space_files env (w.du.du_spacemap.map Prod.fst)

end Rps_Dumper
/-! ## Observations on the files of the dumper -/

/-- The lines that `write_space_file` writes before the first object: the
notice, the comment that announces the prologue, the text of the prologue. -/
def space_file_head (env : Rps_Env) (spacid : Rps_Id) (nbobjects : Nat) : List String :=
  Rps_Dumper.notice_lines env ("persistore/sp" ++ spacid.to_string ++ "-rps.json") "//// " ""
    ++ ["", "", "///!!! prologue of RefPerSys space file:"]
    ++ env.json_write (Rps_Dumper.space_prologue spacid nbobjects)

/-- The lines of a file that the loader takes as object starting lines, in
order. -/
def object_start_lines (lines : List String) : List String :=
  lines.filter (fun l => (Rps_Loader.is_object_starting_line Rps_Id.null 0 l).isSome)

/-- The lines of the file at `path` after the run of `m` from the state `w`:
nothing when the run fails or leaves no such file. -/
def Rps_Dumper.written_file (m : Rps_M Rps_World Unit) (path : String) (w : Rps_World) :
    Option (List String) :=
  match m w with
  | .ok _ w1 => w1.files.lookup path
  | _ => none
/-! ## Examples on the files of the dumper -/

/-- The text of a string or of an integer for the JSON writer of the
examples. -/
def ex_json_scalar : Json → String
  | .str s => "\"" ++ s ++ "\""
  | .int i => toString i
  | .arr es => "[" ++ String.intercalate ", " (es.map (fun e =>
      match e with
      | .str s => "\"" ++ s ++ "\""
      | _ => "null")) ++ "]"
  | _ => "null"

/-- The lines of the members of an object for the JSON writer of the
examples: one line by member, a comma after each but the last. -/
def ex_json_members : List (String × Json) → List String
  | [] => []
  | [kv] => [" \"" ++ kv.1 ++ "\" : " ++ ex_json_scalar kv.2]
  | kv :: rest => (" \"" ++ kv.1 ++ "\" : " ++ ex_json_scalar kv.2 ++ ",") :: ex_json_members rest

/-- A JSON writer for the examples: an object on several lines between
braces, another value on one indented line. -/
def ex_json_write : Json → List String
  | .obj ms => ["\x7b"] ++ ex_json_members ms ++ ["\x7d"]
  | j => [" " ++ ex_json_scalar j]

/-- The environment of a dump with the JSON writer of the examples and a
notice of two lines. -/
def ex_env_writer : Rps_Env :=
  { ex_env with
    json_write := ex_json_write,
    gplv3_notice := fun path => ["generated file " ++ path, "GPLv3+ licensed"] }

/-- A world with a new dumper after the scan of two members of the space
`ex_space`, and a new loader. -/
def ex_dump_world : Rps_World :=
  ((Rps_Dumper.scan_space_component (some ex_space) (some ex_obj) >>= fun _ =>
    Rps_Dumper.scan_space_component (some ex_space) (some ex_class)) ex_world0).state

/-- The lines of the file that the dump of `ex_dump_world` writes for the
space `ex_space`. -/
def ex_written_space_lines : List String :=
  ["//// generated file persistore/sp_1aaaaaaaaaaaaaaaaa-rps.json", "//// GPLv3+ licensed",
    "", "", "///!!! prologue of RefPerSys space file:",
    "\x7b", " \"format\" : \"RefPerSysFormat2019A\",", " \"spaceid\" : \"_1aaaaaaaaaaaaaaaaa\",",
    " \"nbobjects\" : 2", "\x7d",
    "", "", "//+ob_2ccccccccccccccccc", "\x7b", " \"oid\" : \"_2ccccccccccccccccc\"", "\x7d",
    "", "", "//+ob_3ooooooooooooooooo", "\x7b", " \"oid\" : \"_3ooooooooooooooooo\"", "\x7d",
    "", "", "//// end of RefPerSys generated space file persistore/sp_1aaaaaaaaaaaaaaaaa-rps.json"]

/-- The environment of a load after that dump: the file of the space
`ex_space` has the lines `ex_written_space_lines`, and the JSON reader gives
the prologue from the text of its first thirteen lines. -/
def ex_env_reader : Rps_Env :=
  { ex_env_writer with
    file_lines := fun path =>
      if path = "/store/persistore/sp_1aaaaaaaaaaaaaaaaa-rps.json" then ex_written_space_lines
      else [],
    rps_string_to_json := fun str =>
      if str = text_of_lines (ex_written_space_lines.take 13) then
        .ok (.obj [("format", .str "RefPerSysFormat2019A"),
          ("spaceid", .str "_1aaaaaaaaaaaaaaaaa"), ("nbobjects", .int 2)])
      else .error "syntax error" }

/-- A heap where the class of the examples has a class information whose
attribute set holds the object of the examples; all three objects are in the
space `ex_space`. -/
def ex_inst_heap : Rps_Heap :=
  [{ Rps_ObjectZone.skeleton ex_space with
      ob_class := some ex_class, ob_space := some ex_space, ob_payload := some Rps_Payload.space },
   { Rps_ObjectZone.skeleton ex_class with
      ob_class := some ex_class, ob_space := some ex_space,
      ob_payload := some (Rps_Payload.classinfo
        { pclass_super := none, pclass_symbname := none, pclass_methdict := [],
          pclass_attrset := some [ex_obj] }) },
   { Rps_ObjectZone.skeleton ex_obj with
      ob_class := some ex_class, ob_space := some ex_space }]

/-- The world of a dump of `ex_inst_heap`. -/
def ex_inst_world : Rps_World :=
  { heap := ex_inst_heap, ld := Rps_Loader.new "/store", du := Rps_Dumper.new "/store" "tmp" }

/-- An instance of the class of the examples with two sons: the value 7 of
its one attribute and the component 8. -/
def ex_instance : Rps_Value :=
  .inst (some ex_class) [.int 7, .int 8] none false
/-! ## The lexer of quoted string literals (`lexer_rps.cc`) -/

/-- The functions of the C library that `lex_quoted_literal_string` calls:
`sscanf(text, "%0Nx%n", &c, &p)` (the number read and the count `p` of
characters read, nothing when no number is read), `u8_uctomb` (the bytes of
the character, none when it fails) and `u8_mblen` on a text and a length. -/
structure Rps_LexEnv where
  sscanf_hex : Nat → List Char → Option (Nat × Nat)
  u8_uctomb : Nat → List Char
  u8_mblen : List Char → Nat → Int

/-- The variables of `lex_quoted_literal_string`: the offset of `curp` in the
line, the column `toksrc_col` and the string `rstr`. -/
structure Rps_LexState where
  curp : Nat
  toksrc_col : Nat
  rstr : List Char

/-- The outcome of one turn of the loop of `lex_quoted_literal_string`. -/
inductive Rps_LexStep where
  | returned (rstr : List Char) (toksrc_col : Nat)
  | lexical_error (what : String)
  | continues (st : Rps_LexState)

/-- The outcome of `lex_quoted_literal_string`: the string returned and the
column after it, an exception, a failed assertion, or the state of a loop
that is still running when the fuel of the model is spent. -/
inductive Rps_LexResult where
  | returned (rstr : List Char) (toksrc_col : Nat)
  | lexical_error (what : String)
  | assert_failed
  | out_of_fuel (st : Rps_LexState)

/-- The character that a backslash followed by `nextch` stands for, for the
escapes of one character of the `switch` of `lex_quoted_literal_string`. -/
def simple_escape_char (nextch : Char) : Option Char :=
  if nextch == '\'' || nextch == '"' || nextch == '\\' then some nextch
  else if nextch == 'a' then some (Char.ofNat 7)
  else if nextch == 'b' then some (Char.ofNat 8)
  else if nextch == 'f' then some (Char.ofNat 12)
  else if nextch == 'e' then some (Char.ofNat 27)
  else if nextch == 'n' then some (Char.ofNat 10)
  else if nextch == 'r' then some (Char.ofNat 13)
  else if nextch == 't' then some (Char.ofNat 9)
  else if nextch == 'v' then some (Char.ofNat 11)
  else none

namespace Rps_TokenSource

/-- The branch of a backslash followed by a character that stands for one
character: `rstr.push_back(...); toksrc_col += 2; continue;`.  The pointer
`curp` is not moved. -/
def lex_simple_escape (st : Rps_LexState) (c : Char) : Rps_LexStep :=
  .continues { st with rstr := st.rstr ++ [c], toksrc_col := st.toksrc_col + 2 }

/-- The `switch (nextch)` of `lex_quoted_literal_string` after a
backslash: the escapes of one character, then `x`, `u` and `U`. -/
def lex_backslash (lenv : Rps_LexEnv) (linebuf : List Char) (st : Rps_LexState) :
    Rps_LexStep :=
  let nextch := cstrAt linebuf (st.curp + 1)
  match simple_escape_char nextch with
  | some c => lex_simple_escape st c
  | none =>
    if nextch == 'x' then
      match lenv.sscanf_hex 2 (linebuf.drop (st.curp + 2)) with
      | some (c, p) =>
        if p > 0 then
          .continues { st with rstr := st.rstr ++ [Char.ofNat (c % 256)],
                               toksrc_col := st.toksrc_col + (p + 2) }
        else .lexical_error "lexical bad backslash escape"
      | none => .lexical_error "lexical bad backslash escape"
    else if nextch == 'u' || nextch == 'U' then
      match lenv.sscanf_hex (if nextch == 'u' then 4 else 8) (linebuf.drop (st.curp + 2)) with
      | some (c, p) =>
        if p > 0 then
          if (lenv.u8_uctomb c).length > 0 then
            .continues { st with rstr := st.rstr ++ lenv.u8_uctomb c,
                                 toksrc_col := st.toksrc_col + (p + (lenv.u8_uctomb c).length) }
          else .lexical_error "lexical bad backslash escape"
        else .lexical_error "lexical bad backslash escape"
      | none => .lexical_error "lexical bad backslash escape"
    else .lexical_error "lexical bad backslash escape"

/-- One turn of the loop `while ((curch=(*curp)) != (char)0)` of
`lex_quoted_literal_string`; `eol` is the offset of the end of the line.  When
the loop ends on the zero character the control reaches the label
`lexical_error_backslash`. -/
def lex_turn (lenv : Rps_LexEnv) (linebuf : List Char) (eol : Nat) (st : Rps_LexState) :
    Rps_LexStep :=
  let curch := cstrAt linebuf st.curp
  if curch == Char.ofNat 0 then .lexical_error "lexical bad backslash escape"
  else if curch == '"' then .returned st.rstr (st.toksrc_col + 1)
  else if curch == '\\' then lex_backslash lenv linebuf st
  else if decide (curch.toNat ≥ 32) && decide (curch.toNat < 127) then
    .continues { curp := st.curp + 1, toksrc_col := st.toksrc_col + 1,
                 rstr := st.rstr ++ [curch] }
  else
    let l := lenv.u8_mblen (linebuf.drop st.curp) (eol - st.curp)
    if l > 0 then
      .continues { curp := st.curp + l.toNat, toksrc_col := st.toksrc_col + l.toNat,
                   rstr := st.rstr ++ (linebuf.drop st.curp).take l.toNat }
    else .lexical_error "lexical error"

/-- The loop of `lex_quoted_literal_string`, with fuel. -/
def lex_loop (lenv : Rps_LexEnv) (linebuf : List Char) (eol : Nat) :
    Nat → Rps_LexState → Rps_LexResult
  | 0, st => .out_of_fuel st
  | fuel + 1, st =>
    match lex_turn lenv linebuf eol st with
    | .returned rstr col => .returned rstr col
    | .lexical_error what => .lexical_error what
    | .continues st1 => lex_loop lenv linebuf eol fuel st1

/-- The member function `Rps_TokenSource::lex_quoted_literal_string` on the
line `toksrc_linebuf` at the column `toksrc_col`, with fuel for its loop.
Modelled from the spec: `curcptr()`, the pointer to the character of the
line at the current column. -/
def lex_quoted_literal_string (lenv : Rps_LexEnv) (toksrc_linebuf : List Char)
    (toksrc_col : Nat) (fuel : Nat) : Rps_LexResult :=
  if cstrAt toksrc_linebuf toksrc_col != '"' then .assert_failed
  else
    lex_loop lenv toksrc_linebuf (toksrc_col + (toksrc_linebuf.length - toksrc_col)) fuel
      { curp := toksrc_col + 1, toksrc_col := toksrc_col + 1, rstr := [] }

end Rps_TokenSource

/-- A library for the examples of the lexer: hexadecimal numbers are not
read, a character is one byte. -/
def ex_lexenv : Rps_LexEnv :=
  { sscanf_hex := fun _ _ => none, u8_uctomb := fun c => [Char.ofNat c],
    u8_mblen := fun _ _ => 1 }
/-! ## The scan of code addresses (`Rps_Dumper::scan_code_addr`) -/

/-- The scan set `[a-zA-Z0-9]` of the format of `scan_code_addr`. -/
def in_scanset_alnum (c : Char) : Bool :=
  (97 ≤ c.toNat && c.toNat ≤ 122) || (65 ≤ c.toNat && c.toNat ≤ 90)
    || (48 ≤ c.toNat && c.toNat ≤ 57)

/-- The call `sscanf(text, "rps_%19[a-zA-Z0-9]-mod.so%n", idbuf, &endpos)`:
the count of conversions that it returns (0 when the text does not start
with `rps_` followed by a character of the scan set), the characters put in
`idbuf` (at most 19) and `endpos`, which stays -1 unless the text goes on
with `-mod.so`. -/
def sscanf_rps_mod (text : List Char) : Int × List Char × Int :=
  if text.take 4 != ['r', 'p', 's', '_'] then (0, [], -1)
  else
    let idbuf := ((text.drop 4).take 19).takeWhile in_scanset_alnum
    if idbuf.isEmpty then (0, [], -1)
    else if ((text.drop 4).drop idbuf.length).take 7 == ['-', 'm', 'o', 'd', '.', 's', 'o'] then
      (1, idbuf, ((4 + idbuf.length + 7 : Nat) : Int))
    else (1, idbuf, -1)

/-- The call `strrchr(text, '/')`: the text after the last slash, nothing
when the text has no slash. -/
def after_last_slash : List Char → Option (List Char)
  | [] => none
  | c :: rest =>
    match after_last_slash rest with
    | some tl => some tl
    | none => if c == '/' then some rest else none

namespace Rps_Dumper

/-- The member function `Rps_Dumper::scan_code_addr`; the address is a
number, zero for the null pointer. -/
def scan_code_addr (env : Rps_Env) (ad : Nat) : Rps_M Rps_World Unit :=
  if ad == 0 then pure ()
  else
    match env.dladdr ad with
    | none => pure ()
    | some dli_fname =>
      match after_last_slash dli_fname.data with
      | none => pure ()
      | some basename =>
        let r := sscanf_rps_mod basename
        if decide (r.1 ≥ 1) && decide (r.2.2 > 20) then
          let plugid := Rps_Id.ofCString r.2.1
          if plugid.1.valid && cstrAt r.2.1 plugid.2.1 == Char.ofNat 0 && plugid.2.2 then
            get >>= fun w =>
              match w.heap.find plugid.1 with
              | none => pure ()
              | some _ =>
                if w.du.du_pluginobset.contains plugid.1 then pure ()
                else
                  modify (fun w => { w with du := { w.du with
                    du_pluginobset := Rps_Id.setInsert plugid.1 w.du.du_pluginobset } })
                    >>= fun _ => scan_object (some plugid.1)
          else pure ()
        else pure ()

end Rps_Dumper

/-- The function `rps_dump_scan_code_addr`. -/
def rps_dump_scan_code_addr (env : Rps_Env) (ad : Nat) : Rps_M Rps_World Unit :=
  if ad != 0 then Rps_Dumper.scan_code_addr env ad else pure ()
/-! ## Reads of a line, checked -/

/-- The read `linbuf[i]` of a `std::string`: the character, with the
terminating zero at the index `size`; nothing for an index beyond `size`,
where the read is not defined. -/
def checked_at (cs : List Char) (i : Nat) : Option Char :=
  if i ≤ cs.length then some (cstrAt cs i) else none

namespace Rps_Loader

/-- The member function `Rps_Loader::is_object_starting_line` with its reads
of the line checked and with the identifier that it stores through `pobid`:
the value returned and `*pobid`, or nothing when a read goes beyond the
size of the line.  `*pobid` is set to `Rps_Id(nullptr)` first and to the
identifier only before `return true`. -/
def is_object_starting_line_checked (linbuf : String) : Option (Bool × Rps_Id) :=
  let cs := linbuf.data
  match checked_at cs 0 with
  | none => none
  | some c0 =>
    if c0 != '/' then some (false, Rps_Id.null) else
    match checked_at cs 1 with
    | none => none
    | some c1 =>
      if c1 != '/' then some (false, Rps_Id.null) else
      match checked_at cs 2 with
      | none => none
      | some c2 =>
        if c2 != '+' then some (false, Rps_Id.null) else
        match checked_at cs 3 with
        | none => none
        | some c3 =>
          if c3 != 'o' then some (false, Rps_Id.null) else
          match checked_at cs 4 with
          | none => none
          | some c4 =>
            if c4 != 'b' then some (false, Rps_Id.null)
            else if cs.length < "//+ob".length + Rps_Id.nbchars then some (false, Rps_Id.null)
            else
              let r := Rps_Id.ofCString (cs.drop "//+ob".length)
              match checked_at cs ("//+ob".length + r.2.1) with
              | none => none
              | some endc =>
                if endc != Char.ofNat 0 && !isspace endc then some (false, Rps_Id.null)
                else if !r.2.2 then some (false, Rps_Id.null)
                else if !r.1.valid then some (false, Rps_Id.null)
                else some (true, r.1)

end Rps_Loader
/-! ## The todo queue, with the trace of the entries invoked -/

namespace Rps_Loader

end Rps_Loader

/-- A call of `parse_json_buffer_second_pass`: the line number and the
identifier of the object starting line, the buffer, and the count of objects
so far. -/
structure second_pass_call where
  lineno : Nat
  objid : Rps_Id
  objbuf : String
  count : Nat

/-- Whether a line begins with the character `#`. -/
def begins_with_hash (linbuf : String) : Bool :=
  decide (linbuf.length > 0) && cstrAt linbuf.data 0 == '#'

/-- The buffer of an object, in the words of the description: the start
line followed by the lines up to the next start line or the end of the file,
except those beginning with `#`; each line is ended by a newline. -/
def spec_record_buffer (start : String) (following : List String) : String :=
  ((following.takeWhile
      (fun l => (Rps_Loader.is_object_starting_line Rps_Id.null 0 l).isNone)).filter
    (fun l => !begins_with_hash l)).foldl (fun res l => res ++ l ++ "\n") (start ++ "\n")

/-- The calls of the second pass on the lines of a file, in the words of the
description: one for each object starting line, in the order of the file;
`lineno` lines and `count` objects come before these lines. -/
def spec_second_pass_calls (lineno count : Nat) : List String → List second_pass_call
  | [] => []
  | linbuf :: more =>
    match Rps_Loader.is_object_starting_line Rps_Id.null 0 linbuf with
    | some oid =>
      { lineno := lineno + 1, objid := oid, objbuf := spec_record_buffer linbuf more,
        count := count + 1 } :: spec_second_pass_calls (lineno + 1) (count + 1) more
    | none => spec_second_pass_calls (lineno + 1) count more

namespace Rps_Loader

/-- The guarded calls of `parse_json_buffer_second_pass` of a list, one after
the other. -/
def run_second_pass_calls (env : Rps_Env) (spacid : Rps_Id) :
    List second_pass_call → Rps_M Rps_World Unit
  | [] => pure ()
  | c :: more =>
    second_pass_guarded env spacid c.lineno c.objid c.objbuf c.count >>= fun _ =>
      run_second_pass_calls env spacid more

/-- The end of `second_pass_space`, after its loop: the guarded call for the
last object. -/
def second_pass_end (env : Rps_Env) (spacid : Rps_Id) (loc : second_pass_locals) :
    Rps_M Rps_World Unit :=
  whenB (loc.objbuf.length > 0 && loc.prevoid.toBool && loc.prevlin > 0)
    (second_pass_guarded env spacid loc.prevlin loc.prevoid loc.objbuf loc.obcnt)

end Rps_Loader
/-! ## The directory as a map, and the install of the files of a dump -/

/-- The content of the file of a path in the directory, nothing when there
is no such file. -/
def Rps_World.file_at (w : Rps_World) (path : String) : Option (List String) :=
  w.files.lookup path

/-- The test `!access(path, F_OK)`: the file exists. -/
def fs_access (w : Rps_World) (path : String) : Bool :=
  (w.files.lookup path).isSome

/-- The call `rename(oldpath, newpath)` on the directory as a map from paths
to contents; the result is true when it fails (a nonzero return), which
happens when there is no file at `oldpath`.  Otherwise the file is at
`newpath`, in place of what was there, and no longer at `oldpath`. -/
def fs_rename (oldpath newpath : String) : Rps_M Rps_World Bool :=
  fun w =>
    match w.files.lookup oldpath with
    | none => .ok true w
    | some content =>
      let files1 := (newpath, content) :: w.files.filter (fun kv => kv.1 != oldpath)
      .ok false { w with files := files1 }

namespace Rps_Dumper

/-- The body of the loop of `rename_opened_files` for the final path
`curpath` and the temporary path `tempath`: the backup of one level, then
the rename of the temporary file, whose failure is fatal. -/
def install_opened_file (curpath tempath : String) : Rps_M Rps_World Unit :=
  get >>= fun w =>
    whenB (fs_access w curpath)
      (get >>= fun w1 =>
        whenB (fs_access w1 (curpath ++ "~"))
          (fs_rename (curpath ++ "~") (curpath ++ "~" ++ "~") >>= fun _ => pure ())
          >>= fun _ =>
        fs_rename curpath (curpath ++ "~") >>= fun _ => pure ()) >>= fun _ =>
    fs_rename tempath curpath >>= fun failed =>
      fatalIf failed "dump failed to rename"

/-- One turn of the loop `for (std::string curelpath: du_openedpathset)` of
`rename_opened_files`. -/
def rename_opened_file (curelpath : String) : Rps_M Rps_World Unit :=
  get >>= fun w =>
    temporary_opened_path curelpath >>= fun tempath =>
      install_opened_file (w.du.du_topdir ++ "/" ++ curelpath) tempath

/-- The loop of `rename_opened_files` over the opened paths. -/
def rename_opened_loop : List String → Rps_M Rps_World Unit
  | [] => pure ()
  | curelpath :: more => rename_opened_file curelpath >>= fun _ => rename_opened_loop more

/-- The member function `Rps_Dumper::rename_opened_files`. -/
def rename_opened_files : Rps_M Rps_World Unit :=
  get >>= fun w =>
    rename_opened_loop w.du.du_openedpathset >>= fun _ =>
      modify (fun w => { w with du := { w.du with du_openedpathset := [] } })

end Rps_Dumper

/-- The final path of an opened relative path. -/
def Rps_World.final_path (w : Rps_World) (relpath : String) : String :=
  w.du.du_topdir ++ "/" ++ relpath

/-- The temporary path of an opened relative path. -/
def Rps_World.temp_path (w : Rps_World) (relpath : String) : String :=
  w.du.du_topdir ++ "/" ++ relpath ++ w.du.du_tempsuffix

/-- The paths that the install of an opened relative path reads or writes:
the final path, its two backups and the temporary path. -/
def Rps_World.install_names (w : Rps_World) (relpath : String) : List String :=
  [w.final_path relpath, w.final_path relpath ++ "~", w.final_path relpath ++ "~" ++ "~",
    w.temp_path relpath]

/-- The opened paths for which the install is stated: each passes the
assertion of `temporary_opened_path`, the list has no repetition, the paths
that the installs of two of them read or write are different, and the
temporary path of each is none of its final path and its two backups. -/
def Rps_World.opened_paths_ok (w : Rps_World) (paths : List String) : Prop :=
  (∀ p ∈ paths, (decide (p.length > 0) && cstrAt p.data 0 != '/') = true)
    ∧ paths.Nodup
    ∧ (∀ p ∈ paths, ∀ q ∈ paths, p ≠ q → ∀ a ∈ w.install_names p, a ∉ w.install_names q)
    ∧ ∀ p ∈ paths, w.temp_path p ≠ w.final_path p ∧ w.temp_path p ≠ w.final_path p ++ "~"
        ∧ w.temp_path p ≠ w.final_path p ++ "~" ++ "~"

/-- A world of the examples in which the manifest file and its backup exist
and the dump has written a new manifest under the temporary suffix. -/
def ex_install_world : Rps_World :=
  ((Rps_Dumper.open_output_file ex_env "rps_manifest.json" >>= fun pouts =>
      Rps_Dumper.close_output_file pouts ["new manifest"])
    { ex_world0 with
      files := [("/store/rps_manifest.json", ["old manifest"]),
        ("/store/rps_manifest.json~", ["older manifest"])] }).state

/-- A world of the examples in which two files were opened by the dump, both
exist in the directory, and the temporary file of the second one is not
there, so that its rename fails. -/
def ex_failing_install_world : Rps_World :=
  { ex_world0 with
    du := { ex_world0.du with du_openedpathset := ["rps_manifest.json", "rps_userpref.json"] },
    files := [("/store/rps_manifest.jsontmp", ["new manifest"]),
      ("/store/rps_manifest.json", ["old manifest"]),
      ("/store/rps_userpref.json", ["old preferences"])] }
/-! ## The constants named in source text, and the generated constants file -/

namespace Rps_Dumper

end Rps_Dumper

theorem Rps_M.pure_apply {σ α : Type} (a : α) (s : σ) :
    (pure a : Rps_M σ α) s = Outcome.ok a s := rfl

theorem Rps_M.bind_apply {σ α β : Type} (m : Rps_M σ α) (f : α → Rps_M σ β) (s : σ) :
    (m >>= f) s =
      (match m s with
       | .ok a s1 => f a s1
       | .throw w s1 => .throw w s1
       | .fatal w s1 => .fatal w s1) := rfl


theorem Rps_M.ro_pure {σ α : Type} (a : α) : Rps_M.ReadOnly (pure a : Rps_M σ α) :=
  fun _ => rfl

theorem Rps_M.ro_raise {σ α : Type} (what : String) :
    Rps_M.ReadOnly (Rps_M.raise what : Rps_M σ α) := fun _ => rfl

theorem Rps_M.ro_fatal {σ α : Type} (what : String) :
    Rps_M.ReadOnly (Rps_M.RPS_FATAL what : Rps_M σ α) := fun _ => rfl

theorem Rps_M.ro_get {σ : Type} : Rps_M.ReadOnly (Rps_M.get : Rps_M σ σ) := fun _ => rfl

theorem Rps_M.ro_assert {σ : Type} (cond : Bool) (what : String) :
    Rps_M.ReadOnly (Rps_M.RPS_ASSERT cond what : Rps_M σ Unit) := by
  intro s
  cases cond <;> rfl

theorem Rps_M.ro_ofOption {σ α : Type} (what : String) (o : Option α) :
    Rps_M.ReadOnly (Rps_M.ofOption what o : Rps_M σ α) := by
  intro s
  cases o <;> rfl

theorem Rps_M.ro_bind {σ α β : Type} {m : Rps_M σ α} {f : α → Rps_M σ β}
    (hm : Rps_M.ReadOnly m) (hf : ∀ a, Rps_M.ReadOnly (f a)) : Rps_M.ReadOnly (m >>= f) := by
  intro s
  have h1 := hm s
  show (Rps_M.seq m f s).state = s
  unfold Rps_M.seq
  cases hms : m s with
  | ok a s1 =>
    rw [hms] at h1
    simp only [Outcome.state] at h1
    subst h1
    exact hf a s1
  | throw e s1 => rw [hms] at h1; exact h1
  | fatal e s1 => rw [hms] at h1; exact h1

theorem Rps_M.ro_tryCatch {σ α : Type} {m : Rps_M σ α} {h : String → Rps_M σ α}
    (hm : Rps_M.ReadOnly m) (hh : ∀ e, Rps_M.ReadOnly (h e)) :
    Rps_M.ReadOnly (Rps_M.tryCatch m h) := by
  intro s
  have h1 := hm s
  unfold Rps_M.tryCatch
  cases hms : m s with
  | ok a s1 => rw [hms] at h1; exact h1
  | throw e s1 =>
    rw [hms] at h1
    simp only [Outcome.state] at h1
    subst h1
    exact hh e s1
  | fatal e s1 => rw [hms] at h1; exact h1

theorem Rps_M.ro_ite {σ α : Type} {c : Prop} [Decidable c] {a b : Rps_M σ α}
    (ha : Rps_M.ReadOnly a) (hb : Rps_M.ReadOnly b) :
    Rps_M.ReadOnly (if c then a else b) := by
  split
  · exact ha
  · exact hb

/-- The end of a read-only computation that returns: the state is the one at
the start. -/
theorem Rps_M.ReadOnly.ok_state {σ α : Type} {m : Rps_M σ α} (hm : Rps_M.ReadOnly m)
    {s s1 : σ} {a : α} (h : m s = .ok a s1) : s1 = s := by
  have := hm s
  rw [h] at this
  exact this

theorem Rps_M.bind_eq_ok {σ α β : Type} {m : Rps_M σ α} {f : α → Rps_M σ β} {s s2 : σ}
    {b : β} : (m >>= f) s = .ok b s2 ↔ ∃ a s1, m s = .ok a s1 ∧ f a s1 = .ok b s2 := by
  show Rps_M.seq m f s = .ok b s2 ↔ _
  unfold Rps_M.seq
  cases hms : m s with
  | ok a s1 =>
    constructor
    · intro h; exact ⟨a, s1, rfl, h⟩
    · rintro ⟨a1, s3, h1, h2⟩
      cases h1
      exact h2
  | throw e s1 => simp
  | fatal e s1 => simp

theorem Rps_M.pure_eq_ok {σ α : Type} {a b : α} {s s2 : σ} :
    (pure a : Rps_M σ α) s = .ok b s2 ↔ a = b ∧ s = s2 := by
  show Outcome.ok a s = .ok b s2 ↔ _
  simp

theorem Rps_M.raiseIf_eq_ok {σ : Type} {cond : Bool} {what : String} {s s2 : σ} {u : Unit} :
    (Rps_M.raiseIf cond what : Rps_M σ Unit) s = .ok u s2 ↔ cond = false ∧ s = s2 := by
  cases cond <;> simp [Rps_M.raiseIf]

theorem Rps_M.fatalIf_eq_ok {σ : Type} {cond : Bool} {what : String} {s s2 : σ} {u : Unit} :
    (Rps_M.fatalIf cond what : Rps_M σ Unit) s = .ok u s2 ↔ cond = false ∧ s = s2 := by
  cases cond <;> simp [Rps_M.fatalIf]

theorem Rps_M.assert_eq_ok {σ : Type} {cond : Bool} {what : String} {s s2 : σ} {u : Unit} :
    (Rps_M.RPS_ASSERT cond what : Rps_M σ Unit) s = .ok u s2 ↔ cond = true ∧ s = s2 := by
  cases cond <;> simp [Rps_M.RPS_ASSERT]

theorem Rps_M.get_eq_ok {σ : Type} {s s1 s2 : σ} :
    (Rps_M.get : Rps_M σ σ) s = .ok s1 s2 ↔ s1 = s ∧ s2 = s := by
  simp only [Rps_M.get, Outcome.ok.injEq]
  constructor
  · rintro ⟨rfl, rfl⟩; exact ⟨rfl, rfl⟩
  · rintro ⟨rfl, rfl⟩; exact ⟨rfl, rfl⟩

theorem Rps_M.modify_eq_ok {σ : Type} {f : σ → σ} {s s2 : σ} {u : Unit} :
    (Rps_M.modify f : Rps_M σ Unit) s = .ok u s2 ↔ s2 = f s := by
  simp only [Rps_M.modify, Outcome.ok.injEq, true_and]
  exact eq_comm

theorem Rps_M.ofOption_eq_ok {σ α : Type} {what : String} {o : Option α} {a : α} {s s2 : σ} :
    (Rps_M.ofOption what o : Rps_M σ α) s = .ok a s2 ↔ o = some a ∧ s = s2 := by
  cases o <;> simp [Rps_M.ofOption, Rps_M.ret, Rps_M.raise]

theorem Rps_M.ro_raiseIf {σ : Type} (cond : Bool) (what : String) :
    Rps_M.ReadOnly (Rps_M.raiseIf cond what : Rps_M σ Unit) := by
  intro s
  cases cond <;> rfl

theorem Rps_M.ro_fatalIf {σ : Type} (cond : Bool) (what : String) :
    Rps_M.ReadOnly (Rps_M.fatalIf cond what : Rps_M σ Unit) := by
  intro s
  cases cond <;> rfl

theorem Rps_M.ro_whenB {σ : Type} (cond : Bool) {block : Rps_M σ Unit}
    (hb : Rps_M.ReadOnly block) : Rps_M.ReadOnly (Rps_M.whenB cond block) := by
  intro s
  cases cond
  · rfl
  · exact hb s

theorem Rps_M.raise_not_ok {σ α : Type} (what : String) (s : σ) :
    ((Rps_M.raise what : Rps_M σ α) s).isOk = false := rfl

theorem Rps_M.fatal_not_ok {σ α : Type} (what : String) (s : σ) :
    ((Rps_M.RPS_FATAL what : Rps_M σ α) s).isOk = false := rfl

theorem Rps_M.bind_ok {σ α β : Type} {m : Rps_M σ α} {f : α → Rps_M σ β} {s s1 : σ} {a : α}
    (h : m s = .ok a s1) : (m >>= f) s = f a s1 := by
  show Rps_M.seq m f s = f a s1
  unfold Rps_M.seq
  rw [h]

theorem Rps_M.bind_not_ok {σ α β : Type} {m : Rps_M σ α} {f : α → Rps_M σ β} {s : σ}
    (h : (m s).isOk = false) : ((m >>= f) s).isOk = false := by
  show (Rps_M.seq m f s).isOk = false
  unfold Rps_M.seq
  cases hm : m s with
  | ok a s1 => rw [hm] at h; simp [Outcome.isOk] at h
  | throw e s1 => rfl
  | fatal e s1 => rfl
/-! ## Computations that keep a part of the state -/

theorem Rps_M.keeps_of_ro {σ α β : Type} (f : σ → β) {m : Rps_M σ α}
    (hm : Rps_M.ReadOnly m) : Rps_M.Keeps f m := by
  intro s
  rw [hm s]

theorem Rps_M.keeps_pure {σ α β : Type} (f : σ → β) (a : α) :
    Rps_M.Keeps f (pure a : Rps_M σ α) := fun _ => rfl

theorem Rps_M.keeps_modify {σ β : Type} (f : σ → β) {g : σ → σ} (hg : ∀ s, f (g s) = f s) :
    Rps_M.Keeps f (Rps_M.modify g) := fun s => hg s

theorem Rps_M.keeps_bind {σ α β γ : Type} (f : σ → γ) {m : Rps_M σ α} {k : α → Rps_M σ β}
    (hm : Rps_M.Keeps f m) (hk : ∀ a, Rps_M.Keeps f (k a)) : Rps_M.Keeps f (m >>= k) := by
  intro s
  have h1 := hm s
  show f (Rps_M.seq m k s).state = f s
  unfold Rps_M.seq
  cases hms : m s with
  | ok a s1 =>
    rw [hms] at h1
    simp only [Outcome.state] at h1
    show f (k a s1).state = f s
    rw [hk a s1, h1]
  | throw e s1 => rw [hms] at h1; exact h1
  | fatal e s1 => rw [hms] at h1; exact h1

theorem Rps_M.keeps_tryCatch {σ α γ : Type} (f : σ → γ) {m : Rps_M σ α}
    {h : String → Rps_M σ α} (hm : Rps_M.Keeps f m) (hh : ∀ e, Rps_M.Keeps f (h e)) :
    Rps_M.Keeps f (Rps_M.tryCatch m h) := by
  intro s
  have h1 := hm s
  unfold Rps_M.tryCatch
  cases hms : m s with
  | ok a s1 => rw [hms] at h1; exact h1
  | throw e s1 =>
    rw [hms] at h1
    simp only [Outcome.state] at h1
    show f (h e s1).state = f s
    rw [hh e s1, h1]
  | fatal e s1 => rw [hms] at h1; exact h1

theorem Rps_M.keeps_ite {σ α γ : Type} (f : σ → γ) {c : Prop} [Decidable c] {a b : Rps_M σ α}
    (ha : Rps_M.Keeps f a) (hb : Rps_M.Keeps f b) : Rps_M.Keeps f (if c then a else b) := by
  split
  · exact ha
  · exact hb

theorem Rps_M.keeps_whenB {σ γ : Type} (f : σ → γ) (cond : Bool) {block : Rps_M σ Unit}
    (hb : Rps_M.Keeps f block) : Rps_M.Keeps f (Rps_M.whenB cond block) := by
  intro s
  cases cond
  · rfl
  · exact hb s

/-- The end of a computation that keeps `f` and returns. -/
theorem Rps_M.Keeps.state_eq {σ α γ : Type} {f : σ → γ} {m : Rps_M σ α}
    (hm : Rps_M.Keeps f m) {s s1 : σ} {a : α} (h : m s = .ok a s1) : f s1 = f s := by
  have := hm s
  rw [h] at this
  exact this

theorem Rps_M.whenB_eq_ok {σ : Type} {cond : Bool} {block : Rps_M σ Unit} {s s2 : σ}
    {u : Unit} :
    Rps_M.whenB cond block s = .ok u s2 ↔
      (cond = true ∧ block s = .ok u s2) ∨ (cond = false ∧ s = s2) := by
  cases cond <;> simp [Rps_M.whenB]

/-! ## C3: the value encoder on closures and instances -/

/-- C3 (code at the failing inputs): for every closure value and for every
value that is an instance, in every state of the dumper,
`Rps_Dumper::json_value` and `rps_dump_json_value` stop the process in
`is_dumpable_value` ("partly unimplemented"); no JSON object with a `vtype`
is returned. -/
theorem json_value_closure_instance_fatal (env : Rps_Env) (w : Rps_World)
    (conn : Rps_ObjectRef) (sons : List Rps_Value)
    (metadata : Option (Rps_ObjectRef × Int)) (transient : Bool) :
    Rps_Dumper.json_value env (.closure conn sons metadata transient) w
        = .fatal "Rps_Dumper::is_dumpable_value partly unimplemented" w
      ∧ rps_dump_json_value env (.closure conn sons metadata transient) w
        = .fatal "Rps_Dumper::is_dumpable_value partly unimplemented" w
      ∧ Rps_Dumper.json_value env (.inst conn sons metadata transient) w
        = .fatal "Rps_Dumper::is_dumpable_value partly unimplemented" w
      ∧ rps_dump_json_value env (.inst conn sons metadata transient) w
        = .fatal "Rps_Dumper::is_dumpable_value partly unimplemented" w :=
  ⟨rfl, rfl, rfl, rfl⟩

/-! ## C2: decoding of encoded sets and tuples -/

theorem rps_is_dumpable_objref_ok (obr : Rps_ObjectRef) (w : Rps_World) :
    ∃ b, rps_is_dumpable_objref obr w = .ok b w := by
  cases obr with
  | none => exact ⟨false, rfl⟩
  | some oid =>
    by_cases h1 : (w.du.du_mapobjects.lookup oid).isSome = true
    · exact ⟨true, by
        simp [rps_is_dumpable_objref, Rps_Dumper.is_dumpable_objref, Rps_M.bind_apply,
          Rps_M.get, h1, Rps_M.pure_apply]⟩
    · cases h2 : w.heap.space_of oid with
      | none => exact ⟨false, by
          simp [rps_is_dumpable_objref, Rps_Dumper.is_dumpable_objref, Rps_M.bind_apply,
            Rps_M.get, h1, h2, Rps_M.pure_apply]⟩
      | some sp => exact ⟨true, by
          simp [rps_is_dumpable_objref, Rps_Dumper.is_dumpable_objref, Rps_M.bind_apply,
            Rps_M.get, h1, h2, Rps_M.pure_apply]⟩

theorem rps_dump_json_objectref_ok (obr : Rps_ObjectRef) (w : Rps_World) :
    ∃ j, rps_dump_json_objectref obr w = .ok j w := by
  obtain ⟨b, hb⟩ := rps_is_dumpable_objref_ok obr w
  cases obr with
  | none => exact ⟨Json.null, by simp [rps_dump_json_objectref, Rps_M.bind_apply, hb, Rps_M.pure_apply]⟩
  | some oid =>
    cases b with
    | true => exact ⟨Json.str oid.to_string, by
        simp [rps_dump_json_objectref, Rps_M.bind_apply, hb, Rps_M.pure_apply]⟩
    | false => exact ⟨Json.null, by
        simp [rps_dump_json_objectref, Rps_M.bind_apply, hb, Rps_M.pure_apply]⟩

theorem setob_dump_json_loop_ok (elements : List Rps_Id) :
    ∀ (jvec : Json) (w : Rps_World), ∃ j, Rps_SetOb.dump_json_loop elements jvec w = .ok j w := by
  induction elements with
  | nil => intro jvec w; exact ⟨jvec, rfl⟩
  | cons ob more ih =>
    intro jvec w
    obtain ⟨b, hb⟩ := rps_is_dumpable_objref_ok (some ob) w
    obtain ⟨jo, hjo⟩ := rps_dump_json_objectref_ok (some ob) w
    cases b with
    | true =>
      obtain ⟨j, hj⟩ := ih (jvec.append jo) w
      exact ⟨j, by simp [Rps_SetOb.dump_json_loop, Rps_M.bind_apply, hb, hjo, hj]⟩
    | false =>
      obtain ⟨j, hj⟩ := ih jvec w
      exact ⟨j, by simp [Rps_SetOb.dump_json_loop, Rps_M.bind_apply, hb, hj]⟩

theorem tupleob_dump_json_loop_ok (comps : List Rps_ObjectRef) :
    ∀ (jvec : Json) (ix : Nat) (w : Rps_World),
      ∃ r, Rps_TupleOb.dump_json_loop comps jvec ix w = .ok r w := by
  induction comps with
  | nil => intro jvec ix w; exact ⟨(jvec, ix), rfl⟩
  | cons obr more ih =>
    intro jvec ix w
    obtain ⟨b, hb⟩ := rps_is_dumpable_objref_ok obr w
    obtain ⟨jo, hjo⟩ := rps_dump_json_objectref_ok obr w
    cases b with
    | true =>
      obtain ⟨r, hr⟩ := ih (jvec.setAt ix jo) (ix + 1) w
      exact ⟨r, by simp [Rps_TupleOb.dump_json_loop, Rps_M.bind_apply, hb, hjo, hr]⟩
    | false =>
      obtain ⟨r, hr⟩ := ih jvec ix w
      exact ⟨r, by simp [Rps_TupleOb.dump_json_loop, Rps_M.bind_apply, hb, hr]⟩

theorem ofJson_vtype_set (jvec : Json) (w : Rps_World) :
    Rps_Value.ofJson (.obj [("vtype", .str "set"), ("elem", jvec)]) w = .ok .null w := rfl

theorem ofJson_vtype_tuple (jvec : Json) (w : Rps_World) :
    Rps_Value.ofJson (.obj [("vtype", .str "tuple"), ("comp", jvec)]) w = .ok .null w := rfl

/-- C2 (code on every set and tuple): for every set value and every tuple
value, in every state, `Rps_Dumper::json_value` returns a JSON value, and the
decoder `Rps_Value(Json, Rps_Loader*)` applied to it, in every state of the
loader, returns the null value: the test `siz==2` is made while `siz` is
still zero, so neither collection branch is ever entered. -/
theorem decode_of_encoded_collection_is_null (env : Rps_Env) (w : Rps_World)
    (elements : List Rps_Id) (comps : List Rps_ObjectRef) :
    (∃ j, Rps_Dumper.json_value env (.set elements) w = .ok j w
        ∧ ∀ w2, Rps_Value.ofJson j w2 = .ok .null w2)
      ∧ (∃ j, Rps_Dumper.json_value env (.tuple comps) w = .ok j w
        ∧ ∀ w2, Rps_Value.ofJson j w2 = .ok .null w2) := by
  constructor
  · obtain ⟨jvec, hj⟩ := setob_dump_json_loop_ok elements (Json.arr []) w
    refine ⟨.obj [("vtype", .str "set"), ("elem", jvec)], ?_, fun w2 => ofJson_vtype_set jvec w2⟩
    simp [Rps_Dumper.json_value, Rps_Dumper.json_value_body, Rps_Value.isNullPtr,
      Rps_Value.is_empty, Rps_Value.is_int, Rps_Value.is_ptr, Rps_Dumper.is_dumpable_value,
      Rps_Value.is_string, Rps_Value.is_set, Rps_M.bind_apply, Rps_M.pure_apply,
      Rps_Value.dump_json, Rps_SetOb.dump_json, hj, Json.set, List.lookup]
  · obtain ⟨r, hr⟩ := tupleob_dump_json_loop_ok comps ((Json.arr []).resize comps.length) 0 w
    refine ⟨.obj [("vtype", .str "tuple"), ("comp", r.1.resize r.2)], ?_,
      fun w2 => ofJson_vtype_tuple _ w2⟩
    simp [Rps_Dumper.json_value, Rps_Dumper.json_value_body, Rps_Value.isNullPtr,
      Rps_Value.is_empty, Rps_Value.is_int, Rps_Value.is_ptr, Rps_Dumper.is_dumpable_value,
      Rps_Value.is_string, Rps_Value.is_set, Rps_Value.is_tuple, Rps_M.bind_apply,
      Rps_M.pure_apply, Rps_Value.dump_json, Rps_TupleOb.dump_json, hr, Json.set, List.lookup]

/-! ## C5: identifiers are unique after the first pass -/

theorem lookup_isSome_iff_mem_keys {β : Type} (k : Rps_Id) (l : List (Rps_Id × β)) :
    (l.lookup k).isSome = true ↔ k ∈ l.map Prod.fst := by
  induction l with
  | nil => simp
  | cons kv rest ih =>
    obtain ⟨k1, v1⟩ := kv
    by_cases hk : k = k1
    · subst hk; simp [List.lookup]
    · have hne : (k == k1) = false := by simpa using hk
      simp [List.lookup, hne, ih, hk]

theorem mapInsert_length {β : Type} (k : Rps_Id) (v : β) (l : List (Rps_Id × β))
    (hk : k ∉ l.map Prod.fst) : (Rps_Id.mapInsert k v l).length = l.length + 1 := by
  induction l with
  | nil => simp [Rps_Id.mapInsert]
  | cons kv rest ih =>
    obtain ⟨k1, v1⟩ := kv
    have hne : k ≠ k1 := by intro h; apply hk; simp [h]
    have hrest : k ∉ rest.map Prod.fst := by intro h; apply hk; simp [h]
    by_cases hlt : Rps_Id.lt k k1 = true
    · simp [Rps_Id.mapInsert, hne, hlt]
    · simp [Rps_Id.mapInsert, hne, hlt, ih hrest]

theorem mapInsert_keys_mem {β : Type} (k : Rps_Id) (v : β) (l : List (Rps_Id × β))
    (hk : k ∉ l.map Prod.fst) (x : Rps_Id) :
    x ∈ (Rps_Id.mapInsert k v l).map Prod.fst ↔ x = k ∨ x ∈ l.map Prod.fst := by
  induction l with
  | nil => simp [Rps_Id.mapInsert]
  | cons kv rest ih =>
    obtain ⟨k1, v1⟩ := kv
    have hne : k ≠ k1 := by intro h; apply hk; simp [h]
    have hrest : k ∉ rest.map Prod.fst := by intro h; apply hk; simp [h]
    cases hlt : Rps_Id.lt k k1 with
    | true => simp [Rps_Id.mapInsert, hne, hlt]
    | false =>
      simp only [Rps_Id.mapInsert, hne, hlt, if_false, List.map_cons, List.mem_cons, ih hrest,
        Bool.false_eq_true]
      tauto

theorem first_pass_prologue_ro (env : Rps_Env) (spacid : Rps_Id) (prologstr : String) :
    Rps_M.ReadOnly (Rps_Loader.first_pass_prologue env spacid prologstr) := by
  unfold Rps_Loader.first_pass_prologue
  repeat' first
    | exact Rps_M.ro_pure _
    | exact Rps_M.ro_raise _
    | exact Rps_M.ro_fatal _
    | exact Rps_M.ro_ofOption _ _
    | exact Rps_M.ro_raiseIf _ _
    | exact Rps_M.ro_fatalIf _ _
    | apply Rps_M.ro_ite
    | apply Rps_M.ro_tryCatch
    | apply Rps_M.ro_bind
    | split
    | intro _

theorem is_object_starting_line_args (spacid : Rps_Id) (lineno : Nat) (linbuf : String) :
    Rps_Loader.is_object_starting_line spacid lineno linbuf
      = Rps_Loader.is_object_starting_line Rps_Id.null 0 linbuf := rfl

theorem first_pass_line_ok (env : Rps_Env) (spacid : Rps_Id) (spacepath : String)
    (loc loc1 : Rps_Loader.first_pass_locals) (linbuf : String) (w w1 : Rps_World)
    (h : Rps_Loader.first_pass_line env spacid spacepath loc linbuf w = .ok loc1 w1) :
    w1.ld.ld_topdir = w.ld.ld_topdir ∧
    match Rps_Loader.is_object_starting_line Rps_Id.null 0 linbuf with
    | some curobjid =>
      curobjid ∉ w.loaded_ids
        ∧ w1.ld.ld_mapobjects = Rps_Id.mapInsert curobjid (some curobjid) w.ld.ld_mapobjects
        ∧ loc1.obcnt = loc.obcnt + 1
    | none => w1.ld = w.ld ∧ loc1.obcnt = loc.obcnt ∧ loc1.expectedcnt = loc.expectedcnt := by
  unfold Rps_Loader.first_pass_line at h
  rw [is_object_starting_line_args] at h
  rw [Rps_M.bind_eq_ok] at h
  obtain ⟨u, s1, h1, h⟩ := h
  rw [Rps_M.raiseIf_eq_ok] at h1
  obtain ⟨_, rfl⟩ := h1
  cases hline : Rps_Loader.is_object_starting_line Rps_Id.null 0 linbuf with
  | none =>
    rw [hline] at h
    simp only [Rps_M.pure_eq_ok] at h
    obtain ⟨rfl, rfl⟩ := h
    simp
  | some curobjid =>
    rw [hline] at h
    simp only [] at h
    obtain ⟨expectedcnt, s1, h1, hrest⟩ := Rps_M.bind_eq_ok.mp h
    clear h
    have hs1 : s1 = w := by
      have hro : Rps_M.ReadOnly
          (if (loc.obcnt == 0) = true then
            Rps_Loader.first_pass_prologue env spacid
              (if (loc.obcnt == 0) = true then loc.prologstr ++ linbuf ++ "\n"
               else loc.prologstr)
           else (pure loc.expectedcnt : Rps_M Rps_World Int)) :=
        Rps_M.ro_ite (first_pass_prologue_ro _ _ _) (Rps_M.ro_pure _)
      exact hro.ok_state h1
    subst hs1
    clear h1
    unfold Rps_ObjectZone.make_loaded at hrest
    simp only [Rps_M.bind_eq_ok, Rps_M.get_eq_ok, Rps_M.raiseIf_eq_ok, Rps_M.modify_eq_ok,
      Rps_M.pure_eq_ok] at hrest
    obtain ⟨obref, s2, ⟨_, s3, rfl, rfl, rfl⟩, w2, s4, ⟨rfl, rfl⟩, _, s5, ⟨hlook, rfl⟩,
      _, s6, rfl, rfl, rfl⟩ := hrest
    refine ⟨rfl, ?_, rfl, rfl⟩
    intro hmem
    have : (List.lookup curobjid s1.ld.ld_mapobjects).isSome = true :=
      (lookup_isSome_iff_mem_keys _ _).mpr hmem
    simp [this] at hlook

theorem first_pass_lines_ok (env : Rps_Env) (spacid : Rps_Id) (spacepath : String)
    (lines : List String) :
    ∀ (loc loc1 : Rps_Loader.first_pass_locals) (w w1 : Rps_World),
      Rps_Loader.first_pass_lines env spacid spacepath lines loc w = .ok loc1 w1 →
      w1.ld.ld_topdir = w.ld.ld_topdir
        ∧ (object_start_ids lines).Nodup
        ∧ (∀ x ∈ object_start_ids lines, x ∉ w.loaded_ids)
        ∧ (∀ x, x ∈ w1.loaded_ids ↔ x ∈ w.loaded_ids ∨ x ∈ object_start_ids lines)
        ∧ w1.loaded_ids.length = w.loaded_ids.length + (object_start_ids lines).length
        ∧ loc1.obcnt = loc.obcnt + (object_start_ids lines).length := by
  induction lines with
  | nil =>
    intro loc loc1 w w1 h
    simp only [Rps_Loader.first_pass_lines, Rps_M.pure_eq_ok] at h
    obtain ⟨rfl, rfl⟩ := h
    simp [object_start_ids]
  | cons linbuf more ih =>
    intro loc loc1 w w1 h
    simp only [Rps_Loader.first_pass_lines, Rps_M.bind_eq_ok] at h
    obtain ⟨loc2, w2, hline, hmore⟩ := h
    obtain ⟨htop2, hstep⟩ := first_pass_line_ok env spacid spacepath loc loc2 linbuf w w2 hline
    obtain ⟨htop, hnd, hfresh, hmem, hlen, hcnt⟩ := ih loc2 loc1 w2 w1 hmore
    cases hl : Rps_Loader.is_object_starting_line Rps_Id.null 0 linbuf with
    | none =>
      rw [hl] at hstep
      obtain ⟨hld, hobc, _⟩ := hstep
      have hids : object_start_ids (linbuf :: more) = object_start_ids more := by
        simp [object_start_ids, List.filterMap_cons, hl]
      have hkeys : w2.loaded_ids = w.loaded_ids := by simp [Rps_World.loaded_ids, hld]
      rw [hids]
      rw [hkeys] at hfresh hmem hlen
      exact ⟨htop.trans htop2, hnd, hfresh, hmem, hlen, by rw [hcnt, hobc]⟩
    | some curobjid =>
      rw [hl] at hstep
      obtain ⟨hnew, hmap, hobc⟩ := hstep
      have hids : object_start_ids (linbuf :: more) = curobjid :: object_start_ids more := by
        simp [object_start_ids, List.filterMap_cons, hl]
      have hnew' : curobjid ∉ w.ld.ld_mapobjects.map Prod.fst := hnew
      have hkmem : ∀ x, x ∈ w2.loaded_ids ↔ x = curobjid ∨ x ∈ w.loaded_ids := by
        intro x
        simp only [Rps_World.loaded_ids, hmap]
        exact mapInsert_keys_mem curobjid (some curobjid) _ hnew' x
      have hklen : w2.loaded_ids.length = w.loaded_ids.length + 1 := by
        simp only [Rps_World.loaded_ids, hmap, List.length_map]
        exact mapInsert_length curobjid (some curobjid) _ hnew'
      rw [hids]
      refine ⟨htop.trans htop2, ?_, ?_, ?_, ?_, ?_⟩
      · rw [List.nodup_cons]
        refine ⟨?_, hnd⟩
        intro hin
        exact hfresh curobjid hin ((hkmem curobjid).mpr (Or.inl rfl))
      · intro x hx
        rcases List.mem_cons.mp hx with rfl | hx
        · exact hnew
        · intro hxw
          exact hfresh x hx ((hkmem x).mpr (Or.inr hxw))
      · intro x
        rw [hmem x, hkmem x, List.mem_cons]
        tauto
      · rw [hlen, hklen, List.length_cons]; omega
      · rw [hcnt, hobc, List.length_cons]; omega

theorem load_real_path_ro (env : Rps_Env) (path : String) :
    Rps_M.ReadOnly (Rps_Loader.load_real_path env path) := by
  unfold Rps_Loader.load_real_path
  repeat' first
    | exact Rps_M.ro_pure _
    | exact Rps_M.ro_raise _
    | exact Rps_M.ro_get
    | exact Rps_M.ro_raiseIf _ _
    | apply Rps_M.ro_ite
    | apply Rps_M.ro_bind
    | split
    | intro _

theorem space_file_path_ro (spacid : Rps_Id) :
    Rps_M.ReadOnly (Rps_Loader.space_file_path spacid) := by
  unfold Rps_Loader.space_file_path
  exact Rps_M.ro_bind (Rps_M.ro_raiseIf _ _) (fun _ => Rps_M.ro_pure _)

theorem load_real_path_topdir (env : Rps_Env) (path : String) (w w2 : Rps_World)
    (htop : w2.ld.ld_topdir = w.ld.ld_topdir) :
    (Rps_Loader.load_real_path env path w2).result?
      = (Rps_Loader.load_real_path env path w).result? := by
  unfold Rps_Loader.load_real_path
  simp only [Rps_M.bind_apply, Rps_M.get, htop]
  cases (decide (path.length > 2) && cstrAt path.data 0 == '/') with
  | true =>
    simp only [if_true, Rps_M.bind_apply, Rps_M.raiseIf]
    cases (!env.access_ok path) with
    | true => rfl
    | false =>
      simp only [Bool.false_eq_true, if_false]
      cases env.realpath path <;> rfl
  | false =>
    simp only [Bool.false_eq_true, if_false]
    cases env.access_ok (w.ld.ld_topdir ++ "/" ++ path) with
    | true =>
      simp only [if_true]
      cases env.realpath (w.ld.ld_topdir ++ "/" ++ path) <;> rfl
    | false => rfl

theorem space_file_lines_topdir (env : Rps_Env) (spacid : Rps_Id) (w w2 : Rps_World)
    (htop : w2.ld.ld_topdir = w.ld.ld_topdir) :
    space_file_lines env w2 spacid = space_file_lines env w spacid := by
  have key : ∀ (v : Rps_World),
      space_file_lines env v spacid =
        (if spacid.valid then
          match (Rps_Loader.load_real_path env
              ("persistore/sp" ++ spacid.to_string ++ "-rps.json") v).result? with
          | some spacepath => env.file_lines spacepath
          | none => []
         else []) := by
    intro v
    unfold space_file_lines Rps_Loader.space_file_path
    simp only [Rps_M.bind_apply, Rps_M.raiseIf]
    cases hv : spacid.valid with
    | false => simp
    | true =>
      simp only [Bool.not_true, Bool.false_eq_true, if_false, Rps_M.pure_apply, if_true]
      cases hp : Rps_Loader.load_real_path env
          ("persistore/sp" ++ spacid.to_string ++ "-rps.json") v <;> simp [Outcome.result?]
  rw [key w2, key w, load_real_path_topdir env _ w w2 htop]

theorem first_pass_space_ok (env : Rps_Env) (spacid : Rps_Id) (w w1 : Rps_World)
    (h : Rps_Loader.first_pass_space env spacid w = .ok () w1) :
    w1.ld.ld_topdir = w.ld.ld_topdir
      ∧ (object_start_ids (space_file_lines env w spacid)).Nodup
      ∧ (∀ x ∈ object_start_ids (space_file_lines env w spacid), x ∉ w.loaded_ids)
      ∧ (∀ x, x ∈ w1.loaded_ids ↔
          x ∈ w.loaded_ids ∨ x ∈ object_start_ids (space_file_lines env w spacid))
      ∧ w1.loaded_ids.length
          = w.loaded_ids.length + (object_start_ids (space_file_lines env w spacid)).length := by
  unfold Rps_Loader.first_pass_space at h
  obtain ⟨relpath, s1, h1, hr1⟩ := Rps_M.bind_eq_ok.mp h
  obtain ⟨spacepath, s2, h2, hr2⟩ := Rps_M.bind_eq_ok.mp hr1
  obtain ⟨loc, s3, h3, hr3⟩ := Rps_M.bind_eq_ok.mp hr2
  obtain ⟨_, s4, h4, hr4⟩ := Rps_M.bind_eq_ok.mp hr3
  obtain ⟨_, rfl⟩ := Rps_M.raiseIf_eq_ok.mp h4
  obtain ⟨_, rfl⟩ := Rps_M.pure_eq_ok.mp hr4
  have hs1 : s1 = w := (space_file_path_ro spacid).ok_state h1
  subst hs1
  have hs2 : s2 = s1 := (load_real_path_ro env relpath).ok_state h2
  subst hs2
  have hlines : space_file_lines env s2 spacid = env.file_lines spacepath := by
    unfold space_file_lines
    rw [Rps_M.bind_eq_ok.mpr ⟨relpath, s2, h1, h2⟩]
  rw [hlines]
  obtain ⟨htop, hnd, hfresh, hmem, hlen, _⟩ :=
    first_pass_lines_ok env spacid spacepath _ _ _ _ _ h3
  exact ⟨htop, hnd, hfresh, hmem, hlen⟩

/-- The identifiers of the object starting lines of the files of a list of
spaces, file after file. -/
theorem first_pass_spaces_ok (env : Rps_Env) (spaceids : List Rps_Id) :
    ∀ (w w1 : Rps_World), Rps_Loader.first_pass_spaces env spaceids w = .ok () w1 →
      w1.ld.ld_topdir = w.ld.ld_topdir
        ∧ (spaceids.map (fun sp => object_start_ids (space_file_lines env w sp))).flatten.Nodup
        ∧ (∀ x ∈ (spaceids.map (fun sp => object_start_ids (space_file_lines env w sp))).flatten,
            x ∉ w.loaded_ids)
        ∧ (∀ x, x ∈ w1.loaded_ids ↔ x ∈ w.loaded_ids
            ∨ x ∈ (spaceids.map (fun sp => object_start_ids (space_file_lines env w sp))).flatten)
        ∧ w1.loaded_ids.length = w.loaded_ids.length
            + (spaceids.map (fun sp => object_start_ids (space_file_lines env w sp))).flatten.length := by
  induction spaceids with
  | nil =>
    intro w w1 h
    simp only [Rps_Loader.first_pass_spaces, Rps_M.pure_eq_ok] at h
    obtain ⟨_, rfl⟩ := h
    simp
  | cons spacid more ih =>
    intro w w1 h
    simp only [Rps_Loader.first_pass_spaces, Rps_M.bind_eq_ok] at h
    obtain ⟨_, w2, hfirst, hmore⟩ := h
    obtain ⟨htop2, hnd2, hfresh2, hmem2, hlen2⟩ := first_pass_space_ok env spacid w w2 hfirst
    obtain ⟨htop, hnd, hfresh, hmem, hlen⟩ := ih w2 w1 hmore
    have hsame : (more.map (fun sp => object_start_ids (space_file_lines env w2 sp)))
        = (more.map (fun sp => object_start_ids (space_file_lines env w sp))) := by
      apply List.map_congr_left
      intro sp _
      rw [space_file_lines_topdir env sp w w2 htop2]
    rw [hsame] at hnd hfresh hmem hlen
    simp only [List.map_cons, List.flatten_cons]
    refine ⟨htop.trans htop2, ?_, ?_, ?_, ?_⟩
    · rw [List.nodup_append]
      refine ⟨hnd2, hnd, ?_⟩
      intro x hx1 hx2
      exact hfresh x hx2 ((hmem2 x).mpr (Or.inr hx1))
    · intro x hx
      rcases List.mem_append.mp hx with hx | hx
      · exact hfresh2 x hx
      · intro hxw
        exact hfresh x hx ((hmem2 x).mpr (Or.inl hxw))
    · intro x
      rw [hmem x, hmem2 x, List.mem_append]
      tauto
    · rw [hlen, hlen2, List.length_append]; omega

/-- C5: when the first pass succeeds on every space file of a sequence, on
one loader, no identifier stands on two object starting lines (of one file or
of two files), none of them was in `ld_mapobjects` before, and `ld_mapobjects`
has grown by exactly the number of object starting lines read: a second
occurrence of an identifier makes the call that meets it fail.  For a loader
that starts with an empty map the number of keys is the number of object
starting lines. -/
theorem first_pass_unique_ids (env : Rps_Env) (spaceids : List Rps_Id) (w w1 : Rps_World)
    (h : Rps_Loader.first_pass_spaces env spaceids w = .ok () w1) :
    (spaceids.map (fun sp => object_start_ids (space_file_lines env w sp))).flatten.Nodup
      ∧ (∀ x ∈ (spaceids.map (fun sp => object_start_ids (space_file_lines env w sp))).flatten,
          x ∉ w.loaded_ids)
      ∧ w1.ld.ld_mapobjects.length = w.ld.ld_mapobjects.length
          + (spaceids.map (fun sp => object_start_ids (space_file_lines env w sp))).flatten.length
      ∧ (w.ld.ld_mapobjects = [] → w1.ld.ld_mapobjects.length
          = (spaceids.map (fun sp => object_start_ids (space_file_lines env w sp))).flatten.length) := by
  obtain ⟨_, hnd, hfresh, _, hlen⟩ := first_pass_spaces_ok env spaceids w w1 h
  simp only [Rps_World.loaded_ids, List.length_map] at hlen
  refine ⟨hnd, hfresh, hlen, ?_⟩
  intro hempty
  rw [hlen, hempty]
  simp

/-- C5, example: the first pass of the example space file, which has two
object starting lines, on a new loader. -/
theorem first_pass_unique_ids_witness :
    (Rps_Loader.first_pass_spaces ex_env [ex_space] ex_world0).isOk = true
      ∧ ([ex_space].map (fun sp => object_start_ids (space_file_lines ex_env ex_world0 sp))).flatten
          = [ex_class, ex_obj]
      ∧ (Rps_Loader.first_pass_spaces ex_env [ex_space] ex_world0).state.ld.ld_mapobjects.length
          = 2 :=
  ⟨by rfl, by rfl,
    by
      have h := first_pass_unique_ids ex_env [ex_space] ex_world0
        (Rps_Loader.first_pass_spaces ex_env [ex_space] ex_world0).state (by rfl)
      exact h.2.2.2 rfl⟩
/-! ## C8: the identifier check of the second pass -/

theorem second_pass_mismatch_cases (env : Rps_Env) (spacid : Rps_Id) (lineno : Nat)
    (objid : Rps_Id) (objbuf : String) (count : Nat) (w : Rps_World)
    (hbad : ∀ jv, env.rps_string_to_json objbuf = .ok jv →
      jv.type ≠ JsonType.objectValue ∨ (jv.get "oid").asString ≠ some objid.to_string) :
    (∃ what, Rps_Loader.parse_json_buffer_second_pass env spacid lineno objid objbuf count w
        = .fatal what w)
      ∨ ((∃ jv, env.rps_string_to_json objbuf = .ok jv ∧ jv.type = JsonType.objectValue
            ∧ (jv.get "oid").asString = none)
          ∧ ∃ what, Rps_Loader.parse_json_buffer_second_pass env spacid lineno objid objbuf
              count w = .throw what w) := by
  unfold Rps_Loader.parse_json_buffer_second_pass
  cases hP : env.rps_string_to_json objbuf with
  | error e =>
    left
    exact ⟨"parse_json_buffer_second_pass parse failure", by
      simp [Rps_M.bind_apply, Rps_M.tryCatch, Rps_M.raise, Rps_M.RPS_FATAL]⟩
  | ok jv =>
    by_cases hty : jv.type = JsonType.objectValue
    · cases hoid : (jv.get "oid").asString with
      | none =>
        right
        refine ⟨⟨jv, rfl, hty, hoid⟩, "Json::LogicError", ?_⟩
        simp [Rps_M.bind_apply, Rps_M.tryCatch, Rps_M.pure_apply, Rps_M.fatalIf, hty, hoid,
          Rps_M.ofOption, Rps_M.raise]
      | some s =>
        left
        have hne : s ≠ objid.to_string := by
          rcases hbad jv hP with h | h
          · exact absurd hty h
          · intro hs; apply h; rw [hoid, hs]
        exact ⟨"parse_json_buffer_second_pass unexpected", by
          simp [Rps_M.bind_apply, Rps_M.tryCatch, Rps_M.pure_apply, Rps_M.fatalIf, hty, hoid,
            Rps_M.ofOption, Rps_M.ret, hne]⟩
    · left
      exact ⟨"parse_json_buffer_second_pass bad objbuf", by
        simp [Rps_M.bind_apply, Rps_M.tryCatch, Rps_M.pure_apply, Rps_M.fatalIf, hty]⟩

/-- C8: when the text of an object record is not a JSON object, or its `oid`
is not the printed form of the identifier of its starting line, the call of
`parse_json_buffer_second_pass` does not return: it stops the process by
`RPS_FATALOUT`, or, for an `oid` that is an array or an object, leaves by the
exception of the JSON library, which the `catch` of `second_pass_space` turns
into `RPS_FATALOUT`; the state at that point is the state at the call, so no
field of the object has been set. -/
theorem second_pass_id_mismatch_fatal (env : Rps_Env) (spacid : Rps_Id) (lineno : Nat)
    (objid : Rps_Id) (objbuf : String) (count : Nat) (w : Rps_World)
    (hbad : ∀ jv, env.rps_string_to_json objbuf = .ok jv →
      jv.type ≠ JsonType.objectValue ∨ (jv.get "oid").asString ≠ some objid.to_string) :
    (Rps_Loader.parse_json_buffer_second_pass env spacid lineno objid objbuf count w).isOk = false
      ∧ (Rps_Loader.parse_json_buffer_second_pass env spacid lineno objid objbuf count w).state
          = w
      ∧ ((∀ jv, env.rps_string_to_json objbuf = .ok jv → jv.type = JsonType.objectValue →
            (jv.get "oid").asString ≠ none) →
          (Rps_Loader.parse_json_buffer_second_pass env spacid lineno objid objbuf count
            w).isFatal = true)
      ∧ (Rps_Loader.second_pass_guarded env spacid lineno objid objbuf count w).isFatal = true
      ∧ (Rps_Loader.second_pass_guarded env spacid lineno objid objbuf count w).state = w := by
  rcases second_pass_mismatch_cases env spacid lineno objid objbuf count w hbad with
    ⟨what, h⟩ | ⟨⟨jv, hjv, hty, hnone⟩, what, h⟩
  · refine ⟨by rw [h]; rfl, by rw [h]; rfl, fun _ => by rw [h]; rfl, ?_, ?_⟩
    · simp [Rps_Loader.second_pass_guarded, Rps_M.tryCatch, h, Outcome.isFatal]
    · simp [Rps_Loader.second_pass_guarded, Rps_M.tryCatch, h, Outcome.state]
  · refine ⟨by rw [h]; rfl, by rw [h]; rfl, fun hall => absurd hnone (hall jv hjv hty), ?_, ?_⟩
    · simp [Rps_Loader.second_pass_guarded, Rps_M.tryCatch, h, Outcome.isFatal,
        Rps_M.RPS_FATAL]
    · simp [Rps_Loader.second_pass_guarded, Rps_M.tryCatch, h, Outcome.state,
        Rps_M.RPS_FATAL]
/-! ## C9: what the second pass puts in an object -/

theorem outcome_eq_of_result {σ α : Type} {r : Outcome σ α} {a : α}
    (h : r.result? = some a) : r = .ok a r.state := by
  cases r with
  | ok b s => simp only [Outcome.result?, Option.some.injEq] at h; subst h; rfl
  | throw e s => simp [Outcome.result?] at h
  | fatal e s => simp [Outcome.result?] at h

theorem objectref_ofJson_ro (jv : Json) : Rps_M.ReadOnly (Rps_ObjectRef.ofJson jv) := by
  unfold Rps_ObjectRef.ofJson
  repeat' first
    | exact Rps_M.ro_pure _
    | exact Rps_M.ro_raise _
    | exact Rps_M.ro_get
    | exact Rps_M.ro_raiseIf _ _
    | apply Rps_M.ro_ite
    | apply Rps_M.ro_bind
    | intro _

theorem objectref_ofJson_ld (jv : Json) (w w2 : Rps_World) (hld : w2.ld = w.ld) :
    (Rps_ObjectRef.ofJson jv w2).result? = (Rps_ObjectRef.ofJson jv w).result? := by
  unfold Rps_ObjectRef.ofJson
  simp only [Rps_M.bind_apply, Rps_M.get, hld]
  generalize (jv.isString && (if jv.isString = true then jv.asString.getD "" else "") != ""
    && (Rps_Id.ofString (if jv.isString = true then jv.asString.getD "" else "")).valid) = c
  cases c with
  | false => rfl
  | true =>
    simp only [if_true, Rps_M.bind_apply, Rps_M.raiseIf]
    generalize Option.isNone (w.ld.find_object_by_oid
      (Rps_Id.ofString (if jv.isString = true then jv.asString.getD "" else ""))) = d
    cases d <;> rfl

theorem ofJson_plain_ro (jv : Json) : Rps_M.ReadOnly (Rps_Value.ofJson_plain jv) := by
  unfold Rps_Value.ofJson_plain
  repeat' first
    | exact Rps_M.ro_pure _
    | exact objectref_ofJson_ro _
    | apply Rps_M.ro_ite
    | apply Rps_M.ro_bind
    | intro _

theorem ofJson_plain_ld (jv : Json) (w w2 : Rps_World) (hld : w2.ld = w.ld) :
    (Rps_Value.ofJson_plain jv w2).result? = (Rps_Value.ofJson_plain jv w).result? := by
  unfold Rps_Value.ofJson_plain
  cases jv.isInt64 with
  | true => rfl
  | false =>
    cases jv.isDouble with
    | true => rfl
    | false =>
      cases jv.isNull with
      | true => rfl
      | false =>
        cases jv.isString with
        | false => rfl
        | true =>
          simp only [Bool.false_eq_true, if_false, if_true]
          generalize ((jv.asString.getD "").length == Rps_Id.nbchars
            && cstrAt (jv.asString.getD "").data 0 == '_'
            && (List.drop 1 (jv.asString.getD "").data).all Rps_Id.isB62digit) = c
          cases c with
          | false => rfl
          | true =>
            simp only [if_true, Rps_M.bind_apply]
            have h := objectref_ofJson_ld jv w w2 hld
            cases h2 : Rps_ObjectRef.ofJson jv w2 <;> cases h1 : Rps_ObjectRef.ofJson jv w <;>
              simp_all [Outcome.result?, Rps_M.pure_apply]

/-- On a JSON object the decoder gives a string for the form with the single
member `string`, and the null value otherwise: with `siz` zero no branch of
`vtype` is entered. -/
theorem ofJson_obj (ms : List (String × Json)) (w : Rps_World) :
    Rps_Value.ofJson (.obj ms) w =
      .ok (if (Json.obj ms).size == 1 && (Json.obj ms).isMember "string"
              && ((Json.obj ms).get "string").isString
           then Rps_Value.string (((Json.obj ms).get "string").asString.getD "")
           else Rps_Value.null) w := by
  unfold Rps_Value.ofJson
  simp
  split <;> rfl

theorem ofJson_ro (jv : Json) : Rps_M.ReadOnly (Rps_Value.ofJson jv) := by
  intro w
  cases jv with
  | obj ms => rw [ofJson_obj]; rfl
  | null => unfold Rps_Value.ofJson; exact ofJson_plain_ro _ w
  | int i => unfold Rps_Value.ofJson; exact ofJson_plain_ro _ w
  | real d => unfold Rps_Value.ofJson; exact ofJson_plain_ro _ w
  | str s => unfold Rps_Value.ofJson; exact ofJson_plain_ro _ w
  | bool b => unfold Rps_Value.ofJson; exact ofJson_plain_ro _ w
  | arr es => unfold Rps_Value.ofJson; exact ofJson_plain_ro _ w

theorem ofJson_ld (jv : Json) (w w2 : Rps_World) (hld : w2.ld = w.ld) :
    (Rps_Value.ofJson jv w2).result? = (Rps_Value.ofJson jv w).result? := by
  cases jv with
  | obj ms => rw [ofJson_obj, ofJson_obj]; rfl
  | null => unfold Rps_Value.ofJson; exact ofJson_plain_ld _ w w2 hld
  | int i => unfold Rps_Value.ofJson; exact ofJson_plain_ld _ w w2 hld
  | real d => unfold Rps_Value.ofJson; exact ofJson_plain_ld _ w w2 hld
  | str s => unfold Rps_Value.ofJson; exact ofJson_plain_ld _ w w2 hld
  | bool b => unfold Rps_Value.ofJson; exact ofJson_plain_ld _ w w2 hld
  | arr es => unfold Rps_Value.ofJson; exact ofJson_plain_ld _ w w2 hld

/-- A value decoded in one state is decoded alike in every state with the
same loader. -/
theorem ofJson_transfer (jv : Json) (v : Rps_Value) (w w2 : Rps_World) (hld : w2.ld = w.ld)
    (h : Rps_Value.ofJson jv w = .ok v w) : Rps_Value.ofJson jv w2 = .ok v w2 := by
  have h1 : (Rps_Value.ofJson jv w2).result? = some v := by
    rw [ofJson_ld jv w w2 hld, h]; rfl
  have h2 := outcome_eq_of_result h1
  rw [ofJson_ro jv w2] at h2
  exact h2

theorem objectref_ofJson_transfer (jv : Json) (obr : Rps_ObjectRef) (w w2 : Rps_World)
    (hld : w2.ld = w.ld) (h : Rps_ObjectRef.ofJson jv w = .ok obr w) :
    Rps_ObjectRef.ofJson jv w2 = .ok obr w2 := by
  have h1 : (Rps_ObjectRef.ofJson jv w2).result? = some obr := by
    rw [objectref_ofJson_ld jv w w2 hld, h]; rfl
  have h2 := outcome_eq_of_result h1
  rw [objectref_ofJson_ro jv w2] at h2
  exact h2

theorem heap_find_modify (h : Rps_Heap) (oid : Rps_Id) (f : Rps_ObjectZone → Rps_ObjectZone)
    (hf : ∀ ob, (f ob).oid = ob.oid) :
    (h.modify oid f).find oid = (h.find oid).map f := by
  induction h with
  | nil => rfl
  | cons ob rest ih =>
    simp only [Rps_Heap.modify, Rps_Heap.find, List.map_cons, List.find?_cons] at ih ⊢
    by_cases hob : ob.oid = oid
    · simp [hob, hf]
    · have hne : (ob.oid == oid) = false := by simpa using hob
      simp only [hne, Bool.false_eq_true, if_false]
      exact ih

theorem heap_modify_modify (h : Rps_Heap) (oid : Rps_Id) (f g : Rps_ObjectZone → Rps_ObjectZone)
    (hf : ∀ ob, (f ob).oid = ob.oid) :
    (h.modify oid f).modify oid g = h.modify oid (fun ob => g (f ob)) := by
  unfold Rps_Heap.modify
  rw [List.map_map]
  apply List.map_congr_left
  intro ob _
  by_cases hob : ob.oid = oid
  · simp [hob, hf]
  · simp [hob]

theorem heap_modify_id (h : Rps_Heap) (oid : Rps_Id) (f : Rps_ObjectZone → Rps_ObjectZone)
    (hf : ∀ ob, f ob = ob) : h.modify oid f = h := by
  simp [Rps_Heap.modify, hf]

theorem second_pass_comps_ok (objid : Rps_Id) (cs : List Json) :
    ∀ (vs : List Rps_Value) (w : Rps_World),
      List.Forall₂ (fun c v => Rps_Value.ofJson c w = .ok v w) cs vs →
      Rps_Loader.second_pass_comps objid cs w = .ok ()
        (w.with_object objid (fun ob => { ob with ob_comps := ob.ob_comps ++ vs })) := by
  induction cs with
  | nil =>
    intro vs w h
    cases h
    simp only [Rps_Loader.second_pass_comps, Rps_M.pure_apply, List.append_nil,
      Rps_World.with_object]
    rw [heap_modify_id _ _ _ (fun ob => rfl)]
  | cons c more ih =>
    intro vs w h
    cases h with
    | cons hc hmore =>
      rename_i v vs1
      have hmore2 : List.Forall₂ (fun c1 v1 =>
          Rps_Value.ofJson c1
              (w.with_object objid (fun ob => { ob with ob_comps := ob.ob_comps ++ [v] }))
            = .ok v1
              (w.with_object objid (fun ob => { ob with ob_comps := ob.ob_comps ++ [v] })))
          more vs1 :=
        hmore.imp (fun c1 v1 h1 => ofJson_transfer c1 v1 w
          (w.with_object objid (fun ob => { ob with ob_comps := ob.ob_comps ++ [v] })) rfl h1)
      have hih := ih vs1 _ hmore2
      simp only [Rps_World.with_object] at hih
      simp only [Rps_Loader.second_pass_comps, Rps_M.bind_apply, hc,
        Rps_ObjectZone.loader_add_comp, Rps_M.modify, hih, Rps_World.with_object]
      rw [heap_modify_modify w.heap objid
        (fun ob => { ob with ob_comps := ob.ob_comps ++ [v] })
        (fun ob => { ob with ob_comps := ob.ob_comps ++ vs1 }) (fun ob => rfl)]
      simp only [List.append_assoc, List.singleton_append]

theorem valid_str_ne_empty (a : Rps_Id) (hv : a.valid = true) : (a.str != "") = true := by
  cases a with
  | mk s =>
    simp only [bne_iff_ne, ne_eq]
    intro hs
    subst hs
    revert hv
    decide

theorem ofString_of_valid (a : Rps_Id) (hv : a.valid = true) : Rps_Id.ofString a.str = a := by
  unfold Rps_Id.valid at hv
  simp [Rps_Id.ofString, hv]

theorem objectref_ofJson_str (a : Rps_Id) (w : Rps_World) (hv : a.valid = true)
    (hl : w.ld.ld_mapobjects.lookup a = some (some a)) :
    Rps_ObjectRef.ofJson (.str a.to_string) w = .ok (some a) w := by
  unfold Rps_ObjectRef.ofJson
  simp only [Json.isString, Json.asString, Rps_Id.to_string, Option.getD_some, if_true,
    ofString_of_valid a hv, valid_str_ne_empty a hv, hv, Bool.and_self, Rps_M.bind_apply,
    Rps_M.get, Rps_Loader.find_object_by_oid, hl, Option.isNone_some, Rps_M.raiseIf,
    Bool.false_eq_true, if_false, Rps_M.pure_apply]

theorem second_pass_attrs_ok (objid : Rps_Id) (avs : List (Rps_Id × Json)) :
    ∀ (avals : List Rps_Value) (w : Rps_World),
      List.Forall₂ (fun av v => av.1.valid = true
        ∧ w.ld.ld_mapobjects.lookup av.1 = some (some av.1)
        ∧ Rps_Value.ofJson av.2 w = .ok v w) avs avals →
      Rps_Loader.second_pass_attrs objid
          (avs.map (fun av => Json.obj [("at", .str av.1.to_string), ("va", av.2)])) w
        = .ok () (w.with_object objid (fun ob => { ob with
            ob_attrs := (avs.zip avals).foldl (fun m p => Rps_Id.mapPut p.1.1 p.2 m)
              ob.ob_attrs })) := by
  induction avs with
  | nil =>
    intro avals w h
    cases h
    simp only [List.map_nil, Rps_Loader.second_pass_attrs, Rps_M.pure_apply, List.zip_nil_left,
      List.foldl_nil, Rps_World.with_object]
    rw [heap_modify_id _ _ _ (fun ob => rfl)]
  | cons av more ih =>
    intro avals w h
    cases h with
    | cons hav hmore =>
      rename_i v vs1
      obtain ⟨hvalid, hlook, hdec⟩ := hav
      have hmore2 : List.Forall₂ (fun av1 v1 => av1.1.valid = true
          ∧ (w.with_object objid (fun ob => { ob with
              ob_attrs := Rps_Id.mapPut av.1 v ob.ob_attrs })).ld.ld_mapobjects.lookup av1.1
              = some (some av1.1)
          ∧ Rps_Value.ofJson av1.2 (w.with_object objid (fun ob => { ob with
              ob_attrs := Rps_Id.mapPut av.1 v ob.ob_attrs }))
            = .ok v1 (w.with_object objid (fun ob => { ob with
              ob_attrs := Rps_Id.mapPut av.1 v ob.ob_attrs }))) more vs1 :=
        hmore.imp (fun av1 v1 h1 => ⟨h1.1, h1.2.1, ofJson_transfer av1.2 v1 w
          (w.with_object objid (fun ob => { ob with
              ob_attrs := Rps_Id.mapPut av.1 v ob.ob_attrs })) rfl h1.2.2⟩)
      have hih := ih vs1 _ hmore2
      simp only [Rps_World.with_object] at hih
      have hat : Rps_ObjectRef.ofJson
          ((Json.obj [("at", .str av.1.to_string), ("va", av.2)]).get "at") w
            = .ok (some av.1) w := objectref_ofJson_str av.1 w hvalid hlook
      have hva : Rps_Value.ofJson
          ((Json.obj [("at", .str av.1.to_string), ("va", av.2)]).get "va") w = .ok v w := hdec
      simp only [List.map_cons, Rps_Loader.second_pass_attrs, Rps_M.bind_apply, Rps_M.whenB,
        Json.isObject, Json.size, Json.isMember, List.lookup, List.length_cons,
        List.length_nil, hat, hva, Rps_ObjectZone.loader_put_attr, Rps_M.modify,
        Rps_World.with_object, List.zip_cons_cons, List.foldl_cons]
      simp
      rw [hih, heap_modify_modify w.heap objid
        (fun ob => { ob with ob_attrs := Rps_Id.mapPut av.1 v ob.ob_attrs })
        (fun ob => { ob with ob_attrs :=
          (more.zip vs1).foldl (fun m p => Rps_Id.mapPut p.1.1 p.2 m) ob.ob_attrs })
        (fun ob => rfl)]

/-- C9: for an object record with the members `oid`, `class`, `mtime`, `comps`
and `attrs` in the file of the space `spacid`, whose class and attributes are
objects of the loader, `parse_json_buffer_second_pass` returns, and the object
then has the class named by `class`, the space `spacid`, the time `mtime`,
its components followed by the decoded values of `comps` in array order, and
its attributes with the decoded values of `attrs` put in array order; the
loader is unchanged.  A skeleton with `comps = []` and `attrs = []` ends with
an empty component sequence and an empty attribute map. -/
theorem second_pass_populates (env : Rps_Env) (spacid : Rps_Id) (lineno : Nat)
    (objid : Rps_Id) (objbuf : String) (count : Nat) (w : Rps_World)
    (cls : Rps_Id) (jmtime : Json) (mtim : Rps_Double) (cs : List Json) (vs : List Rps_Value)
    (avs : List (Rps_Id × Json)) (avals : List Rps_Value) (ob0 : Rps_ObjectZone)
    (hparse : env.rps_string_to_json objbuf = .ok (object_record objid cls jmtime cs avs))
    (hcls : cls.valid = true) (hclsld : w.ld.ld_mapobjects.lookup cls = some (some cls))
    (hmtime : jmtime.asDouble = some mtim)
    (hobz : w.heap.find objid = some ob0) (hspace : (w.heap.find spacid).isSome = true)
    (hcs : List.Forall₂ (fun c v => Rps_Value.ofJson c w = .ok v w) cs vs)
    (havs : List.Forall₂ (fun av v => av.1.valid = true
      ∧ w.ld.ld_mapobjects.lookup av.1 = some (some av.1)
      ∧ Rps_Value.ofJson av.2 w = .ok v w) avs avals) :
    ∃ w1, Rps_Loader.parse_json_buffer_second_pass env spacid lineno objid objbuf count w
        = .ok () w1
      ∧ w1.ld = w.ld
      ∧ w1.heap.find objid = some { ob0 with
          ob_class := some cls, ob_space := some spacid, ob_mtime := mtim,
          ob_comps := ob0.ob_comps ++ vs,
          ob_attrs := (avs.zip avals).foldl (fun m p => Rps_Id.mapPut p.1.1 p.2 m)
            ob0.ob_attrs }
      ∧ (ob0.ob_comps = [] → ob0.ob_attrs = [] → cs = [] → avs = [] →
          ∃ ob1, w1.heap.find objid = some ob1 ∧ ob1.ob_comps = [] ∧ ob1.ob_attrs = []) := by
  obtain ⟨w3, hw3⟩ : ∃ w3 : Rps_World, w3 =
      ((w.with_object objid (fun ob => { ob with ob_class := some cls })).with_object objid
        (fun ob => { ob with ob_space := some spacid })).with_object objid
        (fun ob => { ob with ob_mtime := mtim }) := ⟨_, rfl⟩
  have hld3 : w3.ld = w.ld := by rw [hw3]; rfl
  have hcomps := second_pass_comps_ok objid cs vs w3
    (hcs.imp (fun c v h => ofJson_transfer c v w w3 hld3 h))
  obtain ⟨w4, hw4⟩ : ∃ w4 : Rps_World, w4 =
      w3.with_object objid (fun ob => { ob with ob_comps := ob.ob_comps ++ vs }) := ⟨_, rfl⟩
  rw [← hw4] at hcomps
  have hld4 : w4.ld = w.ld := by rw [hw4]; exact hld3
  have hattrs := second_pass_attrs_ok objid avs avals w4
    (havs.imp (fun av v h => ⟨h.1, by rw [hld4]; exact h.2.1,
      ofJson_transfer av.2 v w w4 hld4 h.2.2⟩))
  have hclass : Rps_ObjectRef.ofJson (Json.str cls.to_string) w = .ok (some cls) w :=
    objectref_ofJson_str cls w hcls hclsld
  simp only [Rps_World.with_object] at hw3
  refine ⟨w4.with_object objid (fun ob => { ob with
    ob_attrs := (avs.zip avals).foldl (fun m p => Rps_Id.mapPut p.1.1 p.2 m) ob.ob_attrs }),
    ?_, ?_, ?_, ?_⟩
  · unfold Rps_Loader.parse_json_buffer_second_pass
    have h1 : Rps_M.tryCatch
        (do
          let jv ← (match env.rps_string_to_json objbuf with
            | .ok jv => pure jv
            | .error errstr => Rps_M.raise ("JSON parsing error:" ++ errstr))
          Rps_M.fatalIf (jv.type ≠ JsonType.objectValue)
            "parse_json_buffer_second_pass bad objbuf"
          pure jv)
        (fun _ => Rps_M.RPS_FATAL "parse_json_buffer_second_pass parse failure") w
        = .ok (object_record objid cls jmtime cs avs) w := by
      rw [hparse]
      rfl
    rw [Rps_M.bind_ok h1]
    have h2 : (Rps_M.ofOption "Json::LogicError"
        ((object_record objid cls jmtime cs avs).get "oid").asString : Rps_M Rps_World String) w
        = .ok objid.to_string w := rfl
    rw [Rps_M.bind_ok h2]
    have h3 : (Rps_M.fatalIf (objid.to_string != objid.to_string)
        "parse_json_buffer_second_pass unexpected" : Rps_M Rps_World Unit) w = .ok () w := by
      simp [Rps_M.fatalIf]
    rw [Rps_M.bind_ok h3]
    have h4 : Rps_ObjectZone.find objid w = .ok (some ob0) w := by
      simp [Rps_ObjectZone.find, Rps_M.bind_apply, Rps_M.get, Rps_M.pure_apply, hobz]
    rw [Rps_M.bind_ok h4]
    have h5 : (Rps_M.RPS_ASSERT (some ob0).isSome "RPS_ASSERT (obz)" : Rps_M Rps_World Unit) w
        = .ok () w := rfl
    rw [Rps_M.bind_ok h5]
    have h6 : Rps_ObjectZone.find spacid w = .ok (w.heap.find spacid) w := rfl
    rw [Rps_M.bind_ok h6]
    have h7 : Rps_ObjectRef.ofJson ((object_record objid cls jmtime cs avs).get "class") w
        = .ok (some cls) w := hclass
    rw [Rps_M.bind_ok h7]
    have h8 : Rps_ObjectZone.loader_set_class objid (some cls) w
        = .ok () (w.with_object objid (fun ob => { ob with ob_class := some cls })) := rfl
    rw [Rps_M.bind_ok h8]
    have h9 : (Rps_M.RPS_ASSERT (w.heap.find spacid).isSome "RPS_ASSERT (obzspace)" :
        Rps_M Rps_World Unit) (w.with_object objid (fun ob => { ob with ob_class := some cls }))
        = .ok () (w.with_object objid (fun ob => { ob with ob_class := some cls })) := by
      simp [Rps_M.RPS_ASSERT, hspace]
    rw [Rps_M.bind_ok h9]
    have h10 : Rps_ObjectZone.loader_set_space objid (some spacid)
        (w.with_object objid (fun ob => { ob with ob_class := some cls }))
        = .ok () ((w.with_object objid (fun ob => { ob with ob_class := some cls })).with_object
            objid (fun ob => { ob with ob_space := some spacid })) := rfl
    rw [Rps_M.bind_ok h10]
    have h11 : (Rps_M.ofOption "Json::LogicError"
        ((object_record objid cls jmtime cs avs).get "mtime").asDouble :
          Rps_M Rps_World Rps_Double)
        ((w.with_object objid (fun ob => { ob with ob_class := some cls })).with_object
            objid (fun ob => { ob with ob_space := some spacid }))
        = .ok mtim ((w.with_object objid (fun ob => { ob with ob_class := some cls })).with_object
            objid (fun ob => { ob with ob_space := some spacid })) := by
      show (Rps_M.ofOption "Json::LogicError" jmtime.asDouble : Rps_M Rps_World Rps_Double) _ = _
      rw [hmtime]
      rfl
    rw [Rps_M.bind_ok h11]
    have h12 : Rps_ObjectZone.loader_set_mtime objid mtim
        ((w.with_object objid (fun ob => { ob with ob_class := some cls })).with_object
            objid (fun ob => { ob with ob_space := some spacid }))
        = .ok () w3 := by rw [hw3]; rfl
    rw [Rps_M.bind_ok h12]
    have h13 : Rps_M.whenB ((object_record objid cls jmtime cs avs).isMember "comps")
        (Rps_M.whenB ((object_record objid cls jmtime cs avs).get "comps").isArray
          (do
            Rps_ObjectZone.loader_reserve_comps objid
              ((object_record objid cls jmtime cs avs).get "comps").size
            Rps_Loader.second_pass_comps objid
              ((object_record objid cls jmtime cs avs).get "comps").elems)) w3
        = .ok () w4 := hcomps
    rw [Rps_M.bind_ok h13]
    have h14 : Rps_M.whenB ((object_record objid cls jmtime cs avs).isMember "attrs")
        (Rps_M.whenB ((object_record objid cls jmtime cs avs).get "attrs").isArray
          (Rps_Loader.second_pass_attrs objid
            ((object_record objid cls jmtime cs avs).get "attrs").elems)) w4
        = .ok () (w4.with_object objid (fun ob => { ob with
            ob_attrs := (avs.zip avals).foldl (fun m p => Rps_Id.mapPut p.1.1 p.2 m)
              ob.ob_attrs })) := hattrs
    rw [Rps_M.bind_ok h14]
    rfl
  · show w4.ld = w.ld
    exact hld4
  · rw [hw4, hw3]
    simp only [Rps_World.with_object]
    rw [heap_find_modify, heap_find_modify, heap_find_modify, heap_find_modify,
      heap_find_modify, hobz]
    · rfl
    all_goals (intro ob; rfl)
  · intro hc0 ha0 hcs0 havs0
    subst hcs0 havs0
    cases hcs
    cases havs
    refine ⟨{ ob0 with
        ob_class := some cls, ob_space := some spacid, ob_mtime := mtim,
        ob_comps := ob0.ob_comps ++ [], ob_attrs := ob0.ob_attrs }, ?_, ?_, ?_⟩
    · rw [hw4, hw3]
      simp only [Rps_World.with_object]
      rw [heap_find_modify, heap_find_modify, heap_find_modify, heap_find_modify,
        heap_find_modify, hobz]
      · rfl
      all_goals (intro ob; rfl)
    · simp [hc0]
    · simp [ha0]
/-! ## C4: instances of a class without class information -/

theorem ofJson_member_ro (key : String) (ms : List (String × Json)) :
    Rps_M.ReadOnly (Rps_Value.ofJson_member key ms) := by
  induction ms with
  | nil => unfold Rps_Value.ofJson_member; exact Rps_M.ro_pure _
  | cons kv rest ih =>
    obtain ⟨k, v⟩ := kv
    unfold Rps_Value.ofJson_member
    exact Rps_M.ro_ite (ofJson_ro v) ih

theorem ofJson_elems_ro (es : List Json) : Rps_M.ReadOnly (Rps_Value.ofJson_elems es) := by
  induction es with
  | nil => unfold Rps_Value.ofJson_elems; exact Rps_M.ro_pure _
  | cons j js ih =>
    unfold Rps_Value.ofJson_elems
    exact Rps_M.ro_bind (ofJson_ro j) (fun _ => Rps_M.ro_bind ih (fun _ => Rps_M.ro_pure _))

theorem load_attr_entries_ro (es : List Json) :
    ∀ attrmap, Rps_M.ReadOnly (Rps_InstanceZone.load_attr_entries es attrmap) := by
  induction es with
  | nil => intro attrmap; unfold Rps_InstanceZone.load_attr_entries; exact Rps_M.ro_pure _
  | cons jcurent more ih =>
    intro attrmap
    cases jcurent with
    | obj ems =>
      unfold Rps_InstanceZone.load_attr_entries
      refine Rps_M.ro_bind (objectref_ofJson_ro _) (fun atob => ?_)
      refine Rps_M.ro_bind (ofJson_member_ro _ _) (fun atvalv => ?_)
      cases atob with
      | none => exact ih _
      | some at_ => exact ih _
    | null => unfold Rps_InstanceZone.load_attr_entries; exact ih _
    | int i => unfold Rps_InstanceZone.load_attr_entries; exact ih _
    | real d => unfold Rps_InstanceZone.load_attr_entries; exact ih _
    | str s => unfold Rps_InstanceZone.load_attr_entries; exact ih _
    | bool b => unfold Rps_InstanceZone.load_attr_entries; exact ih _
    | arr es => unfold Rps_InstanceZone.load_attr_entries; exact ih _

theorem load_iattrs_ro (ms : List (String × Json)) :
    Rps_M.ReadOnly (Rps_InstanceZone.load_iattrs ms) := by
  induction ms with
  | nil => unfold Rps_InstanceZone.load_iattrs; exact Rps_M.ro_pure _
  | cons kv rest ih =>
    obtain ⟨k, v⟩ := kv
    unfold Rps_InstanceZone.load_iattrs
    refine Rps_M.ro_ite ?_ ih
    split
    · exact load_attr_entries_ro _ _
    · exact Rps_M.ro_raise _
    · exact Rps_M.ro_pure _

theorem load_icomps_ro (ms : List (String × Json)) :
    Rps_M.ReadOnly (Rps_InstanceZone.load_icomps ms) := by
  induction ms with
  | nil => unfold Rps_InstanceZone.load_icomps; exact Rps_M.ro_pure _
  | cons kv rest ih =>
    obtain ⟨k, v⟩ := kv
    unfold Rps_InstanceZone.load_icomps
    refine Rps_M.ro_ite ?_ ih
    split
    · exact ofJson_elems_ro _
    · exact Rps_M.ro_raise _
    · exact Rps_M.ro_pure _

theorem make_from_attributes_components_ro (obclass : Rps_ObjectRef)
    (compvec : List Rps_Value) (attrmap : List (Rps_Id × Rps_Value))
    (setat : Option (List Rps_Id)) :
    Rps_M.ReadOnly
      (Rps_InstanceZone.make_from_attributes_components obclass compvec attrmap setat) := by
  unfold Rps_InstanceZone.make_from_attributes_components
  exact Rps_M.ro_ite (Rps_M.ro_pure _) (Rps_M.ro_raise _)

theorem load_from_json_body_ro (jv : Json)
    (attrloop : Rps_M Rps_World (List (Rps_Id × Rps_Value)))
    (comploop : Rps_M Rps_World (List Rps_Value))
    (ha : Rps_M.ReadOnly attrloop) (hc : Rps_M.ReadOnly comploop) :
    Rps_M.ReadOnly (Rps_InstanceZone.load_from_json_body jv attrloop comploop) := by
  unfold Rps_InstanceZone.load_from_json_body
  refine Rps_M.ro_bind (Rps_M.ro_assert _ _) (fun _ => ?_)
  refine Rps_M.ro_bind (objectref_ofJson_ro _) (fun obclass => ?_)
  refine Rps_M.ro_bind ha (fun attrmap => ?_)
  refine Rps_M.ro_bind hc (fun compvec => ?_)
  refine Rps_M.ro_bind (Rps_M.ro_assert _ _) (fun _ => ?_)
  refine Rps_M.ro_bind Rps_M.ro_get (fun w => ?_)
  show Rps_M.ReadOnly (match w.heap.classinfo_of obclass with
    | some info =>
      if (attrmap.isEmpty || info.pclass_attrset.isSome) = true then
        Rps_InstanceZone.make_from_attributes_components obclass compvec attrmap
          info.pclass_attrset
      else Rps_M.RPS_FATAL "Rps_InstanceZone::load_from_json incomplete"
    | none => Rps_M.RPS_FATAL "Rps_InstanceZone::load_from_json incomplete")
  cases w.heap.classinfo_of obclass with
  | some info =>
    exact Rps_M.ro_ite (make_from_attributes_components_ro _ _ _ _) (Rps_M.ro_fatal _)
  | none => exact Rps_M.ro_fatal _

theorem load_from_json_ro (jv : Json) : Rps_M.ReadOnly (Rps_InstanceZone.load_from_json jv) := by
  cases jv with
  | obj ms =>
    unfold Rps_InstanceZone.load_from_json
    exact load_from_json_body_ro _ _ _ (load_iattrs_ro ms) (load_icomps_ro ms)
  | null => unfold Rps_InstanceZone.load_from_json; exact Rps_M.ro_fatal _
  | int i => unfold Rps_InstanceZone.load_from_json; exact Rps_M.ro_fatal _
  | real d => unfold Rps_InstanceZone.load_from_json; exact Rps_M.ro_fatal _
  | str s => unfold Rps_InstanceZone.load_from_json; exact Rps_M.ro_fatal _
  | bool b => unfold Rps_InstanceZone.load_from_json; exact Rps_M.ro_fatal _
  | arr es => unfold Rps_InstanceZone.load_from_json; exact Rps_M.ro_fatal _

theorem load_from_json_body_not_ok (jv : Json)
    (attrloop : Rps_M Rps_World (List (Rps_Id × Rps_Value)))
    (comploop : Rps_M Rps_World (List Rps_Value))
    (ha : Rps_M.ReadOnly attrloop) (hc : Rps_M.ReadOnly comploop) (w : Rps_World)
    (hskel : ∀ obr, w.heap.classinfo_of obr = none) :
    (Rps_InstanceZone.load_from_json_body jv attrloop comploop w).isOk = false := by
  cases hr : Rps_InstanceZone.load_from_json_body jv attrloop comploop w with
  | throw e s1 => rfl
  | fatal e s1 => rfl
  | ok v w1 =>
    exfalso
    unfold Rps_InstanceZone.load_from_json_body at hr
    obtain ⟨_, s1, h1, k1⟩ := Rps_M.bind_eq_ok.mp hr
    obtain ⟨_, rfl⟩ := Rps_M.assert_eq_ok.mp h1
    obtain ⟨obclass, s2, h2, k2⟩ := Rps_M.bind_eq_ok.mp k1
    have e2 : s2 = w := (objectref_ofJson_ro _).ok_state h2
    subst e2
    obtain ⟨attrmap, s3, h3, k3⟩ := Rps_M.bind_eq_ok.mp k2
    have e3 : s3 = s2 := ha.ok_state h3
    subst e3
    obtain ⟨compvec, s4, h4, k4⟩ := Rps_M.bind_eq_ok.mp k3
    have e4 : s4 = s3 := hc.ok_state h4
    subst e4
    obtain ⟨_, s5, h5, k5⟩ := Rps_M.bind_eq_ok.mp k4
    obtain ⟨_, rfl⟩ := Rps_M.assert_eq_ok.mp h5
    obtain ⟨w2, s6, h6, k6⟩ := Rps_M.bind_eq_ok.mp k5
    obtain ⟨rfl, rfl⟩ := Rps_M.get_eq_ok.mp h6
    rw [hskel obclass] at k6
    simp [Rps_M.RPS_FATAL] at k6

theorem classinfo_of_none_of_no_payload (h : Rps_Heap)
    (hno : ∀ ob ∈ h, ob.ob_payload.isNone = true) (obr : Rps_ObjectRef) :
    h.classinfo_of obr = none := by
  cases obr with
  | none => rfl
  | some oid =>
    simp only [Rps_Heap.classinfo_of]
    cases hf : h.find oid with
    | none => rfl
    | some ob =>
      have hmem : ob ∈ h := List.mem_of_find?_eq_some hf
      have hp := hno ob hmem
      simp only [Rps_ObjectZone.get_classinfo_payload]
      cases hpl : ob.ob_payload with
      | none => rfl
      | some p => rw [hpl] at hp; simp at hp

/-- C4 (code on every world without class information): when no object of
the heap has a class information payload yet (the state in which instances of
classes that are still skeletons are met), `Rps_InstanceZone::load_from_json`
never returns a value, whatever the JSON: it ends in `RPS_FATAL("...
incomplete")` or in an error of the decoding; and it leaves the state as it
was, so nothing is added to the todo queue. -/
theorem load_from_json_never_defers (jv : Json) (w : Rps_World)
    (hskel : ∀ obr, w.heap.classinfo_of obr = none) :
    (Rps_InstanceZone.load_from_json jv w).isOk = false
      ∧ (Rps_InstanceZone.load_from_json jv w).state = w
      ∧ (Rps_InstanceZone.load_from_json jv w).state.ld.ld_todoque = w.ld.ld_todoque := by
  have hst := load_from_json_ro jv w
  refine ⟨?_, hst, by rw [hst]⟩
  cases jv with
  | obj ms =>
    unfold Rps_InstanceZone.load_from_json
    exact load_from_json_body_not_ok _ _ _ (load_iattrs_ro ms) (load_icomps_ro ms) w hskel
  | null => rfl
  | int i => rfl
  | real d => rfl
  | str s => rfl
  | bool b => rfl
  | arr es => rfl

/-- C4 (code at the failing input): the class of the examples exists only as
a skeleton (no class information payload); on the JSON of an instance of that
class, `Rps_InstanceZone::load_from_json` stops the process ("incomplete")
and leaves the todo queue empty, and the decoder `Rps_Value(Json,
Rps_Loader*)`, which never enters its instance branch, returns the null
value. -/
theorem load_from_json_never_defers_witness :
    Rps_InstanceZone.load_from_json ex_instance_json ex_world
        = .fatal "Rps_InstanceZone::load_from_json incomplete" ex_world
      ∧ (Rps_InstanceZone.load_from_json ex_instance_json ex_world).isOk = false
      ∧ (Rps_InstanceZone.load_from_json ex_instance_json ex_world).state.ld.ld_todoque.length
          = 0
      ∧ Rps_Value.ofJson ex_instance_json ex_world = .ok Rps_Value.null ex_world :=
  have h := load_from_json_never_defers ex_instance_json ex_world
    (classinfo_of_none_of_no_payload ex_world.heap (by decide))
  ⟨by rfl, h.1, by rw [h.2.2]; rfl, by rfl⟩
/-! ## C10: the manifest -/

theorem setInsert_mem (a x : Rps_Id) (l : List Rps_Id) :
    x ∈ Rps_Id.setInsert a l ↔ x = a ∨ x ∈ l := by
  induction l with
  | nil => simp [Rps_Id.setInsert]
  | cons y ys ih =>
    by_cases hay : a = y
    · subst hay
      simp [Rps_Id.setInsert]
    · cases hlt : Rps_Id.lt a y with
      | true => simp [Rps_Id.setInsert, hay, hlt]
      | false =>
        simp only [Rps_Id.setInsert, hay, hlt, if_false, List.mem_cons, ih, Bool.false_eq_true]
        tauto

theorem ofString_eq_iff (str : String) (x : Rps_Id)
    (hb : (Rps_Id.ofString str).toBool = true) :
    x = Rps_Id.ofString str ↔ str = x.to_string := by
  unfold Rps_Id.ofString at hb ⊢
  by_cases hv : Rps_Id.validChars str.data = true
  · simp only [hv, if_true]
    constructor
    · intro h; subst h; rfl
    · intro h; subst h; rfl
  · simp only [hv, Bool.false_eq_true, if_false] at hb
    exact absurd hb (by decide)

theorem tryCatch_fatal_eq_ok {σ α : Type} {body : Rps_M σ α} {what : String} {s s1 : σ}
    {a : α} (h : Rps_M.tryCatch body (fun _ => Rps_M.RPS_FATAL what) s = .ok a s1) :
    body s = .ok a s1 := by
  unfold Rps_M.tryCatch at h
  cases hb : body s with
  | ok b s2 => rw [hb] at h; exact h
  | throw e s2 => rw [hb] at h; simp [Rps_M.RPS_FATAL] at h
  | fatal e s2 => rw [hb] at h; simp at h

theorem string_of_loaded_lines_ro (env : Rps_Env) (fullpath : String) (lines : List String) :
    ∀ res, Rps_M.ReadOnly (Rps_Loader.string_of_loaded_lines env fullpath lines res) := by
  induction lines with
  | nil => intro res; exact Rps_M.ro_pure _
  | cons linbuf more ih =>
    intro res
    unfold Rps_Loader.string_of_loaded_lines
    exact Rps_M.ro_bind (Rps_M.ro_raiseIf _ _)
      (fun _ => Rps_M.ro_bind (Rps_M.ro_fatalIf _ _) (fun _ => ih _))

theorem string_of_loaded_file_ro (env : Rps_Env) (relpath : String) :
    Rps_M.ReadOnly (Rps_Loader.string_of_loaded_file env relpath) := by
  unfold Rps_Loader.string_of_loaded_file
  exact Rps_M.ro_bind (load_real_path_ro env relpath)
    (fun _ => string_of_loaded_lines_ro env _ _ _)

theorem manifest_spaceset_ok (elems : List Json) :
    ∀ (w w1 : Rps_World), Rps_Loader.manifest_spaceset elems w = .ok () w1 →
      w1.ld.ld_globrootsidset = w.ld.ld_globrootsidset
        ∧ ∀ x, x ∈ w1.ld.ld_spaceset ↔
            x ∈ w.ld.ld_spaceset ∨ ∃ j ∈ elems, j.asString = some x.to_string := by
  induction elems with
  | nil =>
    intro w w1 h
    simp only [Rps_Loader.manifest_spaceset, Rps_M.pure_eq_ok] at h
    obtain ⟨_, rfl⟩ := h
    simp
  | cons jcur more ih =>
    intro w w1 h
    simp only [Rps_Loader.manifest_spaceset, Rps_M.bind_eq_ok, Rps_M.ofOption_eq_ok,
      Rps_M.assert_eq_ok, Rps_M.modify_eq_ok] at h
    obtain ⟨str, s1, ⟨hstr, rfl⟩, _, s2, ⟨hb, rfl⟩, _, s3, rfl, hmore⟩ := h
    obtain ⟨hg, hmem⟩ := ih _ _ hmore
    refine ⟨hg, ?_⟩
    intro x
    rw [hmem x]
    simp only [setInsert_mem, List.mem_cons, exists_eq_or_imp, ofString_eq_iff str x hb, hstr,
      Option.some.injEq]
    tauto

theorem manifest_globalroots_ok (elems : List Json) :
    ∀ (w w1 : Rps_World), Rps_Loader.manifest_globalroots elems w = .ok () w1 →
      w1.ld.ld_spaceset = w.ld.ld_spaceset
        ∧ ∀ x, x ∈ w1.ld.ld_globrootsidset ↔
            x ∈ w.ld.ld_globrootsidset ∨ ∃ j ∈ elems, j.asString = some x.to_string := by
  induction elems with
  | nil =>
    intro w w1 h
    simp only [Rps_Loader.manifest_globalroots, Rps_M.pure_eq_ok] at h
    obtain ⟨_, rfl⟩ := h
    simp
  | cons jcur more ih =>
    intro w w1 h
    simp only [Rps_Loader.manifest_globalroots, Rps_M.bind_eq_ok, Rps_M.ofOption_eq_ok,
      Rps_M.assert_eq_ok, Rps_M.modify_eq_ok] at h
    obtain ⟨str, s1, ⟨hstr, rfl⟩, _, s2, ⟨hb, rfl⟩, _, s3, rfl, hmore⟩ := h
    obtain ⟨hg, hmem⟩ := ih _ _ hmore
    refine ⟨hg, ?_⟩
    intro x
    rw [hmem x]
    simp only [setInsert_mem, List.mem_cons, exists_eq_or_imp, ofString_eq_iff str x hb, hstr,
      Option.some.injEq]
    tauto

theorem manifest_plugins_ok (env : Rps_Env) (elems : List Json) :
    ∀ (w w1 : Rps_World), Rps_Loader.manifest_plugins env elems w = .ok () w1 →
      w1.ld.ld_spaceset = w.ld.ld_spaceset
        ∧ w1.ld.ld_globrootsidset = w.ld.ld_globrootsidset := by
  induction elems with
  | nil =>
    intro w w1 h
    simp only [Rps_Loader.manifest_plugins, Rps_M.pure_eq_ok] at h
    obtain ⟨_, rfl⟩ := h
    simp
  | cons jcur more ih =>
    intro w w1 h
    simp only [Rps_Loader.manifest_plugins, Rps_M.bind_eq_ok, Rps_M.ofOption_eq_ok,
      Rps_M.assert_eq_ok] at h
    obtain ⟨str, s1, ⟨hstr, rfl⟩, _, s2, ⟨hb, rfl⟩, pluginpath, s3, hpath, hrest⟩ := h
    have hs3 : s3 = w := (load_real_path_ro env _).ok_state hpath
    subst hs3
    cases hdl : env.dlopen pluginpath with
    | none => rw [hdl] at hrest; simp [Rps_M.RPS_FATAL] at hrest
    | some dlh =>
      rw [hdl] at hrest
      simp only [Rps_M.bind_eq_ok, Rps_M.modify_eq_ok] at hrest
      obtain ⟨_, s4, rfl, hmore⟩ := hrest
      have hih := ih _ w1 hmore
      exact hih

theorem mem_listed_strings (jv : Json) (key str : String) :
    str ∈ listed_strings jv key ↔ ∃ j ∈ (jv.get key).elems, j.asString = some str := by
  simp [listed_strings, List.mem_filterMap]

theorem parse_manifest_file_ok (env : Rps_Env) (w w1 : Rps_World)
    (h : Rps_Loader.parse_manifest_file env w = .ok () w1) :
    ∃ jv, manifest_of env w = some jv ∧ manifest_wellformed jv = true
      ∧ (∀ x, x ∈ w1.ld.ld_spaceset ↔
          x ∈ w.ld.ld_spaceset ∨ x.to_string ∈ listed_strings jv "spaceset")
      ∧ (∀ x, x ∈ w1.ld.ld_globrootsidset ↔
          x ∈ w.ld.ld_globrootsidset ∨ x.to_string ∈ listed_strings jv "globalroots") := by
  unfold Rps_Loader.parse_manifest_file at h
  obtain ⟨w0, s0, hget, k1⟩ := Rps_M.bind_eq_ok.mp h
  clear h
  obtain ⟨rfl, rfl⟩ := Rps_M.get_eq_ok.mp hget
  clear hget
  obtain ⟨_, s1, hacc, k2⟩ := Rps_M.bind_eq_ok.mp k1
  clear k1
  obtain ⟨_, rfl⟩ := Rps_M.fatalIf_eq_ok.mp hacc
  clear hacc
  obtain ⟨manifstr, s2, hstr, k3⟩ := Rps_M.bind_eq_ok.mp k2
  clear k2
  have hs2 : s2 = s0 := (string_of_loaded_file_ro env _).ok_state hstr
  subst hs2
  obtain ⟨_, s3, hlen, k4⟩ := Rps_M.bind_eq_ok.mp k3
  clear k3
  obtain ⟨_, rfl⟩ := Rps_M.fatalIf_eq_ok.mp hlen
  clear hlen
  obtain ⟨manifjson, s4, htry, k5⟩ := Rps_M.bind_eq_ok.mp k4
  clear k4
  have hbody := tryCatch_fatal_eq_ok htry
  clear htry
  obtain ⟨jv, s5, hparse, hbody2⟩ := Rps_M.bind_eq_ok.mp hbody
  clear hbody
  obtain ⟨_, s6, hty, hbody3⟩ := Rps_M.bind_eq_ok.mp hbody2
  clear hbody2
  obtain ⟨htype, rfl⟩ := Rps_M.fatalIf_eq_ok.mp hty
  clear hty
  obtain ⟨rfl, rfl⟩ := Rps_M.pure_eq_ok.mp hbody3
  clear hbody3
  cases hP : env.rps_string_to_json manifstr with
  | error e => rw [hP] at hparse; simp [Rps_M.raise] at hparse
  | ok jv0 =>
    rw [hP] at hparse
    obtain ⟨rfl, rfl⟩ := Rps_M.pure_eq_ok.mp hparse
    clear hparse
    obtain ⟨formatstr, s7, hfmt, k6⟩ := Rps_M.bind_eq_ok.mp k5
    clear k5
    obtain ⟨hformat, rfl⟩ := Rps_M.ofOption_eq_ok.mp hfmt
    clear hfmt
    obtain ⟨_, s8, hfmt2, k7⟩ := Rps_M.bind_eq_ok.mp k6
    clear k6
    obtain ⟨hformat2, rfl⟩ := Rps_M.fatalIf_eq_ok.mp hfmt2
    clear hfmt2
    obtain ⟨_, s9, hsp, k8⟩ := Rps_M.bind_eq_ok.mp k7
    clear k7
    obtain ⟨hspty, rfl⟩ := Rps_M.fatalIf_eq_ok.mp hsp
    clear hsp
    obtain ⟨_, s10, hsploop, k9⟩ := Rps_M.bind_eq_ok.mp k8
    clear k8
    obtain ⟨_, s11, hgr, k10⟩ := Rps_M.bind_eq_ok.mp k9
    clear k9
    obtain ⟨hgrty, rfl⟩ := Rps_M.fatalIf_eq_ok.mp hgr
    clear hgr
    obtain ⟨_, s12, hgrloop, k11⟩ := Rps_M.bind_eq_ok.mp k10
    clear k10
    obtain ⟨_, s13, hpl, k12⟩ := Rps_M.bind_eq_ok.mp k11
    clear k11
    obtain ⟨hplty, rfl⟩ := Rps_M.fatalIf_eq_ok.mp hpl
    clear hpl
    obtain ⟨hsp1, hsp2⟩ := manifest_spaceset_ok _ _ _ hsploop
    obtain ⟨hgr1, hgr2⟩ := manifest_globalroots_ok _ _ _ hgrloop
    obtain ⟨hpl1, hpl2⟩ := manifest_plugins_ok env _ _ _ k12
    refine ⟨jv0, ?_, ?_, ?_, ?_⟩
    · unfold manifest_of
      rw [hstr]
      simp only [hP]
    · have hf : formatstr = RPS_MANIFEST_FORMAT := by simpa using hformat2
      have e1 : jv0.type = JsonType.objectValue := by simpa using htype
      have e2 : (jv0.get "spaceset").type = JsonType.arrayValue := by simpa using hspty
      have e3 : (jv0.get "globalroots").type = JsonType.arrayValue := by simpa using hgrty
      have e4 : (jv0.get "plugins").type = JsonType.arrayValue := by simpa using hplty
      rw [hf] at hformat
      simp [manifest_wellformed, hformat, e1, e2, e3, e4]
    · intro x
      rw [hpl1, hgr1, hsp2 x, mem_listed_strings]
    · intro x
      rw [hpl2, hgr2 x, hsp1, mem_listed_strings]

theorem guarded_fatal_of_not_ok (step : Rps_M Rps_World Unit) (w : Rps_World)
    (h : (step w).isOk = false) : (rps_load_guarded step w).isFatal = true := by
  unfold rps_load_guarded Rps_M.tryCatch
  cases hs : step w with
  | ok a s1 => rw [hs] at h; simp [Outcome.isOk] at h
  | throw e s1 => rfl
  | fatal e s1 => rfl

/-- C10: on a new loader, when the manifest is not a JSON object, or its
`format` is not "RefPerSysFormat2019A", or one of `spaceset`, `globalroots`,
`plugins` is not a JSON array, `parse_manifest_file` does not return, and the
load stops in a fatal error (by `RPS_FATAL` in the call, or by the `catch` of
`rps_load_from` for an exception of the JSON library); when it returns,
`ld_spaceset` is exactly the set of the identifiers listed in `spaceset` and
`ld_globrootsidset` exactly the set of those listed in `globalroots`. -/
theorem parse_manifest_file_validates (env : Rps_Env) (w : Rps_World)
    (hsp : w.ld.ld_spaceset = []) (hgr : w.ld.ld_globrootsidset = []) :
    ((∀ jv, manifest_of env w = some jv → manifest_wellformed jv = false) →
        (Rps_Loader.parse_manifest_file env w).isOk = false
          ∧ (rps_load_guarded (Rps_Loader.parse_manifest_file env) w).isFatal = true)
      ∧ (∀ w1, Rps_Loader.parse_manifest_file env w = .ok () w1 →
          ∃ jv, manifest_of env w = some jv ∧ manifest_wellformed jv = true
            ∧ (∀ x, x ∈ w1.ld.ld_spaceset ↔ x.to_string ∈ listed_strings jv "spaceset")
            ∧ (∀ x, x ∈ w1.ld.ld_globrootsidset ↔
                x.to_string ∈ listed_strings jv "globalroots")) := by
  constructor
  · intro hbad
    have hnot : (Rps_Loader.parse_manifest_file env w).isOk = false := by
      cases hr : Rps_Loader.parse_manifest_file env w with
      | ok u w1 =>
        obtain ⟨jv, hjv, hwf, _⟩ := parse_manifest_file_ok env w w1 hr
        rw [hbad jv hjv] at hwf
        exact absurd hwf (by decide)
      | throw e s1 => rfl
      | fatal e s1 => rfl
    exact ⟨hnot, guarded_fatal_of_not_ok _ w hnot⟩
  · intro w1 hr
    obtain ⟨jv, hjv, hwf, hs, hg⟩ := parse_manifest_file_ok env w w1 hr
    refine ⟨jv, hjv, hwf, ?_, ?_⟩
    · intro x
      rw [hs x, hsp]
      simp
    · intro x
      rw [hg x, hgr]
      simp

/-- C10, example: the manifest of the example store, read by a new loader,
gives the space set and the set of global roots that it lists. -/
theorem parse_manifest_file_validates_witness :
    (Rps_Loader.parse_manifest_file ex_env ex_world0).isOk = true
      ∧ (∃ jv, manifest_of ex_env ex_world0 = some jv ∧ manifest_wellformed jv = true
          ∧ (∀ x, x ∈ (Rps_Loader.parse_manifest_file ex_env ex_world0).state.ld.ld_spaceset
              ↔ x.to_string ∈ listed_strings jv "spaceset")
          ∧ (∀ x,
              x ∈ (Rps_Loader.parse_manifest_file ex_env ex_world0).state.ld.ld_globrootsidset
              ↔ x.to_string ∈ listed_strings jv "globalroots"))
      ∧ (Rps_Loader.parse_manifest_file ex_env ex_world0).state.ld.ld_spaceset = [ex_space]
      ∧ (Rps_Loader.parse_manifest_file ex_env ex_world0).state.ld.ld_globrootsidset
          = [ex_class] :=
  ⟨by rfl,
    (parse_manifest_file_validates ex_env ex_world0 rfl rfl).2
      (Rps_Loader.parse_manifest_file ex_env ex_world0).state (by rfl),
    by rfl, by rfl⟩
/-! ## C1, C6, C7: the code at the failing inputs; examples for C8 and C9 -/

/-- C1 (code at the failing input): the object of the live heap has one
component, a tuple; the dumper encodes the component as `ex_tuple_json`, and
the second pass of the loader on the record with that component returns with
an object whose component sequence is the null value alone, not the tuple: the
component sequence does not survive the round trip. -/
theorem roundtrip_loses_tuple_component :
    rps_dump_json_value ex_env (.tuple [some ex_class]) ex_live_world
        = .ok ex_tuple_json ex_live_world
      ∧ (Rps_Loader.parse_json_buffer_second_pass ex_env_live ex_space 5 ex_obj
          (text_of_lines ex_live_lines) 2 ex_world).isOk = true
      ∧ ((Rps_Loader.parse_json_buffer_second_pass ex_env_live ex_space 5 ex_obj
          (text_of_lines ex_live_lines) 2 ex_world).state.heap.find ex_obj).map
            (fun ob => ob.ob_comps) = some [Rps_Value.null]
      ∧ (ex_live_heap.find ex_obj).map (fun ob => ob.ob_comps)
          = some [Rps_Value.tuple [some ex_class]]
      ∧ [Rps_Value.null] ≠ [Rps_Value.tuple [some ex_class]] :=
  ⟨by rfl, by rfl, by rfl, by rfl, by simp⟩

/-- C6 (code at the failing input): the space file holds the prologue of the
example, which declares `nbobjects` = 2, and no object starting line; the
prologue is read only at the first object starting line, so the expected
count stays 0 and `first_pass_space` returns normally, with no object
loaded. -/
theorem first_pass_accepts_missing_objects :
    ex_env_noobject.rps_string_to_json (text_of_lines ex_prologue_lines) = .ok ex_prologue
      ∧ (ex_prologue.get "nbobjects").asInt = some 2
      ∧ object_start_ids (space_file_lines ex_env_noobject ex_world0 ex_space) = []
      ∧ Rps_Loader.first_pass_space ex_env_noobject ex_space ex_world0 = .ok () ex_world0 :=
  ⟨by rfl, by rfl, by rfl, by rfl⟩

/-- C7 (code at the failing input): the file of the space `ex_space` holds a
prologue whose `format` is "SomeOtherFormat" and whose `spaceid` names another
space, and no object starting line; the prologue is never read and
`first_pass_space` returns normally. -/
theorem first_pass_accepts_alien_prologue :
    ex_env_alien.rps_string_to_json (text_of_lines ex_alien_lines) = .ok ex_alien_prologue
      ∧ (ex_alien_prologue.get "format").asString = some "SomeOtherFormat"
      ∧ (ex_alien_prologue.get "spaceid").asString = some "_9zzzzzzzzzzzzzzzzz"
      ∧ ex_space.to_string = "_1aaaaaaaaaaaaaaaaa"
      ∧ Rps_Loader.first_pass_space ex_env_alien ex_space ex_world0 = .ok () ex_world0 :=
  ⟨by rfl, by rfl, by rfl, by rfl, by rfl⟩

/-- C8, example: the record of the class handed to the second pass under the
identifier of the object: the `oid` does not match and the call is fatal,
with the object untouched. -/
theorem second_pass_id_mismatch_fatal_witness :
    ex_env.rps_string_to_json (text_of_lines ex_class_lines) = .ok ex_class_record
      ∧ (ex_class_record.get "oid").asString ≠ some ex_obj.to_string
      ∧ (Rps_Loader.parse_json_buffer_second_pass ex_env ex_space 5 ex_obj
          (text_of_lines ex_class_lines) 2 ex_world).isOk = false
      ∧ (Rps_Loader.parse_json_buffer_second_pass ex_env ex_space 5 ex_obj
          (text_of_lines ex_class_lines) 2 ex_world).state = ex_world
      ∧ (Rps_Loader.second_pass_guarded ex_env ex_space 5 ex_obj
          (text_of_lines ex_class_lines) 2 ex_world).isFatal = true :=
  have hparse : ex_env.rps_string_to_json (text_of_lines ex_class_lines)
      = .ok ex_class_record := by rfl
  have hne : (ex_class_record.get "oid").asString ≠ some ex_obj.to_string := by decide
  have h := second_pass_id_mismatch_fatal ex_env ex_space 5 ex_obj
    (text_of_lines ex_class_lines) 2 ex_world
    (fun jv hjv => by
      rw [hparse] at hjv
      cases hjv
      exact Or.inr hne)
  ⟨hparse, hne, h.1, h.2.1, h.2.2.2.1⟩

/-- C9, example: the second pass on the record of the object of the example
space file, whose `comps` are 7, "hello" and the class, and whose only
attribute is the class with the value 5. -/
theorem second_pass_populates_witness :
    ∃ w1, Rps_Loader.parse_json_buffer_second_pass ex_env ex_space 5 ex_obj
        (text_of_lines ex_obj_lines) 2 ex_world = .ok () w1
      ∧ w1.ld = ex_world.ld
      ∧ w1.heap.find ex_obj = some { Rps_ObjectZone.skeleton ex_obj with
          ob_class := some ex_class, ob_space := some ex_space, ob_mtime := ex_mtime,
          ob_comps := [Rps_Value.int 7, Rps_Value.string "hello", Rps_Value.object ex_class],
          ob_attrs := [(ex_class, Rps_Value.int 5)] } :=
  have h := second_pass_populates ex_env ex_space 5 ex_obj (text_of_lines ex_obj_lines) 2
    ex_world ex_class (.real ex_mtime) ex_mtime
    [.int 7, .str "hello", .str "_2ccccccccccccccccc"]
    [Rps_Value.int 7, Rps_Value.string "hello", Rps_Value.object ex_class]
    [(ex_class, .int 5)] [Rps_Value.int 5] (Rps_ObjectZone.skeleton ex_obj)
    (by rfl) (by rfl) (by rfl) (by rfl) (by rfl) (by rfl)
    (List.Forall₂.cons (by rfl) (List.Forall₂.cons (by rfl)
      (List.Forall₂.cons (by rfl) List.Forall₂.nil)))
    (List.Forall₂.cons ⟨by rfl, by rfl, by rfl⟩ List.Forall₂.nil)
  match h with
  | ⟨w1, h1, h2, h3, _⟩ => ⟨w1, h1, h2, h3⟩
/-! ## C13: an object reference is resolved through the map of the loader alone -/

theorem find_object_by_oid_isSome (w : Rps_World)
    (hmap : ∀ k v, (k, v) ∈ w.ld.ld_mapobjects → v ≠ none) (oid : Rps_Id) :
    (w.ld.find_object_by_oid oid).isSome = true ↔ oid ∈ w.loaded_ids := by
  unfold Rps_Loader.find_object_by_oid Rps_World.loaded_ids
  rw [← lookup_isSome_iff_mem_keys]
  cases hl : w.ld.ld_mapobjects.lookup oid with
  | none => simp
  | some obr =>
    have hmem : (oid, obr) ∈ w.ld.ld_mapobjects := by
      clear hmap
      revert hl
      generalize w.ld.ld_mapobjects = l
      intro hl
      induction l with
      | nil => simp [List.lookup] at hl
      | cons kv rest ih =>
        obtain ⟨k1, v1⟩ := kv
        by_cases hk : oid = k1
        · subst hk
          simp only [List.lookup, beq_self_eq_true, Option.some.injEq] at hl
          subst hl
          exact List.mem_cons_self _ _
        · have hne : (oid == k1) = false := by simpa using hk
          simp only [List.lookup, hne] at hl
          exact List.mem_cons_of_mem _ (ih hl)
    have hne := hmap oid obr hmem
    cases obr with
    | none => exact absurd rfl hne
    | some o => simp

theorem objectref_ofJson_cases (jv : Json) (w : Rps_World) :
    (∃ oid : Rps_Id, oid.valid = true ∧ jv = .str oid.to_string
        ∧ (w.ld.find_object_by_oid oid).isSome = true
        ∧ Rps_ObjectRef.ofJson jv w = .ok (w.ld.find_object_by_oid oid) w)
      ∨ ((¬ ∃ oid : Rps_Id, oid.valid = true ∧ jv = .str oid.to_string
            ∧ (w.ld.find_object_by_oid oid).isSome = true)
          ∧ ∃ what, Rps_ObjectRef.ofJson jv w = .throw what w) := by
  unfold Rps_ObjectRef.ofJson
  simp only [Rps_M.bind_apply, Rps_M.get]
  cases jv with
  | str s =>
    simp only [Json.isString, Json.asString, Option.getD_some, if_true, Bool.true_and]
    by_cases hv : (Rps_Id.ofString s).valid = true
    · have hvc : Rps_Id.validChars s.data = true := by
        unfold Rps_Id.ofString at hv
        by_cases hc : Rps_Id.validChars s.data = true
        · exact hc
        · simp only [hc, Bool.false_eq_true, if_false] at hv
          exact absurd hv (by decide)
      have hof : Rps_Id.ofString s = ⟨s⟩ := by simp [Rps_Id.ofString, hvc]
      have hne : (s != "") = true := valid_str_ne_empty ⟨s⟩ hvc
      simp only [hne, hv, Bool.and_self, if_true, Rps_M.bind_apply, Rps_M.raiseIf]
      cases hf : w.ld.find_object_by_oid (Rps_Id.ofString s) with
      | none =>
        right
        refine ⟨?_, ?_⟩
        · rintro ⟨oid, _, hj, hsome⟩
          have hs : s = oid.str := by simpa [Rps_Id.to_string] using hj
          have : oid = Rps_Id.ofString s := by rw [hof, hs]
          rw [this, hf] at hsome
          exact absurd hsome (by decide)
        · exact ⟨_, rfl⟩
      | some o =>
        left
        refine ⟨⟨s⟩, hvc, rfl, ?_, ?_⟩
        · rw [← hof, hf]; rfl
        · rw [← hof, hf]
          simp [Option.isNone, Rps_M.pure_apply]
    · right
      refine ⟨?_, ?_⟩
      · rintro ⟨oid, hval, hj, _⟩
        have hs : s = oid.str := by simpa [Rps_Id.to_string] using hj
        apply hv
        rw [hs, ofString_of_valid oid hval]
        exact hval
      · have hvf : (Rps_Id.ofString s).valid = false := by simpa using hv
        simp only [hvf, Bool.and_false, Bool.false_eq_true, if_false]
        exact ⟨_, rfl⟩
  | null => exact Or.inr ⟨(by rintro ⟨oid, _, hj, _⟩; cases hj), _, rfl⟩
  | int i => exact Or.inr ⟨(by rintro ⟨oid, _, hj, _⟩; cases hj), _, rfl⟩
  | real d => exact Or.inr ⟨(by rintro ⟨oid, _, hj, _⟩; cases hj), _, rfl⟩
  | bool b => exact Or.inr ⟨(by rintro ⟨oid, _, hj, _⟩; cases hj), _, rfl⟩
  | arr es => exact Or.inr ⟨(by rintro ⟨oid, _, hj, _⟩; cases hj), _, rfl⟩
  | obj ms => exact Or.inr ⟨(by rintro ⟨oid, _, hj, _⟩; cases hj), _, rfl⟩

/-- C13: on a loader whose map holds no null reference (the first pass puts
the skeleton it has just made), for every JSON string that is a valid
identifier `Rps_ObjectRef(json, loader)` returns the object that
`find_object_by_oid` gives for the identifier if and only if the identifier is
a key of `ld_mapobjects`; for every JSON value it throws exactly when the
value is not the string of a valid identifier that is a key, it never stops
the process, it leaves the state as it was, and its result does not depend on
the table of object zones (populated or not). -/
theorem objectref_ofJson_needs_only_skeleton (jv : Json) (w : Rps_World)
    (hmap : ∀ k v, (k, v) ∈ w.ld.ld_mapobjects → v ≠ none) :
    (∀ oid : Rps_Id, oid.valid = true → jv = .str oid.to_string →
        (Rps_ObjectRef.ofJson jv w = .ok (w.ld.find_object_by_oid oid) w
          ↔ oid ∈ w.loaded_ids))
      ∧ ((Rps_ObjectRef.ofJson jv w).isThrow = true ↔
          ¬ ∃ oid : Rps_Id, oid.valid = true ∧ jv = .str oid.to_string ∧ oid ∈ w.loaded_ids)
      ∧ (Rps_ObjectRef.ofJson jv w).isFatal = false
      ∧ (Rps_ObjectRef.ofJson jv w).state = w
      ∧ (∀ h2 : Rps_Heap,
          (Rps_ObjectRef.ofJson jv { w with heap := h2 }).result?
            = (Rps_ObjectRef.ofJson jv w).result?) := by
  have hkey := find_object_by_oid_isSome w hmap
  refine ⟨?_, ?_, ?_, objectref_ofJson_ro jv w, ?_⟩
  · intro oid hval hj
    rcases objectref_ofJson_cases jv w with ⟨oid1, _, hj1, hsome, hok⟩ | ⟨hno, what, hthrow⟩
    · have hs : oid1 = oid := by
        rw [hj] at hj1
        cases oid; cases oid1
        simpa [Rps_Id.to_string] using hj1.symm
      subst hs
      exact ⟨fun _ => (hkey oid1).mp hsome, fun _ => hok⟩
    · constructor
      · intro hok
        rw [hthrow] at hok
        cases hok
      · intro hmem
        exact absurd ⟨oid, hval, hj, (hkey oid).mpr hmem⟩ hno
  · rcases objectref_ofJson_cases jv w with ⟨oid1, hval1, hj1, hsome, hok⟩ | ⟨hno, what, hthrow⟩
    · rw [hok]
      constructor
      · intro h; cases h
      · intro h
        exact absurd ⟨oid1, hval1, hj1, (hkey oid1).mp hsome⟩ h
    · rw [hthrow]
      constructor
      · rintro _ ⟨oid, hval, hj, hmem⟩
        exact hno ⟨oid, hval, hj, (hkey oid).mpr hmem⟩
      · intro _; rfl
  · rcases objectref_ofJson_cases jv w with ⟨_, _, _, _, hok⟩ | ⟨_, what, hthrow⟩
    · rw [hok]; rfl
    · rw [hthrow]; rfl
  · intro h2
    exact objectref_ofJson_ld jv w { w with heap := h2 } rfl

/-- C13, example: after the first pass of the examples the three objects are
skeletons; the string of the identifier of the class is resolved to the
class, and the result is the same when the table of object zones is empty. -/
theorem objectref_ofJson_needs_only_skeleton_witness :
    (∀ k v, (k, v) ∈ ex_world.ld.ld_mapobjects → v ≠ none)
      ∧ Rps_ObjectRef.ofJson (.str "_2ccccccccccccccccc") ex_world = .ok (some ex_class) ex_world
      ∧ ex_class ∈ ex_world.loaded_ids
      ∧ (Rps_ObjectRef.ofJson (.str "_2ccccccccccccccccc") { ex_world with heap := [] }).result?
          = (Rps_ObjectRef.ofJson (.str "_2ccccccccccccccccc") ex_world).result? :=
  have hm : ∀ k v, (k, v) ∈ ex_world.ld.ld_mapobjects → v ≠ none := by
    intro k v h
    simp only [ex_world, ex_loader, Rps_Loader.new, List.mem_cons, Prod.mk.injEq,
      List.mem_nil_iff, or_false] at h
    rcases h with ⟨_, rfl⟩ | ⟨_, rfl⟩ | ⟨_, rfl⟩ <;> simp
  have h := objectref_ofJson_needs_only_skeleton (.str "_2ccccccccccccccccc") ex_world hm
  ⟨hm, by rfl, (h.1 ex_class (by rfl) (by rfl)).mp (by rfl), h.2.2.2.2 []⟩
/-! ## C12: a payload tag that is an identifier -/

theorem second_pass_comps_keeps_ld (obz : Rps_Id) (es : List Json) :
    Rps_M.Keeps (fun w : Rps_World => w.ld) (Rps_Loader.second_pass_comps obz es) := by
  induction es with
  | nil => exact Rps_M.keeps_pure _ _
  | cons j more ih =>
    unfold Rps_Loader.second_pass_comps
    apply Rps_M.keeps_bind _ (Rps_M.keeps_of_ro _ (ofJson_ro j))
    intro v
    apply Rps_M.keeps_bind
    · exact Rps_M.keeps_modify _ (fun _ => rfl)
    · intro _
      exact ih

theorem loader_put_attr_keeps_ld (obz : Rps_Id) (atobr : Rps_ObjectRef) (atval : Rps_Value) :
    Rps_M.Keeps (fun w : Rps_World => w.ld) (Rps_ObjectZone.loader_put_attr obz atobr atval) := by
  cases atobr with
  | none => exact Rps_M.keeps_pure _ _
  | some a => exact Rps_M.keeps_modify _ (fun _ => rfl)

theorem second_pass_attrs_keeps_ld (obz : Rps_Id) (es : List Json) :
    Rps_M.Keeps (fun w : Rps_World => w.ld) (Rps_Loader.second_pass_attrs obz es) := by
  induction es with
  | nil => exact Rps_M.keeps_pure _ _
  | cons j more ih =>
    unfold Rps_Loader.second_pass_attrs
    apply Rps_M.keeps_bind
    · apply Rps_M.keeps_whenB
      apply Rps_M.keeps_bind _ (Rps_M.keeps_of_ro _ (objectref_ofJson_ro _))
      intro atobr
      apply Rps_M.keeps_bind _ (Rps_M.keeps_of_ro _ (ofJson_ro _))
      intro atval
      exact loader_put_attr_keeps_ld _ _ _
    · intro _
      exact ih

theorem second_pass_payload_identifier (env : Rps_Env) (spacid : Rps_Id) (lineno : Nat)
    (objid : Rps_Id) (objjson : Json) (tag : Rps_Id) (w1 : Rps_World)
    (hpayl : objjson.get "payload" = .str tag.to_string) (hvalid : tag.valid = true)
    (hcache : w1.ld.ld_payloadercache.lookup tag.to_string = none) :
    Rps_Loader.second_pass_payload env spacid lineno objid objjson w1
      = .fatal "parse_json_buffer_second_pass payload without loading function" w1 := by
  have hdata : ∃ rest, tag.to_string.data = '_' :: rest := by
    cases tag with
    | mk s =>
      have hv : Rps_Id.validChars s.data = true := hvalid
      show ∃ rest, s.data = '_' :: rest
      cases hd : s.data with
      | nil => rw [hd] at hv; exact absurd hv (by decide)
      | cons c cs =>
        rw [hd] at hv
        simp only [Rps_Id.validChars, cstrAt, List.getD_cons_zero, Bool.and_eq_true,
          beq_iff_eq] at hv
        exact ⟨cs, by rw [hv.1.2]⟩
  obtain ⟨rest, hrest⟩ := hdata
  have hof : (Rps_Id.ofString tag.to_string).valid = true := by
    rw [show tag.to_string = tag.str from rfl, ofString_of_valid tag hvalid]
    exact hvalid
  unfold Rps_Loader.second_pass_payload
  simp only [hpayl, Json.asString, Rps_M.bind_apply, Rps_M.ofOption, Rps_M.ret, Rps_M.get,
    hcache, hrest, hof]
  rfl

/-- C12 (code at the failing inputs): for every object record whose `payload`
is the string of a valid identifier (it starts with an underscore), on a
loader whose cache of payload loaders has no entry for that string (the cache
only ever gets tags that start with a letter), the payload block of
`parse_json_buffer_second_pass` stops the process ("payload ... without
loading function"), and the call never returns normally. -/
theorem second_pass_identifier_payload_fatal (env : Rps_Env) (spacid : Rps_Id)
    (lineno : Nat) (objid : Rps_Id) (objbuf : String) (count : Nat) (w : Rps_World)
    (objjson : Json) (tag : Rps_Id)
    (hparse : env.rps_string_to_json objbuf = .ok objjson)
    (hpayl : objjson.get "payload" = .str tag.to_string) (hvalid : tag.valid = true)
    (hcache : w.ld.ld_payloadercache.lookup tag.to_string = none) :
    (∀ w1 : Rps_World, w1.ld = w.ld →
        Rps_Loader.second_pass_payload env spacid lineno objid objjson w1
          = .fatal "parse_json_buffer_second_pass payload without loading function" w1)
      ∧ (Rps_Loader.parse_json_buffer_second_pass env spacid lineno objid objbuf count w).isOk
          = false := by
  have hblock : ∀ w1 : Rps_World, w1.ld = w.ld →
      Rps_Loader.second_pass_payload env spacid lineno objid objjson w1
        = .fatal "parse_json_buffer_second_pass payload without loading function" w1 := by
    intro w1 hld
    exact second_pass_payload_identifier env spacid lineno objid objjson tag w1 hpayl hvalid
      (by rw [hld]; exact hcache)
  refine ⟨hblock, ?_⟩
  have hmember : objjson.isMember "payload" = true := by
    cases objjson with
    | obj ms =>
      simp only [Json.get] at hpayl
      simp only [Json.isMember]
      cases hl : ms.lookup "payload" with
      | none => rw [hl] at hpayl; cases hpayl
      | some v => rfl
    | null => cases hpayl
    | int i => cases hpayl
    | real d => cases hpayl
    | str s => cases hpayl
    | bool b => cases hpayl
    | arr es => cases hpayl
  cases hr : Rps_Loader.parse_json_buffer_second_pass env spacid lineno objid objbuf count w with
  | throw e s1 => rfl
  | fatal e s1 => rfl
  | ok u w9 =>
    exfalso
    unfold Rps_Loader.parse_json_buffer_second_pass at hr
    obtain ⟨jv0, s1, htry, k1⟩ := Rps_M.bind_eq_ok.mp hr
    clear hr
    have hbody := tryCatch_fatal_eq_ok htry
    clear htry
    rw [hparse] at hbody
    obtain ⟨jv1, s2, hp1, hbody2⟩ := Rps_M.bind_eq_ok.mp hbody
    clear hbody
    obtain ⟨rfl, rfl⟩ := Rps_M.pure_eq_ok.mp hp1
    clear hp1
    obtain ⟨_, s3, hty, hbody3⟩ := Rps_M.bind_eq_ok.mp hbody2
    clear hbody2
    obtain ⟨_, rfl⟩ := Rps_M.fatalIf_eq_ok.mp hty
    clear hty
    obtain ⟨rfl, rfl⟩ := Rps_M.pure_eq_ok.mp hbody3
    clear hbody3
    obtain ⟨oidstr, s4, h2, k2⟩ := Rps_M.bind_eq_ok.mp k1
    clear k1
    obtain ⟨_, rfl⟩ := Rps_M.ofOption_eq_ok.mp h2
    clear h2
    obtain ⟨_, s5, h3, k3⟩ := Rps_M.bind_eq_ok.mp k2
    clear k2
    obtain ⟨_, rfl⟩ := Rps_M.fatalIf_eq_ok.mp h3
    clear h3
    obtain ⟨obz, s6, h4, k4⟩ := Rps_M.bind_eq_ok.mp k3
    clear k3
    have e6 : s6.ld = w.ld := (Rps_M.Keeps.state_eq (Rps_M.keeps_of_ro (fun w => w.ld)
      (by intro s; rfl)) h4)
    clear h4
    obtain ⟨_, s7, h5, k5⟩ := Rps_M.bind_eq_ok.mp k4
    clear k4
    obtain ⟨_, rfl⟩ := Rps_M.assert_eq_ok.mp h5
    clear h5
    obtain ⟨obzspace, s8, h6, k6⟩ := Rps_M.bind_eq_ok.mp k5
    clear k5
    have e8 : s8.ld = w.ld := by
      rw [← e6]
      exact (Rps_M.Keeps.state_eq (Rps_M.keeps_of_ro (fun w => w.ld) (by intro s; rfl)) h6)
    clear h6 e6
    obtain ⟨obclass, s9, h7, k7⟩ := Rps_M.bind_eq_ok.mp k6
    clear k6
    have e9 : s9.ld = w.ld := by
      rw [← e8]
      exact (Rps_M.Keeps.state_eq (Rps_M.keeps_of_ro (fun w => w.ld)
        (objectref_ofJson_ro _)) h7)
    clear h7 e8
    obtain ⟨_, s10, h8, k8⟩ := Rps_M.bind_eq_ok.mp k7
    clear k7
    have e10 : s10.ld = w.ld := by
      rw [← e9]
      exact (Rps_M.Keeps.state_eq (Rps_M.keeps_modify (fun w => w.ld) (fun _ => rfl)) h8)
    clear h8 e9
    obtain ⟨_, s11, h9, k9⟩ := Rps_M.bind_eq_ok.mp k8
    clear k8
    obtain ⟨_, rfl⟩ := Rps_M.assert_eq_ok.mp h9
    clear h9
    obtain ⟨_, s12, h10, k10⟩ := Rps_M.bind_eq_ok.mp k9
    clear k9
    have e12 : s12.ld = w.ld := by
      rw [← e10]
      exact (Rps_M.Keeps.state_eq (Rps_M.keeps_modify (fun w => w.ld) (fun _ => rfl)) h10)
    clear h10 e10
    obtain ⟨mtim, s13, h11, k11⟩ := Rps_M.bind_eq_ok.mp k10
    clear k10
    obtain ⟨_, rfl⟩ := Rps_M.ofOption_eq_ok.mp h11
    clear h11
    obtain ⟨_, s14, h12, k12⟩ := Rps_M.bind_eq_ok.mp k11
    clear k11
    have e14 : s14.ld = w.ld := by
      rw [← e12]
      exact (Rps_M.Keeps.state_eq (Rps_M.keeps_modify (fun w => w.ld) (fun _ => rfl)) h12)
    clear h12 e12
    obtain ⟨_, s15, h13, k13⟩ := Rps_M.bind_eq_ok.mp k12
    clear k12
    have e15 : s15.ld = w.ld := by
      rw [← e14]
      refine Rps_M.Keeps.state_eq ?_ h13
      apply Rps_M.keeps_whenB
      apply Rps_M.keeps_whenB
      apply Rps_M.keeps_bind _ (Rps_M.keeps_pure _ _)
      intro _
      exact second_pass_comps_keeps_ld _ _
    clear h13 e14
    obtain ⟨_, s16, h14, k14⟩ := Rps_M.bind_eq_ok.mp k13
    clear k13
    have e16 : s16.ld = w.ld := by
      rw [← e15]
      refine Rps_M.Keeps.state_eq ?_ h14
      apply Rps_M.keeps_whenB
      apply Rps_M.keeps_whenB
      exact second_pass_attrs_keeps_ld _ _
    clear h14 e15
    obtain ⟨_, s17, h15, k15⟩ := Rps_M.bind_eq_ok.mp k14
    clear k14
    have e17 : s17.ld = w.ld := by
      rw [← e16]
      refine Rps_M.Keeps.state_eq ?_ h15
      apply Rps_M.keeps_whenB
      apply Rps_M.keeps_bind _ (Rps_M.keeps_of_ro _ (Rps_M.ro_fatalIf _ _))
      intro _
      exact Rps_M.keeps_modify _ (fun _ => rfl)
    clear h15 e16
    obtain ⟨_, s18, h16, k16⟩ := Rps_M.bind_eq_ok.mp k15
    clear k15
    have e18 : s18.ld = w.ld := by
      rw [← e17]
      refine Rps_M.Keeps.state_eq ?_ h16
      apply Rps_M.keeps_whenB
      apply Rps_M.keeps_bind _ (Rps_M.keeps_of_ro _ (Rps_M.ro_fatalIf _ _))
      intro _
      exact Rps_M.keeps_modify _ (fun _ => rfl)
    clear h16 e17
    rw [hmember] at k16
    have hf := hblock s18 e18
    simp only [Rps_M.whenB, if_true] at k16
    rw [hf] at k16
    cases k16

/-- C12, example: the record of the object of the examples with the payload
"_2ccccccccccccccccc", which is the identifier of the class: the second pass
sets the class, the space and the time of the object and then stops the
process. -/
theorem second_pass_identifier_payload_fatal_witness :
    ex_env_payload.rps_string_to_json (text_of_lines ex_payload_lines) = .ok ex_payload_record
      ∧ ex_payload_record.get "payload" = .str ex_class.to_string
      ∧ ex_class.valid = true
      ∧ (Rps_Loader.parse_json_buffer_second_pass ex_env_payload ex_space 5 ex_obj
          (text_of_lines ex_payload_lines) 2 ex_world).isOk = false
      ∧ (Rps_Loader.parse_json_buffer_second_pass ex_env_payload ex_space 5 ex_obj
          (text_of_lines ex_payload_lines) 2 ex_world).isFatal = true :=
  ⟨by rfl, by rfl, by rfl,
    (second_pass_identifier_payload_fatal ex_env_payload ex_space 5 ex_obj
      (text_of_lines ex_payload_lines) 2 ex_world ex_payload_record ex_class
      (by rfl) (by rfl) (by rfl) (by rfl)).2,
    by rfl⟩
/-! ## C11: a root that the loader does not find -/

theorem install_global_roots_found (ids : List Rps_Id) :
    ∀ w : Rps_World, (∀ id ∈ ids, (w.ld.find_object_by_oid id).isSome = true) →
      Rps_Loader.install_global_roots ids w
        = .ok () { w with roots := roots_with w.ld ids w.roots } := by
  induction ids with
  | nil => intro w _; rfl
  | cons id more ih =>
    intro w hall
    have hid := hall id (List.mem_cons_self _ _)
    unfold Rps_Loader.install_global_roots
    simp only [Rps_M.bind_apply, Rps_M.get, Rps_M.RPS_ASSERT, hid, if_true]
    cases hf : w.ld.find_object_by_oid id with
    | none => rw [hf] at hid; exact absurd hid (by decide)
    | some o =>
      simp only [Rps_Loader.rps_add_root_object, Rps_M.modify]
      have hih := ih { w with roots := Rps_Id.setInsert o w.roots }
        (fun x hx => hall x (List.mem_cons_of_mem _ hx))
      rw [hih]
      simp only [roots_with, List.foldl_cons, hf]

theorem install_global_roots_missing (ids : List Rps_Id) :
    ∀ w : Rps_World, (∃ id ∈ ids, w.ld.find_object_by_oid id = none) →
      ∃ w1, Rps_Loader.install_global_roots ids w = .fatal "RPS_ASSERT(curootobr)" w1
        ∧ w1.globals = w.globals ∧ w1.ld = w.ld := by
  induction ids with
  | nil => intro w ⟨id, hmem, _⟩; cases hmem
  | cons id more ih =>
    intro w hex
    unfold Rps_Loader.install_global_roots
    simp only [Rps_M.bind_apply, Rps_M.get, Rps_M.RPS_ASSERT]
    cases hf : w.ld.find_object_by_oid id with
    | none => exact ⟨w, rfl, rfl, rfl⟩
    | some o =>
      simp only [Option.isSome_some, if_true, Rps_Loader.rps_add_root_object, Rps_M.modify]
      have hex2 : ∃ x ∈ more, w.ld.find_object_by_oid x = none := by
        obtain ⟨x, hx, hxn⟩ := hex
        rcases List.mem_cons.mp hx with rfl | hx2
        · rw [hf] at hxn; cases hxn
        · exact ⟨x, hx2, hxn⟩
      obtain ⟨w1, h1, h2, h3⟩ := ih { w with roots := Rps_Id.setInsert o w.roots } hex2
      exact ⟨w1, h1, h2, h3⟩

theorem install_roots_table_ok (tbl : List String) :
    ∀ w : Rps_World, (∀ s ∈ tbl, table_oid_ok s = true) →
      Rps_Loader.install_roots_table tbl w
        = .ok () { w with globals :=
            (tbl.map (fun s =>
              ("RPS_ROOT_OB(" ++ s ++ ")", w.ld.find_object_by_oid (table_oid s)))).reverse
              ++ w.globals } := by
  induction tbl with
  | nil => intro w _; rfl
  | cons s more ih =>
    intro w hall
    have hs := hall s (List.mem_cons_self _ _)
    simp only [table_oid_ok, Bool.and_eq_true] at hs
    unfold Rps_Loader.install_roots_table Rps_Loader.RPS_INSTALL_ROOT_OB
    simp only [Rps_M.bind_apply, Rps_M.get, Rps_M.RPS_ASSERT, hs.1, hs.2.1, hs.2.2,
      Bool.and_self, if_true, Rps_Loader.set_global, Rps_M.modify]
    rw [ih _ (fun x hx => hall x (List.mem_cons_of_mem _ hx))]
    simp only [List.map_cons, List.reverse_cons, List.append_assoc, List.singleton_append,
      table_oid]

theorem install_names_table_ok (tbl : List (String × String)) :
    ∀ w : Rps_World, (∀ e ∈ tbl, table_oid_ok e.1 = true) →
      Rps_Loader.install_names_table tbl w
        = .ok () { w with globals :=
            (tbl.map (fun e =>
              ("RPS_SYMB_OB(" ++ e.2 ++ ")", w.ld.find_object_by_oid (table_oid e.1)))).reverse
              ++ w.globals } := by
  induction tbl with
  | nil => intro w _; rfl
  | cons e more ih =>
    intro w hall
    have hs := hall e (List.mem_cons_self _ _)
    simp only [table_oid_ok, Bool.and_eq_true] at hs
    unfold Rps_Loader.install_names_table Rps_Loader.RPS_INSTALL_NAMED_ROOT_OB
    simp only [Rps_M.bind_apply, Rps_M.get, Rps_M.RPS_ASSERT, hs.1, hs.2.1, hs.2.2,
      Bool.and_self, if_true, Rps_Loader.set_global, Rps_M.modify]
    rw [ih _ (fun x hx => hall x (List.mem_cons_of_mem _ hx))]
    simp only [List.map_cons, List.reverse_cons, List.append_assoc, List.singleton_append,
      table_oid]

/-- C11, as the code has it: the identifiers of the two compiled-in tables
being well formed, (1) when every identifier of `ld_globrootsidset` is found,
`load_install_roots` returns normally whatever identifiers of the tables are
absent from the map of the loader: each variable of the tables is assigned,
null for an absent identifier (a warning), and the later entries are
installed all the same; (2) when an identifier of `ld_globrootsidset` is
absent from the map, `RPS_ASSERT(curootobr)` stops the process, and no root of
the tables has been installed. -/
theorem load_install_roots_missing_root (env : Rps_Env) (w : Rps_World)
    (hroots : ∀ s ∈ env.roots_table, table_oid_ok s = true)
    (hnames : ∀ e ∈ env.names_table, table_oid_ok e.1 = true) :
    ((∀ id ∈ w.ld.ld_globrootsidset, (w.ld.find_object_by_oid id).isSome = true) →
        Rps_Loader.load_install_roots env w
          = .ok () { w with
              roots := roots_with w.ld w.ld.ld_globrootsidset w.roots,
              globals := table_globals env w.ld ++ w.globals })
      ∧ ((∃ id ∈ w.ld.ld_globrootsidset, w.ld.find_object_by_oid id = none) →
          ∃ w1, Rps_Loader.load_install_roots env w = .fatal "RPS_ASSERT(curootobr)" w1
            ∧ w1.globals = w.globals) := by
  constructor
  · intro hall
    unfold Rps_Loader.load_install_roots
    simp only [Rps_M.bind_apply, Rps_M.get]
    rw [install_global_roots_found _ w hall]
    simp only []
    rw [install_roots_table_ok _ _ hroots]
    simp only []
    rw [install_names_table_ok _ _ hnames]
    simp only [table_globals, List.append_assoc]
  · intro hex
    obtain ⟨w1, h1, h2, _⟩ := install_global_roots_missing _ w hex
    refine ⟨w1, ?_, h2⟩
    unfold Rps_Loader.load_install_roots
    simp only [Rps_M.bind_apply, Rps_M.get]
    rw [h1]

/-- C11, example where the roots of the manifest are found: the tables name
the class, and an absent object twice; the call returns, the class is
installed and the two absent roots are null. -/
theorem load_install_roots_missing_root_witness :
    (∀ s ∈ ex_env_tables.roots_table, table_oid_ok s = true)
      ∧ (∀ e ∈ ex_env_tables.names_table, table_oid_ok e.1 = true)
      ∧ ex_world_roots.ld.find_object_by_oid ex_absent = none
      ∧ Rps_Loader.load_install_roots ex_env_tables ex_world_roots
          = .ok () { ex_world_roots with
              roots := [ex_class],
              globals := [("RPS_SYMB_OB(thing)", none),
                ("RPS_ROOT_OB(_4xxxxxxxxxxxxxxxxx)", none),
                ("RPS_ROOT_OB(_2ccccccccccccccccc)", some ex_class)] } :=
  have hr : ∀ s ∈ ex_env_tables.roots_table, table_oid_ok s = true := by decide
  have hn : ∀ e ∈ ex_env_tables.names_table, table_oid_ok e.1 = true := by decide
  ⟨hr, hn, by rfl,
    ((load_install_roots_missing_root ex_env_tables ex_world_roots hr hn).1 (by decide)).trans
      (by rfl)⟩

/-- C11, counterexample to the claim as written: the manifest lists an absent
object among its global roots; `load_install_roots` stops the process at the
assert, and neither the class, which comes after it in the set, nor any root
of the tables is installed. -/
theorem load_install_roots_absent_manifest_root_fatal :
    ex_absent ∈ ex_world_missing_root.ld.ld_globrootsidset
      ∧ ex_absent ∉ ex_world_missing_root.loaded_ids
      ∧ Rps_Loader.load_install_roots ex_env_tables ex_world_missing_root
          = .fatal "RPS_ASSERT(curootobr)" ex_world_missing_root
      ∧ (Rps_Loader.load_install_roots ex_env_tables ex_world_missing_root).state.roots = []
      ∧ (Rps_Loader.load_install_roots ex_env_tables ex_world_missing_root).state.globals
          = [] :=
  ⟨by decide, by decide, by rfl, by rfl, by rfl⟩
/-! ## C14, C15: the todo queue and its cap -/

theorem pop_front_todo_apply (w : Rps_World) :
    Rps_Loader.pop_front_todo w =
      if w.ld.ld_todocount > Rps_Loader.ld_maxtodo then
        .fatal "too many loader todo functions"
          { w with ld := { w.ld with
              ld_todoque := w.ld.ld_todoque.tail, ld_todocount := w.ld.ld_todocount + 1 } }
      else
        .ok () { w with ld := { w.ld with
              ld_todoque := w.ld.ld_todoque.tail, ld_todocount := w.ld.ld_todocount + 1 } } := by
  unfold Rps_Loader.pop_front_todo
  simp only [Rps_M.bind_apply, Rps_M.get, Rps_M.modify, Rps_M.fatalIf]
  by_cases h : w.ld.ld_todocount > Rps_Loader.ld_maxtodo
  · simp [h]
  · simp [h]

theorem run_more_todo_succ (env : Rps_Env) (startim steps : Nat) (w : Rps_World) :
    Rps_Loader.run_more_todo_functions env startim (steps + 1) w =
      (if env.elapsed_real_time w.clock_reads < startim + Rps_Loader.doelaps then
        match w.ld.ld_todoque with
        | [] => .ok 0 { w with clock_reads := w.clock_reads + 1 }
        | td :: _ =>
          if td.todo_addtime > startim then
            .ok w.ld.ld_todoque.length { w with clock_reads := w.clock_reads + 1 }
          else
            (Rps_Loader.pop_front_todo >>= fun _ =>
              env.todo_run td.todo_fun >>= fun _ =>
                Rps_Loader.run_more_todo_functions env startim steps)
              { w with clock_reads := w.clock_reads + 1 }
      else .ok w.ld.ld_todoque.length { w with clock_reads := w.clock_reads + 1 }) := by
  show (rps_elapsed_real_time env >>= _) w = _
  simp only [Rps_M.bind_apply, rps_elapsed_real_time]
  split <;> rfl

theorem run_some_todo_apply (env : Rps_Env) (w : Rps_World) :
    Rps_Loader.run_some_todo_functions env w =
      (match w.ld.ld_todoque with
       | [] => .ok 0 { w with clock_reads := w.clock_reads + 1 }
       | td :: _ =>
         (Rps_Loader.pop_front_todo >>= fun _ =>
           env.todo_run td.todo_fun >>= fun _ =>
             Rps_Loader.run_more_todo_functions env (env.elapsed_real_time w.clock_reads)
               (Rps_Loader.dosteps - 1))
           { w with clock_reads := w.clock_reads + 1 }) := by
  show (rps_elapsed_real_time env >>= _) w = _
  simp only [Rps_M.bind_apply, rps_elapsed_real_time]

/-- The step that the two blocks of `run_some_todo_functions` share: the
front entry is popped, counted, and its function is run. -/
theorem todo_step_eq_ok {env : Rps_Env} {td : todo_st} {k : Rps_M Rps_World Nat}
    {w : Rps_World} {n : Nat} {w1 : Rps_World}
    (h : (Rps_Loader.pop_front_todo >>= fun _ => env.todo_run td.todo_fun >>= fun _ => k) w
      = .ok n w1) :
    w.ld.ld_todocount ≤ Rps_Loader.ld_maxtodo
      ∧ ∃ w3, env.todo_run td.todo_fun
            { w with ld := { w.ld with
                ld_todoque := w.ld.ld_todoque.tail, ld_todocount := w.ld.ld_todocount + 1 } }
          = .ok () w3 ∧ k w3 = .ok n w1 := by
  obtain ⟨_, s1, h1, h2⟩ := Rps_M.bind_eq_ok.mp h
  rw [pop_front_todo_apply] at h1
  by_cases hc : w.ld.ld_todocount > Rps_Loader.ld_maxtodo
  · rw [if_pos hc] at h1; cases h1
  · rw [if_neg hc] at h1
    cases h1
    obtain ⟨_, w3, h3, h4⟩ := Rps_M.bind_eq_ok.mp h2
    exact ⟨by omega, w3, h3, h4⟩

theorem run_more_todo_ok (env : Rps_Env)
    (hcount : ∀ k w w1, env.todo_run k w = .ok () w1 → w.ld.ld_todocount ≤ w1.ld.ld_todocount)
    (startim : Nat) (steps : Nat) :
    ∀ (w : Rps_World) (n : Nat) (w1 : Rps_World),
      Rps_Loader.run_more_todo_functions env startim steps w = .ok n w1 →
      n = w1.ld.ld_todoque.length ∧ w.ld.ld_todocount ≤ w1.ld.ld_todocount := by
  induction steps with
  | zero =>
    intro w n w1 h
    cases h
    exact ⟨rfl, le_refl _⟩
  | succ steps ih =>
    intro w n w1 h
    rw [run_more_todo_succ] at h
    split at h
    · cases hq : w.ld.ld_todoque with
      | nil =>
        rw [hq] at h
        cases h
        exact ⟨by simp [hq], le_refl _⟩
      | cons td rest =>
        rw [hq] at h
        simp only at h
        split at h
        · cases h
          exact ⟨by simp [hq], le_refl _⟩
        · obtain ⟨_, w3, h3, h4⟩ := todo_step_eq_ok h
          have hc3 := hcount _ _ _ h3
          obtain ⟨e1, e2⟩ := ih w3 n w1 h4
          simp only at hc3
          exact ⟨e1, by omega⟩
    · cases h
      exact ⟨rfl, le_refl _⟩

theorem run_some_todo_ok (env : Rps_Env)
    (hcount : ∀ k w w1, env.todo_run k w = .ok () w1 → w.ld.ld_todocount ≤ w1.ld.ld_todocount)
    (w : Rps_World) (n : Nat) (w1 : Rps_World)
    (h : Rps_Loader.run_some_todo_functions env w = .ok n w1) :
    n = w1.ld.ld_todoque.length
      ∧ (0 < n → w.ld.ld_todocount ≤ Rps_Loader.ld_maxtodo
          ∧ w.ld.ld_todocount + 1 ≤ w1.ld.ld_todocount) := by
  rw [run_some_todo_apply] at h
  cases hq : w.ld.ld_todoque with
  | nil =>
    rw [hq] at h
    cases h
    exact ⟨by simp [hq], fun h0 => absurd h0 (by decide)⟩
  | cons td rest =>
    rw [hq] at h
    simp only at h
    obtain ⟨hle, w3, h3, h4⟩ := todo_step_eq_ok h
    have hc3 := hcount _ _ _ h3
    obtain ⟨e1, e2⟩ := run_more_todo_ok env hcount _ _ w3 n w1 h4
    simp only at hc3 hle
    exact ⟨e1, fun _ => ⟨hle, by omega⟩⟩

theorem drain_todo_loop_ok (env : Rps_Env)
    (hcount : ∀ k w w1, env.todo_run k w = .ok () w1 → w.ld.ld_todocount ≤ w1.ld.ld_todocount)
    (fuel : Nat) :
    ∀ (w : Rps_World), Rps_Loader.ld_maxtodo + 2 - w.ld.ld_todocount < fuel →
      ∀ (b : Bool) (w1 : Rps_World), Rps_Loader.drain_todo_loop env fuel w = .ok b w1 →
        b = true ∧ w1.ld.ld_todoque = [] := by
  induction fuel with
  | zero => intro w hf; omega
  | succ fuel ih =>
    intro w hf b w1 h
    unfold Rps_Loader.drain_todo_loop at h
    obtain ⟨n, w2, h1, h2⟩ := Rps_M.bind_eq_ok.mp h
    obtain ⟨e1, e2⟩ := run_some_todo_ok env hcount w n w2 h1
    by_cases hn : n > 0
    · rw [if_pos hn] at h2
      obtain ⟨hle, hinc⟩ := e2 hn
      exact ih w2 (by omega) b w1 h2
    · rw [if_neg hn] at h2
      obtain ⟨rfl, rfl⟩ := Rps_M.pure_eq_ok.mp h2
      refine ⟨rfl, ?_⟩
      have : w2.ld.ld_todoque.length = 0 := by omega
      exact List.length_eq_zero.mp this

theorem todo_step_end {env : Rps_Env} (hret : ∀ k w, ∃ w1, env.todo_run k w = .ok () w1)
    (td : todo_st) (k : Rps_M Rps_World Nat) (w : Rps_World)
    (hk : ∀ w3, (∃ n w1, k w3 = .ok n w1)
      ∨ (∃ w1, k w3 = .fatal "too many loader todo functions" w1)) :
    (∃ n w1, (Rps_Loader.pop_front_todo >>= fun _ => env.todo_run td.todo_fun >>= fun _ => k) w
        = .ok n w1)
      ∨ (∃ w1, (Rps_Loader.pop_front_todo >>= fun _ => env.todo_run td.todo_fun >>= fun _ => k) w
        = .fatal "too many loader todo functions" w1) := by
  simp only [Rps_M.bind_apply, pop_front_todo_apply]
  by_cases hc : w.ld.ld_todocount > Rps_Loader.ld_maxtodo
  · right
    rw [if_pos hc]
    exact ⟨_, rfl⟩
  · rw [if_neg hc]
    simp only
    obtain ⟨w3, h3⟩ := hret td.todo_fun { w with ld := { w.ld with
      ld_todoque := w.ld.ld_todoque.tail, ld_todocount := w.ld.ld_todocount + 1 } }
    rw [h3]
    exact hk w3

theorem run_more_todo_end (env : Rps_Env) (hret : ∀ k w, ∃ w1, env.todo_run k w = .ok () w1)
    (startim : Nat) (steps : Nat) :
    ∀ (w : Rps_World),
      (∃ n w1, Rps_Loader.run_more_todo_functions env startim steps w = .ok n w1)
        ∨ (∃ w1, Rps_Loader.run_more_todo_functions env startim steps w
            = .fatal "too many loader todo functions" w1) := by
  induction steps with
  | zero => intro w; exact Or.inl ⟨_, _, rfl⟩
  | succ steps ih =>
    intro w
    rw [run_more_todo_succ]
    split
    · cases hq : w.ld.ld_todoque with
      | nil => exact Or.inl ⟨_, _, rfl⟩
      | cons td rest =>
        simp only
        split
        · exact Or.inl ⟨_, _, rfl⟩
        · exact todo_step_end hret td _ _ ih
    · exact Or.inl ⟨_, _, rfl⟩

theorem run_some_todo_end (env : Rps_Env) (hret : ∀ k w, ∃ w1, env.todo_run k w = .ok () w1)
    (w : Rps_World) :
    (∃ n w1, Rps_Loader.run_some_todo_functions env w = .ok n w1)
      ∨ (∃ w1, Rps_Loader.run_some_todo_functions env w
          = .fatal "too many loader todo functions" w1) := by
  rw [run_some_todo_apply]
  cases hq : w.ld.ld_todoque with
  | nil => exact Or.inl ⟨_, _, rfl⟩
  | cons td rest =>
    simp only
    exact todo_step_end hret td _ _ (run_more_todo_end env hret _ _)

theorem drain_todo_loop_end (env : Rps_Env)
    (hret : ∀ k w, ∃ w1, env.todo_run k w = .ok () w1) (fuel : Nat) :
    ∀ (w : Rps_World),
      (∃ b w1, Rps_Loader.drain_todo_loop env fuel w = .ok b w1)
        ∨ (∃ w1, Rps_Loader.drain_todo_loop env fuel w
            = .fatal "too many loader todo functions" w1) := by
  induction fuel with
  | zero => intro w; exact Or.inl ⟨_, _, rfl⟩
  | succ fuel ih =>
    intro w
    unfold Rps_Loader.drain_todo_loop
    rcases run_some_todo_end env hret w with ⟨n, w1, h1⟩ | ⟨w1, h1⟩
    · rw [Rps_M.bind_ok h1]
      by_cases hn : n > 0
      · rw [if_pos hn]; exact ih w1
      · rw [if_neg hn]; exact Or.inl ⟨_, _, rfl⟩
    · right
      refine ⟨w1, ?_⟩
      simp only [Rps_M.bind_apply, h1]

/-- C15: for every family of todo functions that do not lower the counter
`ld_todocount` (a private member of the loader) and for every state of the
loader, todo queue included, the last loop of `load_all_state_files` ends
within `ld_maxtodo + 3 - ld_todocount` turns: with that bound or a greater one
the model never reports an unfinished loop.  The loop returns normally only
with an empty todo queue, since `run_some_todo_functions` returns 0 exactly
when no entry is left; and when every todo function returns, the loop either
returns or ends in the fatal error of the cap. -/
theorem drain_todo_loop_terminates (env : Rps_Env)
    (hcount : ∀ k w w1, env.todo_run k w = .ok () w1 → w.ld.ld_todocount ≤ w1.ld.ld_todocount)
    (w : Rps_World) (fuel : Nat)
    (hfuel : Rps_Loader.ld_maxtodo + 2 - w.ld.ld_todocount < fuel) :
    (∀ w1, Rps_Loader.drain_todo_loop env fuel w ≠ .ok false w1)
      ∧ (∀ w1, Rps_Loader.drain_todo_loop env fuel w = .ok true w1 → w1.ld.ld_todoque = [])
      ∧ (∀ n w1, Rps_Loader.run_some_todo_functions env w = .ok n w1 →
          (n = 0 ↔ w1.ld.ld_todoque = []))
      ∧ ((∀ k w2, ∃ w3, env.todo_run k w2 = .ok () w3) →
          (∃ w1, Rps_Loader.drain_todo_loop env fuel w = .ok true w1 ∧ w1.ld.ld_todoque = [])
            ∨ (∃ w1, Rps_Loader.drain_todo_loop env fuel w
                = .fatal "too many loader todo functions" w1)) := by
  refine ⟨?_, ?_, ?_, ?_⟩
  · intro w1 h
    have := (drain_todo_loop_ok env hcount fuel w hfuel false w1 h).1
    cases this
  · intro w1 h
    exact (drain_todo_loop_ok env hcount fuel w hfuel true w1 h).2
  · intro n w1 h
    have e := (run_some_todo_ok env hcount w n w1 h).1
    rw [e]
    exact List.length_eq_zero
  · intro hret
    rcases drain_todo_loop_end env hret fuel w with ⟨b, w1, h1⟩ | ⟨w1, h1⟩
    · obtain ⟨rfl, hq⟩ := drain_todo_loop_ok env hcount fuel w hfuel b w1 h1
      exact Or.inl ⟨w1, h1, hq⟩
    · exact Or.inr ⟨w1, h1⟩

/-- C15, example: the queue holds one function, which appends a second one,
which appends a third one; the loop returns with an empty queue after the
three runs. -/
theorem drain_todo_loop_terminates_witness :
    (∀ k w w1, ex_env_chain.todo_run k w = .ok () w1 →
        w.ld.ld_todocount ≤ w1.ld.ld_todocount)
      ∧ Rps_Loader.ld_maxtodo + 2 - ex_world_chain.ld.ld_todocount < 1048579
      ∧ (∀ w1, Rps_Loader.drain_todo_loop ex_env_chain 1048579 ex_world_chain = .ok true w1 →
          w1.ld.ld_todoque = [])
      ∧ (Rps_Loader.drain_todo_loop ex_env_chain 1048579 ex_world_chain).isOk = true
      ∧ (Rps_Loader.drain_todo_loop ex_env_chain 1048579 ex_world_chain).state.ld.ld_todocount
          = 3 :=
  have hc : ∀ k w w1, ex_env_chain.todo_run k w = .ok () w1 →
      w.ld.ld_todocount ≤ w1.ld.ld_todocount := by
    intro k w w1 h
    simp only [ex_env_chain, Outcome.ok.injEq, true_and] at h
    subst h
    split <;> exact le_refl _
  have hf : Rps_Loader.ld_maxtodo + 2 - ex_world_chain.ld.ld_todocount < 1048579 := by decide
  ⟨hc, hf, (drain_todo_loop_terminates ex_env_chain hc ex_world_chain 1048579 hf).2.1,
    by rfl, by rfl⟩

theorem run_more_todo_counting (env : Rps_Env)
    (htodo : ∀ k w, env.todo_run k w
      = .ok () { w with globals := ("invoked", none) :: w.globals })
    (startim : Nat) (steps : Nat) :
    ∀ (w : Rps_World),
      w.ld.ld_todocount + w.ld.ld_todoque.length ≤ Rps_Loader.ld_maxtodo + 1 →
      ∃ j w1, Rps_Loader.run_more_todo_functions env startim steps w
          = .ok w1.ld.ld_todoque.length w1
        ∧ j ≤ w.ld.ld_todoque.length
        ∧ w1.ld.ld_todoque = w.ld.ld_todoque.drop j
        ∧ w1.ld.ld_todocount = w.ld.ld_todocount + j
        ∧ w1.globals.length = w.globals.length + j := by
  induction steps with
  | zero => intro w _; exact ⟨0, w, rfl, Nat.zero_le _, rfl, rfl, rfl⟩
  | succ steps ih =>
    intro w hle
    rw [run_more_todo_succ]
    split
    · cases hq : w.ld.ld_todoque with
      | nil =>
        exact ⟨0, { w with clock_reads := w.clock_reads + 1 }, by simp [hq], Nat.zero_le _,
          by simp [hq], rfl, rfl⟩
      | cons td rest =>
        simp only
        split
        · exact ⟨0, { w with clock_reads := w.clock_reads + 1 }, by simp [hq], Nat.zero_le _,
            by simp [hq], rfl, rfl⟩
        · rw [hq] at hle
          simp only [List.length_cons] at hle
          have hc : ¬ w.ld.ld_todocount > Rps_Loader.ld_maxtodo := by omega
          simp only [Rps_M.bind_apply, pop_front_todo_apply, if_neg hc, htodo, hq,
            List.tail_cons]
          obtain ⟨j, w1, h1, h2, h3, h4, h5⟩ := ih
            { heap := w.heap,
              ld := { w.ld with ld_todoque := rest, ld_todocount := w.ld.ld_todocount + 1 },
              du := w.du, clock_reads := w.clock_reads + 1, roots := w.roots,
              globals := ("invoked", none) :: w.globals, files := w.files }
            (by simp only; omega)
          refine ⟨j + 1, w1, h1, ?_, ?_, ?_, ?_⟩
          · simp only at h2; simp only [List.length_cons]; omega
          · simpa using h3
          · simp only at h4; omega
          · simp only [List.length_cons] at h5; omega
    · exact ⟨0, { w with clock_reads := w.clock_reads + 1 }, rfl, Nat.zero_le _, rfl, rfl, rfl⟩

theorem run_some_todo_counting (env : Rps_Env)
    (htodo : ∀ k w, env.todo_run k w
      = .ok () { w with globals := ("invoked", none) :: w.globals })
    (w : Rps_World)
    (hle : w.ld.ld_todocount + w.ld.ld_todoque.length ≤ Rps_Loader.ld_maxtodo + 1) :
    ∃ j w1, Rps_Loader.run_some_todo_functions env w = .ok w1.ld.ld_todoque.length w1
      ∧ j ≤ w.ld.ld_todoque.length
      ∧ (w.ld.ld_todoque ≠ [] → 1 ≤ j)
      ∧ w1.ld.ld_todoque = w.ld.ld_todoque.drop j
      ∧ w1.ld.ld_todocount = w.ld.ld_todocount + j
      ∧ w1.globals.length = w.globals.length + j := by
  rw [run_some_todo_apply]
  cases hq : w.ld.ld_todoque with
  | nil =>
    exact ⟨0, { w with clock_reads := w.clock_reads + 1 }, by simp [hq], Nat.zero_le _,
      fun h => absurd rfl h, by simp [hq], rfl, rfl⟩
  | cons td rest =>
    rw [hq] at hle
    simp only [List.length_cons] at hle
    have hc : ¬ w.ld.ld_todocount > Rps_Loader.ld_maxtodo := by omega
    simp only [Rps_M.bind_apply, pop_front_todo_apply, if_neg hc, htodo, hq, List.tail_cons]
    obtain ⟨j, w1, h1, h2, h3, h4, h5⟩ := run_more_todo_counting env htodo
      (env.elapsed_real_time w.clock_reads) (Rps_Loader.dosteps - 1)
      { heap := w.heap,
        ld := { w.ld with ld_todoque := rest, ld_todocount := w.ld.ld_todocount + 1 },
        du := w.du, clock_reads := w.clock_reads + 1, roots := w.roots,
        globals := ("invoked", none) :: w.globals, files := w.files }
      (by simp only; omega)
    refine ⟨j + 1, w1, h1, ?_, fun _ => by omega, ?_, ?_, ?_⟩
    · simp only at h2; simp only [List.length_cons]; omega
    · simpa using h3
    · simp only at h4; omega
    · simp only [List.length_cons] at h5; omega

theorem drain_todo_loop_counting (env : Rps_Env)
    (htodo : ∀ k w, env.todo_run k w
      = .ok () { w with globals := ("invoked", none) :: w.globals })
    (fuel : Nat) :
    ∀ (w : Rps_World), w.ld.ld_todoque.length < fuel →
      w.ld.ld_todocount + w.ld.ld_todoque.length ≤ Rps_Loader.ld_maxtodo + 1 →
      ∃ w1, Rps_Loader.drain_todo_loop env fuel w = .ok true w1
        ∧ w1.ld.ld_todoque = []
        ∧ w1.ld.ld_todocount = w.ld.ld_todocount + w.ld.ld_todoque.length
        ∧ w1.globals.length = w.globals.length + w.ld.ld_todoque.length := by
  induction fuel with
  | zero => intro w hf; omega
  | succ fuel ih =>
    intro w hf hle
    obtain ⟨j, w2, h1, h2, h3, h4, h5, h6⟩ := run_some_todo_counting env htodo w hle
    unfold Rps_Loader.drain_todo_loop
    rw [Rps_M.bind_ok h1]
    have hlen : w2.ld.ld_todoque.length = w.ld.ld_todoque.length - j := by
      rw [h4, List.length_drop]
    by_cases hn : w2.ld.ld_todoque.length > 0
    · rw [if_pos hn]
      have hne : w.ld.ld_todoque ≠ [] := by
        intro he
        rw [he] at hlen
        simp only [List.length_nil, Nat.zero_sub] at hlen
        omega
      have hj := h3 hne
      obtain ⟨w1, e1, e2, e3, e4⟩ := ih w2 (by omega) (by omega)
      exact ⟨w1, e1, e2, by omega, by omega⟩
    · rw [if_neg hn]
      refine ⟨w2, rfl, ?_, by omega, by omega⟩
      exact List.length_eq_zero.mp (by omega)

/-- C14 (code at the failing input): a new loader whose todo queue holds
`ld_maxtodo + 1` = 1048577 entries; each todo function leaves one mark when it
runs.  Whatever the clock gives, the last loop of `load_all_state_files`
returns normally with an empty queue, the counter `ld_todocount` is 1048577
and there are 1048577 marks: `run_some_todo_functions` has invoked one todo
function more than the hard maximum, since the test `ld_todocount++ >
ld_maxtodo` reads the counter before its increment. -/
theorem todo_cap_allows_one_more (clock : Nat → Nat) :
    ∃ w1, Rps_Loader.drain_todo_loop { ex_env_counting with elapsed_real_time := clock }
          (Rps_Loader.ld_maxtodo + 2) (ex_world_todo (Rps_Loader.ld_maxtodo + 1)) = .ok true w1
      ∧ w1.ld.ld_todoque = []
      ∧ w1.ld.ld_todocount = 1048577
      ∧ w1.globals.length = 1048577
      ∧ Rps_Loader.ld_maxtodo = 1048576 := by
  have hlen : (ex_world_todo (Rps_Loader.ld_maxtodo + 1)).ld.ld_todoque.length
      = Rps_Loader.ld_maxtodo + 1 := by
    simp [ex_world_todo]
  have hmax : Rps_Loader.ld_maxtodo = 1048576 := by decide
  obtain ⟨w1, e1, e2, e3, e4⟩ := drain_todo_loop_counting
    { ex_env_counting with elapsed_real_time := clock } (fun _ _ => rfl)
    (Rps_Loader.ld_maxtodo + 2) (ex_world_todo (Rps_Loader.ld_maxtodo + 1))
    (by rw [hlen]; omega) (by rw [hlen]; show 0 + _ ≤ _; omega)
  refine ⟨w1, e1, e2, ?_, ?_, hmax⟩
  · rw [e3, hlen, hmax]; rfl
  · rw [e4, hlen, hmax]; rfl
/-! ## C16, C17, C18: the scan of the dumper -/

theorem ScanStep.same {w w1 : Rps_World} (hh : w1.heap = w.heap)
    (hq : w1.du.du_scanque = w.du.du_scanque)
    (hm : w1.du.du_mapobjects = w.du.du_mapobjects) : ScanStep [] w w1 := by
  refine ⟨hh, [], by simp [hq], List.nodup_nil, ?_, ?_, ?_⟩
  · intro x; simp [Rps_World.dump_ids, hm]
  · intro x hx; cases hx
  · intro x hx; cases hx

theorem ScanStep.trans {r1 r2 : List Rps_ObjectRef} {w w1 w2 : Rps_World}
    (h1 : ScanStep r1 w w1) (h2 : ScanStep r2 w1 w2) : ScanStep (r1 ++ r2) w w2 := by
  obtain ⟨hh1, n1, q1, nd1, m1, p1, c1⟩ := h1
  obtain ⟨hh2, n2, q2, nd2, m2, p2, c2⟩ := h2
  refine ⟨hh2.trans hh1, n1 ++ n2, ?_, ?_, ?_, ?_, ?_⟩
  · rw [q2, q1, List.map_append, List.append_assoc]
  · rw [List.nodup_append]
    refine ⟨nd1, nd2, ?_⟩
    intro x hx1 hx2
    exact (p2 x hx2).1 ((m1 x).mpr (Or.inr hx1))
  · intro x
    rw [m2, m1, List.mem_append]
    tauto
  · intro x hx
    rcases List.mem_append.mp hx with h | h
    · obtain ⟨a, b, c⟩ := p1 x h
      exact ⟨a, List.mem_append_left _ b, c⟩
    · obtain ⟨a, b, c⟩ := p2 x h
      exact ⟨fun hin => a ((m1 x).mpr (Or.inl hin)), List.mem_append_right _ b,
        by rw [← hh1]; exact c⟩
  · intro x hx hs
    rcases List.mem_append.mp hx with h | h
    · exact (m2 x).mpr (Or.inl (c1 x h hs))
    · exact c2 x h (by rw [hh1]; exact hs)

theorem ScanStep.have_space {r : List Rps_ObjectRef} {w w1 : Rps_World}
    (h : ScanStep r w w1) (hs : w.dump_ids_have_space) : w1.dump_ids_have_space := by
  obtain ⟨hh, n, _, _, m, p, _⟩ := h
  intro x hx
  rw [hh]
  rcases (m x).mp hx with h1 | h1
  · exact hs x h1
  · exact (p x h1).2.2

theorem scan_object_step (obr : Rps_ObjectRef) (w : Rps_World) :
    ∃ w1, Rps_Dumper.scan_object obr w = .ok () w1 ∧ ScanStep [obr] w w1 := by
  cases obr with
  | none =>
    refine ⟨w, rfl, rfl, [], by simp, List.nodup_nil, by simp, ?_, ?_⟩
    · intro x hx; cases hx
    · intro x hx; simp at hx
  | some oid =>
    unfold Rps_Dumper.scan_object
    simp only
    by_cases h1 : (w.du.du_mapobjects.lookup oid).isSome = true
    · rw [if_pos h1]
      refine ⟨w, rfl, rfl, [], by simp, List.nodup_nil, by simp, ?_, ?_⟩
      · intro x hx; cases hx
      · intro x hx _
        have : x = oid := by simpa using hx
        subst this
        exact (lookup_isSome_iff_mem_keys x _).mp h1
    · rw [if_neg h1]
      by_cases h2 : (w.heap.space_of oid).isNone = true
      · rw [if_pos h2]
        refine ⟨w, rfl, rfl, [], by simp, List.nodup_nil, by simp, ?_, ?_⟩
        · intro x hx; cases hx
        · intro x hx hsp
          have : x = oid := by simpa using hx
          subst this
          cases hso : w.heap.space_of x with
          | none => rw [hso] at hsp; cases hsp
          | some s => rw [hso] at h2; cases h2
      · rw [if_neg h2]
        have hnot : oid ∉ w.du.du_mapobjects.map Prod.fst := by
          intro hin
          exact h1 ((lookup_isSome_iff_mem_keys oid _).mpr hin)
        have hsp : (w.heap.space_of oid).isSome = true := by
          cases hso : w.heap.space_of oid with
          | none => rw [hso] at h2; exact absurd rfl h2
          | some s => rfl
        refine ⟨_, rfl, rfl, [oid], rfl, List.nodup_singleton _, ?_, ?_, ?_⟩
        · intro x
          simp only [Rps_World.dump_ids]
          rw [mapInsert_keys_mem oid (some oid) _ hnot x]
          simp only [List.mem_singleton]
          tauto
        · intro x hx
          have : x = oid := by simpa using hx
          subst this
          exact ⟨hnot, List.mem_singleton_self _, hsp⟩
        · intro x hx _
          have : x = oid := by simpa using hx
          subst this
          simp only [Rps_World.dump_ids]
          rw [mapInsert_keys_mem x (some x) _ hnot x]
          exact Or.inl rfl

theorem scan_objects_step (refs : List Rps_ObjectRef) :
    ∀ w : Rps_World, ∃ w1, Rps_Dumper.scan_objects refs w = .ok () w1 ∧ ScanStep refs w w1 := by
  induction refs with
  | nil => intro w; exact ⟨w, rfl, ScanStep.same rfl rfl rfl⟩
  | cons obr more ih =>
    intro w
    obtain ⟨w1, e1, s1⟩ := scan_object_step obr w
    obtain ⟨w2, e2, s2⟩ := ih w1
    refine ⟨w2, ?_, s1.trans s2⟩
    unfold Rps_Dumper.scan_objects
    rw [Rps_M.bind_ok e1]
    exact e2

theorem is_dumpable_objref_space (conn : Rps_ObjectRef) (w : Rps_World)
    (hs : w.dump_ids_have_space) :
    Rps_Dumper.is_dumpable_objref conn w = .ok (w.heap.has_space conn) w := by
  unfold Rps_Dumper.is_dumpable_objref
  simp only [Rps_M.bind_apply, Rps_M.get]
  cases conn with
  | none => rfl
  | some oid =>
    simp only [Rps_Heap.has_space]
    by_cases h1 : (w.du.du_mapobjects.lookup oid).isSome = true
    · rw [if_pos h1]
      have := hs oid ((lookup_isSome_iff_mem_keys oid _).mp h1)
      rw [this]
      rfl
    · rw [if_neg h1]
      cases hso : w.heap.space_of oid with
      | none => rfl
      | some s => rfl

theorem dump_scan_metadata_step (metadata : Option (Rps_ObjectRef × Int)) (w : Rps_World) :
    ∃ w1, dump_scan_metadata metadata w = .ok () w1
      ∧ ScanStep (metadata_refs metadata) w w1 := by
  cases metadata with
  | none => exact ⟨w, rfl, ScanStep.same rfl rfl rfl⟩
  | some m =>
    obtain ⟨metaobr, rk⟩ := m
    exact scan_object_step metaobr w

theorem zone_scan_step (conn : Rps_ObjectRef) (vals : List Rps_Value)
    (metadata : Option (Rps_ObjectRef × Int)) (depth : Nat) (w : Rps_World)
    (hs : w.dump_ids_have_space)
    (hvals : ∀ w1 : Rps_World, w1.dump_ids_have_space →
      ∃ w2, Rps_Dumper.scan_values vals (depth + 1) w1 = .ok () w2
        ∧ ScanStep (Rps_Value.scan_refs_list w1.heap vals) w1 w2) :
    ∃ w3, (Rps_Dumper.scan_object conn >>= fun _ =>
        Rps_Dumper.is_dumpable_objref conn >>= fun dumpable =>
          Rps_M.whenB dumpable (Rps_Dumper.scan_values vals (depth + 1)) >>= fun _ =>
            dump_scan_metadata metadata) w = .ok () w3
      ∧ ScanStep (conn :: ((if w.heap.has_space conn then Rps_Value.scan_refs_list w.heap vals
          else []) ++ metadata_refs metadata)) w w3 := by
  obtain ⟨w1, e1, s1⟩ := scan_object_step conn w
  have hs1 := s1.have_space hs
  have hh1 : w1.heap = w.heap := s1.1
  rw [Rps_M.bind_ok e1, Rps_M.bind_ok (is_dumpable_objref_space conn w1 hs1), hh1]
  by_cases hc : w.heap.has_space conn = true
  · obtain ⟨w2, e2, s2⟩ := hvals w1 hs1
    obtain ⟨w3, e3, s3⟩ := dump_scan_metadata_step metadata w2
    rw [hh1] at s2
    refine ⟨w3, ?_, ?_⟩
    · have : Rps_M.whenB (w.heap.has_space conn) (Rps_Dumper.scan_values vals (depth + 1)) w1
          = .ok () w2 := by rw [hc]; exact e2
      rw [Rps_M.bind_ok this]
      exact e3
    · rw [if_pos hc]
      exact s1.trans (s2.trans s3)
  · have hcf : w.heap.has_space conn = false := by simpa using hc
    obtain ⟨w3, e3, s3⟩ := dump_scan_metadata_step metadata w1
    refine ⟨w3, ?_, ?_⟩
    · have : Rps_M.whenB (w.heap.has_space conn) (Rps_Dumper.scan_values vals (depth + 1)) w1
          = .ok () w1 := by rw [hcf]; rfl
      rw [Rps_M.bind_ok this]
      exact e3
    · rw [hcf]
      exact s1.trans s3

mutual

theorem dump_scan_step : ∀ (val : Rps_Value) (depth : Nat) (w : Rps_World),
    w.dump_ids_have_space →
    ∃ w1, Rps_Value.dump_scan val depth w = .ok () w1
      ∧ ScanStep (Rps_Value.scan_refs w.heap val) w w1
  | .null, _, w, _ => ⟨w, by rw [Rps_Value.dump_scan]; rfl, ScanStep.same rfl rfl rfl⟩
  | .empty, _, w, _ => ⟨w, by rw [Rps_Value.dump_scan]; rfl, ScanStep.same rfl rfl rfl⟩
  | .int _, _, w, _ => ⟨w, by rw [Rps_Value.dump_scan]; rfl, ScanStep.same rfl rfl rfl⟩
  | .string _, _, w, _ => ⟨w, by rw [Rps_Value.dump_scan]; rfl, ScanStep.same rfl rfl rfl⟩
  | .double _, _, w, _ => ⟨w, by rw [Rps_Value.dump_scan]; rfl, ScanStep.same rfl rfl rfl⟩
  | .object ob, _, w, _ => by
    rw [Rps_Value.dump_scan, Rps_Value.scan_refs]
    exact scan_object_step (some ob) w
  | .set elements, _, w, _ => by
    rw [Rps_Value.dump_scan, Rps_Value.scan_refs]
    exact scan_objects_step _ w
  | .tuple comps, _, w, _ => by
    rw [Rps_Value.dump_scan, Rps_Value.scan_refs]
    exact scan_objects_step _ w
  | .closure conn cloenv metadata _, depth, w, hs => by
    rw [Rps_Value.dump_scan, Rps_Value.scan_refs]
    exact zone_scan_step conn cloenv metadata depth w hs
      (fun w1 hs1 => scan_values_step cloenv (depth + 1) w1 hs1)
  | .inst conn sons metadata _, depth, w, hs => by
    rw [Rps_Value.dump_scan, Rps_Value.scan_refs]
    exact zone_scan_step conn sons metadata depth w hs
      (fun w1 hs1 => scan_values_step sons (depth + 1) w1 hs1)

theorem scan_values_step : ∀ (vals : List Rps_Value) (depth : Nat) (w : Rps_World),
    w.dump_ids_have_space →
    ∃ w1, Rps_Dumper.scan_values vals depth w = .ok () w1
      ∧ ScanStep (Rps_Value.scan_refs_list w.heap vals) w w1
  | [], _, w, _ => ⟨w, by rw [Rps_Dumper.scan_values]; rfl, ScanStep.same rfl rfl rfl⟩
  | val :: more, depth, w, hs => by
    rw [Rps_Dumper.scan_values, Rps_Value.scan_refs_list]
    have hval : ∃ w1, (if (val.isNullPtr || val.is_empty || !val.is_ptr) = true then pure ()
        else Rps_Value.dump_scan val depth : Rps_M Rps_World Unit) w = .ok () w1
        ∧ ScanStep (Rps_Value.scan_refs w.heap val) w w1 := by
      by_cases hg : (val.isNullPtr || val.is_empty || !val.is_ptr) = true
      · rw [if_pos hg]
        refine ⟨w, rfl, ?_⟩
        cases val with
        | null => exact ScanStep.same rfl rfl rfl
        | empty => exact ScanStep.same rfl rfl rfl
        | int i => exact ScanStep.same rfl rfl rfl
        | string s => simp [Rps_Value.isNullPtr, Rps_Value.is_empty, Rps_Value.is_ptr] at hg
        | double d => simp [Rps_Value.isNullPtr, Rps_Value.is_empty, Rps_Value.is_ptr] at hg
        | object ob => simp [Rps_Value.isNullPtr, Rps_Value.is_empty, Rps_Value.is_ptr] at hg
        | set es => simp [Rps_Value.isNullPtr, Rps_Value.is_empty, Rps_Value.is_ptr] at hg
        | tuple cs => simp [Rps_Value.isNullPtr, Rps_Value.is_empty, Rps_Value.is_ptr] at hg
        | closure c e m t => simp [Rps_Value.isNullPtr, Rps_Value.is_empty, Rps_Value.is_ptr] at hg
        | inst c e m t => simp [Rps_Value.isNullPtr, Rps_Value.is_empty, Rps_Value.is_ptr] at hg
      · rw [if_neg hg]
        exact dump_scan_step val depth w hs
    obtain ⟨w1, e1, s1⟩ := hval
    obtain ⟨w2, e2, s2⟩ := scan_values_step more depth w1 (s1.have_space hs)
    rw [s1.1] at s2
    exact ⟨w2, by rw [Rps_M.bind_ok e1]; exact e2, s1.trans s2⟩

end

/-- C16: on a new dumper, after `scan_object` has been called on the
references of any list, one after the other, every object recorded in
`du_mapobjects` has a space and every reference of `du_scanque` is an object
that has a space; and in every state of the dumper a call of `scan_object` on
a null reference, on an object without a space, or on an object already
recorded in `du_mapobjects` returns with the state as it was. -/
theorem scan_object_skips_transient (w0 : Rps_World) (refs : List Rps_ObjectRef)
    (hmap : w0.du.du_mapobjects = []) (hque : w0.du.du_scanque = []) :
    (∃ w1, Rps_Dumper.scan_objects refs w0 = .ok () w1
        ∧ w1.heap = w0.heap
        ∧ (∀ x ∈ w1.dump_ids, (w1.heap.space_of x).isSome = true)
        ∧ (∀ obr ∈ w1.du.du_scanque, w1.heap.has_space obr = true))
      ∧ (∀ (w : Rps_World) (obr : Rps_ObjectRef),
          (obr = none ∨ w.heap.has_space obr = false ∨ ∃ x, obr = some x ∧ x ∈ w.dump_ids) →
          Rps_Dumper.scan_object obr w = .ok () w) := by
  constructor
  · obtain ⟨w1, e1, s1⟩ := scan_objects_step refs w0
    have hs0 : w0.dump_ids_have_space := by
      intro x hx
      simp [Rps_World.dump_ids, hmap] at hx
    have hs1 := s1.have_space hs0
    obtain ⟨hh, new, q1, _, _, p1, _⟩ := s1
    refine ⟨w1, e1, hh, hs1, ?_⟩
    intro obr hobr
    rw [q1, hque] at hobr
    simp only [List.nil_append, List.mem_map] at hobr
    obtain ⟨x, hx, rfl⟩ := hobr
    show (w1.heap.space_of x).isSome = true
    rw [hh]
    exact (p1 x hx).2.2
  · intro w obr hcase
    unfold Rps_Dumper.scan_object
    cases obr with
    | none => rfl
    | some oid =>
      simp only
      rcases hcase with h | h | ⟨x, hx, hin⟩
      · cases h
      · by_cases h1 : (w.du.du_mapobjects.lookup oid).isSome = true
        · rw [if_pos h1]
        · rw [if_neg h1]
          have h2 : (w.heap.space_of oid).isNone = true := by
            simp only [Rps_Heap.has_space] at h
            cases hso : w.heap.space_of oid with
            | none => rfl
            | some s => rw [hso] at h; cases h
          rw [if_pos h2]
      · cases hx
        have h1 : (w.du.du_mapobjects.lookup oid).isSome = true :=
          (lookup_isSome_iff_mem_keys oid _).mpr hin
        rw [if_pos h1]

/-- C16, example: a new dumper on the heap with a cycle; `scan_object` is
called on the null reference, on the transient object, and twice on the
object `ex_obj`: only `ex_obj` is recorded and queued, once. -/
theorem scan_object_skips_transient_witness :
    ex_graph_world.du.du_mapobjects = [] ∧ ex_graph_world.du.du_scanque = []
      ∧ (∃ w1, Rps_Dumper.scan_objects [none, some ex_transient, some ex_obj, some ex_obj]
            ex_graph_world = .ok () w1
          ∧ w1.heap = ex_graph_world.heap
          ∧ (∀ x ∈ w1.dump_ids, (w1.heap.space_of x).isSome = true)
          ∧ (∀ obr ∈ w1.du.du_scanque, w1.heap.has_space obr = true))
      ∧ (Rps_Dumper.scan_objects [none, some ex_transient, some ex_obj, some ex_obj]
            ex_graph_world).state.du.du_scanque = [some ex_obj]
      ∧ (Rps_Dumper.scan_objects [none, some ex_transient, some ex_obj, some ex_obj]
            ex_graph_world).state.dump_ids = [ex_obj] :=
  ⟨rfl, rfl,
    (scan_object_skips_transient ex_graph_world
      [none, some ex_transient, some ex_obj, some ex_obj] rfl rfl).1,
    by rfl, by rfl⟩

theorem ConstScan.refl (w : Rps_World) : ConstScan w w :=
  ⟨rfl, fun _ hx => hx, fun _ hc => Or.inl hc⟩

theorem ConstScan.chain {w w1 w2 : Rps_World} (h1 : ConstScan w w1) (h2 : ConstScan w1 w2) :
    ConstScan w w2 := by
  obtain ⟨a1, b1, c1⟩ := h1
  obtain ⟨a2, b2, c2⟩ := h2
  refine ⟨a2.trans a1, fun x hx => b2 x (b1 x hx), ?_⟩
  intro c hc
  rcases c2 c hc with h | ⟨hf, hs⟩
  · rcases c1 c h with h' | ⟨hf', hs'⟩
    · exact Or.inl h'
    · exact Or.inr ⟨hf', fun hsp => b2 c (hs' hsp)⟩
  · rw [a1] at hf hs
    exact Or.inr ⟨hf, hs⟩

theorem scan_constant_step (oid : Rps_Id) (w : Rps_World)
    (hfind : (w.heap.find oid).isSome = true) :
    ∃ w1, (Rps_Dumper.scan_object (some oid) >>= fun _ =>
        Rps_M.modify (fun w => { w with du := { w.du with
          du_constantobset := Rps_Id.setInsert oid w.du.du_constantobset } })) w = .ok () w1
      ∧ ConstScan w w1 ∧ oid ∈ w1.du.du_constantobset := by
  obtain ⟨w1, e1, s1⟩ := scan_object_step (some oid) w
  obtain ⟨hh, new, _, _, m1, _, c1⟩ := s1
  have hconst : w1.du.du_constantobset = w.du.du_constantobset := by
    unfold Rps_Dumper.scan_object at e1
    simp only at e1
    split at e1
    · cases e1; rfl
    · split at e1
      · cases e1; rfl
      · cases e1; rfl
  refine ⟨{ w1 with du := { w1.du with
    du_constantobset := Rps_Id.setInsert oid w1.du.du_constantobset } },
    by rw [Rps_M.bind_ok e1]; rfl, ⟨hh, ?_, ?_⟩, ?_⟩
  · intro x hx
    exact (m1 x).mpr (Or.inl hx)
  · intro c hc
    have hc2 : c = oid ∨ c ∈ w1.du.du_constantobset := (setInsert_mem oid c _).mp hc
    rcases hc2 with h | h
    · subst h
      exact Or.inr ⟨hfind, fun hsp => c1 c (List.mem_singleton_self _) hsp⟩
    · rw [hconst] at h
      exact Or.inl h
  · exact (setInsert_mem oid oid _).mpr (Or.inl rfl)

theorem scan_constants_from_ok (env : Rps_Env) (fuel : Nat) :
    ∀ (cur : List Char) (w : Rps_World),
      ∃ w1, Rps_Dumper.scan_constants_from env fuel cur w = .ok () w1 ∧ ConstScan w w1 := by
  induction fuel with
  | zero => intro cur w; exact ⟨w, rfl, ConstScan.refl w⟩
  | succ fuel ih =>
    intro cur w
    unfold Rps_Dumper.scan_constants_from
    cases Rps_Dumper.strstr cur env.constantobj_pfx.data with
    | none => exact ⟨w, rfl, ConstScan.refl w⟩
    | some off =>
      simp only
      split
      · have hstep : ∃ w1, (fun w : Rps_World =>
            match w.heap.find
              (Rps_Id.ofCString (cur.drop (off + env.constantobj_pfx.length))).1 with
            | some _ =>
              (Rps_Dumper.scan_object
                  (some (Rps_Id.ofCString (cur.drop (off + env.constantobj_pfx.length))).1)
                >>= fun _ =>
                Rps_M.modify (fun w => { w with du := { w.du with
                  du_constantobset := Rps_Id.setInsert
                    (Rps_Id.ofCString (cur.drop (off + env.constantobj_pfx.length))).1
                    w.du.du_constantobset } })) w
            | none => .ok () w) w = .ok () w1 ∧ ConstScan w w1 := by
          simp only
          cases hf : w.heap.find
              (Rps_Id.ofCString (cur.drop (off + env.constantobj_pfx.length))).1 with
          | none => exact ⟨w, rfl, ConstScan.refl w⟩
          | some ob =>
            obtain ⟨w1, e1, s1, _⟩ := scan_constant_step
              (Rps_Id.ofCString (cur.drop (off + env.constantobj_pfx.length))).1 w
              (by rw [hf]; rfl)
            exact ⟨w1, e1, s1⟩
        obtain ⟨w1, e1, s1⟩ := hstep
        obtain ⟨w2, e2, s2⟩ := ih
          ((cur.drop (off + env.constantobj_pfx.length)).drop
            (Rps_Id.ofCString (cur.drop (off + env.constantobj_pfx.length))).2.1) w1
        exact ⟨w2, by rw [Rps_M.bind_ok e1]; exact e2, s1.chain s2⟩
      · exact ⟨w, rfl, ConstScan.refl w⟩

theorem scan_constants_lines_ok (env : Rps_Env) (lines : List String) :
    ∀ w : Rps_World,
      ∃ w1, Rps_Dumper.scan_constants_lines env lines w = .ok () w1 ∧ ConstScan w w1 := by
  induction lines with
  | nil => intro w; exact ⟨w, rfl, ConstScan.refl w⟩
  | cons linbuf more ih =>
    intro w
    have h1 : ∃ w1, (if env.u8_check linbuf = true then pure ()
        else Rps_Dumper.scan_constants_from env (linbuf.length + 1) linbuf.data :
          Rps_M Rps_World Unit) w = .ok () w1 ∧ ConstScan w w1 := by
      split
      · exact ⟨w, rfl, ConstScan.refl w⟩
      · exact scan_constants_from_ok env _ _ w
    obtain ⟨w1, e1, s1⟩ := h1
    obtain ⟨w2, e2, s2⟩ := ih w1
    refine ⟨w2, ?_, s1.chain s2⟩
    unfold Rps_Dumper.scan_constants_lines
    rw [Rps_M.bind_ok e1]
    exact e2

theorem char_eq_of_toNat_eq {a b : Char} (h : a.toNat = b.toNat) : a = b := by
  rw [← Char.ofNat_toNat a, ← Char.ofNat_toNat b, h]

theorem charsLt_irrefl (a : List Char) : charsLt a a = false := by
  induction a with
  | nil => rfl
  | cons c cs ih => simp [charsLt, ih]

theorem charsLt_trans : ∀ (a b c : List Char),
    charsLt a b = true → charsLt b c = true → charsLt a c = true := by
  intro a
  induction a with
  | nil =>
    intro b c h1 h2
    cases b with
    | nil => simp [charsLt] at h1
    | cons y ys =>
      cases c with
      | nil => simp [charsLt] at h2
      | cons z zs => simp [charsLt]
  | cons x xs ih =>
    intro b c h1 h2
    cases b with
    | nil => simp [charsLt] at h1
    | cons y ys =>
      cases c with
      | nil => simp [charsLt] at h2
      | cons z zs =>
        simp only [charsLt] at h1 h2 ⊢
        by_cases hxy : x.toNat < y.toNat
        · by_cases hyz : y.toNat < z.toNat
          · rw [if_pos (by omega)]
          · rw [if_neg hyz] at h2
            by_cases hzy : z.toNat < y.toNat
            · rw [if_pos hzy] at h2; cases h2
            · rw [if_pos (by omega)]
        · rw [if_neg hxy] at h1
          by_cases hyx : y.toNat < x.toNat
          · rw [if_pos hyx] at h1; cases h1
          · rw [if_neg hyx] at h1
            by_cases hyz : y.toNat < z.toNat
            · rw [if_pos (by omega)]
            · rw [if_neg hyz] at h2
              by_cases hzy : z.toNat < y.toNat
              · rw [if_pos hzy] at h2; cases h2
              · rw [if_neg hzy] at h2
                rw [if_neg (by omega), if_neg (by omega)]
                exact ih ys zs h1 h2

theorem charsLt_total : ∀ (a b : List Char), a ≠ b →
    charsLt a b = true ∨ charsLt b a = true := by
  intro a
  induction a with
  | nil =>
    intro b hne
    cases b with
    | nil => exact absurd rfl hne
    | cons y ys => exact Or.inl rfl
  | cons x xs ih =>
    intro b hne
    cases b with
    | nil => exact Or.inr rfl
    | cons y ys =>
      simp only [charsLt]
      by_cases hxy : x.toNat < y.toNat
      · exact Or.inl (by rw [if_pos hxy])
      · by_cases hyx : y.toNat < x.toNat
        · exact Or.inr (by rw [if_pos hyx])
        · rw [if_neg hxy, if_neg hyx, if_neg hyx, if_neg hxy]
          have hc : x = y := char_eq_of_toNat_eq (by omega)
          subst hc
          apply ih ys
          intro h
          exact hne (by rw [h])

theorem id_lt_irrefl (a : Rps_Id) : Rps_Id.lt a a = false := charsLt_irrefl _

theorem id_lt_trans {a b c : Rps_Id} (h1 : Rps_Id.lt a b = true) (h2 : Rps_Id.lt b c = true) :
    Rps_Id.lt a c = true := charsLt_trans _ _ _ h1 h2

theorem id_lt_total {a b : Rps_Id} (hne : a ≠ b) :
    Rps_Id.lt a b = true ∨ Rps_Id.lt b a = true := by
  apply charsLt_total
  intro h
  apply hne
  cases a with
  | mk sa =>
    cases b with
    | mk sb =>
      have : sa = sb := String.ext h
      rw [this]

theorem setInsert_sorted (x : Rps_Id) (l : List Rps_Id)
    (hs : l.Pairwise (fun a b => Rps_Id.lt a b = true)) :
    (Rps_Id.setInsert x l).Pairwise (fun a b => Rps_Id.lt a b = true) := by
  induction l with
  | nil => simp [Rps_Id.setInsert]
  | cons y ys ih =>
    unfold Rps_Id.setInsert
    obtain ⟨hy, hys⟩ := List.pairwise_cons.mp hs
    by_cases hxy : x = y
    · rw [if_pos hxy]; exact hs
    · rw [if_neg hxy]
      by_cases hlt : Rps_Id.lt x y = true
      · rw [if_pos hlt]
        refine List.pairwise_cons.mpr ⟨?_, hs⟩
        intro z hz
        rcases List.mem_cons.mp hz with rfl | hz
        · exact hlt
        · exact id_lt_trans hlt (hy z hz)
      · rw [if_neg hlt]
        refine List.pairwise_cons.mpr ⟨?_, ih hys⟩
        intro z hz
        rcases (setInsert_mem x z ys).mp hz with rfl | hz
        · rcases id_lt_total hxy with h | h
          · exact absurd h hlt
          · exact h
        · exact hy z hz

theorem sorted_nodup {l : List Rps_Id} (hs : l.Pairwise (fun a b => Rps_Id.lt a b = true)) :
    l.Nodup := by
  apply List.Pairwise.imp _ hs
  intro a b hlt hab
  subst hab
  rw [id_lt_irrefl] at hlt
  cases hlt

theorem lookup_mapPut {β : Type} (k : Rps_Id) (v : β) (l : List (Rps_Id × β)) (k2 : Rps_Id) :
    (Rps_Id.mapPut k v l).lookup k2 = if k2 = k then some v else l.lookup k2 := by
  induction l with
  | nil =>
    simp only [Rps_Id.mapPut, List.lookup]
    by_cases h : k2 = k
    · subst h; simp
    · have : (k2 == k) = false := by simpa using h
      simp [this, h]
  | cons kv rest ih =>
    obtain ⟨k1, v1⟩ := kv
    unfold Rps_Id.mapPut
    by_cases hk : k = k1
    · subst hk
      rw [if_pos rfl]
      by_cases h : k2 = k
      · subst h; simp [List.lookup]
      · have : (k2 == k) = false := by simpa using h
        simp [List.lookup, this, h]
    · rw [if_neg hk]
      by_cases hlt : Rps_Id.lt k k1 = true
      · rw [if_pos hlt]
        by_cases h : k2 = k
        · subst h; simp [List.lookup]
        · have : (k2 == k) = false := by simpa using h
          simp only [List.lookup, this, if_neg h]
      · rw [if_neg hlt]
        by_cases h21 : k2 = k1
        · subst h21
          have hne : ¬ k2 = k := fun e => hk e.symm
          simp [List.lookup, hne]
        · have : (k2 == k1) = false := by simpa using h21
          simp only [List.lookup, this]
          exact ih

theorem spaces_ok_new (w : Rps_World) (h : w.du.du_spacemap = []) : w.spaces_ok := by
  intro k st hl
  rw [h] at hl
  cases hl

theorem scan_space_component_spaces_ok (spacid comp : Rps_Id) (w : Rps_World)
    (hok : w.spaces_ok) :
    ∃ w1, Rps_Dumper.scan_space_component (some spacid) (some comp) w = .ok () w1
      ∧ w1.spaces_ok
      ∧ ∃ st, w1.du.du_spacemap.lookup spacid = some st ∧ comp ∈ st.sp_setob := by
  refine ⟨_, rfl, ?_, ?_⟩
  · intro k st hl
    simp only at hl
    rw [lookup_mapPut] at hl
    by_cases hk : k = spacid
    · rw [if_pos hk] at hl
      cases hl
      subst hk
      cases hold : w.du.du_spacemap.lookup k with
      | none => simp [Rps_Id.setInsert]
      | some st0 =>
        obtain ⟨a, b, c⟩ := hok k st0 hold
        simp only [Option.getD_some]
        refine ⟨a, ?_, setInsert_sorted comp _ c⟩
        intro hnil
        have : comp ∈ Rps_Id.setInsert comp st0.sp_setob :=
          (setInsert_mem comp comp _).mpr (Or.inl rfl)
        rw [hnil] at this
        cases this
    · rw [if_neg hk] at hl
      exact hok k st hl
  · simp only
    rw [lookup_mapPut, if_pos rfl]
    exact ⟨_, rfl, (setInsert_mem comp comp _).mpr (Or.inl rfl)⟩

theorem not_object_line_of_third (linbuf : String) (h : cstrAt linbuf.data 2 ≠ '+') :
    Rps_Loader.is_object_starting_line Rps_Id.null 0 linbuf = none := by
  unfold Rps_Loader.is_object_starting_line
  simp only
  rw [if_pos]
  simp only [Bool.or_eq_true, bne_iff_ne, ne_eq]
  exact Or.inl (Or.inl (Or.inr h))

theorem object_line_accepted (x : Rps_Id) (hv : x.valid = true) :
    Rps_Loader.is_object_starting_line Rps_Id.null 0 ("//+ob" ++ x.to_string) = some x := by
  cases x with
  | mk s =>
    have hvc : Rps_Id.validChars s.data = true := hv
    have hlen : s.data.length = 19 := by
      simp only [Rps_Id.validChars, Bool.and_eq_true, beq_iff_eq] at hvc
      exact hvc.1.1
    have hdata : ("//+ob" ++ s).data = '/' :: '/' :: '+' :: 'o' :: 'b' :: s.data := by
      rw [String.data_append]
      rfl
    unfold Rps_Loader.is_object_starting_line
    simp only [Rps_Id.to_string, hdata]
    have htake : List.take Rps_Id.nbchars s.data = s.data := by
      apply List.take_of_length_le
      rw [hlen]
      decide
    have h5 : ("//+ob" : String).length = 5 := by decide
    simp only [cstrAt, List.getD_cons_zero, List.getD_cons_succ, h5, List.drop_succ_cons,
      List.drop_zero, Rps_Id.ofCString, htake, hvc, if_true, List.length_cons, hlen]
    have hnone : s.data[19]? = none := List.getElem?_eq_none (by rw [hlen])
    simp [hnone, Rps_Id.nbchars, Rps_Id.valid, hvc]

theorem notice_line_not_object (env : Rps_Env) (path : String) :
    ∀ l ∈ Rps_Dumper.notice_lines env path "//// " "",
      Rps_Loader.is_object_starting_line Rps_Id.null 0 l = none := by
  intro l hl
  unfold Rps_Dumper.notice_lines at hl
  obtain ⟨text, _, rfl⟩ := List.mem_map.mp hl
  apply not_object_line_of_third
  rw [String.data_append, String.data_append]
  have hp : ("//// " : String).data = ['/', '/', '/', '/', ' '] := rfl
  rw [hp]
  simp [cstrAt]

theorem class_comment_not_object (h : Rps_Heap) (curobr : Rps_Id) :
    ∀ l ∈ Rps_Dumper.class_comment_lines h curobr,
      Rps_Loader.is_object_starting_line Rps_Id.null 0 l = none := by
  intro l hl
  unfold Rps_Dumper.class_comment_lines at hl
  split at hl
  · cases hl
  · split at hl
    · cases hl
    · split at hl
      · cases hl
      · split at hl
        · cases hl
        · split at hl
          · simp only [List.mem_singleton] at hl
            subst hl
            apply not_object_line_of_third
            rw [String.data_append]
            have hp : ("//∈" : String).data = ['/', '/', '∈'] := rfl
            rw [hp]
            simp [cstrAt]
          · cases hl

theorem object_start_ids_none (lines : List String)
    (h : ∀ l ∈ lines, Rps_Loader.is_object_starting_line Rps_Id.null 0 l = none) :
    object_start_ids lines = [] := by
  unfold object_start_ids
  rw [List.filterMap_eq_nil_iff]
  exact h

theorem object_start_ids_append (a b : List String) :
    object_start_ids (a ++ b) = object_start_ids a ++ object_start_ids b := by
  unfold object_start_ids
  exact List.filterMap_append _ _ _

theorem object_start_lines_none (lines : List String)
    (h : ∀ l ∈ lines, Rps_Loader.is_object_starting_line Rps_Id.null 0 l = none) :
    object_start_lines lines = [] := by
  unfold object_start_lines
  rw [List.filter_eq_nil_iff]
  intro l hl
  simp [h l hl]

theorem object_start_lines_append (a b : List String) :
    object_start_lines (a ++ b) = object_start_lines a ++ object_start_lines b := by
  unfold object_start_lines
  exact List.filter_append _ _

theorem empty_line_not_object :
    Rps_Loader.is_object_starting_line Rps_Id.null 0 "" = none := by decide

theorem write_space_objects_ok (env : Rps_Env)
    (hjson : ∀ j, ∀ l ∈ env.json_write j,
      Rps_Loader.is_object_starting_line Rps_Id.null 0 l = none)
    (hcontent : ∀ oid j w, ∃ j1 w1, env.dump_json_content oid j w = .ok j1 w1)
    (members : List Rps_Id) :
    (∀ x ∈ members, x.valid = true) →
    ∀ (out : List String) (w : Rps_World),
      ∃ body w1, Rps_Dumper.write_space_objects env members out w = .ok (out ++ body) w1
        ∧ object_start_ids body = members
        ∧ object_start_lines body = members.map (fun x => "//+ob" ++ x.to_string)
        ∧ (∀ x more, members = x :: more →
            ∃ body1, body = "" :: "" :: ("//+ob" ++ x.to_string) :: body1) := by
  induction members with
  | nil =>
    intro _ out w
    exact ⟨[], w, by simp [Rps_Dumper.write_space_objects, Rps_M.pure_apply], rfl, rfl,
      fun x more h => by cases h⟩
  | cons x more ih =>
    intro hvalid out w
    obtain ⟨j1, w1, e1⟩ := hcontent x ((Json.obj []).set "oid" (Json.str x.to_string)) w
    obtain ⟨body2, w2, e2, hids2, hlines2, _⟩ := ih (fun y hy => hvalid y (List.mem_cons_of_mem _ hy))
      (out ++ (["", "", "//+ob" ++ x.to_string] ++ Rps_Dumper.class_comment_lines w.heap x
        ++ env.json_write j1)) w1
    refine ⟨(["", "", "//+ob" ++ x.to_string] ++ Rps_Dumper.class_comment_lines w.heap x
        ++ env.json_write j1) ++ body2, w2, ?_, ?_, ?_, ?_⟩
    · unfold Rps_Dumper.write_space_objects
      simp only [Rps_M.bind_apply, Rps_M.get, e1]
      rw [e2, List.append_assoc]
    · rw [object_start_ids_append, object_start_ids_append, object_start_ids_append, hids2,
        object_start_ids_none _ (class_comment_not_object w.heap x),
        object_start_ids_none _ (hjson j1)]
      have hx : object_start_ids ["", "", "//+ob" ++ x.to_string] = [x] := by
        simp [object_start_ids, List.filterMap_cons, empty_line_not_object,
          object_line_accepted x (hvalid x (List.mem_cons_self _ _))]
      rw [hx]
      rfl
    · rw [object_start_lines_append, object_start_lines_append, object_start_lines_append,
        hlines2, object_start_lines_none _ (class_comment_not_object w.heap x),
        object_start_lines_none _ (hjson j1)]
      have hx : object_start_lines ["", "", "//+ob" ++ x.to_string]
          = ["//+ob" ++ x.to_string] := by
        simp [object_start_lines, List.filter_cons, empty_line_not_object,
          object_line_accepted x (hvalid x (List.mem_cons_self _ _))]
      rw [hx]
      rfl
    · intro y more2 h
      cases h
      exact ⟨_, rfl⟩

theorem space_relpath_ok (a : String) :
    (decide (("persistore/sp" ++ a ++ "-rps.json").length > 1)
      && cstrAt ("persistore/sp" ++ a ++ "-rps.json").data 0 != '/') = true := by
  have h1 : ("persistore/sp" ++ a ++ "-rps.json").length > 1 := by
    rw [String.length_append, String.length_append]
    have : ("persistore/sp" : String).length = 13 := by decide
    omega
  have h2 : cstrAt ("persistore/sp" ++ a ++ "-rps.json").data 0 = 'p' := by
    rw [String.data_append, String.data_append]
    rfl
  rw [h2]
  simp only [Bool.and_eq_true, decide_eq_true_eq]
  exact ⟨h1, by decide⟩

theorem space_relpath_ok0 (a : String) :
    (decide (("persistore/sp" ++ a ++ "-rps.json").length > 0)
      && cstrAt ("persistore/sp" ++ a ++ "-rps.json").data 0 != '/') = true := by
  have h := space_relpath_ok a
  simp only [Bool.and_eq_true, decide_eq_true_eq] at h ⊢
  exact ⟨by omega, h.2⟩

theorem open_output_file_ok (env : Rps_Env) (relpath : String) (w : Rps_World)
    (h1 : (decide (relpath.length > 1) && cstrAt relpath.data 0 != '/') = true)
    (h0 : (decide (relpath.length > 0) && cstrAt relpath.data 0 != '/') = true)
    (hnot : w.du.du_openedpathset.contains relpath = false)
    (hopen : env.can_open (w.du.du_topdir ++ "/" ++ relpath ++ w.du.du_tempsuffix) = true) :
    Rps_Dumper.open_output_file env relpath w
      = .ok (w.du.du_topdir ++ "/" ++ relpath ++ w.du.du_tempsuffix)
          { w with du := { w.du with du_openedpathset := relpath :: w.du.du_openedpathset } } := by
  unfold Rps_Dumper.open_output_file Rps_Dumper.temporary_opened_path
  simp only [Rps_M.bind_apply, Rps_M.RPS_ASSERT, h1, h0, if_true, Rps_M.get, Rps_M.raiseIf,
    hnot, hopen, Bool.not_true, Bool.false_eq_true, if_false, Rps_M.modify, Rps_M.pure_apply]

theorem write_space_file_ok (env : Rps_Env)
    (hjson : ∀ j, ∀ l ∈ env.json_write j,
      Rps_Loader.is_object_starting_line Rps_Id.null 0 l = none)
    (hcontent : ∀ oid j w, ∃ j1 w1, env.dump_json_content oid j w = .ok j1 w1)
    (w : Rps_World) (spacid : Rps_Id) (curspa : du_space_st)
    (hl : w.du.du_spacemap.lookup spacid = some curspa)
    (hvalid : ∀ x ∈ curspa.sp_setob, x.valid = true)
    (hnot : w.du.du_openedpathset.contains
      ("persistore/sp" ++ curspa.sp_id.to_string ++ "-rps.json") = false)
    (hopen : env.can_open (w.du.du_topdir ++ "/"
      ++ ("persistore/sp" ++ curspa.sp_id.to_string ++ "-rps.json") ++ w.du.du_tempsuffix)
      = true) :
    ∃ body w1, Rps_Dumper.write_space_file env (some spacid) w = .ok () w1
      ∧ w1.files.lookup (w.du.du_topdir ++ "/"
          ++ ("persistore/sp" ++ curspa.sp_id.to_string ++ "-rps.json") ++ w.du.du_tempsuffix)
        = some (space_file_head env curspa.sp_id curspa.sp_setob.length ++ body
            ++ ["", "", "//// end of RefPerSys generated space file "
              ++ ("persistore/sp" ++ curspa.sp_id.to_string ++ "-rps.json")])
      ∧ object_start_ids body = curspa.sp_setob
      ∧ object_start_lines body = curspa.sp_setob.map (fun x => "//+ob" ++ x.to_string)
      ∧ (∀ x more, curspa.sp_setob = x :: more →
          ∃ body1, body = "" :: "" :: ("//+ob" ++ x.to_string) :: body1) := by
  have hop := open_output_file_ok env _ w (space_relpath_ok _) (space_relpath_ok0 _) hnot hopen
  obtain ⟨body, w1, e1, hids, hlines, hfirst⟩ := write_space_objects_ok env hjson hcontent
    curspa.sp_setob hvalid (space_file_head env curspa.sp_id curspa.sp_setob.length)
    { w with du := { w.du with du_openedpathset :=
        ("persistore/sp" ++ curspa.sp_id.to_string ++ "-rps.json") :: w.du.du_openedpathset } }
  refine ⟨body, { w1 with files := (w.du.du_topdir ++ "/"
      ++ ("persistore/sp" ++ curspa.sp_id.to_string ++ "-rps.json") ++ w.du.du_tempsuffix,
      space_file_head env curspa.sp_id curspa.sp_setob.length ++ body
        ++ ["", "", "//// end of RefPerSys generated space file "
          ++ ("persistore/sp" ++ curspa.sp_id.to_string ++ "-rps.json")]) :: w1.files },
    ?_, ?_, hids, hlines, hfirst⟩
  · unfold Rps_Dumper.write_space_file
    simp only [Rps_M.bind_apply, Rps_M.get, Option.bind, hl, hop]
    unfold space_file_head at e1
    rw [e1]
    rfl
  · simp [List.lookup]

theorem not_object_line_of_first (linbuf : String) (h : cstrAt linbuf.data 0 ≠ '/') :
    Rps_Loader.is_object_starting_line Rps_Id.null 0 linbuf = none := by
  unfold Rps_Loader.is_object_starting_line
  simp only
  rw [if_pos]
  simp only [Bool.or_eq_true, bne_iff_ne, ne_eq]
  exact Or.inl (Or.inl (Or.inl (Or.inl h)))

theorem space_prologue_fields (spacid : Rps_Id) (n : Nat) :
    (Rps_Dumper.space_prologue spacid n).type = JsonType.objectValue
      ∧ (Rps_Dumper.space_prologue spacid n).get "format" = Json.str RPS_MANIFEST_FORMAT
      ∧ (Rps_Dumper.space_prologue spacid n).get "spaceid" = Json.str spacid.to_string
      ∧ (Rps_Dumper.space_prologue spacid n).get "nbobjects" = Json.int n := by
  refine ⟨rfl, rfl, rfl, rfl⟩

theorem first_pass_prologue_ok (env : Rps_Env) (spacid : Rps_Id) (n : Nat)
    (prologstr : String) (w : Rps_World)
    (hparse : env.rps_string_to_json prologstr = .ok (Rps_Dumper.space_prologue spacid n))
    (hsmall : (n : Int) ≤ 2 ^ 31 - 1) :
    Rps_Loader.first_pass_prologue env spacid prologstr w = .ok (n : Int) w := by
  obtain ⟨ht, hf, hs, hn⟩ := space_prologue_fields spacid n
  have hlow : -(2 ^ 31 : Int) ≤ (n : Int) := by
    have : (0 : Int) ≤ (n : Int) := Int.ofNat_nonneg n
    omega
  unfold Rps_Loader.first_pass_prologue
  have hft : (Json.str RPS_MANIFEST_FORMAT).type = JsonType.stringValue := rfl
  have hfs : (Json.str RPS_MANIFEST_FORMAT).asString = some RPS_MANIFEST_FORMAT := rfl
  have hss : (Json.str spacid.to_string).asString = some spacid.to_string := rfl
  have hni : (Json.int (n : Int)).asInt = some (n : Int) := by
    show (if -(2 ^ 31 : Int) ≤ (n : Int) ∧ (n : Int) ≤ 2 ^ 31 - 1 then some (n : Int) else none)
      = some (n : Int)
    rw [if_pos ⟨hlow, hsmall⟩]
  simp only [Rps_M.bind_apply, Rps_M.tryCatch, hparse, Rps_M.pure_apply, Rps_M.fatalIf, ht, hf,
    hs, hn, hft, hfs, hss, hni, Rps_M.ofOption, Rps_M.ret, ne_eq, not_true_eq_false,
    decide_False, Bool.false_eq_true, if_false, bne_self_eq_false]

theorem first_pass_line_none (env : Rps_Env) (spacid : Rps_Id) (spacepath : String)
    (loc : Rps_Loader.first_pass_locals) (linbuf : String) (w : Rps_World)
    (hu8 : env.u8_check linbuf = false)
    (hnone : Rps_Loader.is_object_starting_line Rps_Id.null 0 linbuf = none) :
    Rps_Loader.first_pass_line env spacid spacepath loc linbuf w
      = .ok { prologstr := if loc.obcnt == 0 then loc.prologstr ++ linbuf ++ "\n"
                else loc.prologstr,
              obcnt := loc.obcnt, expectedcnt := loc.expectedcnt, lincnt := loc.lincnt + 1 }
          w := by
  unfold Rps_Loader.first_pass_line
  simp only [is_object_starting_line_args, hnone, Rps_M.bind_apply, Rps_M.raiseIf, hu8,
    Bool.false_eq_true, if_false, Rps_M.pure_apply]

theorem first_pass_line_some (env : Rps_Env) (spacid : Rps_Id) (spacepath : String)
    (loc : Rps_Loader.first_pass_locals) (linbuf : String) (w : Rps_World)
    (curobjid : Rps_Id) (n : Int)
    (hu8 : env.u8_check linbuf = false)
    (hsome : Rps_Loader.is_object_starting_line Rps_Id.null 0 linbuf = some curobjid)
    (hfresh : w.ld.ld_mapobjects.lookup curobjid = none)
    (hpro : (if loc.obcnt == 0 then
        Rps_Loader.first_pass_prologue env spacid (loc.prologstr ++ linbuf ++ "\n")
      else pure loc.expectedcnt) w = .ok n w) :
    Rps_Loader.first_pass_line env spacid spacepath loc linbuf w
      = .ok { prologstr := if loc.obcnt == 0 then loc.prologstr ++ linbuf ++ "\n"
                else loc.prologstr,
              obcnt := loc.obcnt + 1, expectedcnt := n, lincnt := loc.lincnt + 1 }
          { w with
            heap := w.heap.register (Rps_ObjectZone.skeleton curobjid),
            ld := { w.ld with
              ld_mapobjects := Rps_Id.mapInsert curobjid (some curobjid) w.ld.ld_mapobjects } } := by
  unfold Rps_Loader.first_pass_line
  simp only [is_object_starting_line_args, hsome, Rps_M.bind_apply, Rps_M.raiseIf, hu8,
    Bool.false_eq_true, if_false, Rps_M.pure_apply]
  by_cases h0 : (loc.obcnt == 0) = true
  · simp only [h0, if_true] at hpro ⊢
    simp only [hpro, Rps_ObjectZone.make_loaded, Rps_M.bind_apply, Rps_M.modify, Rps_M.get,
      Rps_M.pure_apply, hfresh, Option.isSome_none, Bool.false_eq_true, if_false]
  · simp only [h0, if_false, Bool.false_eq_true, Rps_M.pure_apply, Outcome.ok.injEq,
      and_true] at hpro ⊢
    subst hpro
    simp only [Rps_ObjectZone.make_loaded, Rps_M.bind_apply, Rps_M.modify, Rps_M.get,
      Rps_M.pure_apply, hfresh, Option.isSome_none, Bool.false_eq_true, if_false]

theorem lookup_none_iff {β : Type} (k : Rps_Id) (l : List (Rps_Id × β)) :
    l.lookup k = none ↔ k ∉ l.map Prod.fst := by
  rw [← lookup_isSome_iff_mem_keys]
  cases l.lookup k <;> simp

theorem first_pass_lines_head (env : Rps_Env) (spacid : Rps_Id) (spacepath : String)
    (lines more : List String) :
    (∀ l ∈ lines, env.u8_check l = false) →
    (∀ l ∈ lines, Rps_Loader.is_object_starting_line Rps_Id.null 0 l = none) →
    ∀ (loc : Rps_Loader.first_pass_locals) (w : Rps_World), loc.obcnt = 0 →
      Rps_Loader.first_pass_lines env spacid spacepath (lines ++ more) loc w
        = Rps_Loader.first_pass_lines env spacid spacepath more
            { prologstr := lines.foldl (fun res linbuf => res ++ linbuf ++ "\n") loc.prologstr,
              obcnt := 0, expectedcnt := loc.expectedcnt,
              lincnt := loc.lincnt + lines.length } w := by
  induction lines with
  | nil =>
    intro _ _ loc w h0
    cases loc
    simp only at h0
    subst h0
    rfl
  | cons linbuf rest ih =>
    intro hu8 hnone loc w h0
    have hstep := first_pass_line_none env spacid spacepath loc linbuf w
      (hu8 _ (List.mem_cons_self _ _)) (hnone _ (List.mem_cons_self _ _))
    simp only [List.cons_append, Rps_Loader.first_pass_lines]
    rw [Rps_M.bind_ok hstep]
    have hih := ih (fun l hl => hu8 l (List.mem_cons_of_mem _ hl))
      (fun l hl => hnone l (List.mem_cons_of_mem _ hl))
      { prologstr := if loc.obcnt == 0 then loc.prologstr ++ linbuf ++ "\n"
          else loc.prologstr,
        obcnt := loc.obcnt, expectedcnt := loc.expectedcnt, lincnt := loc.lincnt + 1 } w h0
    refine hih.trans ?_
    simp only [h0, beq_self_eq_true, if_true, List.foldl_cons, List.length_cons]
    congr 2
    omega

theorem first_pass_lines_tail (env : Rps_Env) (spacid : Rps_Id) (spacepath : String)
    (lines : List String) :
    (∀ l ∈ lines, env.u8_check l = false) →
    ∀ (loc : Rps_Loader.first_pass_locals) (w : Rps_World), loc.obcnt ≠ 0 →
      (object_start_ids lines).Nodup →
      (∀ x ∈ object_start_ids lines, w.ld.ld_mapobjects.lookup x = none) →
      ∃ loc1 w1, Rps_Loader.first_pass_lines env spacid spacepath lines loc w = .ok loc1 w1
        ∧ loc1.obcnt = loc.obcnt + (object_start_ids lines).length
        ∧ loc1.expectedcnt = loc.expectedcnt := by
  induction lines with
  | nil =>
    intro _ loc w _ _ _
    exact ⟨loc, w, rfl, by simp [object_start_ids], rfl⟩
  | cons linbuf rest ih =>
    intro hu8 loc w h0 hnd hfresh
    have hb : (loc.obcnt == 0) = false := by simpa using h0
    cases hline : Rps_Loader.is_object_starting_line Rps_Id.null 0 linbuf with
    | none =>
      have hids : object_start_ids (linbuf :: rest) = object_start_ids rest := by
        simp [object_start_ids, List.filterMap_cons, hline]
      rw [hids] at hnd hfresh
      have hstep := first_pass_line_none env spacid spacepath loc linbuf w
        (hu8 _ (List.mem_cons_self _ _)) hline
      obtain ⟨loc1, w1, e1, hcnt, hexp⟩ := ih (fun l hl => hu8 l (List.mem_cons_of_mem _ hl))
        { prologstr := if loc.obcnt == 0 then loc.prologstr ++ linbuf ++ "\n"
            else loc.prologstr,
          obcnt := loc.obcnt, expectedcnt := loc.expectedcnt, lincnt := loc.lincnt + 1 }
        w h0 hnd hfresh
      refine ⟨loc1, w1, ?_, ?_, hexp⟩
      · simp only [Rps_Loader.first_pass_lines]
        rw [Rps_M.bind_ok hstep]
        exact e1
      · rw [hids]
        exact hcnt
    | some curobjid =>
      have hids : object_start_ids (linbuf :: rest) = curobjid :: object_start_ids rest := by
        simp [object_start_ids, List.filterMap_cons, hline]
      rw [hids] at hnd hfresh
      have hcur : w.ld.ld_mapobjects.lookup curobjid = none :=
        hfresh _ (List.mem_cons_self _ _)
      have hstep := first_pass_line_some env spacid spacepath loc linbuf w curobjid
        loc.expectedcnt (hu8 _ (List.mem_cons_self _ _)) hline hcur
        (by simp only [hb, Bool.false_eq_true, if_false]; rfl)
      obtain ⟨loc1, w1, e1, hcnt, hexp⟩ := ih (fun l hl => hu8 l (List.mem_cons_of_mem _ hl))
        { prologstr := if loc.obcnt == 0 then loc.prologstr ++ linbuf ++ "\n"
            else loc.prologstr,
          obcnt := loc.obcnt + 1, expectedcnt := loc.expectedcnt, lincnt := loc.lincnt + 1 }
        { w with
          heap := w.heap.register (Rps_ObjectZone.skeleton curobjid),
          ld := { w.ld with
            ld_mapobjects := Rps_Id.mapInsert curobjid (some curobjid) w.ld.ld_mapobjects } }
        (Nat.succ_ne_zero _) (List.nodup_cons.mp hnd).2
        (by
          intro x hx
          have hxl := hfresh x (List.mem_cons_of_mem _ hx)
          have hne : x ≠ curobjid := by
            rintro rfl
            exact (List.nodup_cons.mp hnd).1 hx
          rw [lookup_none_iff] at hxl hcur ⊢
          simp only
          rw [mapInsert_keys_mem _ _ _ hcur]
          exact fun h => h.elim hne hxl)
      refine ⟨loc1, w1, ?_, ?_, hexp⟩
      · simp only [Rps_Loader.first_pass_lines]
        rw [Rps_M.bind_ok hstep]
        exact e1
      · rw [hids, hcnt]
        simp only [List.length_cons]
        omega

theorem space_file_head_not_object (env : Rps_Env)
    (hjson : ∀ j, ∀ l ∈ env.json_write j,
      Rps_Loader.is_object_starting_line Rps_Id.null 0 l = none)
    (spacid : Rps_Id) (n : Nat) :
    ∀ l ∈ space_file_head env spacid n,
      Rps_Loader.is_object_starting_line Rps_Id.null 0 l = none := by
  intro l hl
  unfold space_file_head at hl
  rw [List.mem_append, List.mem_append] at hl
  rcases hl with (hl | hl) | hl
  · exact notice_line_not_object env _ l hl
  · simp only [List.mem_cons, List.mem_singleton, List.not_mem_nil, or_false] at hl
    rcases hl with rfl | rfl | rfl
    · exact empty_line_not_object
    · exact empty_line_not_object
    · exact not_object_line_of_third _ (by decide)
  · exact hjson _ l hl

theorem space_file_end_not_object (relpath : String) :
    ∀ l ∈ ["", "", "//// end of RefPerSys generated space file " ++ relpath],
      Rps_Loader.is_object_starting_line Rps_Id.null 0 l = none := by
  intro l hl
  simp only [List.mem_cons, List.mem_singleton, List.not_mem_nil, or_false] at hl
  rcases hl with rfl | rfl | rfl
  · exact empty_line_not_object
  · exact empty_line_not_object
  · apply not_object_line_of_third
    rw [String.data_append]
    have hp : ("//// end of RefPerSys generated space file " : String).data
        = '/' :: '/' :: '/' :: ("/ end of RefPerSys generated space file " : String).data := rfl
    rw [hp]
    simp [cstrAt]

theorem first_pass_lines_written (env : Rps_Env) (spacid : Rps_Id) (spacepath : String)
    (head rest : List String) (x : Rps_Id) (more : List Rps_Id) (n : Nat) (wl : Rps_World)
    (hhead : ∀ l ∈ head, Rps_Loader.is_object_starting_line Rps_Id.null 0 l = none)
    (hu8 : ∀ l ∈ head ++ (("//+ob" ++ x.to_string) :: rest), env.u8_check l = false)
    (hx : x.valid = true)
    (hrest : object_start_ids rest = more)
    (hnd : (x :: more).Nodup)
    (hfresh : ∀ y ∈ x :: more, wl.ld.ld_mapobjects.lookup y = none)
    (hparse : env.rps_string_to_json (text_of_lines (head ++ ["//+ob" ++ x.to_string]))
      = .ok (Rps_Dumper.space_prologue spacid n))
    (hsmall : (n : Int) ≤ 2 ^ 31 - 1) :
    ∃ loc1 wl1, Rps_Loader.first_pass_lines env spacid spacepath
        (head ++ (("//+ob" ++ x.to_string) :: rest))
        { prologstr := "", obcnt := 0, expectedcnt := 0, lincnt := 0 } wl = .ok loc1 wl1
      ∧ loc1.obcnt = 1 + more.length ∧ loc1.expectedcnt = (n : Int) := by
  have hu8head : ∀ l ∈ head, env.u8_check l = false :=
    fun l hl => hu8 l (List.mem_append_left _ hl)
  have hu8x : env.u8_check ("//+ob" ++ x.to_string) = false :=
    hu8 _ (List.mem_append_right _ (List.mem_cons_self _ _))
  have hu8rest : ∀ l ∈ rest, env.u8_check l = false :=
    fun l hl => hu8 l (List.mem_append_right _ (List.mem_cons_of_mem _ hl))
  have htext : text_of_lines (head ++ ["//+ob" ++ x.to_string])
      = head.foldl (fun res linbuf => res ++ linbuf ++ "\n") "" ++ ("//+ob" ++ x.to_string)
          ++ "\n" := by
    unfold text_of_lines
    rw [List.foldl_append]
    rfl
  rw [htext] at hparse
  have hxfresh : wl.ld.ld_mapobjects.lookup x = none := hfresh x (List.mem_cons_self _ _)
  have hstep := first_pass_line_some env spacid spacepath
    { prologstr := head.foldl (fun res linbuf => res ++ linbuf ++ "\n") "",
      obcnt := 0, expectedcnt := 0, lincnt := 0 + head.length }
    ("//+ob" ++ x.to_string) wl x (n : Int) hu8x (object_line_accepted x hx) hxfresh
    (first_pass_prologue_ok env spacid n _ wl hparse hsmall)
  obtain ⟨loc1, wl1, e1, hcnt, hexp⟩ := first_pass_lines_tail env spacid spacepath rest hu8rest
    { prologstr := head.foldl (fun res linbuf => res ++ linbuf ++ "\n") ""
        ++ ("//+ob" ++ x.to_string) ++ "\n",
      obcnt := 0 + 1, expectedcnt := (n : Int), lincnt := 0 + head.length + 1 }
    { wl with
      heap := wl.heap.register (Rps_ObjectZone.skeleton x),
      ld := { wl.ld with
        ld_mapobjects := Rps_Id.mapInsert x (some x) wl.ld.ld_mapobjects } }
    (Nat.succ_ne_zero _) (by rw [hrest]; exact (List.nodup_cons.mp hnd).2)
    (by
      intro y hy
      rw [hrest] at hy
      have hyl := hfresh y (List.mem_cons_of_mem _ hy)
      have hne : y ≠ x := by
        rintro rfl
        exact (List.nodup_cons.mp hnd).1 hy
      rw [lookup_none_iff] at hyl hxfresh ⊢
      simp only
      rw [mapInsert_keys_mem _ _ _ hxfresh]
      exact fun h => h.elim hne hyl)
  refine ⟨loc1, wl1, ?_, ?_, hexp⟩
  · rw [first_pass_lines_head env spacid spacepath head _ hu8head hhead _ wl rfl]
    simp only [Rps_Loader.first_pass_lines]
    rw [Rps_M.bind_ok hstep]
    exact e1
  · rw [hcnt, hrest]

/-- C19: a written space file satisfies the count check of the loader.  In a
dumper state where `du_spacemap` is as `scan_space_component` builds it
(`spaces_ok`), take a space with the set of members `S`, and let the loader
read the file that `write_space_file` writes for it.  Then `S` is not empty
and has no repetition; `write_space_file` returns; the file is the head (the
notice, the comment, the text of the prologue whose `format` is
"RefPerSysFormat2019A", whose `spaceid` is the identifier of the space and
whose `nbobjects` is the size of `S`), lines of the objects, and the end
comment; the lines that `is_object_starting_line` accepts are exactly the
lines "//+ob<identifier>" of the members, in the order of `S`, and give back
the identifiers of `S`; and `first_pass_space` returns normally, having
registered the members of `S` and nothing else.  The assumptions on the
outside: the JSON writer gives no line that starts an object, the dump of
the content of an object returns, the file can be opened and was not opened
before, the lines are UTF-8, the JSON reader gives back the prologue from
the text up to the first object line, the size of `S` fits an `int`, and the
loader has none of the members yet. -/
theorem written_space_file_passes_first_pass (env : Rps_Env) (wd wl : Rps_World)
    (spacid : Rps_Id) (curspa : du_space_st)
    (hok : wd.spaces_ok)
    (hl : wd.du.du_spacemap.lookup spacid = some curspa)
    (hvalid : ∀ x ∈ curspa.sp_setob, x.valid = true)
    (hjson : ∀ j, ∀ l ∈ env.json_write j,
      Rps_Loader.is_object_starting_line Rps_Id.null 0 l = none)
    (hcontent : ∀ oid j w, ∃ j1 w1, env.dump_json_content oid j w = .ok j1 w1)
    (hnot : wd.du.du_openedpathset.contains
      ("persistore/sp" ++ spacid.to_string ++ "-rps.json") = false)
    (hopen : env.can_open (wd.du.du_topdir ++ "/"
      ++ ("persistore/sp" ++ spacid.to_string ++ "-rps.json") ++ wd.du.du_tempsuffix) = true)
    (hfile : Rps_Dumper.written_file (Rps_Dumper.write_space_file env (some spacid))
        (wd.du.du_topdir ++ "/" ++ ("persistore/sp" ++ spacid.to_string ++ "-rps.json")
          ++ wd.du.du_tempsuffix) wd
      = some (space_file_lines env wl spacid))
    (hu8 : ∀ l ∈ space_file_lines env wl spacid, env.u8_check l = false)
    (hparse : ∀ x more, curspa.sp_setob = x :: more →
      env.rps_string_to_json (text_of_lines
          (space_file_head env spacid curspa.sp_setob.length
            ++ ["", "", "//+ob" ++ x.to_string]))
        = .ok (Rps_Dumper.space_prologue spacid curspa.sp_setob.length))
    (hsmall : (curspa.sp_setob.length : Int) ≤ 2 ^ 31 - 1)
    (hfresh : ∀ x ∈ curspa.sp_setob, wl.ld.ld_mapobjects.lookup x = none) :
    curspa.sp_setob ≠ [] ∧ curspa.sp_setob.Nodup
      ∧ (∃ wd1, Rps_Dumper.write_space_file env (some spacid) wd = .ok () wd1)
      ∧ (∃ body, space_file_lines env wl spacid
            = space_file_head env spacid curspa.sp_setob.length ++ body
                ++ ["", "", "//// end of RefPerSys generated space file "
                  ++ ("persistore/sp" ++ spacid.to_string ++ "-rps.json")])
      ∧ (Rps_Dumper.space_prologue spacid curspa.sp_setob.length).get "format"
          = Json.str "RefPerSysFormat2019A"
      ∧ (Rps_Dumper.space_prologue spacid curspa.sp_setob.length).get "spaceid"
          = Json.str spacid.to_string
      ∧ (Rps_Dumper.space_prologue spacid curspa.sp_setob.length).get "nbobjects"
          = Json.int curspa.sp_setob.length
      ∧ object_start_lines (space_file_lines env wl spacid)
          = curspa.sp_setob.map (fun x => "//+ob" ++ x.to_string)
      ∧ object_start_ids (space_file_lines env wl spacid) = curspa.sp_setob
      ∧ ∃ wl1, Rps_Loader.first_pass_space env spacid wl = .ok () wl1
          ∧ wl1.loaded_ids.length = wl.loaded_ids.length + curspa.sp_setob.length
          ∧ ∀ x, x ∈ wl1.loaded_ids ↔ x ∈ wl.loaded_ids ∨ x ∈ curspa.sp_setob := by
  obtain ⟨hid, hne, hsorted⟩ := hok spacid curspa hl
  subst hid
  have hnd : curspa.sp_setob.Nodup := sorted_nodup hsorted
  obtain ⟨body, wd1, ew, hlook, hids, hlines, hfirst⟩ :=
    write_space_file_ok env hjson hcontent wd _ curspa hl hvalid hnot hopen
  have hfl : space_file_lines env wl curspa.sp_id
      = space_file_head env curspa.sp_id curspa.sp_setob.length ++ body
          ++ ["", "", "//// end of RefPerSys generated space file "
            ++ ("persistore/sp" ++ curspa.sp_id.to_string ++ "-rps.json")] := by
    unfold Rps_Dumper.written_file at hfile
    rw [ew] at hfile
    simp only at hfile
    rw [hlook] at hfile
    exact (Option.some.inj hfile).symm
  have hheadno := space_file_head_not_object env hjson curspa.sp_id curspa.sp_setob.length
  have hendno := space_file_end_not_object
    ("persistore/sp" ++ curspa.sp_id.to_string ++ "-rps.json")
  have hidsfile : object_start_ids (space_file_lines env wl curspa.sp_id) = curspa.sp_setob := by
    rw [hfl, object_start_ids_append, object_start_ids_append,
      object_start_ids_none _ hheadno, object_start_ids_none _ hendno, hids]
    simp
  have hlinesfile : object_start_lines (space_file_lines env wl curspa.sp_id)
      = curspa.sp_setob.map (fun x => "//+ob" ++ x.to_string) := by
    rw [hfl, object_start_lines_append, object_start_lines_append,
      object_start_lines_none _ hheadno, object_start_lines_none _ hendno, hlines]
    simp
  obtain ⟨hp1, hp2, hp3, hp4⟩ := space_prologue_fields curspa.sp_id curspa.sp_setob.length
  refine ⟨hne, hnd, ⟨wd1, ew⟩, ⟨body, hfl⟩, hp2, hp3, hp4, hlinesfile, hidsfile, ?_⟩
  obtain ⟨x, more, hS⟩ := List.exists_cons_of_ne_nil hne
  obtain ⟨body1, hbody⟩ := hfirst x more hS
  have hrun : ∃ spacepath, (Rps_Loader.space_file_path curspa.sp_id
      >>= Rps_Loader.load_real_path env) wl = .ok spacepath wl
      ∧ env.file_lines spacepath = space_file_lines env wl curspa.sp_id := by
    have hnonempty : space_file_lines env wl curspa.sp_id ≠ [] := by
      rw [hfl]
      simp
    unfold space_file_lines at hnonempty ⊢
    cases hr : (Rps_Loader.space_file_path curspa.sp_id
        >>= Rps_Loader.load_real_path env) wl with
    | ok spacepath s =>
      have hs : s = wl :=
        (Rps_M.ro_bind (space_file_path_ro _) (fun _ => load_real_path_ro env _)).ok_state hr
      subst hs
      exact ⟨spacepath, rfl, rfl⟩
    | throw what s => rw [hr] at hnonempty; exact absurd rfl hnonempty
    | fatal what s => rw [hr] at hnonempty; exact absurd rfl hnonempty
  obtain ⟨spacepath, hpath, hlinesat⟩ := hrun
  obtain ⟨relpath, s1, h1, h2⟩ := Rps_M.bind_eq_ok.mp hpath
  have hs1 : s1 = wl := (space_file_path_ro _).ok_state h1
  subst hs1
  have hshape : space_file_lines env s1 curspa.sp_id
      = (space_file_head env curspa.sp_id curspa.sp_setob.length ++ ["", ""])
          ++ (("//+ob" ++ x.to_string) :: (body1
            ++ ["", "", "//// end of RefPerSys generated space file "
              ++ ("persistore/sp" ++ curspa.sp_id.to_string ++ "-rps.json")])) := by
    rw [hfl, hbody]
    simp
  have hbody1 : object_start_ids body1 = more := by
    have h := hids
    rw [hbody, hS] at h
    have hx3 : object_start_ids ("" :: "" :: ("//+ob" ++ x.to_string) :: body1)
        = x :: object_start_ids body1 := by
      simp [object_start_ids, List.filterMap_cons, empty_line_not_object,
        object_line_accepted x (hvalid x (by rw [hS]; exact List.mem_cons_self _ _))]
    rw [hx3] at h
    exact (List.cons.inj h).2
  have hhead2 : ∀ l ∈ space_file_head env curspa.sp_id curspa.sp_setob.length ++ ["", ""],
      Rps_Loader.is_object_starting_line Rps_Id.null 0 l = none := by
    intro l hl
    rcases List.mem_append.mp hl with hl | hl
    · exact hheadno l hl
    · simp only [List.mem_cons, List.mem_singleton, List.not_mem_nil, or_false] at hl
      rcases hl with rfl | rfl <;> exact empty_line_not_object
  have hparse2 : env.rps_string_to_json (text_of_lines
      ((space_file_head env curspa.sp_id curspa.sp_setob.length ++ ["", ""])
        ++ ["//+ob" ++ x.to_string]))
      = .ok (Rps_Dumper.space_prologue curspa.sp_id curspa.sp_setob.length) := by
    have h := hparse x more hS
    simpa using h
  obtain ⟨loc1, wl1, e1, hcnt, hexp⟩ := first_pass_lines_written env curspa.sp_id spacepath
    (space_file_head env curspa.sp_id curspa.sp_setob.length ++ ["", ""])
    (body1 ++ ["", "", "//// end of RefPerSys generated space file "
      ++ ("persistore/sp" ++ curspa.sp_id.to_string ++ "-rps.json")])
    x more curspa.sp_setob.length s1 hhead2
    (by rw [← hshape]; exact hu8)
    (hvalid x (by rw [hS]; exact List.mem_cons_self _ _))
    (by rw [object_start_ids_append, object_start_ids_none _ hendno, hbody1]; simp)
    (by rw [← hS]; exact hnd)
    (by rw [← hS]; exact hfresh)
    hparse2 hsmall
  have hfirstpass : Rps_Loader.first_pass_space env curspa.sp_id s1 = .ok () wl1 := by
    unfold Rps_Loader.first_pass_space
    rw [Rps_M.bind_ok h1, Rps_M.bind_ok h2, hlinesat, hshape, Rps_M.bind_ok e1]
    have hsame : ((loc1.obcnt : Int) ≠ loc1.expectedcnt) = False := by
      rw [hcnt, hexp, hS]
      simp only [List.length_cons, ne_eq, eq_iff_iff, iff_false, not_not]
      push_cast
      omega
    simp only [Rps_M.bind_apply, Rps_M.raiseIf, hsame, decide_False, Bool.false_eq_true,
      if_false, Rps_M.pure_apply]
  obtain ⟨_, _, _, hmem, hlen⟩ := first_pass_space_ok env curspa.sp_id s1 wl1 hfirstpass
  rw [hidsfile] at hmem hlen
  exact ⟨wl1, hfirstpass, hlen, hmem⟩

theorem ex_json_members_not_object :
    ∀ (ms : List (String × Json)), ∀ l ∈ ex_json_members ms,
      Rps_Loader.is_object_starting_line Rps_Id.null 0 l = none
  | [], l, hl => by cases hl
  | [kv], l, hl => by
    simp only [ex_json_members, List.mem_singleton] at hl
    subst hl
    apply not_object_line_of_first
    rw [String.data_append, String.data_append, String.data_append]
    have hp : (" \"" : String).data = [' ', '"'] := rfl
    rw [hp]
    simp [cstrAt]
  | kv :: kv2 :: rest, l, hl => by
    simp only [ex_json_members, List.mem_cons] at hl
    rcases hl with rfl | hl
    · apply not_object_line_of_first
      rw [String.data_append, String.data_append, String.data_append, String.data_append]
      have hp : (" \"" : String).data = [' ', '"'] := rfl
      rw [hp]
      simp [cstrAt]
    · exact ex_json_members_not_object (kv2 :: rest) l (by simpa using hl)

theorem ex_json_write_not_object (j : Json) :
    ∀ l ∈ ex_json_write j, Rps_Loader.is_object_starting_line Rps_Id.null 0 l = none := by
  intro l hl
  have hscalar : ∀ (j1 : Json), l ∈ [" " ++ ex_json_scalar j1] →
      Rps_Loader.is_object_starting_line Rps_Id.null 0 l = none := by
    intro j1 h1
    simp only [List.mem_singleton] at h1
    subst h1
    apply not_object_line_of_first
    rw [String.data_append]
    have hp : (" " : String).data = [' '] := rfl
    rw [hp]
    simp [cstrAt]
  cases j with
  | obj ms =>
    simp only [ex_json_write, List.mem_append, List.mem_singleton] at hl
    rcases hl with (rfl | hl) | rfl
    · exact not_object_line_of_first _ (by decide)
    · exact ex_json_members_not_object ms l hl
    · exact not_object_line_of_first _ (by decide)
  | null => exact hscalar _ hl
  | int i => exact hscalar _ hl
  | real d => exact hscalar _ hl
  | str s => exact hscalar _ hl
  | bool b => exact hscalar _ hl
  | arr es => exact hscalar _ hl

theorem ex_dump_world_spaces_ok : ex_dump_world.spaces_ok := by
  intro k st h
  have hmap : ex_dump_world.du.du_spacemap
      = [(ex_space, { sp_id := ex_space, sp_setob := [ex_class, ex_obj] })] := rfl
  rw [hmap] at h
  simp only [List.lookup] at h
  split at h
  · rename_i hk
    cases h
    refine ⟨(beq_iff_eq.mp hk).symm, by simp, ?_⟩
    simp only [List.pairwise_cons, List.mem_singleton, forall_eq, List.not_mem_nil,
      false_implies, implies_true, List.Pairwise.nil, and_true]
    rfl
  · cases h

theorem written_space_file_passes_first_pass_witness :
    ex_dump_world.du.du_spacemap.lookup ex_space
        = some { sp_id := ex_space, sp_setob := [ex_class, ex_obj] }
      ∧ Rps_Dumper.written_file (Rps_Dumper.write_space_file ex_env_reader (some ex_space))
          "/store/persistore/sp_1aaaaaaaaaaaaaaaaa-rps.jsontmp" ex_dump_world
          = some ex_written_space_lines
      ∧ space_file_lines ex_env_reader ex_world0 ex_space = ex_written_space_lines
      ∧ ([ex_class, ex_obj] ≠ [] ∧ [ex_class, ex_obj].Nodup
        ∧ (∃ wd1, Rps_Dumper.write_space_file ex_env_reader (some ex_space) ex_dump_world
            = .ok () wd1)
        ∧ (∃ body, space_file_lines ex_env_reader ex_world0 ex_space
              = space_file_head ex_env_reader ex_space 2 ++ body
                  ++ ["", "", "//// end of RefPerSys generated space file "
                    ++ ("persistore/sp" ++ ex_space.to_string ++ "-rps.json")])
        ∧ (Rps_Dumper.space_prologue ex_space 2).get "format" = Json.str "RefPerSysFormat2019A"
        ∧ (Rps_Dumper.space_prologue ex_space 2).get "spaceid" = Json.str ex_space.to_string
        ∧ (Rps_Dumper.space_prologue ex_space 2).get "nbobjects" = Json.int 2
        ∧ object_start_lines (space_file_lines ex_env_reader ex_world0 ex_space)
            = ["//+ob" ++ ex_class.to_string, "//+ob" ++ ex_obj.to_string]
        ∧ object_start_ids (space_file_lines ex_env_reader ex_world0 ex_space)
            = [ex_class, ex_obj]
        ∧ ∃ wl1, Rps_Loader.first_pass_space ex_env_reader ex_space ex_world0 = .ok () wl1
            ∧ wl1.loaded_ids.length = ex_world0.loaded_ids.length + 2
            ∧ ∀ x, x ∈ wl1.loaded_ids ↔ x ∈ ex_world0.loaded_ids ∨ x ∈ [ex_class, ex_obj]) :=
  ⟨rfl, by rfl, by rfl,
    written_space_file_passes_first_pass ex_env_reader ex_dump_world ex_world0 ex_space
      { sp_id := ex_space, sp_setob := [ex_class, ex_obj] }
      ex_dump_world_spaces_ok rfl (by decide) ex_json_write_not_object
      (fun _ j w => ⟨j, w, rfl⟩) (by rfl) (by rfl) (by rfl) (fun _ _ => rfl)
      (by
        intro x more h
        cases h
        rfl)
      (by decide) (by
        intro x hx
        rfl)⟩
/-! ## C20: the manifest that the dumper writes is read back -/

/-- C23: opening the same output path twice is an error.  For a relative
path that passes the assertion of `open_output_file` (more than one
character, not starting with a slash), the call raises an exception if and
only if the path is already in `du_openedpathset` or the temporary file
cannot be opened; in that case the state, `du_openedpathset` included, is
the one before the call; otherwise the call returns the temporary path and
the only change of the state is that the path is added to
`du_openedpathset`. -/
theorem open_output_file_duplicate_raises (env : Rps_Env) (relpath : String) (w : Rps_World)
    (hrel : (decide (relpath.length > 1) && cstrAt relpath.data 0 != '/') = true) :
    ((Rps_Dumper.open_output_file env relpath w).isThrow = true ↔
        (w.du.du_openedpathset.contains relpath = true
          ∨ env.can_open (w.du.du_topdir ++ "/" ++ relpath ++ w.du.du_tempsuffix) = false))
      ∧ ((Rps_Dumper.open_output_file env relpath w).isThrow = true →
          (Rps_Dumper.open_output_file env relpath w).state = w)
      ∧ ((Rps_Dumper.open_output_file env relpath w).isThrow = false →
          Rps_Dumper.open_output_file env relpath w
            = .ok (w.du.du_topdir ++ "/" ++ relpath ++ w.du.du_tempsuffix)
                { w with du := { w.du with
                  du_openedpathset := relpath :: w.du.du_openedpathset } }) := by
  have h0 : (decide (relpath.length > 0) && cstrAt relpath.data 0 != '/') = true := by
    simp only [Bool.and_eq_true, decide_eq_true_eq] at hrel ⊢
    exact ⟨by omega, hrel.2⟩
  cases hc : w.du.du_openedpathset.contains relpath with
  | true =>
    have hrun : Rps_Dumper.open_output_file env relpath w
        = .throw ("duplicate opened dump file " ++ relpath) w := by
      unfold Rps_Dumper.open_output_file
      simp only [Rps_M.bind_apply, Rps_M.RPS_ASSERT, hrel, if_true, Rps_M.get, Rps_M.raiseIf,
        hc]
    rw [hrun]
    simp [Outcome.isThrow, Outcome.state]
  | false =>
    cases ho : env.can_open (w.du.du_topdir ++ "/" ++ relpath ++ w.du.du_tempsuffix) with
    | true =>
      have hrun := open_output_file_ok env relpath w hrel h0 hc ho
      rw [hrun]
      simp [Outcome.isThrow]
    | false =>
      have hrun : Rps_Dumper.open_output_file env relpath w
          = .throw ("duplicate failed to open "
              ++ (w.du.du_topdir ++ "/" ++ relpath ++ w.du.du_tempsuffix)) w := by
        unfold Rps_Dumper.open_output_file Rps_Dumper.temporary_opened_path
        simp only [Rps_M.bind_apply, Rps_M.RPS_ASSERT, hrel, h0, if_true, Rps_M.get,
          Rps_M.raiseIf, hc, Bool.false_eq_true, if_false, Rps_M.pure_apply, ho, Bool.not_false]
      rw [hrun]
      simp [Outcome.isThrow, Outcome.state]

theorem open_output_file_duplicate_raises_witness :
    (Rps_Dumper.open_output_file ex_env_writer "rps_manifest.json" ex_dump_world).isThrow
        = false
      ∧ ((Rps_Dumper.open_output_file ex_env_writer "rps_manifest.json" >>= fun _ =>
          Rps_Dumper.open_output_file ex_env_writer "rps_manifest.json") ex_dump_world).isThrow
        = true
      ∧ (((Rps_Dumper.open_output_file ex_env_writer "rps_manifest.json" ex_dump_world).isThrow
            = true ↔
          (ex_dump_world.du.du_openedpathset.contains "rps_manifest.json" = true
            ∨ ex_env_writer.can_open (ex_dump_world.du.du_topdir ++ "/" ++ "rps_manifest.json"
                ++ ex_dump_world.du.du_tempsuffix) = false))
        ∧ ((Rps_Dumper.open_output_file ex_env_writer "rps_manifest.json" ex_dump_world).isThrow
            = true →
          (Rps_Dumper.open_output_file ex_env_writer "rps_manifest.json" ex_dump_world).state
            = ex_dump_world)
        ∧ ((Rps_Dumper.open_output_file ex_env_writer "rps_manifest.json" ex_dump_world).isThrow
            = false →
          Rps_Dumper.open_output_file ex_env_writer "rps_manifest.json" ex_dump_world
            = .ok (ex_dump_world.du.du_topdir ++ "/" ++ "rps_manifest.json"
                  ++ ex_dump_world.du.du_tempsuffix)
                { ex_dump_world with du := { ex_dump_world.du with
                  du_openedpathset :=
                    "rps_manifest.json" :: ex_dump_world.du.du_openedpathset } })) :=
  ⟨by rfl, by rfl,
    open_output_file_duplicate_raises ex_env_writer "rps_manifest.json" ex_dump_world
      (by decide)⟩
/-! ## C28: reading back the object references that the dumper writes -/

theorem objectref_ofJson_null (wl : Rps_World) :
    Rps_ObjectRef.ofJson Json.null wl
      = .throw "partly unimplemented Rps_ObjectRef::Rps_ObjectRef(const Json::Value &jv, Rps_Loader*ld)"
          wl := by
  unfold Rps_ObjectRef.ofJson
  simp [Rps_M.bind_apply, Rps_M.get, Json.isString, Rps_M.raise]

/-- C28: the JSON that the dumper writes for a reference that is not
dumpable is refused by the loader.  For the null reference and for a
transient object (no space, not in `du_mapobjects`), `rps_dump_json_objectref`
returns the JSON null, and `Rps_ObjectRef(json, loader)` on a JSON null
raises the exception "partly unimplemented ..." in every loader, where the
claim wants the null reference back.  For a dumpable object with a valid
identifier the JSON is the string of the identifier, and a loader that holds
the object gives the reference back. -/
theorem dumped_null_reference_is_refused (r : Rps_ObjectRef) (w : Rps_World) :
    (rps_is_dumpable_objref r w = .ok false w →
        rps_dump_json_objectref r w = .ok Json.null w
          ∧ ∀ wl, (Rps_ObjectRef.ofJson Json.null wl).isThrow = true
              ∧ (Rps_ObjectRef.ofJson Json.null wl).state = wl)
      ∧ (∀ oid, r = some oid → rps_is_dumpable_objref r w = .ok true w → oid.valid = true →
          rps_dump_json_objectref r w = .ok (Json.str oid.to_string) w
            ∧ ∀ wl, wl.ld.ld_mapobjects.lookup oid = some (some oid) →
                Rps_ObjectRef.ofJson (Json.str oid.to_string) wl = .ok r wl) := by
  constructor
  · intro hd
    constructor
    · cases r with
      | none => simp [rps_dump_json_objectref, Rps_M.bind_apply, hd, Rps_M.pure_apply]
      | some oid => simp [rps_dump_json_objectref, Rps_M.bind_apply, hd, Rps_M.pure_apply]
    · intro wl
      rw [objectref_ofJson_null]
      exact ⟨rfl, rfl⟩
  · intro oid hr hd hv
    subst hr
    constructor
    · simp [rps_dump_json_objectref, Rps_M.bind_apply, hd, Rps_M.pure_apply]
    · intro wl hl
      exact objectref_ofJson_str oid wl hv hl

theorem dumped_null_reference_is_refused_witness :
    rps_is_dumpable_objref none ex_world = .ok false ex_world
      ∧ rps_is_dumpable_objref (some ex_transient) ex_graph_world = .ok false ex_graph_world
      ∧ (rps_dump_json_objectref none ex_world = .ok Json.null ex_world
        ∧ ∀ wl, (Rps_ObjectRef.ofJson Json.null wl).isThrow = true
            ∧ (Rps_ObjectRef.ofJson Json.null wl).state = wl)
      ∧ (rps_dump_json_objectref (some ex_transient) ex_graph_world
          = .ok Json.null ex_graph_world
        ∧ ∀ wl, (Rps_ObjectRef.ofJson Json.null wl).isThrow = true
            ∧ (Rps_ObjectRef.ofJson Json.null wl).state = wl) :=
  ⟨rfl, by rfl, (dumped_null_reference_is_refused none ex_world).1 rfl,
    (dumped_null_reference_is_refused (some ex_transient) ex_graph_world).1 (by rfl)⟩
/-! ## C30: the lexer of quoted string literals -/

theorem cstrAt_drop (cs : List Char) (i j : Nat) :
    cstrAt (cs.drop i) j = cstrAt cs (i + j) := by
  unfold cstrAt
  simp [List.getD_eq_getElem?_getD, List.getElem?_drop]

theorem lex_turn_simple_escape (lenv : Rps_LexEnv) (linebuf : List Char) (eol : Nat)
    (st : Rps_LexState) (c : Char)
    (hcur : cstrAt linebuf st.curp = '\\')
    (hnext : simple_escape_char (cstrAt linebuf (st.curp + 1)) = some c) :
    Rps_TokenSource.lex_turn lenv linebuf eol st
      = .continues { st with rstr := st.rstr ++ [c], toksrc_col := st.toksrc_col + 2 } := by
  have h1 : ('\\' == Char.ofNat 0) = false := by decide
  have h2 : ('\\' == '"') = false := by decide
  have h3 : ('\\' == '\\') = true := by decide
  unfold Rps_TokenSource.lex_turn
  simp only [hcur, h1, h2, h3, Bool.false_eq_true, if_false, if_true,
    Rps_TokenSource.lex_backslash, hnext, Rps_TokenSource.lex_simple_escape]

theorem lex_loop_simple_escape (lenv : Rps_LexEnv) (linebuf : List Char) (eol : Nat)
    (p : Nat) (c : Char)
    (hcur : cstrAt linebuf p = '\\')
    (hnext : simple_escape_char (cstrAt linebuf (p + 1)) = some c) :
    ∀ (fuel col : Nat) (rstr : List Char),
      Rps_TokenSource.lex_loop lenv linebuf eol fuel
          { curp := p, toksrc_col := col, rstr := rstr }
        = .out_of_fuel { curp := p, toksrc_col := col + 2 * fuel,
                         rstr := rstr ++ List.replicate fuel c } := by
  intro fuel
  induction fuel with
  | zero =>
    intro col rstr
    simp [Rps_TokenSource.lex_loop]
  | succ n ih =>
    intro col rstr
    unfold Rps_TokenSource.lex_loop
    rw [lex_turn_simple_escape lenv linebuf eol _ c hcur hnext]
    simp only
    rw [ih]
    simp only [List.append_assoc, List.singleton_append, List.replicate_succ]
    congr 2
    omega

theorem cstrAt_of_drop (cs : List Char) (i : Nat) (c : Char) (tl : List Char)
    (h : cs.drop i = c :: tl) : cstrAt cs i = c ∧ cs.drop (i + 1) = tl := by
  constructor
  · have := cstrAt_drop cs i 0
    rw [h] at this
    simpa [cstrAt] using this.symm
  · have h2 : (cs.drop i).drop 1 = tl := by rw [h]; rfl
    rw [List.drop_drop] at h2
    rw [← h2]

theorem lex_turn_plain (lenv : Rps_LexEnv) (linebuf : List Char) (eol : Nat)
    (st : Rps_LexState) (ch : Char)
    (hcur : cstrAt linebuf st.curp = ch)
    (hlo : 32 ≤ ch.toNat) (hhi : ch.toNat < 127) (hq : ch ≠ '"') (hb : ch ≠ '\\') :
    Rps_TokenSource.lex_turn lenv linebuf eol st
      = .continues { curp := st.curp + 1, toksrc_col := st.toksrc_col + 1,
                     rstr := st.rstr ++ [ch] } := by
  have h0 : (ch == Char.ofNat 0) = false := by
    rw [beq_eq_false_iff_ne]
    rintro rfl
    revert hlo
    decide
  have h1 : (ch == '"') = false := by simpa using hq
  have h2 : (ch == '\\') = false := by simpa using hb
  unfold Rps_TokenSource.lex_turn
  simp only [hcur, h0, h1, h2, Bool.false_eq_true, if_false, ge_iff_le, hlo, hhi, decide_True,
    Bool.and_self, if_true]

theorem lex_loop_escape_after_plain (lenv : Rps_LexEnv) (linebuf : List Char) (eol : Nat)
    (e c : Char) (rest : List Char) (hesc : simple_escape_char e = some c) :
    ∀ (plain : List Char),
      (∀ ch ∈ plain, 32 ≤ ch.toNat ∧ ch.toNat < 127 ∧ ch ≠ '"' ∧ ch ≠ '\\') →
      ∀ (fuel curp col : Nat) (rstr : List Char),
        linebuf.drop curp = plain ++ '\\' :: e :: rest →
        ∃ st, Rps_TokenSource.lex_loop lenv linebuf eol fuel
            { curp := curp, toksrc_col := col, rstr := rstr } = .out_of_fuel st := by
  intro plain
  induction plain with
  | nil =>
    intro _ fuel curp col rstr hdrop
    obtain ⟨hcur, hdrop1⟩ := cstrAt_of_drop linebuf curp '\\' (e :: rest) hdrop
    obtain ⟨hnext, _⟩ := cstrAt_of_drop linebuf (curp + 1) e rest hdrop1
    rw [← hnext] at hesc
    exact ⟨_, lex_loop_simple_escape lenv linebuf eol curp c hcur hesc fuel col rstr⟩
  | cons ch plain1 ih =>
    intro hplain fuel curp col rstr hdrop
    obtain ⟨hlo, hhi, hq, hb⟩ := hplain ch (List.mem_cons_self _ _)
    obtain ⟨hcur, hdrop1⟩ := cstrAt_of_drop linebuf curp ch _ hdrop
    cases fuel with
    | zero => exact ⟨_, rfl⟩
    | succ n =>
      obtain ⟨st, hst⟩ := ih (fun x hx => hplain x (List.mem_cons_of_mem _ hx)) n (curp + 1)
        (col + 1) (rstr ++ [ch]) hdrop1
      refine ⟨st, ?_⟩
      unfold Rps_TokenSource.lex_loop
      rw [lex_turn_plain lenv linebuf eol _ ch hcur hlo hhi hq hb]
      exact hst

/-- C30: the lexer of string literals does not terminate on a backslash
escape.  Take a line that holds, from the current column, a double quote,
then printable ASCII characters other than the double quote and the
backslash, then a backslash followed by one of the characters of the
escapes of one character (quote, double quote, backslash, a, b, f, e, n, r,
t, v).  Then, whatever follows in the line (a closing quote included) and
whatever the fuel, `lex_quoted_literal_string` neither returns nor raises an
error: its loop is still running when the fuel is spent, because the branch
of the escape adds 2 to `toksrc_col` and continues without moving `curp`. -/
theorem lex_quoted_literal_string_escape_never_ends (lenv : Rps_LexEnv)
    (before plain rest : List Char) (e c : Char)
    (hesc : simple_escape_char e = some c)
    (hplain : ∀ ch ∈ plain, 32 ≤ ch.toNat ∧ ch.toNat < 127 ∧ ch ≠ '"' ∧ ch ≠ '\\') :
    ∀ fuel, ∃ st,
      Rps_TokenSource.lex_quoted_literal_string lenv
          (before ++ '"' :: (plain ++ '\\' :: e :: rest)) before.length fuel
        = .out_of_fuel st := by
  intro fuel
  have hdrop : (before ++ '"' :: (plain ++ '\\' :: e :: rest)).drop before.length
      = '"' :: (plain ++ '\\' :: e :: rest) := by
    simp
  obtain ⟨hq, hdrop1⟩ := cstrAt_of_drop _ _ _ _ hdrop
  unfold Rps_TokenSource.lex_quoted_literal_string
  simp only [hq, bne_self_eq_false, Bool.false_eq_true, if_false]
  exact lex_loop_escape_after_plain lenv _ _ e c rest hesc plain hplain fuel _ _ _ hdrop1

theorem lex_quoted_literal_string_escape_never_ends_witness :
    simple_escape_char 'n' = some (Char.ofNat 10)
      ∧ (∀ fuel, ∃ st,
        Rps_TokenSource.lex_quoted_literal_string ex_lexenv
            ([] ++ '"' :: (['a', 'b'] ++ '\\' :: 'n' :: ['c', '"'])) ([] : List Char).length fuel
          = .out_of_fuel st)
      ∧ Rps_TokenSource.lex_quoted_literal_string ex_lexenv "\"ab\\nc\"".data 0 5
          = .out_of_fuel { curp := 3, toksrc_col := 9,
                           rstr := ['a', 'b', Char.ofNat 10, Char.ofNat 10, Char.ofNat 10] }
      ∧ Rps_TokenSource.lex_quoted_literal_string ex_lexenv "\"abc\"".data 0 6
          = .returned ['a', 'b', 'c'] 5 :=
  ⟨by rfl,
    lex_quoted_literal_string_escape_never_ends ex_lexenv [] ['a', 'b'] ['c', '"'] 'n'
      (Char.ofNat 10) (by rfl) (by decide),
    by rfl, by rfl⟩
/-! ## C24: the naming of plugins -/

theorem scanset_not_underscore (c : Char) (h : in_scanset_alnum c = true) : c ≠ '_' := by
  rintro rfl
  revert h
  decide

theorem b62digit_in_scanset (c : Char) (h : Rps_Id.isB62digit c = true) :
    in_scanset_alnum c = true := by
  unfold Rps_Id.isB62digit at h
  unfold in_scanset_alnum
  simp only [Bool.or_eq_true, Bool.and_eq_true, decide_eq_true_eq] at h ⊢
  tauto

theorem validChars_of_scanset (cs : List Char) (h : ∀ c ∈ cs, in_scanset_alnum c = true) :
    Rps_Id.validChars (cs.take Rps_Id.nbchars) = false := by
  unfold Rps_Id.validChars
  have hfirst : (cstrAt (cs.take Rps_Id.nbchars) 0 == '_') = false := by
    rw [beq_eq_false_iff_ne]
    cases cs with
    | nil => decide
    | cons c rest =>
      have hc : cstrAt ((c :: rest).take Rps_Id.nbchars) 0 = c := rfl
      rw [hc]
      exact scanset_not_underscore c (h c (List.mem_cons_self _ _))
  simp [hfirst]

theorem sscanf_rps_mod_idbuf (text : List Char) :
    ∀ c ∈ (sscanf_rps_mod text).2.1, in_scanset_alnum c = true := by
  intro c hc
  unfold sscanf_rps_mod at hc
  by_cases h1 : (text.take 4 != ['r', 'p', 's', '_']) = true
  · rw [if_pos h1] at hc
    simp at hc
  · rw [if_neg h1] at hc
    simp only at hc
    split_ifs at hc
    · simp at hc
    · exact (List.mem_takeWhile_imp hc)
    · exact (List.mem_takeWhile_imp hc)

theorem scan_code_addr_same (env : Rps_Env) (ad : Nat) (w : Rps_World) :
    Rps_Dumper.scan_code_addr env ad w = .ok () w := by
  unfold Rps_Dumper.scan_code_addr
  split_ifs with h0
  · rfl
  · cases hd : env.dladdr ad with
    | none => rfl
    | some dli_fname =>
      simp only
      cases hs : after_last_slash dli_fname.data with
      | none => rfl
      | some basename =>
        simp only
        have hv : (Rps_Id.ofCString (sscanf_rps_mod basename).2.1).1.valid = false := by
          unfold Rps_Id.ofCString
          rw [validChars_of_scanset _ (sscanf_rps_mod_idbuf basename)]
          rfl
        simp only [hv, Bool.false_and, Bool.false_eq_true, if_false]
        split_ifs <;> rfl

theorem valid_id_chars (p : Rps_Id) (hp : p.valid = true) :
    ∃ ds : List Char, p.str.data = '_' :: ds ∧ ds.length = 18
      ∧ ∀ c ∈ ds, Rps_Id.isB62digit c = true := by
  unfold Rps_Id.valid Rps_Id.validChars at hp
  simp only [Bool.and_eq_true, beq_iff_eq, List.all_eq_true] at hp
  obtain ⟨⟨hlen, hfirst⟩, hall⟩ := hp
  cases hcs : p.str.data with
  | nil => rw [hcs] at hlen; exact absurd hlen (by decide)
  | cons c0 ds =>
    rw [hcs] at hlen hfirst hall
    have h0 : c0 = '_' := hfirst
    subst h0
    refine ⟨ds, rfl, ?_, fun c hc => hall c (by simpa using hc)⟩
    simp only [List.length_cons, Rps_Id.nbchars] at hlen
    omega

theorem sscanf_rps_mod_of_id (ds : List Char) (hlen : ds.length = 18)
    (hall : ∀ c ∈ ds, Rps_Id.isB62digit c = true) :
    sscanf_rps_mod ('r' :: 'p' :: 's' :: '_' :: (ds ++ ['-', 'm', 'o', 'd', '.', 's', 'o']))
      = (1, ds, 29) := by
  have htake : (ds ++ ['-', 'm', 'o', 'd', '.', 's', 'o']).take 19 = ds ++ ['-'] := by
    rw [List.take_append_eq_append_take, List.take_of_length_le (by omega), hlen]
    rfl
  have hwhile : (ds ++ ['-']).takeWhile in_scanset_alnum = ds := by
    rw [List.takeWhile_append_of_pos (fun c hc => b62digit_in_scanset c (hall c hc))]
    simp only [List.takeWhile_cons, List.takeWhile_nil]
    have : in_scanset_alnum '-' = false := by decide
    simp [this]
  have hne : ds.isEmpty = false := by
    cases ds with
    | nil => simp at hlen
    | cons _ _ => rfl
  have hdrop : (ds ++ ['-', 'm', 'o', 'd', '.', 's', 'o']).drop ds.length
      = ['-', 'm', 'o', 'd', '.', 's', 'o'] := by simp
  rw [hlen] at hdrop
  unfold sscanf_rps_mod
  simp only [List.take, List.drop, bne_self_eq_false, Bool.false_eq_true, if_false, htake,
    hwhile, hne, hdrop, beq_self_eq_true, if_true, hlen]
  rfl

/-- C24: the name under which the loader loads a plugin is not recognised by
the dumper.  For every valid identifier `p`, `parse_manifest_file` loads the
plugin from the file "rps" followed by the string of `p` and "-mod.so"; on
that name the `sscanf` of `scan_code_addr` with the format
`rps_%19[a-zA-Z0-9]-mod.so%n` succeeds (one conversion, `endpos` 29) but puts
in `idbuf` the 18 digits after the underscore, from which `Rps_Id` builds no
valid identifier.  And for every address, whatever `dladdr` gives and
whatever objects are live, `scan_code_addr` leaves the state as it is: no
object is added to `du_pluginobset` and `scan_object` is not called. -/
theorem plugin_module_name_is_not_recognised (p : Rps_Id) (hp : p.valid = true) :
    sscanf_rps_mod ("rps" ++ p.to_string ++ "-mod.so").data = (1, p.str.data.drop 1, 29)
      ∧ Rps_Id.ofCString (p.str.data.drop 1) = (Rps_Id.null, 0, false)
      ∧ ∀ (env : Rps_Env) (ad : Nat) (w : Rps_World),
          Rps_Dumper.scan_code_addr env ad w = .ok () w := by
  obtain ⟨ds, hdata, hlen, hall⟩ := valid_id_chars p hp
  have htext : ("rps" ++ p.to_string ++ "-mod.so").data
      = 'r' :: 'p' :: 's' :: '_' :: (ds ++ ['-', 'm', 'o', 'd', '.', 's', 'o']) := by
    rw [String.data_append, String.data_append]
    simp only [Rps_Id.to_string, hdata]
    rfl
  refine ⟨?_, ?_, scan_code_addr_same⟩
  · rw [htext, sscanf_rps_mod_of_id ds hlen hall, hdata]
    rfl
  · rw [hdata]
    simp only [List.drop_succ_cons, List.drop_zero]
    unfold Rps_Id.ofCString
    rw [validChars_of_scanset ds (fun c hc => b62digit_in_scanset c (hall c hc))]
    rfl

theorem plugin_module_name_is_not_recognised_witness :
    ex_obj.valid = true
      ∧ (sscanf_rps_mod ("rps" ++ ex_obj.to_string ++ "-mod.so").data
          = (1, ex_obj.str.data.drop 1, 29)
        ∧ Rps_Id.ofCString (ex_obj.str.data.drop 1) = (Rps_Id.null, 0, false)
        ∧ ∀ (env : Rps_Env) (ad : Nat) (w : Rps_World),
            Rps_Dumper.scan_code_addr env ad w = .ok () w) :=
  ⟨by decide, plugin_module_name_is_not_recognised ex_obj (by decide)⟩
/-! ## C29: the encoding of an instance -/

theorem lookup_map_replace (ms : List (String × Json)) (k k2 : String) (v : Json) :
    (ms.map (fun kv => if kv.1 == k then (kv.1, v) else kv)).lookup k2
      = if k2 == k then (ms.lookup k2).map (fun _ => v) else ms.lookup k2 := by
  induction ms with
  | nil => simp [List.lookup]
  | cons kv rest ih =>
    obtain ⟨k1, v1⟩ := kv
    by_cases hk1 : k1 = k
    · subst hk1
      simp only [List.map_cons, beq_self_eq_true, if_true]
      by_cases h2 : k2 = k1
      · subst h2
        simp [List.lookup]
      · have hb : (k2 == k1) = false := by simpa using h2
        simp only [List.lookup, hb, ih]
    · have hb1 : (k1 == k) = false := by simpa using hk1
      simp only [List.map_cons, hb1, Bool.false_eq_true, if_false]
      by_cases h2 : k2 = k1
      · subst h2
        simp [List.lookup, hb1]
      · have hb : (k2 == k1) = false := by simpa using h2
        simp only [List.lookup, hb, ih]

theorem lookup_append_new (ms : List (String × Json)) (k k2 : String) (v : Json)
    (hnone : ms.lookup k = none) :
    (ms ++ [(k, v)]).lookup k2 = if k2 == k then some v else ms.lookup k2 := by
  induction ms with
  | nil => cases hb : (k2 == k) <;> simp [List.lookup, hb]
  | cons kv rest ih =>
    obtain ⟨k1, v1⟩ := kv
    by_cases hk : k = k1
    · subst hk
      simp [List.lookup] at hnone
    · have hne : (k == k1) = false := by simpa using hk
      simp only [List.lookup, hne] at hnone
      by_cases h2 : k2 = k1
      · subst h2
        have hb : (k2 == k) = false := by simpa using fun h => hk h.symm
        simp [List.lookup, hb]
      · have hb : (k2 == k1) = false := by simpa using h2
        simp only [List.cons_append, List.lookup, hb]
        exact ih hnone

theorem json_get_set_obj (ms : List (String × Json)) (k k2 : String) (v : Json) :
    ((Json.obj ms).set k v).get k2 = if k2 == k then v else (Json.obj ms).get k2 := by
  unfold Json.set
  simp only
  split_ifs with h h2 h2
  · simp only [Json.get, lookup_map_replace, h2, if_true]
    rw [beq_iff_eq] at h2
    subst h2
    cases hl : ms.lookup k2 with
    | none => rw [hl] at h; simp at h
    | some x => rfl
  · simp only [Json.get, lookup_map_replace, h2, Bool.false_eq_true, if_false]
  · have hnone : ms.lookup k = none := by
      cases hl : ms.lookup k with
      | none => rfl
      | some x => rw [hl] at h; simp at h
    simp only [Json.get, lookup_append_new _ _ _ _ hnone, h2, if_true]
    rfl
  · have hnone : ms.lookup k = none := by
      cases hl : ms.lookup k with
      | none => rfl
      | some x => rw [hl] at h; simp at h
    simp only [Json.get, lookup_append_new _ _ _ _ hnone, h2, Bool.false_eq_true, if_false]

theorem json_set_is_obj (j : Json) (k : String) (v : Json) : ∃ ms, j.set k v = Json.obj ms := by
  cases j with
  | obj ms =>
    unfold Json.set
    simp only
    split_ifs
    · exact ⟨_, rfl⟩
    · exact ⟨_, rfl⟩
  | null => exact ⟨_, rfl⟩
  | int i => exact ⟨_, rfl⟩
  | real d => exact ⟨_, rfl⟩
  | str s => exact ⟨_, rfl⟩
  | bool b => exact ⟨_, rfl⟩
  | arr es => exact ⟨_, rfl⟩

theorem dump_json_comps_ok (env : Rps_Env) (w : Rps_World) (jvattrs : Json) (nb : Nat) :
    ∀ (sons : List Rps_Value),
      (∀ s ∈ sons, ∃ j,
        rps_dump_json_value_body s (Rps_Value.dump_json env s) w = .ok j w) →
      ∃ encs, Rps_InstanceZone.dump_json_sons env [] sons jvattrs nb w
          = .ok { jvattrs := jvattrs, nbattrs := nb, jcomps := encs } w
        ∧ encs.length = sons.length := by
  intro sons
  induction sons with
  | nil =>
    intro _
    exact ⟨[], by simp [Rps_InstanceZone.dump_json_sons, Rps_M.pure_apply], rfl⟩
  | cons son more ih =>
    intro hs
    obtain ⟨j, hj⟩ := hs son (List.mem_cons_self _ _)
    obtain ⟨encs, he, hl⟩ := ih (fun s h => hs s (List.mem_cons_of_mem _ h))
    refine ⟨j :: encs, ?_, by simp [hl]⟩
    simp only [Rps_InstanceZone.dump_json_sons, Rps_M.bind_apply, hj, he, Rps_M.pure_apply]

theorem dump_json_sons_ok (env : Rps_Env) (w : Rps_World) :
    ∀ (atl : List Rps_Id) (sons : List Rps_Value) (acc : List Json) (nb : Nat),
      (∀ a ∈ atl, rps_is_dumpable_objref (some a) w = .ok true w) →
      atl.length ≤ sons.length →
      (∀ s ∈ sons, ∃ j,
        rps_dump_json_value_body s (Rps_Value.dump_json env s) w = .ok j w) →
      ∃ entries encs, Rps_InstanceZone.dump_json_sons env atl sons (Json.arr acc) nb w
          = .ok { jvattrs := Json.arr (acc ++ entries), nbattrs := nb + atl.length,
                  jcomps := encs } w
        ∧ entries.length = atl.length ∧ encs.length = sons.length - atl.length
        ∧ ∀ e ∈ entries, e.type = JsonType.objectValue := by
  intro atl
  induction atl with
  | nil =>
    intro sons acc nb _ _ hs
    obtain ⟨encs, he, hl⟩ := dump_json_comps_ok env w (Json.arr acc) nb sons hs
    exact ⟨[], encs, by simpa using he, rfl, by simpa using hl, fun e h => by cases h⟩
  | cons a more ih =>
    intro sons acc nb hd hlen hs
    cases sons with
    | nil => simp at hlen
    | cons son sons1 =>
      have hda := hd a (List.mem_cons_self _ _)
      obtain ⟨jiva, hj⟩ := hs son (List.mem_cons_self _ _)
      have hiat : rps_dump_json_objectref (some a) w = .ok (Json.str a.to_string) w := by
        simp [rps_dump_json_objectref, Rps_M.bind_apply, hda, Rps_M.pure_apply]
      obtain ⟨entries, encs, he, hl1, hl2, hty⟩ := ih sons1
        (acc ++ [((Json.obj []).set "iat" (Json.str a.to_string)).set "iva" jiva]) (nb + 1)
        (fun x h => hd x (List.mem_cons_of_mem _ h))
        (by simpa using hlen) (fun s h => hs s (List.mem_cons_of_mem _ h))
      refine ⟨(((Json.obj []).set "iat" (Json.str a.to_string)).set "iva" jiva) :: entries,
        encs, ?_, by simp [hl1], by simpa using hl2, ?_⟩
      · simp only [Rps_InstanceZone.dump_json_sons, Rps_M.bind_apply, hda, Bool.not_true,
          Bool.false_eq_true, if_false, hiat, hj]
        have happ : (Json.arr acc).append
            (((Json.obj []).set "iat" (Json.str a.to_string)).set "iva" jiva)
            = Json.arr (acc ++ [((Json.obj []).set "iat" (Json.str a.to_string)).set "iva"
                jiva]) := rfl
        rw [happ, he]
        simp only [List.append_assoc, List.singleton_append, List.length_cons]
        congr 2
        omega
      · intro e hmem
        rcases List.mem_cons.mp hmem with rfl | hmem
        · obtain ⟨ms, hms⟩ := json_set_is_obj
            ((Json.obj []).set "iat" (Json.str a.to_string)) "iva" jiva
          rw [hms]
          rfl
        · exact hty e hmem

theorem json_get_set_self (j : Json) (k : String) (v : Json) : (j.set k v).get k = v := by
  cases j with
  | obj ms => rw [json_get_set_obj]; simp
  | null => simp [Json.set, Json.get, List.lookup]
  | int i => simp [Json.set, Json.get, List.lookup]
  | real d => simp [Json.set, Json.get, List.lookup]
  | str s => simp [Json.set, Json.get, List.lookup]
  | bool b => simp [Json.set, Json.get, List.lookup]
  | arr es => simp [Json.set, Json.get, List.lookup]

theorem json_get_set_set (j : Json) (k0 k k2 : String) (v0 v : Json) (hne : k2 ≠ k) :
    ((j.set k0 v0).set k v).get k2 = (j.set k0 v0).get k2 := by
  obtain ⟨ms, hms⟩ := json_set_is_obj j k0 v0
  rw [hms, json_get_set_obj]
  have hb : (k2 == k) = false := by simpa using hne
  simp [hb]

theorem foldl_append_arr (encs : List Json) :
    ∀ (acc : List Json), encs.foldl Json.append (Json.arr acc) = Json.arr (acc ++ encs) := by
  induction encs with
  | nil => intro acc; simp
  | cons e more ih =>
    intro acc
    simp only [List.foldl_cons]
    have happ : (Json.arr acc).append e = Json.arr (acc ++ [e]) := rfl
    rw [happ, ih]
    simp

theorem dump_json_metadata_keeps (hj : Json) (k0 : String) (v0 : Json)
    (metadata : Option (Rps_ObjectRef × Int)) (w : Rps_World) :
    ∃ j, dump_json_metadata (hj.set k0 v0) metadata w = .ok j w
      ∧ ∀ k2, k2 ≠ "metaobj" → k2 ≠ "metarank" → j.get k2 = (hj.set k0 v0).get k2 := by
  cases metadata with
  | none => exact ⟨_, rfl, fun _ _ _ => rfl⟩
  | some md =>
    obtain ⟨metaobr, metarank⟩ := md
    obtain ⟨jmeta, hm⟩ := rps_dump_json_objectref_ok metaobr w
    refine ⟨((hj.set k0 v0).set "metaobj" jmeta).set "metarank" (Json.int metarank), ?_, ?_⟩
    · simp only [dump_json_metadata, Rps_M.bind_apply, hm, Rps_M.pure_apply]
    · intro k2 h1 h2
      rw [json_get_set_set _ _ _ _ _ _ h2, json_get_set_set _ _ _ _ _ _ h1]

/-- C29: the arrays of the encoding of an instance are padded with nulls.
For a non-transient instance whose class is dumpable and has an attribute
set of k dumpable attributes, with n ≥ k sons whose encodings return,
`Rps_InstanceZone::dump_json` returns an object whose `iattrs` array holds k
null entries, not the k entries `iat`/`iva`, and whose `icomps` array holds
n - k null entries followed by the n - k encodings of the remaining sons:
each array is first resized to its expected size ("reservation") and then
appended to, and `iattrs` is cut back to its first k entries. -/
theorem instance_dump_json_pads_with_nulls (env : Rps_Env) (w : Rps_World)
    (conn : Rps_ObjectRef) (sons : List Rps_Value) (metadata : Option (Rps_ObjectRef × Int))
    (atl : List Rps_Id)
    (hconn : rps_is_dumpable_objref conn w = .ok true w)
    (hat : w.heap.set_attributes conn = some atl)
    (hd : ∀ a ∈ atl, rps_is_dumpable_objref (some a) w = .ok true w)
    (hlen : atl.length ≤ sons.length)
    (hs : ∀ s ∈ sons, ∃ j,
      rps_dump_json_value_body s (Rps_Value.dump_json env s) w = .ok j w) :
    ∃ j encs, Rps_Value.dump_json env (.inst conn sons metadata false) w = .ok j w
      ∧ j.get "iattrs" = Json.arr (List.replicate atl.length Json.null)
      ∧ encs.length = sons.length - atl.length
      ∧ j.get "icomps"
          = Json.arr (List.replicate (sons.length - atl.length) Json.null ++ encs) := by
  obtain ⟨jclass, hclass⟩ := rps_dump_json_objectref_ok conn w
  have hres : (Json.arr []).resize atl.length
      = Json.arr ([] ++ List.replicate atl.length Json.null) := by
    simp [Json.resize]
  obtain ⟨entries, encs, he, hl1, hl2, _⟩ := dump_json_sons_ok env w atl sons
    ([] ++ List.replicate atl.length Json.null) 0 hd hlen hs
  have hcut : (Json.arr (([] ++ List.replicate atl.length Json.null) ++ entries)).resize
      (0 + atl.length) = Json.arr (List.replicate atl.length Json.null) := by
    simp [Json.resize, List.take_append_eq_append_take]
  have hcomps : encs.foldl Json.append ((Json.arr []).resize (sons.length - (0 + atl.length)))
      = Json.arr (List.replicate (sons.length - atl.length) Json.null ++ encs) := by
    have hr : (Json.arr []).resize (sons.length - (0 + atl.length))
        = Json.arr (List.replicate (sons.length - atl.length) Json.null) := by
      simp [Json.resize]
    rw [hr, foldl_append_arr]
  obtain ⟨j, hj, hkeep⟩ := dump_json_metadata_keeps
    (((((Json.obj []).set "vtype" (Json.str "instance")).set "iclass" jclass).set "iattrs"
      (Json.arr (List.replicate atl.length Json.null))))
    "icomps" (Json.arr (List.replicate (sons.length - atl.length) Json.null ++ encs))
    metadata w
  refine ⟨j, encs, ?_, ?_, hl2, ?_⟩
  · simp only [Rps_Value.dump_json, Rps_M.bind_apply, hconn, Bool.not_true, Bool.or_self,
      Bool.false_eq_true, if_false, hclass, Rps_M.get, hat, hres, he, hcut, hcomps]
    exact hj
  · rw [hkeep "iattrs" (by decide) (by decide),
      json_get_set_set _ _ _ _ _ _ (by decide), json_get_set_self]
  · rw [hkeep "icomps" (by decide) (by decide), json_get_set_self]

theorem instance_dump_json_pads_with_nulls_witness :
    ex_inst_world.heap.set_attributes (some ex_class) = some [ex_obj]
      ∧ (∃ j encs,
          Rps_Value.dump_json ex_env (.inst (some ex_class) [.int 7, .int 8] none false)
              ex_inst_world = .ok j ex_inst_world
            ∧ j.get "iattrs" = Json.arr (List.replicate [ex_obj].length Json.null)
            ∧ encs.length = [Rps_Value.int 7, Rps_Value.int 8].length - [ex_obj].length
            ∧ j.get "icomps"
                = Json.arr (List.replicate
                    ([Rps_Value.int 7, Rps_Value.int 8].length - [ex_obj].length) Json.null
                  ++ encs))
      ∧ Rps_Value.dump_json ex_env ex_instance ex_inst_world
          = .ok (.obj [("vtype", .str "instance"), ("iclass", .str "_2ccccccccccccccccc"),
              ("iattrs", .arr [.null]), ("icomps", .arr [.null, .int 8])]) ex_inst_world :=
  ⟨by rfl,
    instance_dump_json_pads_with_nulls ex_env ex_inst_world (some ex_class)
      [.int 7, .int 8] none [ex_obj] (by rfl) (by rfl)
      (by
        intro a ha
        simp only [List.mem_singleton] at ha
        subst ha
        rfl)
      (by decide)
      (by
        intro s hs
        simp only [List.mem_cons, List.mem_singleton, List.not_mem_nil, or_false] at hs
        rcases hs with rfl | rfl
        · exact ⟨Json.int 7, by rfl⟩
        · exact ⟨Json.int 8, by rfl⟩),
    by rfl⟩
/-! ## C27: `is_object_starting_line` on every line -/

theorem cstrAt_lt_of_ne_zero (cs : List Char) (i : Nat) (h : cstrAt cs i ≠ Char.ofNat 0) :
    i < cs.length := by
  by_contra hlt
  apply h
  unfold cstrAt
  rw [List.getD_eq_default]
  omega

theorem checked_at_succ (cs : List Char) (i : Nat) (c : Char) (hc : cstrAt cs i = c)
    (hne : c ≠ Char.ofNat 0) : checked_at cs (i + 1) = some (cstrAt cs (i + 1)) := by
  have hlt := cstrAt_lt_of_ne_zero cs i (by rw [hc]; exact hne)
  unfold checked_at
  rw [if_pos (by omega)]

theorem checked_at_zero (cs : List Char) : checked_at cs 0 = some (cstrAt cs 0) := by
  unfold checked_at
  rw [if_pos (Nat.zero_le _)]

theorem ofCString_cases (cs : List Char) :
    (Rps_Id.ofCString cs = (⟨String.mk (cs.take Rps_Id.nbchars)⟩, Rps_Id.nbchars, true)
        ∧ Rps_Id.validChars (cs.take Rps_Id.nbchars) = true)
      ∨ Rps_Id.ofCString cs = (Rps_Id.null, 0, false) := by
  unfold Rps_Id.ofCString
  by_cases h : Rps_Id.validChars (cs.take Rps_Id.nbchars) = true
  · exact Or.inl ⟨by rw [if_pos h], h⟩
  · exact Or.inr (by rw [if_neg h])

theorem is_object_starting_line_checked_eq (linbuf : String) :
    Rps_Loader.is_object_starting_line_checked linbuf
      = some (match Rps_Loader.is_object_starting_line Rps_Id.null 0 linbuf with
          | some oid => (true, oid)
          | none => (false, Rps_Id.null)) := by
  have hs : ('/' : Char) ≠ Char.ofNat 0 := by decide
  have hp : ('+' : Char) ≠ Char.ofNat 0 := by decide
  have ho : ('o' : Char) ≠ Char.ofNat 0 := by decide
  have hb : ('b' : Char) ≠ Char.ofNat 0 := by decide
  unfold Rps_Loader.is_object_starting_line_checked Rps_Loader.is_object_starting_line
  simp only [checked_at_zero]
  by_cases h0 : cstrAt linbuf.data 0 = '/'
  swap
  · have e0 : (cstrAt linbuf.data 0 != '/') = true := by simpa using h0
    simp [e0]
  rw [checked_at_succ linbuf.data 0 _ h0 hs]
  by_cases h1 : cstrAt linbuf.data 1 = '/'
  swap
  · have e1 : (cstrAt linbuf.data 1 != '/') = true := by simpa using h1
    simp [h0, e1]
  rw [checked_at_succ linbuf.data 1 _ h1 hs]
  by_cases h2 : cstrAt linbuf.data 2 = '+'
  swap
  · have e2 : (cstrAt linbuf.data 2 != '+') = true := by simpa using h2
    simp [h0, h1, e2]
  rw [checked_at_succ linbuf.data 2 _ h2 hp]
  by_cases h3 : cstrAt linbuf.data 3 = 'o'
  swap
  · have e3 : (cstrAt linbuf.data 3 != 'o') = true := by simpa using h3
    simp [h0, h1, h2, e3]
  rw [checked_at_succ linbuf.data 3 _ h3 ho]
  by_cases h4 : cstrAt linbuf.data 4 = 'b'
  swap
  · have e4 : (cstrAt linbuf.data 4 != 'b') = true := by simpa using h4
    simp [h0, h1, h2, h3, e4]
  simp only [h0, h1, h2, h3, h4, bne_self_eq_false, Bool.false_eq_true, if_false, Bool.or_self]
  by_cases hlen : linbuf.data.length < "//+ob".length + Rps_Id.nbchars
  · simp only [hlen, if_true]
  · simp only [hlen, if_false]
    have h5 : "//+ob".length = 5 := by decide
    have hle : "//+ob".length + Rps_Id.nbchars ≤ linbuf.data.length := by omega
    rcases ofCString_cases (linbuf.data.drop "//+ob".length) with ⟨hr, _⟩ | hr
    · rw [hr]
      simp only
      have hc : checked_at linbuf.data ("//+ob".length + Rps_Id.nbchars)
          = some (cstrAt linbuf.data ("//+ob".length + Rps_Id.nbchars)) := by
        unfold checked_at
        rw [if_pos hle]
      rw [hc, cstrAt_drop]
      simp only
      split_ifs <;> rfl
    · rw [hr]
      simp only
      have hc : checked_at linbuf.data ("//+ob".length + 0)
          = some (cstrAt linbuf.data ("//+ob".length + 0)) := by
        unfold checked_at
        rw [if_pos (by omega)]
      rw [hc, cstrAt_drop]
      simp only
      split_ifs <;> rfl

theorem is_object_starting_line_some (linbuf : String) (oid : Rps_Id)
    (h : Rps_Loader.is_object_starting_line Rps_Id.null 0 linbuf = some oid) :
    oid.valid = true
      ∧ 5 + Rps_Id.nbchars ≤ linbuf.data.length
      ∧ linbuf.data.take 5 = ['/', '/', '+', 'o', 'b']
      ∧ oid.str.data = (linbuf.data.drop 5).take Rps_Id.nbchars
      ∧ (cstrAt linbuf.data (5 + Rps_Id.nbchars) = Char.ofNat 0
          ∨ isspace (cstrAt linbuf.data (5 + Rps_Id.nbchars)) = true) := by
  unfold Rps_Loader.is_object_starting_line at h
  simp only at h
  have h5 : "//+ob".length = 5 := by decide
  rw [h5] at h
  by_cases hpre : (cstrAt linbuf.data 0 != '/' || cstrAt linbuf.data 1 != '/'
      || cstrAt linbuf.data 2 != '+' || cstrAt linbuf.data 3 != 'o'
      || cstrAt linbuf.data 4 != 'b') = true
  · rw [if_pos hpre] at h
    cases h
  rw [if_neg hpre] at h
  simp only [Bool.or_eq_true, bne_iff_ne, ne_eq, not_or, not_not] at hpre
  obtain ⟨⟨⟨⟨h0, h1⟩, h2⟩, h3⟩, h4⟩ := hpre
  by_cases hlen : linbuf.data.length < 5 + Rps_Id.nbchars
  · rw [if_pos hlen] at h
    cases h
  rw [if_neg hlen] at h
  have hle : 5 + Rps_Id.nbchars ≤ linbuf.data.length := by omega
  have htake : linbuf.data.take 5 = ['/', '/', '+', 'o', 'b'] := by
    have hn : Rps_Id.nbchars = 19 := rfl
    match hcs : linbuf.data with
    | c0 :: c1 :: c2 :: c3 :: c4 :: rest =>
      rw [hcs] at h0 h1 h2 h3 h4
      simp only [cstrAt, List.getD_cons_zero, List.getD_cons_succ] at h0 h1 h2 h3 h4
      subst h0 h1 h2 h3 h4
      rfl
    | [] => rw [hcs] at hle; simp at hle
    | [_] => rw [hcs] at hle; simp at hle; omega
    | [_, _] => rw [hcs] at hle; simp at hle; omega
    | [_, _, _] => rw [hcs] at hle; simp at hle; omega
    | [_, _, _, _] => rw [hcs] at hle; simp at hle; omega
  rcases ofCString_cases (linbuf.data.drop 5) with ⟨hr, hvc⟩ | hr
  · rw [hr] at h
    simp only at h
    rw [cstrAt_drop] at h
    by_cases hend : (cstrAt linbuf.data (5 + Rps_Id.nbchars) != Char.ofNat 0
        && !isspace (cstrAt linbuf.data (5 + Rps_Id.nbchars))) = true
    · rw [if_pos hend] at h
      cases h
    rw [if_neg hend] at h
    simp only [Bool.not_true, Bool.false_eq_true, if_false] at h
    split_ifs at h
    cases h
    refine ⟨hvc, hle, htake, rfl, ?_⟩
    simp only [Bool.and_eq_true, bne_iff_ne, ne_eq, Bool.not_eq_true', not_and,
      Bool.not_eq_false] at hend
    by_cases hz : cstrAt linbuf.data (5 + Rps_Id.nbchars) = Char.ofNat 0
    · exact Or.inl hz
    · exact Or.inr (hend hz)
  · rw [hr] at h
    simp at h

/-- C27: `is_object_starting_line` is safe and total on every line.  On every
line, the empty one and those shorter than five characters included, the
function with its reads checked gives a result: no read goes beyond the
index `size`.  The result is the one of `is_object_starting_line`.  When it
returns false the identifier stored through `pobid` is the null one; it
returns false for a line that does not begin with "//+ob" and for a line
shorter than 5 + `Rps_Id::nbchars`; when it returns true the stored
identifier is valid, its characters follow "//+ob" in the line, and the
next character is the end of the line or a space character. -/
theorem is_object_starting_line_safe_total (linbuf : String) :
    ∃ b pobid, Rps_Loader.is_object_starting_line_checked linbuf = some (b, pobid)
      ∧ Rps_Loader.is_object_starting_line Rps_Id.null 0 linbuf
          = (if b then some pobid else none)
      ∧ (b = false → pobid = Rps_Id.null)
      ∧ (linbuf.data.take 5 ≠ "//+ob".data → b = false)
      ∧ (linbuf.data.length < 5 + Rps_Id.nbchars → b = false)
      ∧ (b = true → pobid.valid = true
          ∧ linbuf.data.take (5 + Rps_Id.nbchars) = "//+ob".data ++ pobid.str.data
          ∧ (cstrAt linbuf.data (5 + Rps_Id.nbchars) = Char.ofNat 0
              ∨ isspace (cstrAt linbuf.data (5 + Rps_Id.nbchars)) = true)) := by
  have hch := is_object_starting_line_checked_eq linbuf
  cases hm : Rps_Loader.is_object_starting_line Rps_Id.null 0 linbuf with
  | none =>
    rw [hm] at hch
    refine ⟨false, Rps_Id.null, hch, rfl, fun _ => rfl, fun _ => rfl, fun _ => rfl, ?_⟩
    intro h
    cases h
  | some oid =>
    rw [hm] at hch
    obtain ⟨hv, hle, htake, hstr, hend⟩ := is_object_starting_line_some linbuf oid hm
    refine ⟨true, oid, hch, rfl, ?_, ?_, ?_, ?_⟩
    · intro h
      cases h
    · intro h
      exact absurd htake h
    · intro h
      omega
    · intro _
      refine ⟨hv, ?_, hend⟩
      rw [List.take_add, htake, hstr]

theorem is_object_starting_line_safe_total_witness :
    Rps_Loader.is_object_starting_line_checked "" = some (false, Rps_Id.null)
      ∧ Rps_Loader.is_object_starting_line_checked "//+o" = some (false, Rps_Id.null)
      ∧ Rps_Loader.is_object_starting_line_checked "//+ob_3ooooooooooooooooo"
          = some (true, ex_obj)
      ∧ ∃ b pobid,
          Rps_Loader.is_object_starting_line_checked "//+ob_3ooooooooooooooooo "
              = some (b, pobid)
            ∧ Rps_Loader.is_object_starting_line Rps_Id.null 0 "//+ob_3ooooooooooooooooo "
                = (if b then some pobid else none)
            ∧ (b = false → pobid = Rps_Id.null)
            ∧ ("//+ob_3ooooooooooooooooo ".data.take 5 ≠ "//+ob".data → b = false)
            ∧ ("//+ob_3ooooooooooooooooo ".data.length < 5 + Rps_Id.nbchars → b = false)
            ∧ (b = true → pobid.valid = true
                ∧ "//+ob_3ooooooooooooooooo ".data.take (5 + Rps_Id.nbchars)
                    = "//+ob".data ++ pobid.str.data
                ∧ (cstrAt "//+ob_3ooooooooooooooooo ".data (5 + Rps_Id.nbchars) = Char.ofNat 0
                    ∨ isspace (cstrAt "//+ob_3ooooooooooooooooo ".data (5 + Rps_Id.nbchars))
                        = true)) :=
  ⟨by rfl, by rfl, by rfl, is_object_starting_line_safe_total "//+ob_3ooooooooooooooooo "⟩
/-! ## C25: one round of deferred work -/

theorem hash_line_not_object (linbuf : String) (h : begins_with_hash linbuf = true) :
    Rps_Loader.is_object_starting_line Rps_Id.null 0 linbuf = none := by
  apply not_object_line_of_first
  unfold begins_with_hash at h
  simp only [Bool.and_eq_true, beq_iff_eq] at h
  rw [h.2]
  decide

theorem second_pass_line_hash (env : Rps_Env) (spacid : Rps_Id)
    (loc : Rps_Loader.second_pass_locals) (linbuf : String) (w : Rps_World)
    (h : begins_with_hash linbuf = true) :
    Rps_Loader.second_pass_line env spacid loc linbuf w
      = .ok { loc with lincnt := loc.lincnt + 1 } w := by
  unfold begins_with_hash at h
  unfold Rps_Loader.second_pass_line
  simp only [h, if_true, Rps_M.pure_apply]

theorem second_pass_line_other (env : Rps_Env) (spacid : Rps_Id)
    (loc : Rps_Loader.second_pass_locals) (linbuf : String) (w : Rps_World)
    (h : begins_with_hash linbuf = false)
    (hnone : Rps_Loader.is_object_starting_line Rps_Id.null 0 linbuf = none) :
    Rps_Loader.second_pass_line env spacid loc linbuf w
      = .ok (if loc.objbuf.length > 0 then
              { loc with lincnt := loc.lincnt + 1, objbuf := loc.objbuf ++ linbuf ++ "\n" }
            else { loc with lincnt := loc.lincnt + 1 }) w := by
  unfold begins_with_hash at h
  unfold Rps_Loader.second_pass_line
  simp only [h, Bool.false_eq_true, if_false, is_object_starting_line_args, hnone]
  split_ifs <;> rfl

theorem second_pass_line_start (env : Rps_Env) (spacid : Rps_Id)
    (loc : Rps_Loader.second_pass_locals) (linbuf : String) (w : Rps_World) (oid : Rps_Id)
    (h : begins_with_hash linbuf = false)
    (hsome : Rps_Loader.is_object_starting_line Rps_Id.null 0 linbuf = some oid) :
    Rps_Loader.second_pass_line env spacid loc linbuf w
      = (Rps_Loader.second_pass_end env spacid loc >>= fun _ =>
          pure { lincnt := loc.lincnt + 1, obcnt := loc.obcnt + 1, prevoid := oid,
                 prevlin := loc.lincnt + 1, objbuf := linbuf ++ "\n" }) w := by
  unfold begins_with_hash at h
  unfold Rps_Loader.second_pass_line Rps_Loader.second_pass_end
  simp only [h, Bool.false_eq_true, if_false, is_object_starting_line_args, hsome]

theorem second_pass_end_pending (env : Rps_Env) (spacid : Rps_Id)
    (loc : Rps_Loader.second_pass_locals)
    (h1 : loc.objbuf.length > 0) (h2 : loc.prevoid.toBool = true) (h3 : loc.prevlin > 0) :
    Rps_Loader.second_pass_end env spacid loc
      = Rps_Loader.second_pass_guarded env spacid loc.prevlin loc.prevoid loc.objbuf
          loc.obcnt := by
  unfold Rps_Loader.second_pass_end
  simp only [h1, h2, h3, decide_True, Bool.and_self]
  rfl

theorem second_pass_end_idle (env : Rps_Env) (spacid : Rps_Id)
    (loc : Rps_Loader.second_pass_locals) (h1 : loc.objbuf = "") :
    Rps_Loader.second_pass_end env spacid loc = pure () := by
  unfold Rps_Loader.second_pass_end
  simp only [h1, String.length_empty, gt_iff_lt, Nat.lt_irrefl, decide_False, Bool.false_and]
  rfl

theorem object_id_toBool (linbuf : String) (oid : Rps_Id)
    (h : Rps_Loader.is_object_starting_line Rps_Id.null 0 linbuf = some oid) :
    oid.toBool = true :=
  valid_str_ne_empty oid (is_object_starting_line_some linbuf oid h).1

theorem second_pass_lines_cons (env : Rps_Env) (spacid : Rps_Id) (linbuf : String)
    (more : List String) (loc : Rps_Loader.second_pass_locals) (w : Rps_World) :
    (Rps_Loader.second_pass_lines env spacid (linbuf :: more) loc
        >>= Rps_Loader.second_pass_end env spacid) w
      = (Rps_Loader.second_pass_line env spacid loc linbuf >>= fun loc1 =>
          Rps_Loader.second_pass_lines env spacid more loc1
            >>= Rps_Loader.second_pass_end env spacid) w := by
  simp only [Rps_Loader.second_pass_lines, Rps_M.bind_apply]
  cases Rps_Loader.second_pass_line env spacid loc linbuf w <;> rfl

theorem second_pass_lines_pending (env : Rps_Env) (spacid : Rps_Id) :
    ∀ (lines : List String) (loc : Rps_Loader.second_pass_locals) (w : Rps_World),
      loc.objbuf.length > 0 → loc.prevoid.toBool = true → loc.prevlin > 0 →
      (Rps_Loader.second_pass_lines env spacid lines loc
          >>= Rps_Loader.second_pass_end env spacid) w
        = Rps_Loader.run_second_pass_calls env spacid
            ({ lineno := loc.prevlin, objid := loc.prevoid,
               objbuf := ((lines.takeWhile (fun l =>
                  (Rps_Loader.is_object_starting_line Rps_Id.null 0 l).isNone)).filter
                  (fun l => !begins_with_hash l)).foldl (fun res l => res ++ l ++ "\n")
                    loc.objbuf,
               count := loc.obcnt }
              :: spec_second_pass_calls loc.lincnt loc.obcnt lines) w := by
  intro lines
  induction lines with
  | nil =>
    intro loc w h1 h2 h3
    simp only [Rps_Loader.second_pass_lines, Rps_M.bind_apply, Rps_M.pure_apply,
      second_pass_end_pending env spacid loc h1 h2 h3, List.takeWhile_nil, List.filter_nil,
      List.foldl_nil, spec_second_pass_calls, Rps_Loader.run_second_pass_calls]
    cases Rps_Loader.second_pass_guarded env spacid loc.prevlin loc.prevoid loc.objbuf
      loc.obcnt w <;> rfl
  | cons linbuf more ih =>
    intro loc w h1 h2 h3
    rw [second_pass_lines_cons]
    by_cases hh : begins_with_hash linbuf = true
    · have hnone := hash_line_not_object linbuf hh
      rw [Rps_M.bind_ok (second_pass_line_hash env spacid loc linbuf w hh)]
      have hih := ih (⟨loc.lincnt + 1, loc.obcnt, loc.prevoid, loc.prevlin, loc.objbuf⟩ :
        Rps_Loader.second_pass_locals) w h1 h2 h3
      rw [hih]
      simp only [spec_second_pass_calls, hnone, List.takeWhile_cons, Option.isNone_none,
        if_true, List.filter_cons, hh, Bool.not_true, Bool.false_eq_true, if_false]
    · have hh2 : begins_with_hash linbuf = false := by simpa using hh
      cases hline : Rps_Loader.is_object_starting_line Rps_Id.null 0 linbuf with
      | none =>
        rw [Rps_M.bind_ok (second_pass_line_other env spacid loc linbuf w hh2 hline)]
        rw [if_pos h1]
        have hih := ih (⟨loc.lincnt + 1, loc.obcnt, loc.prevoid, loc.prevlin,
          loc.objbuf ++ linbuf ++ "\n"⟩ : Rps_Loader.second_pass_locals) w
          (by simp only [String.length_append, gt_iff_lt] at h1 ⊢; omega) h2 h3
        rw [hih]
        simp only [spec_second_pass_calls, hline, List.takeWhile_cons, Option.isNone_none,
          if_true, List.filter_cons, hh2, Bool.not_false, List.foldl_cons]
      | some oid =>
        have hstart := second_pass_line_start env spacid loc linbuf w oid hh2 hline
        rw [second_pass_end_pending env spacid loc h1 h2 h3] at hstart
        simp only [spec_second_pass_calls, hline, List.takeWhile_cons, Option.isNone_some,
          Bool.false_eq_true, if_false, List.filter_nil, List.foldl_nil,
          Rps_Loader.run_second_pass_calls]
        simp only [Rps_M.bind_apply, hstart]
        cases hg : Rps_Loader.second_pass_guarded env spacid loc.prevlin loc.prevoid
            loc.objbuf loc.obcnt w with
        | ok u s =>
          simp only [Rps_M.pure_apply]
          have hih := ih (⟨loc.lincnt + 1, loc.obcnt + 1, oid, loc.lincnt + 1,
            linbuf ++ "\n"⟩ : Rps_Loader.second_pass_locals) s
            (by
              have hn : ("\n" : String).length = 1 := by decide
              simp only [String.length_append, gt_iff_lt, hn]
              omega)
            (object_id_toBool linbuf oid hline) (Nat.succ_pos _)
          simp only [Rps_M.bind_apply] at hih
          rw [hih]
          rfl
        | throw e s => rfl
        | fatal e s => rfl

theorem second_pass_lines_idle (env : Rps_Env) (spacid : Rps_Id) :
    ∀ (lines : List String) (loc : Rps_Loader.second_pass_locals) (w : Rps_World),
      loc.objbuf = "" →
      (Rps_Loader.second_pass_lines env spacid lines loc
          >>= Rps_Loader.second_pass_end env spacid) w
        = Rps_Loader.run_second_pass_calls env spacid
            (spec_second_pass_calls loc.lincnt loc.obcnt lines) w := by
  intro lines
  induction lines with
  | nil =>
    intro loc w h1
    simp only [Rps_Loader.second_pass_lines, Rps_M.bind_apply, Rps_M.pure_apply,
      second_pass_end_idle env spacid loc h1, spec_second_pass_calls,
      Rps_Loader.run_second_pass_calls]
  | cons linbuf more ih =>
    intro loc w h1
    rw [second_pass_lines_cons]
    by_cases hh : begins_with_hash linbuf = true
    · have hnone := hash_line_not_object linbuf hh
      rw [Rps_M.bind_ok (second_pass_line_hash env spacid loc linbuf w hh)]
      have hih := ih (⟨loc.lincnt + 1, loc.obcnt, loc.prevoid, loc.prevlin, loc.objbuf⟩ :
        Rps_Loader.second_pass_locals) w h1
      rw [hih]
      simp only [spec_second_pass_calls, hnone]
    · have hh2 : begins_with_hash linbuf = false := by simpa using hh
      cases hline : Rps_Loader.is_object_starting_line Rps_Id.null 0 linbuf with
      | none =>
        rw [Rps_M.bind_ok (second_pass_line_other env spacid loc linbuf w hh2 hline)]
        have hlen : ¬ (loc.objbuf.length > 0) := by
          rw [h1]
          decide
        rw [if_neg hlen]
        have hih := ih (⟨loc.lincnt + 1, loc.obcnt, loc.prevoid, loc.prevlin, loc.objbuf⟩ :
          Rps_Loader.second_pass_locals) w h1
        rw [hih]
        simp only [spec_second_pass_calls, hline]
      | some oid =>
        have hstart := second_pass_line_start env spacid loc linbuf w oid hh2 hline
        rw [second_pass_end_idle env spacid loc h1] at hstart
        have hstart2 : Rps_Loader.second_pass_line env spacid loc linbuf w
            = .ok (⟨loc.lincnt + 1, loc.obcnt + 1, oid, loc.lincnt + 1, linbuf ++ "\n"⟩ :
                Rps_Loader.second_pass_locals) w := hstart
        rw [Rps_M.bind_ok hstart2]
        have hp := second_pass_lines_pending env spacid more
          (⟨loc.lincnt + 1, loc.obcnt + 1, oid, loc.lincnt + 1, linbuf ++ "\n"⟩ :
            Rps_Loader.second_pass_locals) w
          (by
            have hn : ("\n" : String).length = 1 := by decide
            simp only [String.length_append, gt_iff_lt, hn]
            omega)
          (object_id_toBool linbuf oid hline) (Nat.succ_pos _)
        rw [hp]
        simp only [spec_second_pass_calls, hline, spec_record_buffer]

theorem bind_congr_apply {α β : Type} (m : Rps_M Rps_World α) (k1 k2 : α → Rps_M Rps_World β)
    (h : ∀ a s, k1 a s = k2 a s) (w : Rps_World) : (m >>= k1) w = (m >>= k2) w := by
  simp only [Rps_M.bind_apply]
  cases m w with
  | ok a s => exact h a s
  | throw e s => rfl
  | fatal e s => rfl

theorem spec_calls_ids (lines : List String) :
    ∀ (lineno count : Nat),
      (spec_second_pass_calls lineno count lines).map (fun c => c.objid)
        = object_start_ids lines := by
  induction lines with
  | nil => intro _ _; rfl
  | cons linbuf more ih =>
    intro lineno count
    cases hline : Rps_Loader.is_object_starting_line Rps_Id.null 0 linbuf with
    | none =>
      simp only [spec_second_pass_calls, hline, object_start_ids, List.filterMap_cons]
      exact ih _ _
    | some oid =>
      simp only [spec_second_pass_calls, hline, object_start_ids, List.filterMap_cons,
        List.map_cons]
      congr 1
      exact ih _ _

/-- C26: the two passes see the same objects.  `second_pass_space` is, on
every state, the run of the guarded calls of `parse_json_buffer_second_pass`
that the description gives: one call for each object starting line of the
file, in the order of the file, with the line number and the identifier of
that line, the count of objects so far, and the buffer made of the start
line followed by the lines up to the next start line or the end of the file
except those beginning with `#`.  The identifiers of these calls are the
identifiers that the first pass recognises, in the same order; and when the
first pass of the space returns, they are without repetition and each of
them is a key of `ld_mapobjects`. -/
theorem second_pass_sees_the_objects_of_the_first (env : Rps_Env) (spacid : Rps_Id)
    (w0 w1 : Rps_World)
    (hfirst : Rps_Loader.first_pass_space env spacid w0 = .ok () w1) :
    (∀ w, Rps_Loader.second_pass_space env spacid w
        = (Rps_Loader.space_file_path spacid >>= fun relpath =>
            Rps_Loader.load_real_path env relpath >>= fun spacepath =>
              Rps_Loader.run_second_pass_calls env spacid
                (spec_second_pass_calls 0 0 (env.file_lines spacepath))) w)
      ∧ (∀ lines, (spec_second_pass_calls 0 0 lines).map (fun c => c.objid)
          = object_start_ids lines)
      ∧ ((spec_second_pass_calls 0 0 (space_file_lines env w0 spacid)).map
          (fun c => c.objid)).Nodup
      ∧ ∀ c ∈ spec_second_pass_calls 0 0 (space_file_lines env w0 spacid),
          c.objid ∈ w1.loaded_ids := by
  obtain ⟨_, hnd, _, hmem, _⟩ := first_pass_space_ok env spacid w0 w1 hfirst
  refine ⟨?_, fun lines => spec_calls_ids lines 0 0, ?_, ?_⟩
  · intro w
    have hdef : Rps_Loader.second_pass_space env spacid w
        = (Rps_Loader.space_file_path spacid >>= fun relpath =>
            Rps_Loader.load_real_path env relpath >>= fun spacepath =>
              (Rps_Loader.second_pass_lines env spacid (env.file_lines spacepath)
                  { lincnt := 0, obcnt := 0, prevoid := Rps_Id.null, prevlin := 0,
                    objbuf := "" }
                >>= Rps_Loader.second_pass_end env spacid)) w := rfl
    rw [hdef]
    apply bind_congr_apply
    intro relpath s
    apply bind_congr_apply
    intro spacepath s2
    exact second_pass_lines_idle env spacid _ _ s2 rfl
  · rw [spec_calls_ids]
    exact hnd
  · intro c hc
    apply (hmem c.objid).mpr
    right
    rw [← spec_calls_ids _ 0 0]
    exact List.mem_map_of_mem _ hc

theorem second_pass_sees_the_objects_of_the_first_witness :
    (Rps_Loader.first_pass_space ex_env ex_space ex_world0).isOk = true
      ∧ (spec_second_pass_calls 0 0 ex_space_lines).map (fun c => (c.lineno, c.objid, c.count))
          = [(3, ex_class, 1), (5, ex_obj, 2)]
      ∧ (spec_second_pass_calls 0 0 ex_space_lines).map (fun c => c.objbuf)
          = [text_of_lines ex_class_lines, text_of_lines ex_obj_lines]
      ∧ ((∀ w, Rps_Loader.second_pass_space ex_env ex_space w
            = (Rps_Loader.space_file_path ex_space >>= fun relpath =>
                Rps_Loader.load_real_path ex_env relpath >>= fun spacepath =>
                  Rps_Loader.run_second_pass_calls ex_env ex_space
                    (spec_second_pass_calls 0 0 (ex_env.file_lines spacepath))) w)
        ∧ (∀ lines, (spec_second_pass_calls 0 0 lines).map (fun c => c.objid)
            = object_start_ids lines)
        ∧ ((spec_second_pass_calls 0 0 (space_file_lines ex_env ex_world0 ex_space)).map
            (fun c => c.objid)).Nodup
        ∧ ∀ c ∈ spec_second_pass_calls 0 0 (space_file_lines ex_env ex_world0 ex_space),
            c.objid ∈ (Rps_Loader.first_pass_space ex_env ex_space ex_world0).state.loaded_ids) :=
  ⟨by rfl, by rfl, by rfl,
    second_pass_sees_the_objects_of_the_first ex_env ex_space ex_world0
      (Rps_Loader.first_pass_space ex_env ex_space ex_world0).state (by rfl)⟩
/-! ## C21, C22: the install of the files of a dump -/

theorem lookup_filter_other (files : List (String × List String)) (oldpath q : String)
    (h : q ≠ oldpath) :
    (files.filter (fun kv => kv.1 != oldpath)).lookup q = files.lookup q := by
  induction files with
  | nil => rfl
  | cons kv rest ih =>
    obtain ⟨k, v⟩ := kv
    by_cases hk : k = oldpath
    · subst hk
      have hb : (q == k) = false := by simpa using h
      simp [List.filter_cons, List.lookup, hb, ih]
    · have hkb : (k != oldpath) = true := by simpa using hk
      simp only [List.filter_cons, hkb, if_true, List.lookup]
      cases (q == k) with
      | true => rfl
      | false => exact ih

theorem lookup_filter_same (files : List (String × List String)) (oldpath : String) :
    (files.filter (fun kv => kv.1 != oldpath)).lookup oldpath = none := by
  induction files with
  | nil => rfl
  | cons kv rest ih =>
    obtain ⟨k, v⟩ := kv
    by_cases hk : k = oldpath
    · subst hk
      simp [List.filter_cons, ih]
    · have hkb : (k != oldpath) = true := by simpa using hk
      have hb : (oldpath == k) = false := by simpa using fun h => hk h.symm
      simp only [List.filter_cons, hkb, if_true, List.lookup, hb]
      exact ih

theorem fs_rename_apply (oldpath newpath : String) (w : Rps_World) :
    ∃ failed w1, fs_rename oldpath newpath w = .ok failed w1
      ∧ w1.du = w.du ∧ w1.heap = w.heap ∧ w1.ld = w.ld
      ∧ (failed = true ↔ w.file_at oldpath = none)
      ∧ ∀ q, w1.file_at q =
          if w.file_at oldpath = none then w.file_at q
          else if q = newpath then w.file_at oldpath
          else if q = oldpath then none
          else w.file_at q := by
  unfold fs_rename Rps_World.file_at
  cases hl : w.files.lookup oldpath with
  | none =>
    exact ⟨true, w, rfl, rfl, rfl, rfl, by simp, fun q => by simp⟩
  | some content =>
    refine ⟨false, _, rfl, rfl, rfl, rfl, by simp, ?_⟩
    intro q
    simp only [if_false]
    by_cases hq : q = newpath
    · subst hq
      simp [List.lookup]
    · have hb : (q == newpath) = false := by simpa using hq
      simp only [List.lookup, hb, hq, if_false]
      by_cases hq2 : q = oldpath
      · subst hq2
        simp [lookup_filter_same]
      · simp [hq2, lookup_filter_other _ _ _ hq2]

theorem ne_append_tilde (s : String) : s ≠ s ++ "~" := by
  intro h
  have hl := congrArg String.length h
  rw [String.length_append] at hl
  have : ("~" : String).length = 1 := by decide
  omega

theorem ne_append_tilde2 (s : String) : s ≠ s ++ "~" ++ "~" := by
  intro h
  have hl := congrArg String.length h
  rw [String.length_append, String.length_append] at hl
  have : ("~" : String).length = 1 := by decide
  omega

theorem backup_block_apply (cur : String) (w : Rps_World) :
    ∃ w2, (Rps_M.whenB (fs_access w cur)
        (Rps_M.get >>= fun w1 =>
          Rps_M.whenB (fs_access w1 (cur ++ "~"))
            (fs_rename (cur ++ "~") (cur ++ "~" ++ "~") >>= fun _ => pure ())
            >>= fun _ =>
          fs_rename cur (cur ++ "~") >>= fun _ => pure ())) w = .ok () w2
      ∧ w2.du = w.du ∧ w2.heap = w.heap ∧ w2.ld = w.ld
      ∧ ∀ q, w2.file_at q =
          if w.file_at cur = none then w.file_at q
          else if q = cur ++ "~" then w.file_at cur
          else if q = cur then none
          else if q = cur ++ "~" ++ "~" then
            (if w.file_at (cur ++ "~") = none then w.file_at (cur ++ "~" ++ "~")
             else w.file_at (cur ++ "~"))
          else w.file_at q := by
  have hne1 := ne_append_tilde cur
  have hne2 := ne_append_tilde2 cur
  have hne3 := ne_append_tilde (cur ++ "~")
  cases hc : w.file_at cur with
  | none =>
    refine ⟨w, ?_, rfl, rfl, rfl, fun q => by simp⟩
    have ha : fs_access w cur = false := by
      unfold fs_access
      unfold Rps_World.file_at at hc
      rw [hc]
      rfl
    simp only [Rps_M.whenB, ha, Bool.false_eq_true, if_false]
  | some c =>
    have ha : fs_access w cur = true := by
      unfold fs_access
      unfold Rps_World.file_at at hc
      rw [hc]
      rfl
    have hinner : ∃ wa, (Rps_M.whenB (fs_access w (cur ++ "~"))
          (fs_rename (cur ++ "~") (cur ++ "~" ++ "~") >>= fun _ => pure ())) w = .ok () wa
        ∧ wa.du = w.du ∧ wa.heap = w.heap ∧ wa.ld = w.ld
        ∧ ∀ q, wa.file_at q =
            if w.file_at (cur ++ "~") = none then w.file_at q
            else if q = cur ++ "~" ++ "~" then w.file_at (cur ++ "~")
            else if q = cur ++ "~" then none
            else w.file_at q := by
      obtain ⟨f1, wa, e1, hd, hh, hl, _, hq⟩ := fs_rename_apply (cur ++ "~") (cur ++ "~" ++ "~") w
      cases hb : w.file_at (cur ++ "~") with
      | none =>
        refine ⟨w, ?_, rfl, rfl, rfl, fun q => by simp⟩
        have hab : fs_access w (cur ++ "~") = false := by
          unfold fs_access
          unfold Rps_World.file_at at hb
          rw [hb]
          rfl
        simp only [Rps_M.whenB, hab, Bool.false_eq_true, if_false]
      | some d =>
        refine ⟨wa, ?_, hd, hh, hl, ?_⟩
        · have hab : fs_access w (cur ++ "~") = true := by
            unfold fs_access
            unfold Rps_World.file_at at hb
            rw [hb]
            rfl
          simp only [Rps_M.whenB, hab, if_true]
          rw [Rps_M.bind_ok e1]
          rfl
        · intro q
          rw [hq q, hb]
    obtain ⟨wa, ea, hda, hha, hla, hqa⟩ := hinner
    obtain ⟨f2, w2, e2, hd2, hh2, hl2, _, hq2⟩ := fs_rename_apply cur (cur ++ "~") wa
    refine ⟨w2, ?_, hd2.trans hda, hh2.trans hha, hl2.trans hla, ?_⟩
    · simp only [Rps_M.whenB, ha, if_true]
      rw [Rps_M.bind_ok (show Rps_M.get w = .ok w w from rfl)]
      simp only [Rps_M.whenB] at ea
      rw [Rps_M.bind_ok ea, Rps_M.bind_ok e2]
      rfl
    · intro q
      have hcura : wa.file_at cur = some c := by
        rw [hqa cur, hc]
        simp [hne1, hne2]
      rw [hq2 q, hcura]
      simp only [if_false, reduceCtorEq]
      by_cases h1 : q = cur ++ "~"
      · simp [h1]
      · by_cases h2 : q = cur
        · simp [h1, h2]
        · simp only [h1, h2, if_false]
          rw [hqa q]
          by_cases h3 : q = cur ++ "~" ++ "~"
          · subst h3
            simp
          · simp [h1, h3]

theorem install_opened_file_apply (cur tmp : String) (w : Rps_World)
    (ht1 : tmp ≠ cur) (ht2 : tmp ≠ cur ++ "~") (ht3 : tmp ≠ cur ++ "~" ++ "~") :
    ∃ w1, Rps_Dumper.install_opened_file cur tmp w
          = (if w.file_at tmp = none then .fatal "dump failed to rename" w1 else .ok () w1)
      ∧ w1.du = w.du ∧ w1.heap = w.heap ∧ w1.ld = w.ld
      ∧ (∀ q, q ≠ cur → q ≠ cur ++ "~" → q ≠ cur ++ "~" ++ "~" → q ≠ tmp →
          w1.file_at q = w.file_at q)
      ∧ (w.file_at cur ≠ none → w1.file_at (cur ++ "~") = w.file_at cur)
      ∧ (w.file_at cur ≠ none → w.file_at (cur ++ "~") ≠ none →
          w1.file_at (cur ++ "~" ++ "~") = w.file_at (cur ++ "~"))
      ∧ (w.file_at tmp ≠ none → w1.file_at cur = w.file_at tmp)
      ∧ (w.file_at tmp = none → w1.file_at cur = none) := by
  have hne1 := ne_append_tilde cur
  have hne2 := ne_append_tilde2 cur
  have hne3 := ne_append_tilde (cur ++ "~")
  obtain ⟨w2, e2, hd2, hh2, hl2, hq2⟩ := backup_block_apply cur w
  obtain ⟨failed, w3, e3, hd3, hh3, hl3, hf3, hq3⟩ := fs_rename_apply tmp cur w2
  have htmp2 : w2.file_at tmp = w.file_at tmp := by
    rw [hq2 tmp]
    simp [ht1, ht2, ht3]
  rw [htmp2] at hf3 hq3
  refine ⟨w3, ?_, hd3.trans hd2, hh3.trans hh2, hl3.trans hl2, ?_, ?_, ?_, ?_, ?_⟩
  · unfold Rps_Dumper.install_opened_file
    rw [Rps_M.bind_ok (show Rps_M.get w = .ok w w from rfl), Rps_M.bind_ok e2,
      Rps_M.bind_ok e3]
    cases hf : w.file_at tmp with
    | none =>
      have : failed = true := hf3.mpr hf
      subst this
      simp [Rps_M.fatalIf]
    | some t =>
      have : failed = false := by
        cases failed with
        | false => rfl
        | true => exact absurd (hf3.mp rfl) (by rw [hf]; simp)
      subst this
      simp [Rps_M.fatalIf]
  · intro q h1 h2 h3 h4
    rw [hq3 q, hq2 q]
    cases hf : w.file_at tmp <;> cases hc : w.file_at cur <;> simp [h1, h2, h3, h4]
  · intro hc
    rw [hq3 (cur ++ "~"), hq2 (cur ++ "~")]
    cases hf : w.file_at tmp <;> simp [hc, hne1.symm, ht2.symm]
  · intro hc hb
    rw [hq3 (cur ++ "~" ++ "~"), hq2 (cur ++ "~" ++ "~")]
    cases hf : w.file_at tmp <;> simp [hc, hb, hne2.symm, hne3.symm, ht3.symm]
  · intro hf
    rw [hq3 cur]
    simp [hf]
  · intro hf
    rw [hq3 cur, hq2 cur]
    cases hc : w.file_at cur <;> simp [hf, hne1, hne2]

theorem rename_opened_file_eq (p : String) (w : Rps_World)
    (hp : (decide (p.length > 0) && cstrAt p.data 0 != '/') = true) :
    Rps_Dumper.rename_opened_file p w
      = Rps_Dumper.install_opened_file (w.final_path p) (w.temp_path p) w := by
  unfold Rps_Dumper.rename_opened_file Rps_Dumper.temporary_opened_path
  simp only [Rps_M.bind_apply, Rps_M.get, Rps_M.RPS_ASSERT, hp, if_true]
  rfl

theorem opened_paths_ok_tail {w : Rps_World} {p : String} {more : List String}
    (h : w.opened_paths_ok (p :: more)) : w.opened_paths_ok more := by
  obtain ⟨h1, h2, h3, h4⟩ := h
  exact ⟨fun x hx => h1 x (List.mem_cons_of_mem _ hx), (List.nodup_cons.mp h2).2,
    fun x hx y hy => h3 x (List.mem_cons_of_mem _ hx) y (List.mem_cons_of_mem _ hy),
    fun x hx => h4 x (List.mem_cons_of_mem _ hx)⟩

theorem opened_paths_ok_du {w w2 : Rps_World} {paths : List String} (hdu : w2.du = w.du)
    (h : w.opened_paths_ok paths) : w2.opened_paths_ok paths := by
  unfold Rps_World.opened_paths_ok Rps_World.install_names Rps_World.final_path
    Rps_World.temp_path at h ⊢
  rw [hdu]
  exact h

theorem names_du {w w2 : Rps_World} (hdu : w2.du = w.du) (p : String) :
    w2.final_path p = w.final_path p ∧ w2.temp_path p = w.temp_path p
      ∧ w2.install_names p = w.install_names p := by
  unfold Rps_World.install_names Rps_World.final_path Rps_World.temp_path
  rw [hdu]
  exact ⟨rfl, rfl, rfl⟩

theorem rename_opened_file_apply (p : String) (w : Rps_World)
    (hp : (decide (p.length > 0) && cstrAt p.data 0 != '/') = true)
    (ht : w.temp_path p ≠ w.final_path p ∧ w.temp_path p ≠ w.final_path p ++ "~"
      ∧ w.temp_path p ≠ w.final_path p ++ "~" ++ "~") :
    ∃ w1, Rps_Dumper.rename_opened_file p w
          = (if w.file_at (w.temp_path p) = none then .fatal "dump failed to rename" w1
             else .ok () w1)
      ∧ w1.du = w.du
      ∧ (∀ q, q ∉ w.install_names p → w1.file_at q = w.file_at q)
      ∧ (w.file_at (w.final_path p) ≠ none →
          w1.file_at (w.final_path p ++ "~") = w.file_at (w.final_path p))
      ∧ (w.file_at (w.final_path p) ≠ none → w.file_at (w.final_path p ++ "~") ≠ none →
          w1.file_at (w.final_path p ++ "~" ++ "~") = w.file_at (w.final_path p ++ "~"))
      ∧ (w.file_at (w.temp_path p) ≠ none →
          w1.file_at (w.final_path p) = w.file_at (w.temp_path p))
      ∧ (w.file_at (w.temp_path p) = none → w1.file_at (w.final_path p) = none) := by
  obtain ⟨w1, e, hdu, _, _, hframe, hb0, hb1, hcur, hnone⟩ :=
    install_opened_file_apply (w.final_path p) (w.temp_path p) w ht.1 ht.2.1 ht.2.2
  refine ⟨w1, ?_, hdu, ?_, hb0, hb1, hcur, hnone⟩
  · rw [rename_opened_file_eq p w hp]
    exact e
  · intro q hq
    unfold Rps_World.install_names at hq
    simp only [List.mem_cons, List.mem_singleton, List.not_mem_nil, or_false, not_or] at hq
    exact hframe q hq.1 hq.2.1 hq.2.2.1 hq.2.2.2

theorem mem_install_names (w : Rps_World) (p : String) :
    w.final_path p ∈ w.install_names p ∧ w.final_path p ++ "~" ∈ w.install_names p
      ∧ w.final_path p ++ "~" ++ "~" ∈ w.install_names p
      ∧ w.temp_path p ∈ w.install_names p := by
  unfold Rps_World.install_names
  simp

theorem rename_opened_loop_ok :
    ∀ (paths : List String) (w w1 : Rps_World), w.opened_paths_ok paths →
      Rps_Dumper.rename_opened_loop paths w = .ok () w1 →
      w1.du = w.du
        ∧ (∀ q, (∀ p ∈ paths, q ∉ w.install_names p) → w1.file_at q = w.file_at q)
        ∧ ∀ p ∈ paths, w.file_at (w.temp_path p) ≠ none
            ∧ w1.file_at (w.final_path p) = w.file_at (w.temp_path p)
            ∧ (w.file_at (w.final_path p) ≠ none →
                w1.file_at (w.final_path p ++ "~") = w.file_at (w.final_path p))
            ∧ (w.file_at (w.final_path p) ≠ none → w.file_at (w.final_path p ++ "~") ≠ none →
                w1.file_at (w.final_path p ++ "~" ++ "~")
                  = w.file_at (w.final_path p ++ "~")) := by
  intro paths
  induction paths with
  | nil =>
    intro w w1 _ h
    simp only [Rps_Dumper.rename_opened_loop, Rps_M.pure_eq_ok] at h
    obtain ⟨_, rfl⟩ := h
    exact ⟨rfl, fun _ _ => rfl, fun p hp => by cases hp⟩
  | cons p more ih =>
    intro w w1 hok h
    obtain ⟨hassert, hnd, hdisj, htemp⟩ := hok
    obtain ⟨w2, e2, hdu2, hframe2, hb0, hb1, hcur, _⟩ :=
      rename_opened_file_apply p w (hassert p (List.mem_cons_self _ _))
        (htemp p (List.mem_cons_self _ _))
    unfold Rps_Dumper.rename_opened_loop at h
    by_cases ht : w.file_at (w.temp_path p) = none
    · rw [if_pos ht] at e2
      simp only [Rps_M.bind_apply, e2] at h
      cases h
    rw [if_neg ht] at e2
    rw [Rps_M.bind_ok e2] at h
    have hok2 : w2.opened_paths_ok more :=
      opened_paths_ok_du hdu2 (opened_paths_ok_tail ⟨hassert, hnd, hdisj, htemp⟩)
    obtain ⟨hdu1, hframe1, heff1⟩ := ih w2 w1 hok2 h
    have hpnot : ∀ q ∈ more, p ≠ q := by
      intro q hq hpq
      subst hpq
      exact (List.nodup_cons.mp hnd).1 hq
    have hkeep : ∀ a ∈ w.install_names p, w1.file_at a = w2.file_at a := by
      intro a ha
      apply hframe1
      intro q hq
      rw [(names_du hdu2 q).2.2]
      exact hdisj p (List.mem_cons_self _ _) q (List.mem_cons_of_mem _ hq) (hpnot q hq) a ha
    obtain ⟨m1, m2, m3, m4⟩ := mem_install_names w p
    refine ⟨hdu1.trans hdu2, ?_, ?_⟩
    · intro q hq
      rw [hframe1 q (fun x hx => by
        rw [(names_du hdu2 x).2.2]
        exact hq x (List.mem_cons_of_mem _ hx))]
      exact hframe2 q (hq p (List.mem_cons_self _ _))
    · intro x hx
      rcases List.mem_cons.mp hx with rfl | hx
      · refine ⟨ht, ?_, ?_, ?_⟩
        · rw [hkeep _ m1]
          exact hcur ht
        · intro hc
          rw [hkeep _ m2]
          exact hb0 hc
        · intro hc hb
          rw [hkeep _ m3]
          exact hb1 hc hb
      · obtain ⟨e1, e2x, e3, e4⟩ := heff1 x hx
        obtain ⟨n1, n2, n3⟩ := names_du hdu2 x
        obtain ⟨x1, x2, x3, x4⟩ := mem_install_names w x
        have hsame : ∀ a ∈ w.install_names x, w2.file_at a = w.file_at a := by
          intro a ha
          apply hframe2
          exact hdisj x (List.mem_cons_of_mem _ hx) p (List.mem_cons_self _ _)
            (fun hxp => hpnot x hx hxp.symm) a ha
        simp only [n1, n2, hsame _ x4, hsame _ x1, hsame _ x2] at e1 e2x e3 e4
        exact ⟨e1, e2x, e3, e4⟩

theorem rename_opened_loop_keeps :
    ∀ (paths : List String) (w : Rps_World), w.opened_paths_ok paths →
      ∃ w1, (Rps_Dumper.rename_opened_loop paths w = .ok () w1
            ∨ Rps_Dumper.rename_opened_loop paths w = .fatal "dump failed to rename" w1)
        ∧ w1.du = w.du
        ∧ (∀ q, (∀ p ∈ paths, q ∉ w.install_names p) → w1.file_at q = w.file_at q)
        ∧ ∀ p ∈ paths, w.file_at (w.final_path p) ≠ none →
            w1.file_at (w.final_path p) = w.file_at (w.final_path p)
              ∨ w1.file_at (w.final_path p ++ "~") = w.file_at (w.final_path p) := by
  intro paths
  induction paths with
  | nil =>
    intro w _
    exact ⟨w, Or.inl rfl, rfl, fun _ _ => rfl, fun p hp => by cases hp⟩
  | cons p more ih =>
    intro w hok
    obtain ⟨hassert, hnd, hdisj, htemp⟩ := hok
    obtain ⟨w2, e2, hdu2, hframe2, hb0, _, _, _⟩ :=
      rename_opened_file_apply p w (hassert p (List.mem_cons_self _ _))
        (htemp p (List.mem_cons_self _ _))
    have hpnot : ∀ q ∈ more, p ≠ q := by
      intro q hq hpq
      subst hpq
      exact (List.nodup_cons.mp hnd).1 hq
    have hsame : ∀ x ∈ more, ∀ a ∈ w.install_names x, w2.file_at a = w.file_at a := by
      intro x hx a ha
      apply hframe2
      exact hdisj x (List.mem_cons_of_mem _ hx) p (List.mem_cons_self _ _)
        (fun hxp => hpnot x hx hxp.symm) a ha
    by_cases ht : w.file_at (w.temp_path p) = none
    · rw [if_pos ht] at e2
      refine ⟨w2, Or.inr ?_, hdu2, ?_, ?_⟩
      · unfold Rps_Dumper.rename_opened_loop
        simp only [Rps_M.bind_apply, e2]
      · intro q hq
        exact hframe2 q (hq p (List.mem_cons_self _ _))
      · intro x hx hc
        rcases List.mem_cons.mp hx with rfl | hx
        · exact Or.inr (hb0 hc)
        · exact Or.inl (hsame x hx _ (mem_install_names w x).1)
    · rw [if_neg ht] at e2
      have hok2 : w2.opened_paths_ok more :=
        opened_paths_ok_du hdu2 (opened_paths_ok_tail ⟨hassert, hnd, hdisj, htemp⟩)
      obtain ⟨w1, hrun1, hdu1, hframe1, hkeep1⟩ := ih w2 hok2
      have hkeep : ∀ a ∈ w.install_names p, w1.file_at a = w2.file_at a := by
        intro a ha
        apply hframe1
        intro q hq
        rw [(names_du hdu2 q).2.2]
        exact hdisj p (List.mem_cons_self _ _) q (List.mem_cons_of_mem _ hq) (hpnot q hq) a ha
      refine ⟨w1, ?_, hdu1.trans hdu2, ?_, ?_⟩
      · unfold Rps_Dumper.rename_opened_loop
        rw [Rps_M.bind_ok e2]
        exact hrun1
      · intro q hq
        rw [hframe1 q (fun x hx => by
          rw [(names_du hdu2 x).2.2]
          exact hq x (List.mem_cons_of_mem _ hx))]
        exact hframe2 q (hq p (List.mem_cons_self _ _))
      · intro x hx hc
        rcases List.mem_cons.mp hx with rfl | hx
        · right
          rw [hkeep _ (mem_install_names w x).2.1]
          exact hb0 hc
        · have h1 := hkeep1 x hx
          obtain ⟨n1, _, _⟩ := names_du hdu2 x
          simp only [n1, hsame x hx _ (mem_install_names w x).1] at h1
          exact h1 hc

theorem rename_opened_loop_fatal :
    ∀ (paths : List String) (w w1 : Rps_World) (msg : String), w.opened_paths_ok paths →
      Rps_Dumper.rename_opened_loop paths w = .fatal msg w1 →
      w1.du = w.du
        ∧ (∀ q, (∀ p ∈ paths, q ∉ w.install_names p) → w1.file_at q = w.file_at q)
        ∧ ∃ (installed : List String) (failing : String) (rest : List String),
            paths = installed ++ failing :: rest
              ∧ w.file_at (w.temp_path failing) = none
              ∧ (∀ p ∈ installed, w.file_at (w.temp_path p) ≠ none
                  ∧ w1.file_at (w.final_path p) = w.file_at (w.temp_path p))
              ∧ w1.file_at (w.final_path failing) = none
              ∧ (∀ q ∈ rest, w1.file_at (w.final_path q) = w.file_at (w.final_path q))
              ∧ (∀ p ∈ installed ++ [failing], w.file_at (w.final_path p) ≠ none →
                  w1.file_at (w.final_path p ++ "~") = w.file_at (w.final_path p)) := by
  intro paths
  induction paths with
  | nil =>
    intro w w1 msg _ h
    cases h
  | cons p more ih =>
    intro w w1 msg hok h
    obtain ⟨hassert, hnd, hdisj, htemp⟩ := hok
    obtain ⟨w2, e2, hdu2, hframe2, hb0, _, hcur, hnone⟩ :=
      rename_opened_file_apply p w (hassert p (List.mem_cons_self _ _))
        (htemp p (List.mem_cons_self _ _))
    have hpnot : ∀ q ∈ more, p ≠ q := by
      intro q hq hpq
      subst hpq
      exact (List.nodup_cons.mp hnd).1 hq
    have hsame : ∀ x ∈ more, ∀ a ∈ w.install_names x, w2.file_at a = w.file_at a := by
      intro x hx a ha
      apply hframe2
      exact hdisj x (List.mem_cons_of_mem _ hx) p (List.mem_cons_self _ _)
        (fun hxp => hpnot x hx hxp.symm) a ha
    unfold Rps_Dumper.rename_opened_loop at h
    by_cases ht : w.file_at (w.temp_path p) = none
    · rw [if_pos ht] at e2
      simp only [Rps_M.bind_apply, e2, Outcome.fatal.injEq] at h
      obtain ⟨_, hw⟩ := h
      subst hw
      refine ⟨hdu2, fun q hq => hframe2 q (hq p (List.mem_cons_self _ _)),
        [], p, more, rfl, ht, (fun x hx => by cases hx), hnone ht, ?_, ?_⟩
      · intro q hq
        exact hsame q hq _ (mem_install_names w q).1
      · intro x hx hc
        rw [show x = p from by simpa using hx] at hc ⊢
        exact hb0 hc
    · rw [if_neg ht] at e2
      rw [Rps_M.bind_ok e2] at h
      have hok2 : w2.opened_paths_ok more :=
        opened_paths_ok_du hdu2 (opened_paths_ok_tail ⟨hassert, hnd, hdisj, htemp⟩)
      obtain ⟨hdu1, hframe1, installed, failing, rest, hsplit, hfno, hinst, hfnone, hrest,
        hback⟩ := ih w2 w1 msg hok2 h
      have hkeep : ∀ a ∈ w.install_names p, w1.file_at a = w2.file_at a := by
        intro a ha
        apply hframe1
        intro q hq
        rw [(names_du hdu2 q).2.2]
        exact hdisj p (List.mem_cons_self _ _) q (List.mem_cons_of_mem _ hq) (hpnot q hq) a ha
      have hmem : ∀ x, x ∈ installed ∨ x = failing ∨ x ∈ rest → x ∈ more := by
        intro x hx
        rw [hsplit]
        simp only [List.mem_append, List.mem_cons]
        exact hx
      refine ⟨hdu1.trans hdu2, ?_, p :: installed, failing, rest, ?_, ?_, ?_, ?_, ?_, ?_⟩
      · intro q hq
        rw [hframe1 q (fun x hx => by
          rw [(names_du hdu2 x).2.2]
          exact hq x (List.mem_cons_of_mem _ hx))]
        exact hframe2 q (hq p (List.mem_cons_self _ _))
      · rw [hsplit]
        rfl
      · have h1 := hfno
        rw [(names_du hdu2 failing).2.1,
          hsame failing (hmem _ (Or.inr (Or.inl rfl))) _ (mem_install_names w failing).2.2.2]
          at h1
        exact h1
      · intro x hx
        rcases List.mem_cons.mp hx with rfl | hx
        · exact ⟨ht, by rw [hkeep _ (mem_install_names w x).1]; exact hcur ht⟩
        · have h1 := hinst x hx
          obtain ⟨n1, n2, _⟩ := names_du hdu2 x
          rw [n1, n2, hsame x (hmem _ (Or.inl hx)) _ (mem_install_names w x).2.2.2] at h1
          exact h1
      · have h1 := hfnone
        rw [(names_du hdu2 failing).1] at h1
        exact h1
      · intro q hq
        have h1 := hrest q hq
        rw [(names_du hdu2 q).1,
          hsame q (hmem _ (Or.inr (Or.inr hq))) _ (mem_install_names w q).1] at h1
        exact h1
      · intro x hx hc
        have hx2 : x = p ∨ x ∈ installed ++ [failing] := by
          simpa using hx
        rcases hx2 with rfl | hx2
        · rw [hkeep _ (mem_install_names w x).2.1]
          exact hb0 hc
        · have hxm : x ∈ more := by
            apply hmem
            rcases List.mem_append.mp hx2 with h3 | h3
            · exact Or.inl h3
            · exact Or.inr (Or.inl (by simpa using h3))
          have h1 := hback x hx2
          rw [(names_du hdu2 x).1, hsame x hxm _ (mem_install_names w x).1] at h1
          exact h1 hc

theorem rename_opened_files_outcome (w : Rps_World) (w1 : Rps_World) :
    (Rps_Dumper.rename_opened_loop w.du.du_openedpathset w = .ok () w1 →
        Rps_Dumper.rename_opened_files w
          = .ok () { w1 with du := { w1.du with du_openedpathset := [] } })
      ∧ (∀ msg, Rps_Dumper.rename_opened_loop w.du.du_openedpathset w = .fatal msg w1 →
        Rps_Dumper.rename_opened_files w = .fatal msg w1) := by
  constructor
  · intro h
    unfold Rps_Dumper.rename_opened_files
    rw [Rps_M.bind_ok (show Rps_M.get w = .ok w w from rfl), Rps_M.bind_ok h]
    rfl
  · intro msg h
    unfold Rps_Dumper.rename_opened_files
    rw [Rps_M.bind_ok (show Rps_M.get w = .ok w w from rfl)]
    simp only [Rps_M.bind_apply, h]

theorem ex_install_world_paths_ok :
    ex_install_world.opened_paths_ok ex_install_world.du.du_openedpathset := by
  have hset : ex_install_world.du.du_openedpathset = ["rps_manifest.json"] := rfl
  rw [hset]
  refine ⟨?_, ?_, ?_, ?_⟩
  · intro p hp
    rw [List.mem_singleton.mp hp]
    decide
  · exact List.nodup_singleton _
  · intro p hp q hq hne
    rw [List.mem_singleton.mp hp, List.mem_singleton.mp hq] at hne
    exact absurd rfl hne
  · intro p hp
    rw [List.mem_singleton.mp hp]
    decide

theorem ex_failing_install_world_paths_ok :
    ex_failing_install_world.opened_paths_ok ex_failing_install_world.du.du_openedpathset := by
  have hset : ex_failing_install_world.du.du_openedpathset
      = ["rps_manifest.json", "rps_userpref.json"] := rfl
  rw [hset]
  refine ⟨?_, ?_, ?_, ?_⟩
  · decide
  · decide
  · decide
  · decide

/-- C22: with the directory as a map from paths to contents, a file opened by
the dump is written at the final path followed by the temporary suffix of the
dump and no other path changes; and when `rename_opened_files` returns (the
names of the opened files being distinct from each other), each opened path
holds what was at the path plus the suffix, the path plus `~` holds the former
content of the path if it existed, the path plus `~~` holds the former content
of the path plus `~` if both existed, and `du_openedpathset` is empty. -/
theorem rename_opened_files_installs_with_backup (w w1 : Rps_World)
    (hok : w.opened_paths_ok w.du.du_openedpathset)
    (hrun : Rps_Dumper.rename_opened_files w = .ok () w1) :
    (∀ (env : Rps_Env) (relpath pouts : String) (wb w0 : Rps_World),
        Rps_Dumper.open_output_file env relpath wb = .ok pouts w0 →
        pouts = wb.final_path relpath ++ wb.du.du_tempsuffix
          ∧ (∀ q, w0.file_at q = wb.file_at q)
          ∧ ∀ out, ∃ w2, Rps_Dumper.close_output_file pouts out w0 = .ok () w2
              ∧ w2.file_at pouts = some out
              ∧ ∀ q, q ≠ pouts → w2.file_at q = wb.file_at q)
      ∧ w1.du.du_openedpathset = []
      ∧ ∀ p ∈ w.du.du_openedpathset,
          w.file_at (w.final_path p ++ w.du.du_tempsuffix) ≠ none
          ∧ w1.file_at (w.final_path p) = w.file_at (w.final_path p ++ w.du.du_tempsuffix)
          ∧ (w.file_at (w.final_path p) ≠ none →
              w1.file_at (w.final_path p ++ "~") = w.file_at (w.final_path p))
          ∧ (w.file_at (w.final_path p) ≠ none → w.file_at (w.final_path p ++ "~") ≠ none →
              w1.file_at (w.final_path p ++ "~" ++ "~") = w.file_at (w.final_path p ++ "~")) := by
  refine ⟨?_, ?_, ?_⟩
  · intro env relpath pouts wb w0 hopen
    unfold Rps_Dumper.open_output_file Rps_Dumper.temporary_opened_path at hopen
    simp only [Rps_M.bind_apply, Rps_M.RPS_ASSERT, Rps_M.get, Rps_M.raiseIf, Rps_M.modify,
      Rps_M.pure_apply] at hopen
    by_cases ha : (decide (relpath.length > 1) && cstrAt relpath.data 0 != '/') = true
    swap
    · rw [if_neg ha] at hopen
      cases hopen
    rw [if_pos ha] at hopen
    simp only at hopen
    by_cases hc1 : wb.du.du_openedpathset.contains relpath = true
    · rw [if_pos hc1] at hopen
      cases hopen
    rw [if_neg hc1] at hopen
    simp only at hopen
    by_cases ha0 : (decide (relpath.length > 0) && cstrAt relpath.data 0 != '/') = true
    swap
    · rw [if_neg ha0] at hopen
      cases hopen
    rw [if_pos ha0] at hopen
    simp only at hopen
    by_cases hc2 : (!env.can_open (wb.du.du_topdir ++ "/" ++ relpath ++ wb.du.du_tempsuffix))
        = true
    · rw [if_pos hc2] at hopen
      cases hopen
    rw [if_neg hc2] at hopen
    simp only [Outcome.ok.injEq] at hopen
    obtain ⟨hp, hw⟩ := hopen
    subst hw
    refine ⟨hp.symm, fun _ => rfl, ?_⟩
    intro out
    refine ⟨_, rfl, ?_, ?_⟩
    · simp only [Rps_World.file_at, List.lookup, beq_self_eq_true]
    · intro q hq
      have hb : (q == pouts) = false := by simpa using hq
      simp only [Rps_World.file_at, List.lookup, hb]
  · cases hloop : Rps_Dumper.rename_opened_loop w.du.du_openedpathset w with
    | ok u w2 =>
      rw [(rename_opened_files_outcome w w2).1 hloop] at hrun
      simp only [Outcome.ok.injEq, true_and] at hrun
      rw [← hrun]
    | throw msg w2 =>
      unfold Rps_Dumper.rename_opened_files at hrun
      simp only [Rps_M.bind_apply, Rps_M.get, hloop] at hrun
      cases hrun
    | fatal msg w2 =>
      rw [(rename_opened_files_outcome w w2).2 msg hloop] at hrun
      cases hrun
  · cases hloop : Rps_Dumper.rename_opened_loop w.du.du_openedpathset w with
    | ok u w2 =>
      rw [(rename_opened_files_outcome w w2).1 hloop] at hrun
      simp only [Outcome.ok.injEq, true_and] at hrun
      obtain ⟨_, _, hall⟩ := rename_opened_loop_ok _ w w2 hok hloop
      intro p hp
      have hfiles : ∀ q, w1.file_at q = w2.file_at q := by
        intro q
        rw [← hrun]
        rfl
      simp only [hfiles]
      exact hall p hp
    | throw msg w2 =>
      unfold Rps_Dumper.rename_opened_files at hrun
      simp only [Rps_M.bind_apply, Rps_M.get, hloop] at hrun
      cases hrun
    | fatal msg w2 =>
      rw [(rename_opened_files_outcome w w2).2 msg hloop] at hrun
      cases hrun

theorem rename_opened_files_installs_with_backup_witness :
    ex_install_world.du.du_openedpathset = ["rps_manifest.json"]
      ∧ ex_install_world.file_at "/store/rps_manifest.jsontmp" = some ["new manifest"]
      ∧ (Rps_Dumper.rename_opened_files ex_install_world).isOk = true
      ∧ (Rps_Dumper.rename_opened_files ex_install_world).state.du.du_openedpathset = []
      ∧ (Rps_Dumper.rename_opened_files ex_install_world).state.file_at
            "/store/rps_manifest.json" = some ["new manifest"]
      ∧ (Rps_Dumper.rename_opened_files ex_install_world).state.file_at
            "/store/rps_manifest.json~" = some ["old manifest"]
      ∧ (Rps_Dumper.rename_opened_files ex_install_world).state.file_at
            "/store/rps_manifest.json~~" = some ["older manifest"] := by
  have hrun : Rps_Dumper.rename_opened_files ex_install_world
      = .ok () (Rps_Dumper.rename_opened_files ex_install_world).state := by
    rfl
  obtain ⟨_, hclear, hall⟩ := rename_opened_files_installs_with_backup ex_install_world _
    ex_install_world_paths_ok hrun
  obtain ⟨_, hcur, hb0, hb1⟩ := hall "rps_manifest.json" (by decide)
  refine ⟨rfl, rfl, rfl, hclear, ?_, ?_, ?_⟩
  · exact hcur.trans rfl
  · exact (hb0 (by decide)).trans rfl
  · exact (hb1 (by decide) (by decide)).trans rfl

/-- C21: with the directory as a map from paths to contents and the names of
the opened files distinct from each other, when a rename fails while
`rename_opened_files` runs, so that the call ends fatally: `du_openedpathset`
is as it was (it is not cleared); the opened paths are, in order, the paths
installed, the failing path and the paths not reached; the temporary file of
the failing path was absent; each installed final path holds the content of
its temporary file; the failing final path is absent; each final path not
reached holds what it held; each installed or failing final path that existed
has its former content at the path followed by `~`; hence the former content
of every final path that existed is at the path or at the path followed by
`~`. -/
theorem failed_install_keeps_former_content_at_path_or_backup (w : Rps_World)
    (hok : w.opened_paths_ok w.du.du_openedpathset)
    (hfail : (Rps_Dumper.rename_opened_files w).isFatal = true) :
    (Rps_Dumper.rename_opened_files w).state.du.du_openedpathset = w.du.du_openedpathset
      ∧ (∃ (installed : List String) (failing : String) (rest : List String),
          w.du.du_openedpathset = installed ++ failing :: rest
            ∧ w.file_at (w.final_path failing ++ w.du.du_tempsuffix) = none
            ∧ (∀ p ∈ installed,
                w.file_at (w.final_path p ++ w.du.du_tempsuffix) ≠ none
                  ∧ (Rps_Dumper.rename_opened_files w).state.file_at (w.final_path p)
                    = w.file_at (w.final_path p ++ w.du.du_tempsuffix))
            ∧ (Rps_Dumper.rename_opened_files w).state.file_at (w.final_path failing) = none
            ∧ (∀ q ∈ rest,
                (Rps_Dumper.rename_opened_files w).state.file_at (w.final_path q)
                  = w.file_at (w.final_path q))
            ∧ (∀ p ∈ installed ++ [failing], w.file_at (w.final_path p) ≠ none →
                (Rps_Dumper.rename_opened_files w).state.file_at (w.final_path p ++ "~")
                  = w.file_at (w.final_path p)))
      ∧ ∀ p ∈ w.du.du_openedpathset, w.file_at (w.final_path p) ≠ none →
          (Rps_Dumper.rename_opened_files w).state.file_at (w.final_path p)
              = w.file_at (w.final_path p)
            ∨ (Rps_Dumper.rename_opened_files w).state.file_at (w.final_path p ++ "~")
              = w.file_at (w.final_path p) := by
  cases hloop : Rps_Dumper.rename_opened_loop w.du.du_openedpathset w with
  | ok u w2 =>
    rw [(rename_opened_files_outcome w w2).1 hloop] at hfail
    cases hfail
  | throw msg w2 =>
    unfold Rps_Dumper.rename_opened_files at hfail
    simp only [Rps_M.bind_apply, Rps_M.get, hloop] at hfail
    cases hfail
  | fatal msg w2 =>
    rw [(rename_opened_files_outcome w w2).2 msg hloop]
    obtain ⟨hdu, _, hsplit⟩ := rename_opened_loop_fatal _ w w2 msg hok hloop
    obtain ⟨w3, hrun, _, _, hall⟩ := rename_opened_loop_keeps _ w hok
    have hw : w3 = w2 := by
      rcases hrun with hrun | hrun
      · rw [hloop] at hrun
        cases hrun
      · rw [hloop] at hrun
        cases hrun
        rfl
    subst hw
    refine ⟨?_, hsplit, hall⟩
    show w3.du.du_openedpathset = w.du.du_openedpathset
    rw [hdu]

/-- C21, example: in `ex_failing_install_world` the temporary file of the
second opened path is absent; the call ends fatally, the first final path
holds the new manifest and its former content is at the path followed by `~`,
the second final path is absent and its former content is at the path
followed by `~`, and `du_openedpathset` still names the two paths. -/
theorem failed_install_keeps_former_content_at_path_or_backup_witness :
    ex_failing_install_world.opened_paths_ok ex_failing_install_world.du.du_openedpathset
      ∧ (Rps_Dumper.rename_opened_files ex_failing_install_world).isFatal = true
      ∧ ex_failing_install_world.file_at "/store/rps_manifest.json" = some ["old manifest"]
      ∧ ex_failing_install_world.file_at "/store/rps_userpref.json" = some ["old preferences"]
      ∧ ex_failing_install_world.file_at "/store/rps_userpref.jsontmp" = none
      ∧ (Rps_Dumper.rename_opened_files ex_failing_install_world).state.file_at
          "/store/rps_manifest.json" = some ["new manifest"]
      ∧ (Rps_Dumper.rename_opened_files ex_failing_install_world).state.file_at
          "/store/rps_manifest.json~" = some ["old manifest"]
      ∧ (Rps_Dumper.rename_opened_files ex_failing_install_world).state.file_at
          "/store/rps_userpref.json" = none
      ∧ (Rps_Dumper.rename_opened_files ex_failing_install_world).state.file_at
          "/store/rps_userpref.json~" = some ["old preferences"]
      ∧ (Rps_Dumper.rename_opened_files ex_failing_install_world).state.du.du_openedpathset
          = ["rps_manifest.json", "rps_userpref.json"]
      ∧ ((Rps_Dumper.rename_opened_files ex_failing_install_world).state.file_at
              "/store/rps_userpref.json" = some ["old preferences"]
          ∨ (Rps_Dumper.rename_opened_files ex_failing_install_world).state.file_at
              "/store/rps_userpref.json~" = some ["old preferences"]) :=
  ⟨ex_failing_install_world_paths_ok, rfl, rfl, rfl, rfl, rfl, rfl, rfl, rfl,
    (failed_install_keeps_former_content_at_path_or_backup ex_failing_install_world
      ex_failing_install_world_paths_ok rfl).1.trans rfl,
    (failed_install_keeps_former_content_at_path_or_backup ex_failing_install_world
      ex_failing_install_world_paths_ok rfl).2.2 "rps_userpref.json" (by decide) (by decide)⟩

/-- The claim C21 as it is worded does not hold: in `ex_failing_install_world`
the rename of the second opened file fails and the call ends fatally, and by
then the first final path, which existed, holds the new content, and the
second final path, which existed, is no more in the directory. -/
theorem failed_install_changes_existing_final_paths :
    ¬ ∀ w : Rps_World, w.opened_paths_ok w.du.du_openedpathset →
        (Rps_Dumper.rename_opened_files w).isFatal = true →
        ∀ p ∈ w.du.du_openedpathset, w.file_at (w.final_path p) ≠ none →
          (Rps_Dumper.rename_opened_files w).state.file_at (w.final_path p)
            = w.file_at (w.final_path p) := by
  intro h
  have h1 := h ex_failing_install_world ex_failing_install_world_paths_ok rfl
    "rps_manifest.json" (by decide) (by decide)
  have h2 : (Rps_Dumper.rename_opened_files ex_failing_install_world).state.file_at
      (ex_failing_install_world.final_path "rps_manifest.json") = some ["new manifest"] := rfl
  have h3 : ex_failing_install_world.file_at
      (ex_failing_install_world.final_path "rps_manifest.json") = some ["old manifest"] := rfl
  rw [h2, h3] at h1
  exact absurd h1 (by decide)

end RefPerSys
